import Mathlib

/-!
# TFS state engine: a shallow embedding of `fs/state.c` and `fs/operations.c`

The C program keeps its whole state in module-scope arrays.  Here that state is
one value of type `State` that every operation takes and returns.

Modelling conventions.

* Arrays are total functions from an index; the array bounds are the constants
  of `config.h`, which are the fields of `Config`.
* `fs_data` is the flat byte array of the C program.  An `int` stored inside a
  data block occupies 4 bytes, little endian, two's complement.
* An inode's `i_data_block` is a heap vector: a list whose length is the number
  of `int`s that were allocated, a slot being `none` while it holds an
  indeterminate value (fresh from `malloc`/`realloc`).
* An access outside an array or through a null pointer, and a read of an
  indeterminate slot, is undefined behaviour in C.  The embedding records it by
  setting `State.undefined_behaviour`; what the model computes afterwards has
  no meaning for the C program.
* `malloc` and `realloc` are taken to succeed.  Locks and `insert_delay` have
  no effect on a sequential run and are left out.
* `size_t` values are natural numbers.  The only sums and differences in which
  a caller-chosen length takes part (`inode_write`, `inode_add_blocks`) are
  reduced modulo `2 ^ 64`.
* A loop is a recursive function with fuel; running out of fuel is `none`
  ("does not return").
-/

namespace TFS

/-- The constants of `config.h`. -/
structure Config where
  BLOCK_SIZE : Nat
  DATA_BLOCKS : Nat
  INODE_TABLE_SIZE : Nat
  MAX_OPEN_FILES : Nat
  MAX_FILE_NAME : Nat

/-- The value of `sizeof(int)`. -/
def SIZEOF_INT : Nat := 4

/-- The number of values of `size_t`. -/
def SIZE_MAX1 : Nat := 18446744073709551616

/-- From `state.h`. -/
def DIRECT_BLOCKS_COUNT : Nat := 10

/-- Modelled from the spec: `ROOT_DIR_INUM = 0` (declared in `config.h`). -/
def ROOT_DIR_INUM : Int := 0

/-- Modelled from the spec: flag `CREAT = 1` (declared in `operations.h`). -/
def TFS_O_CREAT : Nat := 1

/-- Modelled from the spec: flag `TRUNC = 2` (declared in `operations.h`). -/
def TFS_O_TRUNC : Nat := 2

/-- Modelled from the spec: flag `APPEND = 4` (declared in `operations.h`). -/
def TFS_O_APPEND : Nat := 4

/-- Entries of an indirection block: `BLOCK_SIZE / sizeof(int)`. -/
def Config.INDEX_COUNT (c : Config) : Nat := c.BLOCK_SIZE / SIZEOF_INT

/-- The addressable limit `(DIRECT_BLOCKS_COUNT + BLOCK_SIZE / sizeof(int)) * BLOCK_SIZE`. -/
def Config.CAPACITY (c : Config) : Nat := (DIRECT_BLOCKS_COUNT + c.INDEX_COUNT) * c.BLOCK_SIZE

/-- Length in bytes of the array `fs_data`. -/
def Config.FS_DATA_SIZE (c : Config) : Nat := c.BLOCK_SIZE * c.DATA_BLOCKS

/-- Byte offset of `d_inumber` inside a `dir_entry_t` (the `int` is 4-aligned). -/
def Config.D_INUMBER_OFFSET (c : Config) : Nat := (c.MAX_FILE_NAME + 3) / 4 * 4

/-- The value of `sizeof(dir_entry_t)`. -/
def Config.SIZEOF_DIR_ENTRY (c : Config) : Nat := c.D_INUMBER_OFFSET + SIZEOF_INT

/-- From `state.h`: `BLOCK_SIZE / sizeof(dir_entry_t)`. -/
def Config.MAX_DIR_ENTRIES (c : Config) : Nat := c.BLOCK_SIZE / c.SIZEOF_DIR_ENTRY

inductive inode_type where
  | T_FILE
  | T_DIRECTORY
deriving DecidableEq, Repr

inductive allocation_state_t where
  | FREE
  | TAKEN
deriving DecidableEq, Repr

open inode_type allocation_state_t

structure inode_t where
  i_node_type : inode_type
  i_size : Nat
  i_data_block : List (Option Int)
  number_of_blocks : Nat
  indirection_block : Int
  number_indirect_blocks : Nat
deriving DecidableEq, Repr

structure open_file_entry_t where
  of_inumber : Int
  of_offset : Nat
deriving DecidableEq, Repr

/-- The module-scope arrays of `state.c`, and the undefined-behaviour marker. -/
structure State where
  inode_table : Nat → inode_t
  freeinode_ts : Nat → allocation_state_t
  fs_data : Nat → Nat
  free_blocks : Nat → allocation_state_t
  open_file_table : Nat → open_file_entry_t
  free_open_file_entries : Nat → allocation_state_t
  undefined_behaviour : Bool

/-- Array store `f[i] = v`. -/
def upd {α : Type} (f : Nat → α) (i : Nat) (v : α) : Nat → α :=
  fun j => if j = i then v else f j

/-- The state with `inode_table[inumber]` replaced. -/
def State.set_inode (s : State) (inumber : Nat) (ino : inode_t) : State :=
  { s with inode_table := upd s.inode_table inumber ino }

/-- The store `inode_table[inumber].i_node_type = v`. -/
def State.set_i_node_type (s : State) (inumber : Nat) (v : inode_type) : State :=
  s.set_inode inumber { s.inode_table inumber with i_node_type := v }

/-- The store `inode_table[inumber].i_size = v`. -/
def State.set_i_size (s : State) (inumber : Nat) (v : Nat) : State :=
  s.set_inode inumber { s.inode_table inumber with i_size := v }

/-- The store `inode_table[inumber].i_data_block = v` (of the pointer to the vector). -/
def State.set_i_data_block (s : State) (inumber : Nat) (v : List (Option Int)) : State :=
  s.set_inode inumber { s.inode_table inumber with i_data_block := v }

/-- The store `inode_table[inumber].number_of_blocks = v`. -/
def State.set_number_of_blocks (s : State) (inumber : Nat) (v : Nat) : State :=
  s.set_inode inumber { s.inode_table inumber with number_of_blocks := v }

/-- The store `inode_table[inumber].indirection_block = v`. -/
def State.set_indirection_block (s : State) (inumber : Nat) (v : Int) : State :=
  s.set_inode inumber { s.inode_table inumber with indirection_block := v }

/-- The store `inode_table[inumber].number_indirect_blocks = v`. -/
def State.set_number_indirect_blocks (s : State) (inumber : Nat) (v : Nat) : State :=
  s.set_inode inumber { s.inode_table inumber with number_indirect_blocks := v }

/-- The store `open_file_table[fhandle].of_offset = v`. -/
def State.set_of_offset (s : State) (fhandle : Nat) (v : Nat) : State :=
  { s with
    open_file_table := upd s.open_file_table fhandle
      { s.open_file_table fhandle with of_offset := v } }

/-- The state marked as having run into undefined behaviour. -/
def State.mark_undefined (s : State) : State :=
  { s with undefined_behaviour := true }

/-- The state marked as undefined when `bad` holds. -/
def State.mark_if (s : State) (bad : Bool) : State :=
  if bad then s.mark_undefined else s

/-! ## Raw memory -/

/-- The `int` stored at byte address `addr` (little endian, two's complement). -/
def read_int (m : Nat → Nat) (addr : Nat) : Int :=
  let u := m addr % 256 + m (addr + 1) % 256 * 256 + m (addr + 2) % 256 * 65536
    + m (addr + 3) % 256 * 16777216
  if u < 2147483648 then (u : Int) else (u : Int) - 4294967296

/-- The memory after storing the `int` `v` at byte address `addr`. -/
def write_int (m : Nat → Nat) (addr : Nat) (v : Int) : Nat → Nat :=
  let u := (v % 4294967296).toNat
  fun a =>
    if a = addr then u % 256
    else if a = addr + 1 then u / 256 % 256
    else if a = addr + 2 then u / 65536 % 256
    else if a = addr + 3 then u / 16777216 % 256
    else m a

/-- The effect of `memcpy(dst, src, n)` on the destination memory. -/
def memcpy (m : Nat → Nat) (dst : Nat) (src : Nat → Nat) (n : Nat) : Nat → Nat :=
  fun a => if dst ≤ a ∧ a < dst + n then src (a - dst) else m a

/-- Load of an `int` from `fs_data + addr`: the value, and whether the access leaves the array. -/
def load_int (c : Config) (s : State) (addr : Nat) : Int × State :=
  (read_int s.fs_data addr, s.mark_if (decide (c.FS_DATA_SIZE < addr + SIZEOF_INT)))

/-- Store of an `int` at `fs_data + addr`. -/
def store_int (c : Config) (s : State) (addr : Nat) (v : Int) : State :=
  ({ s with fs_data := write_int s.fs_data addr v }).mark_if
    (decide (c.FS_DATA_SIZE < addr + SIZEOF_INT))

/-- Read of `i_data_block[i]` of inode `inumber`. -/
def read_direct (s : State) (inumber : Nat) (i : Nat) : Int × State :=
  match (s.inode_table inumber).i_data_block.getD i none with
  | some b => (b, s)
  | none => (-1, s.mark_undefined)

/-- Store `i_data_block[i] = b` of inode `inumber`. -/
def write_direct (s : State) (inumber : Nat) (i : Nat) (b : Int) : State :=
  if i < (s.inode_table inumber).i_data_block.length then
    s.set_i_data_block inumber ((s.inode_table inumber).i_data_block.set i (some b))
  else s.mark_undefined

/-- The vector returned by `realloc(v, n * sizeof(int))`. -/
def realloc (v : List (Option Int)) (n : Nat) : List (Option Int) :=
  v.take n ++ List.replicate (n - v.length) none

/-! ## Block pool -/

def valid_inumber (c : Config) (inumber : Int) : Bool :=
  decide (0 ≤ inumber ∧ inumber < (c.INODE_TABLE_SIZE : Int))

def valid_block_number (c : Config) (block_number : Int) : Bool :=
  decide (0 ≤ block_number ∧ block_number < (c.DATA_BLOCKS : Int))

def valid_file_handle (c : Config) (file_handle : Int) : Bool :=
  decide (0 ≤ file_handle ∧ file_handle < (c.MAX_OPEN_FILES : Int))

/-- The loop of `get_free_memory`, from index `i`, for `n` more slots. -/
def get_free_memory_loop (c : Config) (s : State) : Nat → Nat → Nat
  | 0, _ => 0
  | n + 1, i =>
    (if s.free_blocks i = FREE then c.BLOCK_SIZE else 0) + get_free_memory_loop c s n (i + 1)

def get_free_memory (c : Config) (s : State) : Nat :=
  get_free_memory_loop c s c.DATA_BLOCKS 0

/-- The scan of a bitmap for its first `FREE` slot, from index `i`, for `n` more slots. -/
def first_free (bm : Nat → allocation_state_t) : Nat → Nat → Option Nat
  | 0, _ => none
  | n + 1, i => if bm i = FREE then some i else first_free bm n (i + 1)

def data_block_alloc (c : Config) (s : State) : Int × State :=
  match first_free s.free_blocks c.DATA_BLOCKS 0 with
  | some i => ((i : Int), { s with free_blocks := upd s.free_blocks i TAKEN })
  | none => (-1, s)

def data_block_free (c : Config) (s : State) (block_number : Int) : Int × State :=
  if !valid_block_number c block_number then (-1, s)
  else (0, { s with free_blocks := upd s.free_blocks block_number.toNat FREE })

/-- The pointer returned by `data_block_get`, as a byte offset into `fs_data`; `none` is `NULL`. -/
def data_block_get (c : Config) (block_number : Int) : Option Nat :=
  if !valid_block_number c block_number then none
  else some (block_number.toNat * c.BLOCK_SIZE)

/-! ## Inode table and inode lifecycle -/

def inode_alloc_first_block (c : Config) (s : State) (inumber : Int) : Int × State :=
  if !valid_inumber c inumber then (-1, s)
  else
    let r := data_block_alloc c s
    if r.1 = -1 then (-1, { r.2 with freeinode_ts := upd r.2.freeinode_ts inumber.toNat FREE })
    else (0, write_direct r.2 inumber.toNat 0 r.1)

/-- The loop of `inode_create` that sets `d_inumber = -1` in entries `i, ..., i + n - 1`. -/
def inode_create_dir_loop (c : Config) (base : Nat) : Nat → Nat → State → State
  | 0, _, s => s
  | n + 1, i, s =>
    inode_create_dir_loop c base n (i + 1)
      (store_int c s (base + i * c.SIZEOF_DIR_ENTRY + c.D_INUMBER_OFFSET) (-1))

/-- The body of `inode_create` once the free slot `inumber` has been found. -/
def inode_create_at (c : Config) (s : State) (n_type : inode_type) (inumber : Nat) :
    Int × State :=
  let s1 : State := { s with freeinode_ts := upd s.freeinode_ts inumber TAKEN }
  let s2 := ((((s1.set_i_node_type inumber n_type).set_i_data_block inumber [none]
    ).set_number_of_blocks inumber 1).set_number_indirect_blocks inumber 0
    ).set_indirection_block inumber (-1)
  match n_type with
  | T_DIRECTORY =>
    let r := data_block_alloc c s2
    let s3 := r.2
    if r.1 = -1 then (-1, { s3 with freeinode_ts := upd s3.freeinode_ts inumber FREE })
    else
      let s4 := s3.set_i_size inumber c.BLOCK_SIZE
      let s5 := write_direct s4 inumber 0 r.1
      match data_block_get c r.1 with
      | none => (-1, { s5 with freeinode_ts := upd s5.freeinode_ts inumber FREE })
      | some dir_entry => ((inumber : Int), inode_create_dir_loop c dir_entry c.MAX_DIR_ENTRIES 0 s5)
  | T_FILE =>
    let s3 := s2.set_i_size inumber 0
    let r := inode_alloc_first_block c s3 (inumber : Int)
    if r.1 = -1 then (-1, r.2) else ((inumber : Int), r.2)

/-- The scan of `inode_create` over the inode bitmap, from `inumber`, for `n` more slots. -/
def inode_create_loop (c : Config) (s : State) (n_type : inode_type) : Nat → Nat → Int × State
  | 0, _ => (-1, s)
  | n + 1, inumber =>
    if s.freeinode_ts inumber = FREE then inode_create_at c s n_type inumber
    else inode_create_loop c s n_type n (inumber + 1)

def inode_create (c : Config) (s : State) (n_type : inode_type) : Int × State :=
  inode_create_loop c s n_type c.INODE_TABLE_SIZE 0

/-- The loop of `inode_free_direct_blocks`, from slot `i`, for `n` more slots;
the `Bool` is `false` when a `data_block_free` failed. -/
def inode_free_direct_blocks_loop (c : Config) (inumber : Nat) : Nat → Nat → State → Bool × State
  | 0, _, s => (true, s)
  | n + 1, i, s =>
    let r := read_direct s inumber i
    let f := data_block_free c r.2 r.1
    if f.1 = -1 then (false, f.2)
    else inode_free_direct_blocks_loop c inumber n (i + 1) f.2

def inode_free_direct_blocks (c : Config) (s : State) (inumber : Nat) : Int × State :=
  let r := inode_free_direct_blocks_loop c inumber DIRECT_BLOCKS_COUNT 0 s
  if r.1 = false then (-1, r.2)
  else
    (1, (r.2.set_i_size inumber 0).set_number_of_blocks inumber 0)

/-- The `while` loop of `inode_free_indirect_blocks`, at entry `i`, with `n` entries left
before `end`; the `Bool` is `false` when a `data_block_free` failed. -/
def inode_free_indirect_blocks_loop (c : Config) (block_of_indexes : Nat) :
    Nat → Nat → State → Bool × State
  | 0, _, s => (true, s)
  | n + 1, i, s =>
    let r := load_int c s (block_of_indexes + i * SIZEOF_INT)
    if r.1 ≠ -1 then
      let f := data_block_free c r.2 r.1
      if f.1 = -1 then (false, f.2)
      else inode_free_indirect_blocks_loop c block_of_indexes n (i + 1) f.2
    else (true, r.2)

def inode_free_indirect_blocks (c : Config) (s : State) (inumber : Nat) : Int × State :=
  match data_block_get c (s.inode_table inumber).indirection_block with
  | none => (-1, s)
  | some block_of_indexes =>
    let r := inode_free_indirect_blocks_loop c block_of_indexes (c.INDEX_COUNT - 1) 1 s
    if r.1 = false then (-1, r.2)
    else
      let f := data_block_free c r.2 (r.2.inode_table inumber).indirection_block
      if f.1 = -1 then (-1, f.2)
      else
        (1, ((f.2.set_number_indirect_blocks inumber 0).set_i_size inumber
          (DIRECT_BLOCKS_COUNT * c.BLOCK_SIZE)).set_indirection_block inumber (-1))

def inode_delete (c : Config) (s : State) (inumber : Int) : Int × State :=
  if !valid_inumber c inumber || decide (s.freeinode_ts inumber.toNat = FREE) then (-1, s)
  else
    let i := inumber.toNat
    let s1 : State := { s with freeinode_ts := upd s.freeinode_ts i FREE }
    if 0 < (s1.inode_table i).i_size then
      let r1 := inode_free_direct_blocks c s1 i
      if r1.1 = -1 then (-1, r1.2)
      else
        let rd := read_direct r1.2 i 0
        let r2 := data_block_free c rd.2 rd.1
        if r2.1 = -1 then (-1, r2.2)
        else
          let s5 := r2.2.set_i_data_block i []
          if (s5.inode_table i).indirection_block ≠ -1 then
            let r3 := inode_free_indirect_blocks c s5 i
            if r3.1 = -1 then (-1, r3.2) else (0, r3.2)
          else (0, s5)
    else (0, s1)

def inode_is_free (c : Config) (s : State) (inumber : Int) : Int :=
  if !valid_inumber c inumber then -1
  else if s.freeinode_ts inumber.toNat = TAKEN then 0
  else 1

/-- The loop of `inode_inicialize_direct_blocks`, at slot `i`, for `n` more slots. -/
def inode_inicialize_direct_blocks_loop (c : Config) (inumber : Nat) :
    Nat → Nat → State → Int × State
  | 0, _, s => (0, s)
  | n + 1, i, s =>
    let r := data_block_alloc c s
    let s2 := write_direct r.2 inumber i r.1
    if r.1 = -1 then (-1, s2)
    else inode_inicialize_direct_blocks_loop c inumber n (i + 1) s2

def inode_inicialize_direct_blocks (c : Config) (s : State) (inumber : Nat)
    (start : Nat) (end_ : Nat) : Int × State :=
  if end_ < start ∨ start > DIRECT_BLOCKS_COUNT then (-1, s)
  else inode_inicialize_direct_blocks_loop c inumber (end_ - start) start s

def write_index_to_block (c : Config) (s : State) (inumber : Nat) (block : Int) : Int × State :=
  if (s.inode_table inumber).number_indirect_blocks = 0 then (-1, s)
  else
    match data_block_get c (s.inode_table inumber).indirection_block with
    | none => (-1, s)
    | some block_of_indexes =>
      let position := (s.inode_table inumber).number_indirect_blocks - 1
      (0, store_int c s (block_of_indexes + position * SIZEOF_INT) block)

/-- The loop of `inode_inicialize_indirect_blocks`, at position `i`, for `n` more positions. -/
def inode_inicialize_indirect_blocks_loop (c : Config) (inumber : Nat) (block_of_indexes : Nat)
    (end_ : Nat) : Nat → Nat → State → State
  | 0, _, s => s
  | n + 1, i, s =>
    if i < end_ then
      let r := data_block_alloc c s
      let s2 := r.2.set_number_indirect_blocks inumber
        ((r.2.inode_table inumber).number_indirect_blocks + 1)
      inode_inicialize_indirect_blocks_loop c inumber block_of_indexes end_ n (i + 1)
        (write_index_to_block c s2 inumber r.1).2
    else
      inode_inicialize_indirect_blocks_loop c inumber block_of_indexes end_ n (i + 1)
        (store_int c s (block_of_indexes + i * SIZEOF_INT) (-1))

def inode_inicialize_indirect_blocks (c : Config) (s : State) (inumber : Nat)
    (start : Nat) (end_ : Nat) : Int × State :=
  let limit := c.BLOCK_SIZE / SIZEOF_INT + 1
  if (s.inode_table inumber).indirection_block = -1 then (-1, s)
  else
    match data_block_get c (s.inode_table inumber).indirection_block with
    | none => (-1, s)
    | some block_of_indexes =>
      if end_ < start ∨ start > limit then (-1, s)
      else
        (0, inode_inicialize_indirect_blocks_loop c inumber block_of_indexes end_
          (limit - start) start s)

/-- The part of `inode_add_blocks` under "Associate direct data blocks first": the state and
what is left of `number_blocks`. -/
def inode_add_blocks_direct (c : Config) (s : State) (i : Nat) (number_blocks : Nat) :
    State × Nat :=
  if (s.inode_table i).number_of_blocks < DIRECT_BLOCKS_COUNT then
    let to_add0 := DIRECT_BLOCKS_COUNT - (s.inode_table i).number_of_blocks
    let to_add := if to_add0 > number_blocks then number_blocks else to_add0
    let s1 := s.set_i_data_block i
      (realloc (s.inode_table i).i_data_block ((s.inode_table i).number_of_blocks + to_add))
    let s2 := (inode_inicialize_direct_blocks c s1 i (s1.inode_table i).number_of_blocks
      ((s1.inode_table i).number_of_blocks + to_add)).2
    (s2.set_number_of_blocks i ((s2.inode_table i).number_of_blocks + to_add),
      number_blocks - to_add)
  else (s, number_blocks)

/-- The last part of `inode_add_blocks`: the indirection block, when blocks are still needed
and the inode has none. -/
def inode_add_blocks_indirect (c : Config) (s : State) (i : Nat) (number_blocks : Nat) :
    Int × State :=
  if number_blocks > 0 ∧ (s.inode_table i).indirection_block = -1 then
    let a := data_block_alloc c s
    let s1 := a.2.set_indirection_block i a.1
    if a.1 = -1 then (-1, s1)
    else
      (0, (inode_inicialize_indirect_blocks c s1 i (s1.inode_table i).number_indirect_blocks
        ((s1.inode_table i).number_indirect_blocks + number_blocks)).2)
  else (0, s)

def inode_add_blocks (c : Config) (s : State) (inumber : Int) (sizeToBeAdded : Nat)
    (offset : Nat) : Int × State :=
  if inode_is_free c s inumber ≠ 0 then (-1, s)
  else
    let i := inumber.toNat
    let inode := s.inode_table i
    if (offset + sizeToBeAdded) % SIZE_MAX1
        ≤ (inode.number_of_blocks + inode.number_indirect_blocks) * c.BLOCK_SIZE then (0, s)
    else if get_free_memory c s < sizeToBeAdded then (-1, s)
    else
      let number_blocks :=
        if (offset + sizeToBeAdded) % SIZE_MAX1
            ≥ (inode.number_of_blocks + inode.number_indirect_blocks) * c.BLOCK_SIZE
        then sizeToBeAdded / c.BLOCK_SIZE + 1 else sizeToBeAdded / c.BLOCK_SIZE
      let r := inode_add_blocks_direct c s i number_blocks
      inode_add_blocks_indirect c r.1 i r.2

/-- The result of `inode_invalid_indirect_block` as a truth value, and the state (marked when
the entry read leaves `fs_data`). -/
def inode_invalid_indirect_block (c : Config) (s : State) (inumber : Nat) (block_number : Nat) :
    Bool × State :=
  match data_block_get c (s.inode_table inumber).indirection_block with
  | none => (true, s)
  | some block_of_indexes =>
    if block_number ≥ c.BLOCK_SIZE / SIZEOF_INT then (true, s)
    else
      let r := load_int c s (block_of_indexes + block_number * SIZEOF_INT)
      (decide (r.1 = -1), r.2)

/-- Store through the pointer `block_of_indexes` of `inode_write`, which may be `NULL`. -/
def store_index (c : Config) (s : State) (block_of_indexes : Option Nat) (i : Nat) (v : Int) :
    State :=
  match block_of_indexes with
  | none => s.mark_undefined
  | some p => store_int c s (p + i * SIZEOF_INT) v

/-- Load through the pointer `block_of_indexes` of `inode_write`, which may be `NULL`. -/
def load_index (c : Config) (s : State) (block_of_indexes : Option Nat) (i : Nat) :
    Int × State :=
  match block_of_indexes with
  | none => (-1, s.mark_undefined)
  | some p => load_int c s (p + i * SIZEOF_INT)

/-- The part of the loop body of `inode_write` that finds the block to write to:
the pointer `block` (`none` is `NULL`), or `none` when the body returns -1 here. -/
def inode_write_locate (c : Config) (s : State) (inumber : Nat) (block_to_write : Nat) :
    Option (Option Nat) × State :=
  if block_to_write < DIRECT_BLOCKS_COUNT then
    let r := read_direct s inumber block_to_write
    (some (data_block_get c r.1), r.2)
  else
    let block_of_indexes := data_block_get c (s.inode_table inumber).indirection_block
    let v := inode_invalid_indirect_block c s inumber (block_to_write - DIRECT_BLOCKS_COUNT)
    if v.1 = true then
      let a := data_block_alloc c v.2
      if a.1 = -1 then (none, a.2)
      else
        let s3 := a.2.set_number_indirect_blocks inumber
          ((a.2.inode_table inumber).number_indirect_blocks + 1)
        let s4 := store_index c s3 block_of_indexes
          (s3.inode_table inumber).number_indirect_blocks a.1
        let w := write_index_to_block c s4 inumber a.1
        if w.1 = -1 then (none, w.2)
        else
          let v2 := inode_invalid_indirect_block c w.2 inumber
            (block_to_write - DIRECT_BLOCKS_COUNT)
          if v2.1 = true then (none, v2.2)
          else
            let l := load_index c v2.2 block_of_indexes (block_to_write - DIRECT_BLOCKS_COUNT)
            (some (data_block_get c l.1), l.2)
    else
      let l := load_index c v.2 block_of_indexes (block_to_write - DIRECT_BLOCKS_COUNT)
      (some (data_block_get c l.1), l.2)

/-- The block number that `inode_write` (before its loop) and `inode_read` (in each iteration)
compute from the offset: `offset / BLOCK_SIZE`, plus one when that is at least
`DIRECT_BLOCKS_COUNT` ("skip block of indexes"). -/
def start_block (c : Config) (offset : Nat) : Nat :=
  if offset / c.BLOCK_SIZE ≥ DIRECT_BLOCKS_COUNT then offset / c.BLOCK_SIZE + 1
  else offset / c.BLOCK_SIZE

/-- The number of bytes one iteration of the loops of `inode_write` and `inode_read` transfers:
`room_in_block` when more than that is left, else what is left. -/
def transfer_size (c : Config) (offset : Nat) (block : Nat) (left : Nat) : Nat :=
  let room_in_block := (block + 1) * c.BLOCK_SIZE - offset
  if left > room_in_block then room_in_block else left

/-- The block number to skip to: `if (block == DIRECT_BLOCKS_COUNT) block++`. -/
def skip_index_block (block : Nat) : Nat :=
  if block = DIRECT_BLOCKS_COUNT then block + 1 else block

/-- The end of the loop body of `inode_write`, once `block` is known: the `memcpy` of `size`
bytes and the updates of `of_offset` and `i_size`. -/
def inode_write_copy (c : Config) (s1 : State) (fhandle : Nat) (inumber : Nat)
    (buffer : Nat → Nat) (block : Nat) (size : Nat) (done : Nat) : State :=
  let file := s1.open_file_table fhandle
  let dst := block + file.of_offset % c.BLOCK_SIZE
  let s2 : State :=
    ({ s1 with fs_data := memcpy s1.fs_data dst (fun j => buffer (done + j)) size }).mark_if
      (decide (c.FS_DATA_SIZE < dst + size))
  let s3 := s2.set_of_offset fhandle (file.of_offset + size)
  if (s3.open_file_table fhandle).of_offset > (s3.inode_table inumber).i_size then
    s3.set_i_size inumber (s3.open_file_table fhandle).of_offset
  else s3

/-- The `while (to_write > 0)` loop of `inode_write`.  `done` is `bytes_written`, which is also
how far `buffer` has been advanced. -/
def inode_write_loop (c : Config) (fhandle : Nat) (inumber : Nat) (buffer : Nat → Nat) :
    Nat → State → Nat → Nat → Nat → Option (Int × State)
  | fuel, s, to_write, block_to_write, done =>
    if to_write = 0 then some ((done : Int), s)
    else
      match fuel with
      | 0 => none
      | fuel + 1 =>
        let l := inode_write_locate c s inumber (skip_index_block block_to_write)
        match l.1 with
        | none => some (-1, l.2)
        | some none => some (-1, l.2)
        | some (some block) =>
          let size := transfer_size c (l.2.open_file_table fhandle).of_offset
            (skip_index_block block_to_write) to_write
          let s4 := inode_write_copy c l.2 fhandle inumber buffer block size done
          inode_write_loop c fhandle inumber buffer fuel s4 (to_write - size)
            (if (s4.open_file_table fhandle).of_offset % c.BLOCK_SIZE = 0 then
              skip_index_block block_to_write + 1
            else skip_index_block block_to_write)
            (done + size)

/-- The check `if (file->of_offset > inode->i_size) file->of_offset = inode->i_size`. -/
def clamp_offset (s : State) (fhandle : Nat) (inumber : Nat) : State :=
  if (s.open_file_table fhandle).of_offset > (s.inode_table inumber).i_size then
    s.set_of_offset fhandle (s.inode_table inumber).i_size
  else s

/-- The function `inode_write(file, inode, buffer, to_write)` with `file = &open_file_table[fhandle]`
and `inode = &inode_table[inumber]`. -/
def inode_write (c : Config) (s : State) (fhandle : Nat) (inumber : Nat) (buffer : Nat → Nat)
    (to_write : Nat) : Option (Int × State) :=
  let s1 := clamp_offset s fhandle inumber
  let to_write :=
    if ((s1.open_file_table fhandle).of_offset + to_write) % SIZE_MAX1 > c.CAPACITY then
      (c.CAPACITY + SIZE_MAX1 - (s1.open_file_table fhandle).of_offset % SIZE_MAX1) % SIZE_MAX1
    else to_write
  let s2 := clamp_offset s1 fhandle inumber
  let file := s2.open_file_table fhandle
  let inode := s2.inode_table inumber
  let block_to_write := start_block c file.of_offset
  let s3 :=
    if to_write > inode.i_size then
      (inode_add_blocks c s2 file.of_inumber to_write file.of_offset).2
    else if (file.of_offset + to_write) % SIZE_MAX1
        ≥ (inode.number_of_blocks + inode.number_indirect_blocks) * c.BLOCK_SIZE then
      let memory_needed := if to_write < c.BLOCK_SIZE then c.BLOCK_SIZE else to_write
      (inode_add_blocks c s2 file.of_inumber memory_needed file.of_offset).2
    else s2
  inode_write_loop c fhandle inumber buffer to_write s3 to_write block_to_write 0

/-- The part of the loop body of `inode_read` that finds the block to read from:
the pointer `block` (`none` is `NULL`), or `none` when the body returns -1 here. -/
def inode_read_locate (c : Config) (s : State) (inumber : Nat) (block_to_read : Nat) :
    Option (Option Nat) × State :=
  if block_to_read < DIRECT_BLOCKS_COUNT then
    let r := read_direct s inumber block_to_read
    (some (data_block_get c r.1), r.2)
  else if (s.inode_table inumber).indirection_block = -1 then (none, s)
  else
    let v := inode_invalid_indirect_block c s inumber (block_to_read - DIRECT_BLOCKS_COUNT)
    if v.1 = true then (none, v.2)
    else
      let l := load_index c v.2 (data_block_get c (v.2.inode_table inumber).indirection_block)
        (block_to_read - DIRECT_BLOCKS_COUNT)
      (some (data_block_get c l.1), l.2)

/-- The end of the loop body of `inode_read`, once `block` is known: the state after the
`memcpy` of `size` bytes and the update of `of_offset`. -/
def inode_read_copy (c : Config) (s1 : State) (fhandle : Nat) (block : Nat) (size : Nat) :
    State :=
  let file := s1.open_file_table fhandle
  let src := block + file.of_offset % c.BLOCK_SIZE
  let s2 := s1.mark_if (decide (c.FS_DATA_SIZE < src + size))
  s2.set_of_offset fhandle (file.of_offset + size)

/-- The `while` loop of `inode_read`.  `done` is `bytes_read`, which is also how far `buffer`
has been advanced; `out` is the caller's buffer. -/
def inode_read_loop (c : Config) (fhandle : Nat) (inumber : Nat) :
    Nat → State → (Nat → Nat) → Nat → Nat → Option (Int × State × (Nat → Nat))
  | fuel, s, out, to_read, done =>
    if ¬ (to_read > 0 ∧ (s.open_file_table fhandle).of_offset < (s.inode_table inumber).i_size)
    then some ((done : Int), s, out)
    else
      match fuel with
      | 0 => none
      | fuel + 1 =>
        let l := inode_read_locate c s inumber
          (start_block c (s.open_file_table fhandle).of_offset)
        match l.1 with
        | none => some (-1, l.2, out)
        | some none => some (-1, l.2, out)
        | some (some block) =>
          let offset := (l.2.open_file_table fhandle).of_offset
          let size := transfer_size c offset
            (start_block c (s.open_file_table fhandle).of_offset) to_read
          let out1 := memcpy out done
            (fun j => l.2.fs_data (block + offset % c.BLOCK_SIZE + j)) size
          inode_read_loop c fhandle inumber fuel (inode_read_copy c l.2 fhandle block size) out1
            (to_read - size) (done + size)

/-- The function `inode_read(file, inode, buffer, len)` with `file = &open_file_table[fhandle]`
and `inode = &inode_table[inumber]`; the last component is the caller's buffer afterwards. -/
def inode_read (c : Config) (s : State) (fhandle : Nat) (inumber : Nat) (buffer : Nat → Nat)
    (len : Nat) : Option (Int × State × (Nat → Nat)) :=
  let s1 := clamp_offset s fhandle inumber
  let to_read0 := (s1.inode_table inumber).i_size - (s1.open_file_table fhandle).of_offset
  let to_read := if to_read0 > len then len else to_read0
  inode_read_loop c fhandle inumber to_read s1 buffer to_read 0

/-! ## Directory

A C string is a list of bytes; the string ends before its first 0 byte, or at the end of the
list when it has none. -/

def strlen (str : List Nat) : Nat := (str.takeWhile (fun ch => decide (ch ≠ 0))).length

/-- The byte `str[j]` of a C string, the terminator included. -/
def char_at (str : List Nat) (j : Nat) : Nat :=
  if j < strlen str then str.getD j 0 else 0

/-- The effect of `strncpy(dest, src, n)` on the destination memory: the bytes of `src` up to
its terminator, then zeros, `n` bytes in all. -/
def strncpy (m : Nat → Nat) (dest : Nat) (src : List Nat) (n : Nat) : Nat → Nat :=
  memcpy m dest (char_at src) n

/-- Whether `strncmp(fs_data + addr + j, str + j, n) == 0`. -/
def strncmp_eq (m : Nat → Nat) (addr : Nat) (str : List Nat) : Nat → Nat → Bool
  | 0, _ => true
  | n + 1, j =>
    if m (addr + j) ≠ char_at str j then false
    else if m (addr + j) = 0 then true
    else strncmp_eq m addr str n (j + 1)

/-- The loop of `add_dir_entry` over the entries `i, ..., i + n - 1`. -/
def add_dir_entry_loop (c : Config) (s : State) (dir_entry : Nat) (sub_inumber : Int)
    (sub_name : List Nat) : Nat → Nat → Int × State
  | 0, _ => (-1, s)
  | n + 1, i =>
    let entry := dir_entry + i * c.SIZEOF_DIR_ENTRY
    if (load_int c s (entry + c.D_INUMBER_OFFSET)).1 = -1 then
      let s1 := store_int c s (entry + c.D_INUMBER_OFFSET) sub_inumber
      let s2 : State :=
        ({ s1 with fs_data := strncpy s1.fs_data entry sub_name (c.MAX_FILE_NAME - 1) }).mark_if
          (decide (c.FS_DATA_SIZE < entry + (c.MAX_FILE_NAME - 1)))
      let s3 : State :=
        ({ s2 with fs_data := upd s2.fs_data (entry + (c.MAX_FILE_NAME - 1)) 0 }).mark_if
          (decide (c.MAX_FILE_NAME = 0 ∨ c.FS_DATA_SIZE < entry + c.MAX_FILE_NAME))
      (0, s3)
    else add_dir_entry_loop c s dir_entry sub_inumber sub_name n (i + 1)

def add_dir_entry (c : Config) (s : State) (inumber : Int) (sub_inumber : Int)
    (sub_name : List Nat) : Int × State :=
  if !valid_inumber c inumber || !valid_inumber c sub_inumber then (-1, s)
  else if (s.inode_table inumber.toNat).i_node_type ≠ T_DIRECTORY then (-1, s)
  else if strlen sub_name = 0 then (-1, s)
  else
    let r := read_direct s inumber.toNat 0
    match data_block_get c r.1 with
    | none => (-1, r.2)
    | some dir_entry => add_dir_entry_loop c r.2 dir_entry sub_inumber sub_name c.MAX_DIR_ENTRIES 0

/-- The loop of `find_in_dir` over the entries `i, ..., i + n - 1`. -/
def find_in_dir_loop (c : Config) (s : State) (dir_entry : Nat) (sub_name : List Nat) :
    Nat → Nat → Int
  | 0, _ => -1
  | n + 1, i =>
    let entry := dir_entry + i * c.SIZEOF_DIR_ENTRY
    if read_int s.fs_data (entry + c.D_INUMBER_OFFSET) ≠ -1
        ∧ strncmp_eq s.fs_data entry sub_name c.MAX_FILE_NAME 0 = true then
      read_int s.fs_data (entry + c.D_INUMBER_OFFSET)
    else find_in_dir_loop c s dir_entry sub_name n (i + 1)

/-- The function `find_in_dir`; the state is returned because reading `i_data_block[0]` can be
undefined. -/
def find_in_dir (c : Config) (s : State) (inumber : Int) (sub_name : List Nat) : Int × State :=
  if !valid_inumber c inumber || decide ((s.inode_table inumber.toNat).i_node_type ≠ T_DIRECTORY)
  then (-1, s)
  else
    let r := read_direct s inumber.toNat 0
    match data_block_get c r.1 with
    | none => (-1, r.2)
    | some dir_entry => (find_in_dir_loop c r.2 dir_entry sub_name c.MAX_DIR_ENTRIES 0, r.2)

/-! ## Open-file table -/

def add_to_open_file_table (c : Config) (s : State) (inumber : Int) (offset : Nat) :
    Int × State :=
  match first_free s.free_open_file_entries c.MAX_OPEN_FILES 0 with
  | some i =>
    ((i : Int),
      { s with
        free_open_file_entries := upd s.free_open_file_entries i TAKEN
        open_file_table := upd s.open_file_table i { of_inumber := inumber, of_offset := offset } })
  | none => (-1, s)

def remove_from_open_file_table (c : Config) (s : State) (fhandle : Int) : Int × State :=
  if !valid_file_handle c fhandle || decide (s.free_open_file_entries fhandle.toNat ≠ TAKEN)
  then (-1, s)
  else (0, { s with free_open_file_entries := upd s.free_open_file_entries fhandle.toNat FREE })

/-- The pointer returned by `get_open_file_entry`, as an index into `open_file_table`. -/
def get_open_file_entry (c : Config) (fhandle : Int) : Option Nat :=
  if !valid_file_handle c fhandle then none else some fhandle.toNat

/-- The pointer returned by `inode_get`, as an index into `inode_table`. -/
def inode_get (c : Config) (inumber : Int) : Option Nat :=
  if !valid_inumber c inumber then none else some inumber.toNat

/-! ## Facade (`operations.c`) -/

def state_init (s : State) : State :=
  { s with
    freeinode_ts := fun _ => FREE
    free_blocks := fun _ => FREE
    free_open_file_entries := fun _ => FREE }

def tfs_init (c : Config) (s : State) : Int × State :=
  let r := inode_create c (state_init s) T_DIRECTORY
  if r.1 ≠ ROOT_DIR_INUM then (-1, r.2) else (0, r.2)

/-- A path name is `none` for `NULL`, else a C string. -/
def valid_pathname (name : Option (List Nat)) : Bool :=
  match name with
  | none => false
  | some str => decide (strlen str > 1 ∧ str.getD 0 0 = 47)

def tfs_lookup (c : Config) (s : State) (name : Option (List Nat)) : Int × State :=
  if !valid_pathname name then (-1, s)
  else find_in_dir c s ROOT_DIR_INUM (name.getD []).tail

/-- The call of `inode_free_direct_blocks` in `tfs_open`: `some r` is an early `return r`. -/
def tfs_open_trunc_direct (c : Config) (s : State) (i : Nat) : Option Int × State :=
  let f := inode_free_direct_blocks c s i
  if f.1 = -1 then (some (-1), f.2) else (none, f.2)

/-- The block `if (inode->i_size > 0) { ... }` of `tfs_open`: `some r` is an early `return r`. -/
def tfs_open_trunc_free (c : Config) (s : State) (i : Nat) : Option Int × State :=
  if 0 < (s.inode_table i).i_size then
    if (s.inode_table i).indirection_block ≠ -1 then
      let f := inode_free_indirect_blocks c s i
      if f.1 = -1 then (some 1, f.2) else tfs_open_trunc_direct c f.2 i
    else tfs_open_trunc_direct c s i
  else (none, s)

/-- The truncation step of `tfs_open` (`flags & TFS_O_TRUNC`) on inode `i = inum`:
`some r` is an early `return r`. -/
def tfs_open_trunc (c : Config) (s : State) (inum : Int) (i : Nat) : Option Int × State :=
  let r := tfs_open_trunc_free c s i
  match r.1 with
  | some e => (some e, r.2)
  | none =>
    let s2 := r.2.set_i_data_block i (realloc (r.2.inode_table i).i_data_block 1)
    let a := inode_alloc_first_block c s2 inum
    if a.1 = -1 then (some (-1), a.2) else (none, a.2)

/-- The branch of `tfs_open` for a file that exists (`inum >= 0`). -/
def tfs_open_existing (c : Config) (s : State) (inum : Int) (flags : Nat) : Int × State :=
  match inode_get c inum with
  | none => (-1, s)
  | some i =>
    let t : Option Int × State :=
      if flags &&& TFS_O_TRUNC ≠ 0 then tfs_open_trunc c s inum i else (none, s)
    match t.1 with
    | some e => (e, t.2)
    | none =>
      let offset := if flags &&& TFS_O_APPEND ≠ 0 then (t.2.inode_table i).i_size else 0
      add_to_open_file_table c t.2 inum offset

def tfs_open (c : Config) (s : State) (name : Option (List Nat)) (flags : Nat) : Int × State :=
  if !valid_pathname name then (-1, s)
  else
    let l := tfs_lookup c s name
    if l.1 ≥ 0 then tfs_open_existing c l.2 l.1 flags
    else if flags &&& TFS_O_CREAT ≠ 0 then
      let r := inode_create c l.2 T_FILE
      if r.1 = -1 then (-1, r.2)
      else
        let a := add_dir_entry c r.2 ROOT_DIR_INUM r.1 (name.getD []).tail
        if a.1 = -1 then (-1, (inode_delete c a.2 r.1).2)
        else add_to_open_file_table c a.2 r.1 0
    else (-1, l.2)

def tfs_close (c : Config) (s : State) (fhandle : Int) : Int × State :=
  remove_from_open_file_table c s fhandle

def tfs_write (c : Config) (s : State) (fhandle : Int) (buffer : Nat → Nat) (to_write : Nat) :
    Option (Int × State) :=
  match get_open_file_entry c fhandle with
  | none => some (-1, s)
  | some file =>
    match inode_get c (s.open_file_table file).of_inumber with
    | none => some (-1, s)
    | some inode => inode_write c s file inode buffer to_write

def tfs_read (c : Config) (s : State) (fhandle : Int) (buffer : Nat → Nat) (len : Nat) :
    Option (Int × State × (Nat → Nat)) :=
  match get_open_file_entry c fhandle with
  | none => some (-1, s, buffer)
  | some file =>
    match inode_get c (s.open_file_table file).of_inumber with
    | none => some (-1, s, buffer)
    | some inode => inode_read c s file inode buffer len

/-! ## Predicates used in the statements -/

/-- Two states that differ at most in the undefined-behaviour marker. -/
def same_but_marker (s s1 : State) : Prop :=
  s1.inode_table = s.inode_table ∧ s1.freeinode_ts = s.freeinode_ts ∧ s1.fs_data = s.fs_data
    ∧ s1.free_blocks = s.free_blocks ∧ s1.open_file_table = s.open_file_table
    ∧ s1.free_open_file_entries = s.free_open_file_entries

/-- What `inode_read` may change: the offset of the entry it is given (and the marker). -/
def read_frame (fh : Nat) (s s1 : State) : Prop :=
  s1.inode_table = s.inode_table ∧ s1.freeinode_ts = s.freeinode_ts ∧ s1.fs_data = s.fs_data
    ∧ s1.free_blocks = s.free_blocks ∧ s1.free_open_file_entries = s.free_open_file_entries
    ∧ (∀ h, h ≠ fh → s1.open_file_table h = s.open_file_table h)
    ∧ (s1.open_file_table fh).of_inumber = (s.open_file_table fh).of_inumber

/-- The block (`some (some p)`), null pointer (`some none`) or failure (`none`) that one
iteration of the loop of `inode_read` finds for the byte at `offset`. -/
def read_block_of (c : Config) (s : State) (i : Nat) (offset : Nat) : Option (Option Nat) :=
  (inode_read_locate c s i (start_block c offset)).1

/-- Whether a block search ended with a block (neither a failure nor a null pointer). -/
def is_found : Option (Option Nat) → Bool
  | some (some _) => true
  | _ => false

/-- Every byte position below the size of inode `i` lies in a block that the loop of
`inode_read` finds and that `data_block_get` accepts. -/
def blocks_valid (c : Config) (s : State) (i : Nat) : Prop :=
  ∀ off, off < (s.inode_table i).i_size → is_found (read_block_of c s i off) = true

/-- The open-file table, the inode bitmap, and the kind and size of every inode are the same. -/
def meta_frame (s s1 : State) : Prop :=
  s1.open_file_table = s.open_file_table
    ∧ s1.free_open_file_entries = s.free_open_file_entries
    ∧ s1.freeinode_ts = s.freeinode_ts
    ∧ ∀ j, (s1.inode_table j).i_size = (s.inode_table j).i_size
      ∧ (s1.inode_table j).i_node_type = (s.inode_table j).i_node_type

/-- What `inode_write` leaves alone: the bitmaps of inodes and open files, the other open-file
entries, the inumber of its own entry, the kind of every inode and the size of the others. -/
def write_frame (fh i : Nat) (s s1 : State) : Prop :=
  s1.free_open_file_entries = s.free_open_file_entries
    ∧ s1.freeinode_ts = s.freeinode_ts
    ∧ (∀ h, h ≠ fh → s1.open_file_table h = s.open_file_table h)
    ∧ (s1.open_file_table fh).of_inumber = (s.open_file_table fh).of_inumber
    ∧ (∀ j, (s1.inode_table j).i_node_type = (s.inode_table j).i_node_type)
    ∧ (∀ j, j ≠ i → (s1.inode_table j).i_size = (s.inode_table j).i_size)

/-- The open-file table and its bitmap are the same. -/
def open_files_same (s s1 : State) : Prop :=
  s1.open_file_table = s.open_file_table
    ∧ s1.free_open_file_entries = s.free_open_file_entries

/-! ## Concrete runs -/

/-- The state of a freshly loaded program: static storage is zero. -/
def State.zero : State :=
  { inode_table := fun _ =>
      { i_node_type := T_FILE, i_size := 0, i_data_block := [], number_of_blocks := 0,
        indirection_block := 0, number_indirect_blocks := 0 }
    freeinode_ts := fun _ => FREE
    fs_data := fun _ => 0
    free_blocks := fun _ => FREE
    open_file_table := fun _ => { of_inumber := 0, of_offset := 0 }
    free_open_file_entries := fun _ => FREE
    undefined_behaviour := false }

/-- A configuration with the block size of the spec's scenarios, `BLOCK_SIZE = 1024`. -/
def example_config : Config :=
  { BLOCK_SIZE := 1024, DATA_BLOCKS := 1024, INODE_TABLE_SIZE := 50, MAX_OPEN_FILES := 20,
    MAX_FILE_NAME := 40 }

/-- A configuration with 16-byte blocks: 4 entries in an indirection block, 2 directory
entries of 8 bytes, capacity 224 bytes. -/
def small_config : Config :=
  { BLOCK_SIZE := 16, DATA_BLOCKS := 40, INODE_TABLE_SIZE := 4, MAX_OPEN_FILES := 4,
    MAX_FILE_NAME := 4 }

/-- The path `"/f1"`. -/
def path_f1 : Option (List Nat) := some [47, 102, 49]

/-- The bytes of `"AAA!"`. -/
def text_AAA (j : Nat) : Nat := [65, 65, 65, 33].getD j 0

/-- A buffer whose byte at position `j` is `(7 j + 3) mod 251 + 1`. -/
def pattern (j : Nat) : Nat := (j * 7 + 3) % 251 + 1

/-- The state after a call of `tfs_write` (unchanged if the call does not return). -/
def after_write (c : Config) (s : State) (fhandle : Int) (buffer : Nat → Nat) (n : Nat) : State :=
  match tfs_write c s fhandle buffer n with
  | some r => r.2
  | none => s

/-- The state after `tfs_init` and `tfs_open("/f1", TFS_O_CREAT)`: the file is inode 1 and the
handle is 0. -/
def state_created (c : Config) : State :=
  (tfs_open c (tfs_init c State.zero).2 path_f1 TFS_O_CREAT).2

/-- The state after writing the first `n` bytes of `buffer` to the new file "/f1", closing it
and opening it again with flags `flags`: the new handle is 0 again. -/
def state_reopened (c : Config) (buffer : Nat → Nat) (n : Nat) (flags : Nat) : State :=
  (tfs_open c (tfs_close c (after_write c (state_created c) 0 buffer n) 0).2 path_f1 flags).2

/-! ## The layout of a file: predicates of the round-trip theorems -/

/-- How block numbers are stored in the vector `i_data_block`. -/
def slots (blocks : List Nat) : List (Option Int) :=
  blocks.map (fun (b : Nat) => some (Int.ofNat b))

/-- Every FREE block of the pool has index at least `f`. -/
def frontier (c : Config) (s : State) (f : Nat) : Prop :=
  ∀ j, j < c.DATA_BLOCKS → s.free_blocks j = FREE → f ≤ j

/-- The byte offset in `fs_data` of position `p` of a file whose direct blocks are `blocks`. -/
def direct_addr (c : Config) (blocks : List Nat) (p : Nat) : Nat :=
  blocks.getD (p / c.BLOCK_SIZE) 0 * c.BLOCK_SIZE + p % c.BLOCK_SIZE

/-- The entry `idx` of the indirection block `p`, as stored in `fs_data`. -/
def index_entry (c : Config) (s : State) (p : Nat) (idx : Nat) : Int :=
  read_int s.fs_data (p * c.BLOCK_SIZE + idx * SIZEOF_INT)

/-- The indirection block of inode `i`: none yet, or block `p` above all direct blocks, whose
entries `1 .. number_indirect_blocks - 1` are blocks above `p` and below the frontier `f` and
whose later entries are -1. -/
def indirect_layout (c : Config) (s : State) (i : Nat) (blocks : List Nat) (f : Nat) : Prop :=
  ((s.inode_table i).indirection_block = -1 ∧ (s.inode_table i).number_indirect_blocks = 0)
    ∨ ∃ p : Nat, (s.inode_table i).indirection_block = (p : Int)
      ∧ (∀ b ∈ blocks, b < p) ∧ p + 1 < f ∧ blocks.length = DIRECT_BLOCKS_COUNT
      ∧ 1 ≤ (s.inode_table i).number_indirect_blocks
      ∧ (∀ idx, 1 ≤ idx → idx < (s.inode_table i).number_indirect_blocks → idx < c.INDEX_COUNT →
          ∃ q : Nat, index_entry c s p idx = (q : Int) ∧ p < q ∧ q < f)
      ∧ (∀ idx, (s.inode_table i).number_indirect_blocks ≤ idx → idx < c.INDEX_COUNT →
          index_entry c s p idx = -1)

/-- Inode `i` is a file in use whose direct blocks are `blocks`, in this order: they are
distinct, at least `lo` and below the frontier `f` of the pool, and the pool has memory left
for the blocks that writes up to `DIRECT_BLOCKS_COUNT` blocks can ask for. -/
structure file_layout (c : Config) (s : State) (i : Nat) (blocks : List Nat) (lo f : Nat) :
    Prop where
  taken : s.freeinode_ts i = TAKEN
  inum_lt : i < c.INODE_TABLE_SIZE
  vector : (s.inode_table i).i_data_block = slots blocks
  count : (s.inode_table i).number_of_blocks = blocks.length
  len_pos : 1 ≤ blocks.length
  len_le : blocks.length ≤ DIRECT_BLOCKS_COUNT
  size_le : (s.inode_table i).i_size ≤ blocks.length * c.BLOCK_SIZE
  nodup : blocks.Nodup
  lower : ∀ b ∈ blocks, lo ≤ b
  upper : ∀ b ∈ blocks, b < f
  f_le : f ≤ c.DATA_BLOCKS
  front : frontier c s f
  memory : ((DIRECT_BLOCKS_COUNT - blocks.length)
      + (if (s.inode_table i).indirection_block = -1 then 16 else 2)) * c.BLOCK_SIZE
    ≤ get_free_memory c s
  indirect : indirect_layout c s i blocks f
  defined : s.undefined_behaviour = false

/-- The first `m` bytes of the file with direct blocks `blocks` are `data 0, ..., data (m - 1)`. -/
def file_bytes (c : Config) (s : State) (blocks : List Nat) (m : Nat) (data : Nat → Nat) : Prop :=
  ∀ p, p < m → s.fs_data (direct_addr c blocks p) = data p

/-- What the allocation of blocks for inode `i` leaves alone: the block bytes, the open files,
the inode bitmap, the marker, the other inodes, and the kind and size of inode `i`. -/
def alloc_frame (i : Nat) (s s1 : State) : Prop :=
  s1.fs_data = s.fs_data ∧ s1.open_file_table = s.open_file_table
    ∧ s1.free_open_file_entries = s.free_open_file_entries
    ∧ s1.freeinode_ts = s.freeinode_ts
    ∧ s1.undefined_behaviour = s.undefined_behaviour
    ∧ (∀ j, j ≠ i → s1.inode_table j = s.inode_table j)
    ∧ (s1.inode_table i).i_size = (s.inode_table i).i_size
    ∧ (s1.inode_table i).i_node_type = (s.inode_table i).i_node_type


/-- What a copy into a data block, with the updates of `of_offset` and `i_size`, leaves alone:
the bitmaps, the marker, the other open-file entries and the inumber of entry `fh`, the other
inodes, and every field of inode `i` but its size. -/
structure data_frame (fh i : Nat) (s s1 : State) : Prop where
  pool : s1.free_blocks = s.free_blocks
  inodes : s1.freeinode_ts = s.freeinode_ts
  handles : s1.free_open_file_entries = s.free_open_file_entries
  marker : s1.undefined_behaviour = s.undefined_behaviour
  others : ∀ h, h ≠ fh → s1.open_file_table h = s.open_file_table h
  inumber : (s1.open_file_table fh).of_inumber = (s.open_file_table fh).of_inumber
  other_inodes : ∀ j, j ≠ i → s1.inode_table j = s.inode_table j
  kind : (s1.inode_table i).i_node_type = (s.inode_table i).i_node_type
  vector : (s1.inode_table i).i_data_block = (s.inode_table i).i_data_block
  count : (s1.inode_table i).number_of_blocks = (s.inode_table i).number_of_blocks
  index : (s1.inode_table i).indirection_block = (s.inode_table i).indirection_block
  index_count : (s1.inode_table i).number_indirect_blocks
    = (s.inode_table i).number_indirect_blocks

/-- Handle `fh` of state `s` is open on the file with inumber `i`, which is not the root
directory, `path` is a name of the file, and the block `rb` of the root directory lies below
block `lo`. -/
structure open_file (c : Config) (s : State) (fh i : Nat) (path : Option (List Nat))
    (rb lo : Nat) : Prop where
  handle_lt : fh < c.MAX_OPEN_FILES
  handle_taken : s.free_open_file_entries fh = TAKEN
  inumber : (s.open_file_table fh).of_inumber = (i : Int)
  not_root : i ≠ 0
  root_block : (s.inode_table 0).i_data_block.getD 0 none = some (rb : Int)
  root_below : rb < lo
  found : (tfs_lookup c s path).1 = (i : Int)

/-- State `s` comes from state `st` by writes through handle `fh` that gave file `i` the `m`
bytes `data 0, ..., data (m - 1)`: the file is in the layout of `file_layout` with these
bytes in its direct blocks, size and offset are `m`, and the open-file table (but for the
offset of `fh`), the inode bitmap, the other inodes and the bytes below block `lo` are those
of `st`. -/
structure written (c : Config) (st s : State) (fh i lo : Nat) (m : Nat) (data : Nat → Nat) :
    Prop where
  layout : ∃ (blocks : List Nat) (f : Nat),
    file_layout c s i blocks lo f ∧ file_bytes c s blocks m data
  offset : (s.open_file_table fh).of_offset = m
  size : (s.inode_table i).i_size = m
  inumber : (s.open_file_table fh).of_inumber = (st.open_file_table fh).of_inumber
  handles : s.free_open_file_entries = st.free_open_file_entries
  inodes : s.freeinode_ts = st.freeinode_ts
  others : ∀ h, h ≠ fh → s.open_file_table h = st.open_file_table h
  other_inodes : ∀ j, j ≠ i → s.inode_table j = st.inode_table j
  low : ∀ a, a < lo * c.BLOCK_SIZE → s.fs_data a = st.fs_data a

/-- The calls `tfs_write(fhandle, buffer, n)` for the pairs `(buffer, n)` of a list, one after
the other: the results of the calls and the final state, or `none` if a call does not
return. -/
def write_all (c : Config) (fhandle : Int) :
    List ((Nat → Nat) × Nat) → State → Option (List Int × State)
  | [], s => some ([], s)
  | w :: rest, s =>
    match tfs_write c s fhandle w.1 w.2 with
    | none => none
    | some r =>
      match write_all c fhandle rest r.2 with
      | none => none
      | some q => some (r.1 :: q.1, q.2)

/-- The bytes of the buffers of a list of writes, one buffer after the other. -/
def written_bytes : List ((Nat → Nat) × Nat) → Nat → Nat
  | [], _ => 0
  | w :: rest, p => if p < w.2 then w.1 p else written_bytes rest (p - w.2)

/-- The number of bytes that a list of writes asks for. -/
def total_length (ws : List ((Nat → Nat) × Nat)) : Nat := (ws.map (fun w => w.2)).sum

/-- Inode `i` has its `DIRECT_BLOCKS_COUNT` direct blocks `blocks` and the indirection block
`p` above them, and the entries `1, ..., INDEX_COUNT - 1` of the indirection block hold
blocks above `p`. -/
structure preallocated (c : Config) (s : State) (i : Nat) (blocks : List Nat) (p : Nat) :
    Prop where
  vector : (s.inode_table i).i_data_block = slots blocks
  full : blocks.length = DIRECT_BLOCKS_COUNT
  below : ∀ b ∈ blocks, b < p
  index : (s.inode_table i).indirection_block = (p : Int)
  index_lt : p < c.DATA_BLOCKS
  entries : ∀ x, 1 ≤ x → x < c.INDEX_COUNT →
    ∃ q : Nat, index_entry c s p x = (q : Int) ∧ p < q ∧ q < c.DATA_BLOCKS

/-! ## Predicates and runs of the claims about open, close and initialisation -/

/-- The state with the bitmap `free_open_file_entries` replaced by `bm`. -/
def State.with_open_bitmap (s : State) (bm : Nat → allocation_state_t) : State :=
  { s with free_open_file_entries := bm }

/-- The path `"/f2"`. -/
def path_f2 : Option (List Nat) := some [47, 102, 50]

/-- The state after `tfs_init`, `tfs_open("/f1", TFS_O_CREAT)` and
`tfs_open("/f2", TFS_O_CREAT)`: "/f1" is inode 1 with handle 0, "/f2" is inode 2 with
handle 1. -/
def state_two_files (c : Config) : State :=
  (tfs_open c (state_created c) path_f2 TFS_O_CREAT).2

/-- The calls `tfs_write(fhandle, pattern, n)` for the pairs `(fhandle, n)` of a list, one
after the other: the results of the calls and the final state, or `none` if a call does not
return. -/
def write_pattern_all (c : Config) : List (Int × Nat) → State → Option (List Int × State)
  | [], s => some ([], s)
  | w :: rest, s =>
    match tfs_write c s w.1 pattern w.2 with
    | none => none
    | some r =>
      match write_pattern_all c rest r.2 with
      | none => none
      | some q => some (r.1 :: q.1, q.2)

/-- The state after a list of calls of `tfs_write` with the buffer `pattern` (unchanged if a
call does not return). -/
def after_pattern_writes (c : Config) (ws : List (Int × Nat)) (s : State) : State :=
  match write_pattern_all c ws s with
  | some r => r.2
  | none => s

/-- Writes through the handles 0 and 1 of `state_two_files` that bring both files past their
direct blocks; the last one, through handle 0, is longer than one block. -/
def interleaved_writes (c : Config) : List (Int × Nat) :=
  [(0, 8 * c.BLOCK_SIZE), (0, 2 * c.BLOCK_SIZE), (1, 8 * c.BLOCK_SIZE), (1, 2 * c.BLOCK_SIZE),
    (0, 1), (1, 1), (0, c.BLOCK_SIZE + 8)]

/-- The blocks of the pool that are TAKEN. -/
def taken_blocks (c : Config) (s : State) : List Nat :=
  (List.range c.DATA_BLOCKS).filter (fun j => decide (s.free_blocks j = TAKEN))

/-- The inode slots that are TAKEN. -/
def taken_inodes (c : Config) (s : State) : List Nat :=
  (List.range c.INODE_TABLE_SIZE).filter (fun j => decide (s.freeinode_ts j = TAKEN))

/-- The open-file slots that are TAKEN. -/
def taken_handles (c : Config) (s : State) : List Nat :=
  (List.range c.MAX_OPEN_FILES).filter (fun j => decide (s.free_open_file_entries j = TAKEN))

/-- The state after writing the first `n` bytes of `buffer` to the new file "/f1" and closing
the file. -/
def state_closed (c : Config) (buffer : Nat → Nat) (n : Nat) : State :=
  (tfs_close c (after_write c (state_created c) 0 buffer n) 0).2

/-- The path `"/f3"`. -/
def path_f3 : Option (List Nat) := some [47, 102, 51]

/-- The state after `tfs_init`, the creation of "/f1" and "/f2" (handles 0 and 1), and `n`
calls `tfs_open("/f3", TFS_O_CREAT)`. -/
def after_failed_creates (c : Config) : Nat → State
  | 0 => state_two_files c
  | n + 1 => (tfs_open c (after_failed_creates c n) path_f3 TFS_O_CREAT).2

/-- Every TAKEN open-file entry has an offset that is at most the size of the inode whose
inumber it records. -/
def offsets_within_sizes (c : Config) (s : State) : Prop :=
  ∀ h, h < c.MAX_OPEN_FILES → s.free_open_file_entries h = TAKEN →
    (s.open_file_table h).of_offset
      ≤ (s.inode_table (s.open_file_table h).of_inumber.toNat).i_size

instance (c : Config) (s : State) : Decidable (offsets_within_sizes c s) := by
  unfold offsets_within_sizes
  infer_instance

/-- The state in which `inode_add_blocks` calls `inode_inicialize_indirect_blocks` for a first
write of `10 * BLOCK_SIZE` bytes to the new file "/f1": the direct part has run for the 11 blocks
asked for (ten slots filled, two blocks left to add) and a block has been taken for
`indirection_block`. -/
def state_with_index_block (c : Config) : State :=
  let r := inode_add_blocks_direct c (state_created c) 1 11
  let a := data_block_alloc c r.1
  a.2.set_indirection_block 1 a.1

/-- The bytes that `tfs_open(name, 0)` followed by one `tfs_read` of `len` bytes through the
new handle returns (`none` if the read does not return). -/
def content_of (c : Config) (s : State) (name : Option (List Nat)) (len : Nat) :
    Option (List Nat) :=
  let o := tfs_open c s name 0
  match tfs_read c o.2 o.1 (fun _ => 0) len with
  | some r => some ((List.range r.1.toNat).map r.2.2)
  | none => none

/-! ## Runs of facade calls -/

/-- The calls of the facade that a run is made of. -/
inductive Call where
  | api_open (name : Option (List Nat)) (flags : Nat)
  | api_close (fhandle : Int)
  | api_read (fhandle : Int) (buffer : Nat → Nat) (len : Nat)
  | api_write (fhandle : Int) (buffer : Nat → Nat) (to_write : Nat)

/-- The state at the return of a call (the state at entry if a read or write does not
return). -/
def after_call (c : Config) (s : State) : Call → State
  | Call.api_open name flags => (tfs_open c s name flags).2
  | Call.api_close fhandle => (tfs_close c s fhandle).2
  | Call.api_read fhandle buffer len =>
    match tfs_read c s fhandle buffer len with
    | some r => r.2.1
    | none => s
  | Call.api_write fhandle buffer to_write =>
    match tfs_write c s fhandle buffer to_write with
    | some r => r.2
    | none => s

/-- The state at the return of the last call of a list of calls made one after the other. -/
def after_calls (c : Config) : List Call → State → State
  | [], s => s
  | call :: rest, s => after_calls c rest (after_call c s call)

/-- The inode that `tfs_open(name, flags)` starts over with in state `s`, if any: the inode of
the file when the file exists and the TRUNC bit is set, and the first FREE slot of the inode
table, which `inode_create` takes, when the file does not exist and the CREAT bit is set. -/
def reset_inode (c : Config) (s : State) (name : Option (List Nat)) (flags : Nat) :
    Option Nat :=
  if !valid_pathname name then none
  else if (tfs_lookup c s name).1 ≥ 0 then
    if flags &&& TFS_O_TRUNC ≠ 0 then inode_get c (tfs_lookup c s name).1 else none
  else if flags &&& TFS_O_CREAT ≠ 0 then
    first_free (tfs_lookup c s name).2.freeinode_ts c.INODE_TABLE_SIZE 0
  else none

/-- No TAKEN open-file entry with a nonzero offset records inode `i`. -/
def no_offset_on (c : Config) (s : State) (i : Nat) : Prop :=
  ∀ h, h < c.MAX_OPEN_FILES → s.free_open_file_entries h = TAKEN →
    (s.open_file_table h).of_inumber.toNat = i → (s.open_file_table h).of_offset = 0

instance (c : Config) (s : State) (i : Nat) : Decidable (no_offset_on c s i) := by
  unfold no_offset_on
  infer_instance

/-- A call that does not start an inode over while a TAKEN entry with a nonzero offset
records it: every `tfs_close`, `tfs_read` and `tfs_write`, and a `tfs_open` unless it
truncates or creates on such an inode. -/
def admissible (c : Config) (s : State) : Call → Prop
  | Call.api_open name flags =>
    match reset_inode c s name flags with
    | some i => no_offset_on c s i
    | none => True
  | _ => True

instance (c : Config) (s : State) (call : Call) : Decidable (admissible c s call) := by
  cases call
  · unfold admissible
    simp only
    split <;> infer_instance
  all_goals exact isTrue trivial

/-- Every call of the list is admissible in the state in which it is made. -/
def calls_admissible (c : Config) : List Call → State → Prop
  | [], _ => True
  | call :: rest, s => admissible c s call ∧ calls_admissible c rest (after_call c s call)

/-- Inodes other than `i` are the same in both states. -/
def others_same (i : Nat) (s s1 : State) : Prop :=
  ∀ j, j ≠ i → s1.inode_table j = s.inode_table j

/-- Whether every call of a list is admissible, computed call by call. -/
def calls_admissible_decide (c : Config) :
    (calls : List Call) → (s : State) → Decidable (calls_admissible c calls s)
  | [], _ => isTrue trivial
  | call :: rest, s =>
    match (inferInstance : Decidable (admissible c s call)),
      calls_admissible_decide c rest (after_call c s call) with
    | isTrue h1, isTrue h2 => isTrue ⟨h1, h2⟩
    | isFalse h1, _ => isFalse (fun h => h1 h.1)
    | isTrue _, isFalse h2 => isFalse (fun h => h2 h.2)

instance (c : Config) (calls : List Call) (s : State) :
    Decidable (calls_admissible c calls s) := calls_admissible_decide c calls s

/-- A run on two files: "/f1" is created, written and closed, then truncated while no entry
is open on it, written again and opened for appending; "/f2" is created, written and read in
between. -/
def sample_calls : List Call :=
  [Call.api_open path_f1 TFS_O_CREAT, Call.api_write 0 pattern 160,
    Call.api_open path_f2 TFS_O_CREAT, Call.api_write 1 pattern 20,
    Call.api_close 0, Call.api_open path_f1 TFS_O_TRUNC, Call.api_write 0 pattern 7,
    Call.api_open path_f1 TFS_O_APPEND, Call.api_write 2 pattern 30,
    Call.api_read 1 (fun _ => 0) 5]

/-- The calls after which a failed creation leaves an offset above a size: with the pool
exhausted and no entry open on "/f2", `tfs_open("/f2", TFS_O_TRUNC)` fails and marks its inode
FREE; the file is opened and written through the new handle; then `tfs_open("/f3",
TFS_O_CREAT)` takes the FREE slot. -/
def create_over_open_file : List Call :=
  [Call.api_close 1, Call.api_open path_f2 TFS_O_TRUNC, Call.api_open path_f2 0,
    Call.api_write 1 pattern 5]

/-- The state after a call of `tfs_read` into a buffer of zeros (unchanged if the call does
not return). -/
def after_read (c : Config) (s : State) (fhandle : Int) (len : Nat) : State :=
  match tfs_read c s fhandle (fun _ => 0) len with
  | some r => r.2.1
  | none => s



/-! ## Basic facts about array stores, field stores and the undefined-behaviour marker -/

@[simp]
theorem upd_same {α : Type} (f : Nat → α) (i : Nat) (v : α) : upd f i v i = v := by
  simp [upd]

theorem upd_other {α : Type} (f : Nat → α) {i j : Nat} (v : α) (h : j ≠ i) :
    upd f i v j = f j := by
  simp [upd, h]

theorem upd_apply {α : Type} (f : Nat → α) (i j : Nat) (v : α) :
    upd f i v j = if j = i then v else f j := rfl

@[simp]
theorem mark_undefined_inode_table (s : State) : s.mark_undefined.inode_table = s.inode_table := rfl

@[simp]
theorem mark_if_inode_table (s : State) (b : Bool) : (s.mark_if b).inode_table = s.inode_table := by
  cases b <;> rfl

@[simp]
theorem mark_undefined_freeinode_ts (s : State) : s.mark_undefined.freeinode_ts = s.freeinode_ts := rfl

@[simp]
theorem mark_if_freeinode_ts (s : State) (b : Bool) : (s.mark_if b).freeinode_ts = s.freeinode_ts := by
  cases b <;> rfl

@[simp]
theorem mark_undefined_fs_data (s : State) : s.mark_undefined.fs_data = s.fs_data := rfl

@[simp]
theorem mark_if_fs_data (s : State) (b : Bool) : (s.mark_if b).fs_data = s.fs_data := by
  cases b <;> rfl

@[simp]
theorem mark_undefined_free_blocks (s : State) : s.mark_undefined.free_blocks = s.free_blocks := rfl

@[simp]
theorem mark_if_free_blocks (s : State) (b : Bool) : (s.mark_if b).free_blocks = s.free_blocks := by
  cases b <;> rfl

@[simp]
theorem mark_undefined_open_file_table (s : State) : s.mark_undefined.open_file_table = s.open_file_table := rfl

@[simp]
theorem mark_if_open_file_table (s : State) (b : Bool) : (s.mark_if b).open_file_table = s.open_file_table := by
  cases b <;> rfl

@[simp]
theorem mark_undefined_free_open_file_entries (s : State) : s.mark_undefined.free_open_file_entries = s.free_open_file_entries := rfl

@[simp]
theorem mark_if_free_open_file_entries (s : State) (b : Bool) : (s.mark_if b).free_open_file_entries = s.free_open_file_entries := by
  cases b <;> rfl

@[simp]
theorem mark_undefined_undefined_behaviour (s : State) : s.mark_undefined.undefined_behaviour = true := rfl

@[simp]
theorem mark_if_undefined_behaviour (s : State) (b : Bool) :
    (s.mark_if b).undefined_behaviour = (b || s.undefined_behaviour) := by
  cases b <;> rfl

@[simp]
theorem set_i_node_type_freeinode_ts (s : State) (i : Nat) (v : inode_type) :
    (s.set_i_node_type i v).freeinode_ts = s.freeinode_ts := rfl

@[simp]
theorem set_i_node_type_fs_data (s : State) (i : Nat) (v : inode_type) :
    (s.set_i_node_type i v).fs_data = s.fs_data := rfl

@[simp]
theorem set_i_node_type_free_blocks (s : State) (i : Nat) (v : inode_type) :
    (s.set_i_node_type i v).free_blocks = s.free_blocks := rfl

@[simp]
theorem set_i_node_type_open_file_table (s : State) (i : Nat) (v : inode_type) :
    (s.set_i_node_type i v).open_file_table = s.open_file_table := rfl

@[simp]
theorem set_i_node_type_free_open_file_entries (s : State) (i : Nat) (v : inode_type) :
    (s.set_i_node_type i v).free_open_file_entries = s.free_open_file_entries := rfl

@[simp]
theorem set_i_node_type_undefined_behaviour (s : State) (i : Nat) (v : inode_type) :
    (s.set_i_node_type i v).undefined_behaviour = s.undefined_behaviour := rfl

theorem set_i_node_type_inode_other (s : State) {i j : Nat} (v : inode_type) (h : j ≠ i) :
    (s.set_i_node_type i v).inode_table j = s.inode_table j := by
  simp [State.set_i_node_type, State.set_inode, upd, h]

@[simp]
theorem set_i_node_type_get_same (s : State) (i : Nat) (v : inode_type) :
    ((s.set_i_node_type i v).inode_table i).i_node_type = v := by
  simp [State.set_i_node_type, State.set_inode, upd]

theorem set_i_node_type_get (s : State) (i j : Nat) (v : inode_type) :
    ((s.set_i_node_type i v).inode_table j).i_node_type = if j = i then v else (s.inode_table j).i_node_type := by
  by_cases h : j = i <;> simp [State.set_i_node_type, State.set_inode, upd, h]

@[simp]
theorem set_i_node_type_get_i_size (s : State) (i j : Nat) (v : inode_type) :
    ((s.set_i_node_type i v).inode_table j).i_size = (s.inode_table j).i_size := by
  by_cases h : j = i <;> simp [State.set_i_node_type, State.set_inode, upd, h]

@[simp]
theorem set_i_node_type_get_i_data_block (s : State) (i j : Nat) (v : inode_type) :
    ((s.set_i_node_type i v).inode_table j).i_data_block = (s.inode_table j).i_data_block := by
  by_cases h : j = i <;> simp [State.set_i_node_type, State.set_inode, upd, h]

@[simp]
theorem set_i_node_type_get_number_of_blocks (s : State) (i j : Nat) (v : inode_type) :
    ((s.set_i_node_type i v).inode_table j).number_of_blocks = (s.inode_table j).number_of_blocks := by
  by_cases h : j = i <;> simp [State.set_i_node_type, State.set_inode, upd, h]

@[simp]
theorem set_i_node_type_get_indirection_block (s : State) (i j : Nat) (v : inode_type) :
    ((s.set_i_node_type i v).inode_table j).indirection_block = (s.inode_table j).indirection_block := by
  by_cases h : j = i <;> simp [State.set_i_node_type, State.set_inode, upd, h]

@[simp]
theorem set_i_node_type_get_number_indirect_blocks (s : State) (i j : Nat) (v : inode_type) :
    ((s.set_i_node_type i v).inode_table j).number_indirect_blocks = (s.inode_table j).number_indirect_blocks := by
  by_cases h : j = i <;> simp [State.set_i_node_type, State.set_inode, upd, h]

@[simp]
theorem set_i_size_freeinode_ts (s : State) (i : Nat) (v : Nat) :
    (s.set_i_size i v).freeinode_ts = s.freeinode_ts := rfl

@[simp]
theorem set_i_size_fs_data (s : State) (i : Nat) (v : Nat) :
    (s.set_i_size i v).fs_data = s.fs_data := rfl

@[simp]
theorem set_i_size_free_blocks (s : State) (i : Nat) (v : Nat) :
    (s.set_i_size i v).free_blocks = s.free_blocks := rfl

@[simp]
theorem set_i_size_open_file_table (s : State) (i : Nat) (v : Nat) :
    (s.set_i_size i v).open_file_table = s.open_file_table := rfl

@[simp]
theorem set_i_size_free_open_file_entries (s : State) (i : Nat) (v : Nat) :
    (s.set_i_size i v).free_open_file_entries = s.free_open_file_entries := rfl

@[simp]
theorem set_i_size_undefined_behaviour (s : State) (i : Nat) (v : Nat) :
    (s.set_i_size i v).undefined_behaviour = s.undefined_behaviour := rfl

theorem set_i_size_inode_other (s : State) {i j : Nat} (v : Nat) (h : j ≠ i) :
    (s.set_i_size i v).inode_table j = s.inode_table j := by
  simp [State.set_i_size, State.set_inode, upd, h]

@[simp]
theorem set_i_size_get_i_node_type (s : State) (i j : Nat) (v : Nat) :
    ((s.set_i_size i v).inode_table j).i_node_type = (s.inode_table j).i_node_type := by
  by_cases h : j = i <;> simp [State.set_i_size, State.set_inode, upd, h]

@[simp]
theorem set_i_size_get_same (s : State) (i : Nat) (v : Nat) :
    ((s.set_i_size i v).inode_table i).i_size = v := by
  simp [State.set_i_size, State.set_inode, upd]

theorem set_i_size_get (s : State) (i j : Nat) (v : Nat) :
    ((s.set_i_size i v).inode_table j).i_size = if j = i then v else (s.inode_table j).i_size := by
  by_cases h : j = i <;> simp [State.set_i_size, State.set_inode, upd, h]

@[simp]
theorem set_i_size_get_i_data_block (s : State) (i j : Nat) (v : Nat) :
    ((s.set_i_size i v).inode_table j).i_data_block = (s.inode_table j).i_data_block := by
  by_cases h : j = i <;> simp [State.set_i_size, State.set_inode, upd, h]

@[simp]
theorem set_i_size_get_number_of_blocks (s : State) (i j : Nat) (v : Nat) :
    ((s.set_i_size i v).inode_table j).number_of_blocks = (s.inode_table j).number_of_blocks := by
  by_cases h : j = i <;> simp [State.set_i_size, State.set_inode, upd, h]

@[simp]
theorem set_i_size_get_indirection_block (s : State) (i j : Nat) (v : Nat) :
    ((s.set_i_size i v).inode_table j).indirection_block = (s.inode_table j).indirection_block := by
  by_cases h : j = i <;> simp [State.set_i_size, State.set_inode, upd, h]

@[simp]
theorem set_i_size_get_number_indirect_blocks (s : State) (i j : Nat) (v : Nat) :
    ((s.set_i_size i v).inode_table j).number_indirect_blocks = (s.inode_table j).number_indirect_blocks := by
  by_cases h : j = i <;> simp [State.set_i_size, State.set_inode, upd, h]

@[simp]
theorem set_i_data_block_freeinode_ts (s : State) (i : Nat) (v : List (Option Int)) :
    (s.set_i_data_block i v).freeinode_ts = s.freeinode_ts := rfl

@[simp]
theorem set_i_data_block_fs_data (s : State) (i : Nat) (v : List (Option Int)) :
    (s.set_i_data_block i v).fs_data = s.fs_data := rfl

@[simp]
theorem set_i_data_block_free_blocks (s : State) (i : Nat) (v : List (Option Int)) :
    (s.set_i_data_block i v).free_blocks = s.free_blocks := rfl

@[simp]
theorem set_i_data_block_open_file_table (s : State) (i : Nat) (v : List (Option Int)) :
    (s.set_i_data_block i v).open_file_table = s.open_file_table := rfl

@[simp]
theorem set_i_data_block_free_open_file_entries (s : State) (i : Nat) (v : List (Option Int)) :
    (s.set_i_data_block i v).free_open_file_entries = s.free_open_file_entries := rfl

@[simp]
theorem set_i_data_block_undefined_behaviour (s : State) (i : Nat) (v : List (Option Int)) :
    (s.set_i_data_block i v).undefined_behaviour = s.undefined_behaviour := rfl

theorem set_i_data_block_inode_other (s : State) {i j : Nat} (v : List (Option Int)) (h : j ≠ i) :
    (s.set_i_data_block i v).inode_table j = s.inode_table j := by
  simp [State.set_i_data_block, State.set_inode, upd, h]

@[simp]
theorem set_i_data_block_get_i_node_type (s : State) (i j : Nat) (v : List (Option Int)) :
    ((s.set_i_data_block i v).inode_table j).i_node_type = (s.inode_table j).i_node_type := by
  by_cases h : j = i <;> simp [State.set_i_data_block, State.set_inode, upd, h]

@[simp]
theorem set_i_data_block_get_i_size (s : State) (i j : Nat) (v : List (Option Int)) :
    ((s.set_i_data_block i v).inode_table j).i_size = (s.inode_table j).i_size := by
  by_cases h : j = i <;> simp [State.set_i_data_block, State.set_inode, upd, h]

@[simp]
theorem set_i_data_block_get_same (s : State) (i : Nat) (v : List (Option Int)) :
    ((s.set_i_data_block i v).inode_table i).i_data_block = v := by
  simp [State.set_i_data_block, State.set_inode, upd]

theorem set_i_data_block_get (s : State) (i j : Nat) (v : List (Option Int)) :
    ((s.set_i_data_block i v).inode_table j).i_data_block = if j = i then v else (s.inode_table j).i_data_block := by
  by_cases h : j = i <;> simp [State.set_i_data_block, State.set_inode, upd, h]

@[simp]
theorem set_i_data_block_get_number_of_blocks (s : State) (i j : Nat) (v : List (Option Int)) :
    ((s.set_i_data_block i v).inode_table j).number_of_blocks = (s.inode_table j).number_of_blocks := by
  by_cases h : j = i <;> simp [State.set_i_data_block, State.set_inode, upd, h]

@[simp]
theorem set_i_data_block_get_indirection_block (s : State) (i j : Nat) (v : List (Option Int)) :
    ((s.set_i_data_block i v).inode_table j).indirection_block = (s.inode_table j).indirection_block := by
  by_cases h : j = i <;> simp [State.set_i_data_block, State.set_inode, upd, h]

@[simp]
theorem set_i_data_block_get_number_indirect_blocks (s : State) (i j : Nat) (v : List (Option Int)) :
    ((s.set_i_data_block i v).inode_table j).number_indirect_blocks = (s.inode_table j).number_indirect_blocks := by
  by_cases h : j = i <;> simp [State.set_i_data_block, State.set_inode, upd, h]

@[simp]
theorem set_number_of_blocks_freeinode_ts (s : State) (i : Nat) (v : Nat) :
    (s.set_number_of_blocks i v).freeinode_ts = s.freeinode_ts := rfl

@[simp]
theorem set_number_of_blocks_fs_data (s : State) (i : Nat) (v : Nat) :
    (s.set_number_of_blocks i v).fs_data = s.fs_data := rfl

@[simp]
theorem set_number_of_blocks_free_blocks (s : State) (i : Nat) (v : Nat) :
    (s.set_number_of_blocks i v).free_blocks = s.free_blocks := rfl

@[simp]
theorem set_number_of_blocks_open_file_table (s : State) (i : Nat) (v : Nat) :
    (s.set_number_of_blocks i v).open_file_table = s.open_file_table := rfl

@[simp]
theorem set_number_of_blocks_free_open_file_entries (s : State) (i : Nat) (v : Nat) :
    (s.set_number_of_blocks i v).free_open_file_entries = s.free_open_file_entries := rfl

@[simp]
theorem set_number_of_blocks_undefined_behaviour (s : State) (i : Nat) (v : Nat) :
    (s.set_number_of_blocks i v).undefined_behaviour = s.undefined_behaviour := rfl

theorem set_number_of_blocks_inode_other (s : State) {i j : Nat} (v : Nat) (h : j ≠ i) :
    (s.set_number_of_blocks i v).inode_table j = s.inode_table j := by
  simp [State.set_number_of_blocks, State.set_inode, upd, h]

@[simp]
theorem set_number_of_blocks_get_i_node_type (s : State) (i j : Nat) (v : Nat) :
    ((s.set_number_of_blocks i v).inode_table j).i_node_type = (s.inode_table j).i_node_type := by
  by_cases h : j = i <;> simp [State.set_number_of_blocks, State.set_inode, upd, h]

@[simp]
theorem set_number_of_blocks_get_i_size (s : State) (i j : Nat) (v : Nat) :
    ((s.set_number_of_blocks i v).inode_table j).i_size = (s.inode_table j).i_size := by
  by_cases h : j = i <;> simp [State.set_number_of_blocks, State.set_inode, upd, h]

@[simp]
theorem set_number_of_blocks_get_i_data_block (s : State) (i j : Nat) (v : Nat) :
    ((s.set_number_of_blocks i v).inode_table j).i_data_block = (s.inode_table j).i_data_block := by
  by_cases h : j = i <;> simp [State.set_number_of_blocks, State.set_inode, upd, h]

@[simp]
theorem set_number_of_blocks_get_same (s : State) (i : Nat) (v : Nat) :
    ((s.set_number_of_blocks i v).inode_table i).number_of_blocks = v := by
  simp [State.set_number_of_blocks, State.set_inode, upd]

theorem set_number_of_blocks_get (s : State) (i j : Nat) (v : Nat) :
    ((s.set_number_of_blocks i v).inode_table j).number_of_blocks = if j = i then v else (s.inode_table j).number_of_blocks := by
  by_cases h : j = i <;> simp [State.set_number_of_blocks, State.set_inode, upd, h]

@[simp]
theorem set_number_of_blocks_get_indirection_block (s : State) (i j : Nat) (v : Nat) :
    ((s.set_number_of_blocks i v).inode_table j).indirection_block = (s.inode_table j).indirection_block := by
  by_cases h : j = i <;> simp [State.set_number_of_blocks, State.set_inode, upd, h]

@[simp]
theorem set_number_of_blocks_get_number_indirect_blocks (s : State) (i j : Nat) (v : Nat) :
    ((s.set_number_of_blocks i v).inode_table j).number_indirect_blocks = (s.inode_table j).number_indirect_blocks := by
  by_cases h : j = i <;> simp [State.set_number_of_blocks, State.set_inode, upd, h]

@[simp]
theorem set_indirection_block_freeinode_ts (s : State) (i : Nat) (v : Int) :
    (s.set_indirection_block i v).freeinode_ts = s.freeinode_ts := rfl

@[simp]
theorem set_indirection_block_fs_data (s : State) (i : Nat) (v : Int) :
    (s.set_indirection_block i v).fs_data = s.fs_data := rfl

@[simp]
theorem set_indirection_block_free_blocks (s : State) (i : Nat) (v : Int) :
    (s.set_indirection_block i v).free_blocks = s.free_blocks := rfl

@[simp]
theorem set_indirection_block_open_file_table (s : State) (i : Nat) (v : Int) :
    (s.set_indirection_block i v).open_file_table = s.open_file_table := rfl

@[simp]
theorem set_indirection_block_free_open_file_entries (s : State) (i : Nat) (v : Int) :
    (s.set_indirection_block i v).free_open_file_entries = s.free_open_file_entries := rfl

@[simp]
theorem set_indirection_block_undefined_behaviour (s : State) (i : Nat) (v : Int) :
    (s.set_indirection_block i v).undefined_behaviour = s.undefined_behaviour := rfl

theorem set_indirection_block_inode_other (s : State) {i j : Nat} (v : Int) (h : j ≠ i) :
    (s.set_indirection_block i v).inode_table j = s.inode_table j := by
  simp [State.set_indirection_block, State.set_inode, upd, h]

@[simp]
theorem set_indirection_block_get_i_node_type (s : State) (i j : Nat) (v : Int) :
    ((s.set_indirection_block i v).inode_table j).i_node_type = (s.inode_table j).i_node_type := by
  by_cases h : j = i <;> simp [State.set_indirection_block, State.set_inode, upd, h]

@[simp]
theorem set_indirection_block_get_i_size (s : State) (i j : Nat) (v : Int) :
    ((s.set_indirection_block i v).inode_table j).i_size = (s.inode_table j).i_size := by
  by_cases h : j = i <;> simp [State.set_indirection_block, State.set_inode, upd, h]

@[simp]
theorem set_indirection_block_get_i_data_block (s : State) (i j : Nat) (v : Int) :
    ((s.set_indirection_block i v).inode_table j).i_data_block = (s.inode_table j).i_data_block := by
  by_cases h : j = i <;> simp [State.set_indirection_block, State.set_inode, upd, h]

@[simp]
theorem set_indirection_block_get_number_of_blocks (s : State) (i j : Nat) (v : Int) :
    ((s.set_indirection_block i v).inode_table j).number_of_blocks = (s.inode_table j).number_of_blocks := by
  by_cases h : j = i <;> simp [State.set_indirection_block, State.set_inode, upd, h]

@[simp]
theorem set_indirection_block_get_same (s : State) (i : Nat) (v : Int) :
    ((s.set_indirection_block i v).inode_table i).indirection_block = v := by
  simp [State.set_indirection_block, State.set_inode, upd]

theorem set_indirection_block_get (s : State) (i j : Nat) (v : Int) :
    ((s.set_indirection_block i v).inode_table j).indirection_block = if j = i then v else (s.inode_table j).indirection_block := by
  by_cases h : j = i <;> simp [State.set_indirection_block, State.set_inode, upd, h]

@[simp]
theorem set_indirection_block_get_number_indirect_blocks (s : State) (i j : Nat) (v : Int) :
    ((s.set_indirection_block i v).inode_table j).number_indirect_blocks = (s.inode_table j).number_indirect_blocks := by
  by_cases h : j = i <;> simp [State.set_indirection_block, State.set_inode, upd, h]

@[simp]
theorem set_number_indirect_blocks_freeinode_ts (s : State) (i : Nat) (v : Nat) :
    (s.set_number_indirect_blocks i v).freeinode_ts = s.freeinode_ts := rfl

@[simp]
theorem set_number_indirect_blocks_fs_data (s : State) (i : Nat) (v : Nat) :
    (s.set_number_indirect_blocks i v).fs_data = s.fs_data := rfl

@[simp]
theorem set_number_indirect_blocks_free_blocks (s : State) (i : Nat) (v : Nat) :
    (s.set_number_indirect_blocks i v).free_blocks = s.free_blocks := rfl

@[simp]
theorem set_number_indirect_blocks_open_file_table (s : State) (i : Nat) (v : Nat) :
    (s.set_number_indirect_blocks i v).open_file_table = s.open_file_table := rfl

@[simp]
theorem set_number_indirect_blocks_free_open_file_entries (s : State) (i : Nat) (v : Nat) :
    (s.set_number_indirect_blocks i v).free_open_file_entries = s.free_open_file_entries := rfl

@[simp]
theorem set_number_indirect_blocks_undefined_behaviour (s : State) (i : Nat) (v : Nat) :
    (s.set_number_indirect_blocks i v).undefined_behaviour = s.undefined_behaviour := rfl

theorem set_number_indirect_blocks_inode_other (s : State) {i j : Nat} (v : Nat) (h : j ≠ i) :
    (s.set_number_indirect_blocks i v).inode_table j = s.inode_table j := by
  simp [State.set_number_indirect_blocks, State.set_inode, upd, h]

@[simp]
theorem set_number_indirect_blocks_get_i_node_type (s : State) (i j : Nat) (v : Nat) :
    ((s.set_number_indirect_blocks i v).inode_table j).i_node_type = (s.inode_table j).i_node_type := by
  by_cases h : j = i <;> simp [State.set_number_indirect_blocks, State.set_inode, upd, h]

@[simp]
theorem set_number_indirect_blocks_get_i_size (s : State) (i j : Nat) (v : Nat) :
    ((s.set_number_indirect_blocks i v).inode_table j).i_size = (s.inode_table j).i_size := by
  by_cases h : j = i <;> simp [State.set_number_indirect_blocks, State.set_inode, upd, h]

@[simp]
theorem set_number_indirect_blocks_get_i_data_block (s : State) (i j : Nat) (v : Nat) :
    ((s.set_number_indirect_blocks i v).inode_table j).i_data_block = (s.inode_table j).i_data_block := by
  by_cases h : j = i <;> simp [State.set_number_indirect_blocks, State.set_inode, upd, h]

@[simp]
theorem set_number_indirect_blocks_get_number_of_blocks (s : State) (i j : Nat) (v : Nat) :
    ((s.set_number_indirect_blocks i v).inode_table j).number_of_blocks = (s.inode_table j).number_of_blocks := by
  by_cases h : j = i <;> simp [State.set_number_indirect_blocks, State.set_inode, upd, h]

@[simp]
theorem set_number_indirect_blocks_get_indirection_block (s : State) (i j : Nat) (v : Nat) :
    ((s.set_number_indirect_blocks i v).inode_table j).indirection_block = (s.inode_table j).indirection_block := by
  by_cases h : j = i <;> simp [State.set_number_indirect_blocks, State.set_inode, upd, h]

@[simp]
theorem set_number_indirect_blocks_get_same (s : State) (i : Nat) (v : Nat) :
    ((s.set_number_indirect_blocks i v).inode_table i).number_indirect_blocks = v := by
  simp [State.set_number_indirect_blocks, State.set_inode, upd]

theorem set_number_indirect_blocks_get (s : State) (i j : Nat) (v : Nat) :
    ((s.set_number_indirect_blocks i v).inode_table j).number_indirect_blocks = if j = i then v else (s.inode_table j).number_indirect_blocks := by
  by_cases h : j = i <;> simp [State.set_number_indirect_blocks, State.set_inode, upd, h]

@[simp]
theorem set_of_offset_inode_table (s : State) (h : Nat) (v : Nat) :
    (s.set_of_offset h v).inode_table = s.inode_table := rfl

@[simp]
theorem set_of_offset_freeinode_ts (s : State) (h : Nat) (v : Nat) :
    (s.set_of_offset h v).freeinode_ts = s.freeinode_ts := rfl

@[simp]
theorem set_of_offset_fs_data (s : State) (h : Nat) (v : Nat) :
    (s.set_of_offset h v).fs_data = s.fs_data := rfl

@[simp]
theorem set_of_offset_free_blocks (s : State) (h : Nat) (v : Nat) :
    (s.set_of_offset h v).free_blocks = s.free_blocks := rfl

@[simp]
theorem set_of_offset_free_open_file_entries (s : State) (h : Nat) (v : Nat) :
    (s.set_of_offset h v).free_open_file_entries = s.free_open_file_entries := rfl

@[simp]
theorem set_of_offset_undefined_behaviour (s : State) (h : Nat) (v : Nat) :
    (s.set_of_offset h v).undefined_behaviour = s.undefined_behaviour := rfl

@[simp]
theorem set_of_offset_get_same (s : State) (h : Nat) (v : Nat) :
    ((s.set_of_offset h v).open_file_table h).of_offset = v := by
  simp [State.set_of_offset, upd]

theorem set_of_offset_other (s : State) {h k : Nat} (v : Nat) (hk : k ≠ h) :
    (s.set_of_offset h v).open_file_table k = s.open_file_table k := by
  simp [State.set_of_offset, upd, hk]

@[simp]
theorem set_of_offset_get_of_inumber (s : State) (h k : Nat) (v : Nat) :
    ((s.set_of_offset h v).open_file_table k).of_inumber = (s.open_file_table k).of_inumber := by
  by_cases hk : k = h <;> simp [State.set_of_offset, upd, hk]

theorem same_but_marker_refl (s : State) : same_but_marker s s :=
  ⟨rfl, rfl, rfl, rfl, rfl, rfl⟩

theorem same_but_marker_mark_if (s : State) (b : Bool) : same_but_marker s (s.mark_if b) := by
  simp [same_but_marker]

theorem same_but_marker_trans {s s1 s2 : State} (h1 : same_but_marker s s1)
    (h2 : same_but_marker s1 s2) : same_but_marker s s2 := by
  unfold same_but_marker at *
  refine ⟨?_, ?_, ?_, ?_, ?_, ?_⟩
  · rw [h2.1, h1.1]
  · rw [h2.2.1, h1.2.1]
  · rw [h2.2.2.1, h1.2.2.1]
  · rw [h2.2.2.2.1, h1.2.2.2.1]
  · rw [h2.2.2.2.2.1, h1.2.2.2.2.1]
  · rw [h2.2.2.2.2.2, h1.2.2.2.2.2]

theorem read_direct_same (s : State) (i k : Nat) : same_but_marker s (read_direct s i k).2 := by
  unfold read_direct
  split
  · exact same_but_marker_refl s
  · exact ⟨rfl, rfl, rfl, rfl, rfl, rfl⟩

theorem load_int_same (c : Config) (s : State) (a : Nat) : same_but_marker s (load_int c s a).2 := by
  simp [load_int, same_but_marker]

theorem load_index_same (c : Config) (s : State) (p : Option Nat) (k : Nat) :
    same_but_marker s (load_index c s p k).2 := by
  unfold load_index
  split
  · exact ⟨rfl, rfl, rfl, rfl, rfl, rfl⟩
  · exact load_int_same c s _

theorem inode_invalid_indirect_block_same (c : Config) (s : State) (i k : Nat) :
    same_but_marker s (inode_invalid_indirect_block c s i k).2 := by
  unfold inode_invalid_indirect_block
  split
  · exact same_but_marker_refl s
  · split
    · exact same_but_marker_refl s
    · exact load_int_same c s _

theorem inode_read_locate_same (c : Config) (s : State) (i b : Nat) :
    same_but_marker s (inode_read_locate c s i b).2 := by
  unfold inode_read_locate
  split
  · exact read_direct_same s i b
  · split
    · exact same_but_marker_refl s
    · have h1 := inode_invalid_indirect_block_same c s i (b - DIRECT_BLOCKS_COUNT)
      simp only
      split
      · exact h1
      · exact same_but_marker_trans h1 (load_index_same c _ _ _)

@[simp]
theorem read_direct_inode_table (s : State) (i k : Nat) :
    (read_direct s i k).2.inode_table = s.inode_table :=
  (read_direct_same s i k).1

@[simp]
theorem read_direct_freeinode_ts (s : State) (i k : Nat) :
    (read_direct s i k).2.freeinode_ts = s.freeinode_ts :=
  (read_direct_same s i k).2.1

@[simp]
theorem read_direct_fs_data (s : State) (i k : Nat) :
    (read_direct s i k).2.fs_data = s.fs_data :=
  (read_direct_same s i k).2.2.1

@[simp]
theorem read_direct_free_blocks (s : State) (i k : Nat) :
    (read_direct s i k).2.free_blocks = s.free_blocks :=
  (read_direct_same s i k).2.2.2.1

@[simp]
theorem read_direct_open_file_table (s : State) (i k : Nat) :
    (read_direct s i k).2.open_file_table = s.open_file_table :=
  (read_direct_same s i k).2.2.2.2.1

@[simp]
theorem read_direct_free_open_file_entries (s : State) (i k : Nat) :
    (read_direct s i k).2.free_open_file_entries = s.free_open_file_entries :=
  (read_direct_same s i k).2.2.2.2.2

@[simp]
theorem load_int_inode_table (c : Config) (s : State) (a : Nat) :
    (load_int c s a).2.inode_table = s.inode_table :=
  (load_int_same c s a).1

@[simp]
theorem load_int_freeinode_ts (c : Config) (s : State) (a : Nat) :
    (load_int c s a).2.freeinode_ts = s.freeinode_ts :=
  (load_int_same c s a).2.1

@[simp]
theorem load_int_fs_data (c : Config) (s : State) (a : Nat) :
    (load_int c s a).2.fs_data = s.fs_data :=
  (load_int_same c s a).2.2.1

@[simp]
theorem load_int_free_blocks (c : Config) (s : State) (a : Nat) :
    (load_int c s a).2.free_blocks = s.free_blocks :=
  (load_int_same c s a).2.2.2.1

@[simp]
theorem load_int_open_file_table (c : Config) (s : State) (a : Nat) :
    (load_int c s a).2.open_file_table = s.open_file_table :=
  (load_int_same c s a).2.2.2.2.1

@[simp]
theorem load_int_free_open_file_entries (c : Config) (s : State) (a : Nat) :
    (load_int c s a).2.free_open_file_entries = s.free_open_file_entries :=
  (load_int_same c s a).2.2.2.2.2

@[simp]
theorem load_index_inode_table (c : Config) (s : State) (p : Option Nat) (k : Nat) :
    (load_index c s p k).2.inode_table = s.inode_table :=
  (load_index_same c s p k).1

@[simp]
theorem load_index_freeinode_ts (c : Config) (s : State) (p : Option Nat) (k : Nat) :
    (load_index c s p k).2.freeinode_ts = s.freeinode_ts :=
  (load_index_same c s p k).2.1

@[simp]
theorem load_index_fs_data (c : Config) (s : State) (p : Option Nat) (k : Nat) :
    (load_index c s p k).2.fs_data = s.fs_data :=
  (load_index_same c s p k).2.2.1

@[simp]
theorem load_index_free_blocks (c : Config) (s : State) (p : Option Nat) (k : Nat) :
    (load_index c s p k).2.free_blocks = s.free_blocks :=
  (load_index_same c s p k).2.2.2.1

@[simp]
theorem load_index_open_file_table (c : Config) (s : State) (p : Option Nat) (k : Nat) :
    (load_index c s p k).2.open_file_table = s.open_file_table :=
  (load_index_same c s p k).2.2.2.2.1

@[simp]
theorem load_index_free_open_file_entries (c : Config) (s : State) (p : Option Nat) (k : Nat) :
    (load_index c s p k).2.free_open_file_entries = s.free_open_file_entries :=
  (load_index_same c s p k).2.2.2.2.2

@[simp]
theorem inode_invalid_indirect_block_inode_table (c : Config) (s : State) (i k : Nat) :
    (inode_invalid_indirect_block c s i k).2.inode_table = s.inode_table :=
  (inode_invalid_indirect_block_same c s i k).1

@[simp]
theorem inode_invalid_indirect_block_freeinode_ts (c : Config) (s : State) (i k : Nat) :
    (inode_invalid_indirect_block c s i k).2.freeinode_ts = s.freeinode_ts :=
  (inode_invalid_indirect_block_same c s i k).2.1

@[simp]
theorem inode_invalid_indirect_block_fs_data (c : Config) (s : State) (i k : Nat) :
    (inode_invalid_indirect_block c s i k).2.fs_data = s.fs_data :=
  (inode_invalid_indirect_block_same c s i k).2.2.1

@[simp]
theorem inode_invalid_indirect_block_free_blocks (c : Config) (s : State) (i k : Nat) :
    (inode_invalid_indirect_block c s i k).2.free_blocks = s.free_blocks :=
  (inode_invalid_indirect_block_same c s i k).2.2.2.1

@[simp]
theorem inode_invalid_indirect_block_open_file_table (c : Config) (s : State) (i k : Nat) :
    (inode_invalid_indirect_block c s i k).2.open_file_table = s.open_file_table :=
  (inode_invalid_indirect_block_same c s i k).2.2.2.2.1

@[simp]
theorem inode_invalid_indirect_block_free_open_file_entries (c : Config) (s : State) (i k : Nat) :
    (inode_invalid_indirect_block c s i k).2.free_open_file_entries = s.free_open_file_entries :=
  (inode_invalid_indirect_block_same c s i k).2.2.2.2.2

@[simp]
theorem inode_read_locate_inode_table (c : Config) (s : State) (i b : Nat) :
    (inode_read_locate c s i b).2.inode_table = s.inode_table :=
  (inode_read_locate_same c s i b).1

@[simp]
theorem inode_read_locate_freeinode_ts (c : Config) (s : State) (i b : Nat) :
    (inode_read_locate c s i b).2.freeinode_ts = s.freeinode_ts :=
  (inode_read_locate_same c s i b).2.1

@[simp]
theorem inode_read_locate_fs_data (c : Config) (s : State) (i b : Nat) :
    (inode_read_locate c s i b).2.fs_data = s.fs_data :=
  (inode_read_locate_same c s i b).2.2.1

@[simp]
theorem inode_read_locate_free_blocks (c : Config) (s : State) (i b : Nat) :
    (inode_read_locate c s i b).2.free_blocks = s.free_blocks :=
  (inode_read_locate_same c s i b).2.2.2.1

@[simp]
theorem inode_read_locate_open_file_table (c : Config) (s : State) (i b : Nat) :
    (inode_read_locate c s i b).2.open_file_table = s.open_file_table :=
  (inode_read_locate_same c s i b).2.2.2.2.1

@[simp]
theorem inode_read_locate_free_open_file_entries (c : Config) (s : State) (i b : Nat) :
    (inode_read_locate c s i b).2.free_open_file_entries = s.free_open_file_entries :=
  (inode_read_locate_same c s i b).2.2.2.2.2

@[simp]
theorem store_int_inode_table (c : Config) (s : State) (a : Nat) (v : Int) :
    (store_int c s a v).inode_table = s.inode_table := by
  simp [store_int]

@[simp]
theorem store_int_freeinode_ts (c : Config) (s : State) (a : Nat) (v : Int) :
    (store_int c s a v).freeinode_ts = s.freeinode_ts := by
  simp [store_int]

@[simp]
theorem store_int_free_blocks (c : Config) (s : State) (a : Nat) (v : Int) :
    (store_int c s a v).free_blocks = s.free_blocks := by
  simp [store_int]

@[simp]
theorem store_int_open_file_table (c : Config) (s : State) (a : Nat) (v : Int) :
    (store_int c s a v).open_file_table = s.open_file_table := by
  simp [store_int]

@[simp]
theorem store_int_free_open_file_entries (c : Config) (s : State) (a : Nat) (v : Int) :
    (store_int c s a v).free_open_file_entries = s.free_open_file_entries := by
  simp [store_int]

@[simp]
theorem store_int_fs_data (c : Config) (s : State) (a : Nat) (v : Int) :
    (store_int c s a v).fs_data = write_int s.fs_data a v := by
  simp [store_int]

@[simp]
theorem store_index_inode_table (c : Config) (s : State) (p : Option Nat) (k : Nat) (v : Int) :
    (store_index c s p k v).inode_table = s.inode_table := by
  cases p <;> simp [store_index]

@[simp]
theorem store_index_freeinode_ts (c : Config) (s : State) (p : Option Nat) (k : Nat) (v : Int) :
    (store_index c s p k v).freeinode_ts = s.freeinode_ts := by
  cases p <;> simp [store_index]

@[simp]
theorem store_index_free_blocks (c : Config) (s : State) (p : Option Nat) (k : Nat) (v : Int) :
    (store_index c s p k v).free_blocks = s.free_blocks := by
  cases p <;> simp [store_index]

@[simp]
theorem store_index_open_file_table (c : Config) (s : State) (p : Option Nat) (k : Nat)
    (v : Int) : (store_index c s p k v).open_file_table = s.open_file_table := by
  cases p <;> simp [store_index]

@[simp]
theorem store_index_free_open_file_entries (c : Config) (s : State) (p : Option Nat) (k : Nat)
    (v : Int) : (store_index c s p k v).free_open_file_entries = s.free_open_file_entries := by
  cases p <;> simp [store_index]

@[simp]
theorem data_block_alloc_inode_table (c : Config) (s : State) :
    (data_block_alloc c s).2.inode_table = s.inode_table := by
  unfold data_block_alloc; split <;> rfl

@[simp]
theorem data_block_alloc_freeinode_ts (c : Config) (s : State) :
    (data_block_alloc c s).2.freeinode_ts = s.freeinode_ts := by
  unfold data_block_alloc; split <;> rfl

@[simp]
theorem data_block_alloc_fs_data (c : Config) (s : State) :
    (data_block_alloc c s).2.fs_data = s.fs_data := by
  unfold data_block_alloc; split <;> rfl

@[simp]
theorem data_block_alloc_open_file_table (c : Config) (s : State) :
    (data_block_alloc c s).2.open_file_table = s.open_file_table := by
  unfold data_block_alloc; split <;> rfl

@[simp]
theorem data_block_alloc_free_open_file_entries (c : Config) (s : State) :
    (data_block_alloc c s).2.free_open_file_entries = s.free_open_file_entries := by
  unfold data_block_alloc; split <;> rfl

@[simp]
theorem data_block_alloc_undefined_behaviour (c : Config) (s : State) :
    (data_block_alloc c s).2.undefined_behaviour = s.undefined_behaviour := by
  unfold data_block_alloc; split <;> rfl

@[simp]
theorem write_direct_freeinode_ts (s : State) (i k : Nat) (b : Int) :
    (write_direct s i k b).freeinode_ts = s.freeinode_ts := by
  unfold write_direct; split <;> rfl

@[simp]
theorem write_direct_fs_data (s : State) (i k : Nat) (b : Int) :
    (write_direct s i k b).fs_data = s.fs_data := by
  unfold write_direct; split <;> rfl

@[simp]
theorem write_direct_free_blocks (s : State) (i k : Nat) (b : Int) :
    (write_direct s i k b).free_blocks = s.free_blocks := by
  unfold write_direct; split <;> rfl

@[simp]
theorem write_direct_open_file_table (s : State) (i k : Nat) (b : Int) :
    (write_direct s i k b).open_file_table = s.open_file_table := by
  unfold write_direct; split <;> rfl

@[simp]
theorem write_direct_free_open_file_entries (s : State) (i k : Nat) (b : Int) :
    (write_direct s i k b).free_open_file_entries = s.free_open_file_entries := by
  unfold write_direct; split <;> rfl

@[simp]
theorem write_direct_get_i_size (s : State) (i j k : Nat) (b : Int) :
    ((write_direct s i k b).inode_table j).i_size = (s.inode_table j).i_size := by
  unfold write_direct; split <;> simp

@[simp]
theorem write_direct_get_i_node_type (s : State) (i j k : Nat) (b : Int) :
    ((write_direct s i k b).inode_table j).i_node_type = (s.inode_table j).i_node_type := by
  unfold write_direct; split <;> simp

@[simp]
theorem write_direct_get_number_of_blocks (s : State) (i j k : Nat) (b : Int) :
    ((write_direct s i k b).inode_table j).number_of_blocks
      = (s.inode_table j).number_of_blocks := by
  unfold write_direct; split <;> simp

@[simp]
theorem write_direct_get_indirection_block (s : State) (i j k : Nat) (b : Int) :
    ((write_direct s i k b).inode_table j).indirection_block
      = (s.inode_table j).indirection_block := by
  unfold write_direct; split <;> simp

@[simp]
theorem write_direct_get_number_indirect_blocks (s : State) (i j k : Nat) (b : Int) :
    ((write_direct s i k b).inode_table j).number_indirect_blocks
      = (s.inode_table j).number_indirect_blocks := by
  unfold write_direct; split <;> simp

theorem write_direct_inode_other (s : State) {i j : Nat} (k : Nat) (b : Int) (h : j ≠ i) :
    (write_direct s i k b).inode_table j = s.inode_table j := by
  unfold write_direct; split
  · exact set_i_data_block_inode_other s _ h
  · rfl

@[simp]
theorem write_index_to_block_inode_table (c : Config) (s : State) (i : Nat) (b : Int) :
    (write_index_to_block c s i b).2.inode_table = s.inode_table := by
  unfold write_index_to_block
  split
  · rfl
  · split <;> simp

@[simp]
theorem write_index_to_block_freeinode_ts (c : Config) (s : State) (i : Nat) (b : Int) :
    (write_index_to_block c s i b).2.freeinode_ts = s.freeinode_ts := by
  unfold write_index_to_block
  split
  · rfl
  · split <;> simp

@[simp]
theorem write_index_to_block_free_blocks (c : Config) (s : State) (i : Nat) (b : Int) :
    (write_index_to_block c s i b).2.free_blocks = s.free_blocks := by
  unfold write_index_to_block
  split
  · rfl
  · split <;> simp

@[simp]
theorem write_index_to_block_open_file_table (c : Config) (s : State) (i : Nat) (b : Int) :
    (write_index_to_block c s i b).2.open_file_table = s.open_file_table := by
  unfold write_index_to_block
  split
  · rfl
  · split <;> simp

@[simp]
theorem write_index_to_block_free_open_file_entries (c : Config) (s : State) (i : Nat)
    (b : Int) :
    (write_index_to_block c s i b).2.free_open_file_entries = s.free_open_file_entries := by
  unfold write_index_to_block
  split
  · rfl
  · split <;> simp



/-! ## The loop of `inode_read` -/

theorem lt_block_end {B : Nat} (hB : 0 < B) (o : Nat) : o < (o / B + 1) * B :=
  (Nat.div_lt_iff_lt_mul hB).mp (Nat.lt_succ_self _)

theorem read_direct_congr {s s1 : State} (h : s1.inode_table = s.inode_table) (i k : Nat) :
    (read_direct s1 i k).1 = (read_direct s i k).1 := by
  unfold read_direct
  rw [h]
  split <;> rfl

theorem inode_invalid_indirect_block_congr (c : Config) {s s1 : State}
    (h : s1.inode_table = s.inode_table) (h2 : s1.fs_data = s.fs_data) (i k : Nat) :
    (inode_invalid_indirect_block c s1 i k).1 = (inode_invalid_indirect_block c s i k).1 := by
  unfold inode_invalid_indirect_block
  rw [h]
  split
  · rfl
  · split
    · rfl
    · simp [load_int, h2]

theorem load_index_congr (c : Config) {s s1 : State} (h2 : s1.fs_data = s.fs_data)
    (p : Option Nat) (k : Nat) : (load_index c s1 p k).1 = (load_index c s p k).1 := by
  unfold load_index
  split
  · rfl
  · simp [load_int, h2]

/-- The block that `inode_read_locate` finds depends on the inode table and the block bytes only. -/
theorem inode_read_locate_congr (c : Config) {s s1 : State}
    (h : s1.inode_table = s.inode_table) (h2 : s1.fs_data = s.fs_data) (i b : Nat) :
    (inode_read_locate c s1 i b).1 = (inode_read_locate c s i b).1 := by
  unfold inode_read_locate
  have e0 := read_direct_congr h i b
  have e1 := inode_invalid_indirect_block_congr c h h2 i (b - DIRECT_BLOCKS_COUNT)
  have f1 := inode_invalid_indirect_block_same c s1 i (b - DIRECT_BLOCKS_COUNT)
  have f2 := inode_invalid_indirect_block_same c s i (b - DIRECT_BLOCKS_COUNT)
  have g1 : (inode_invalid_indirect_block c s1 i (b - DIRECT_BLOCKS_COUNT)).2.fs_data
      = (inode_invalid_indirect_block c s i (b - DIRECT_BLOCKS_COUNT)).2.fs_data := by
    rw [f1.2.2.1, f2.2.2.1, h2]
  have g2 : (inode_invalid_indirect_block c s1 i (b - DIRECT_BLOCKS_COUNT)).2.inode_table
      = (inode_invalid_indirect_block c s i (b - DIRECT_BLOCKS_COUNT)).2.inode_table := by
    rw [f1.1, f2.1, h]
  simp only [e0, e1, h, g2, load_index_congr c g1]
  split_ifs <;> rfl

theorem read_frame_refl (fh : Nat) (s : State) : read_frame fh s s :=
  ⟨rfl, rfl, rfl, rfl, rfl, fun _ _ => rfl, rfl⟩

theorem read_frame_trans {fh : Nat} {s s1 s2 : State} (h1 : read_frame fh s s1)
    (h2 : read_frame fh s1 s2) : read_frame fh s s2 := by
  unfold read_frame at *
  refine ⟨?_, ?_, ?_, ?_, ?_, ?_, ?_⟩
  · rw [h2.1, h1.1]
  · rw [h2.2.1, h1.2.1]
  · rw [h2.2.2.1, h1.2.2.1]
  · rw [h2.2.2.2.1, h1.2.2.2.1]
  · rw [h2.2.2.2.2.1, h1.2.2.2.2.1]
  · intro k hk
    rw [h2.2.2.2.2.2.1 k hk, h1.2.2.2.2.2.1 k hk]
  · rw [h2.2.2.2.2.2.2, h1.2.2.2.2.2.2]

theorem read_frame_of_same {fh : Nat} {s s1 : State} (h : same_but_marker s s1) :
    read_frame fh s s1 := by
  obtain ⟨a1, a2, a3, a4, a5, a6⟩ := h
  exact ⟨a1, a2, a3, a4, a6, fun h _ => by rw [a5], by rw [a5]⟩

theorem read_frame_copy (c : Config) (s : State) (fh block size : Nat) :
    read_frame fh s (inode_read_copy c s fh block size) := by
  refine ⟨?_, ?_, ?_, ?_, ?_, ?_, ?_⟩ <;> simp [inode_read_copy]
  intro h hh
  simp [set_of_offset_other _ _ hh]

@[simp]
theorem inode_read_copy_offset (c : Config) (s : State) (fh block size : Nat) :
    ((inode_read_copy c s fh block size).open_file_table fh).of_offset
      = (s.open_file_table fh).of_offset + size := by
  simp [inode_read_copy]

theorem read_block_of_frame (c : Config) {fh : Nat} {s s1 : State} (h : read_frame fh s s1)
    (i off : Nat) : read_block_of c s1 i off = read_block_of c s i off :=
  inode_read_locate_congr c h.1 h.2.2.1 i _

theorem transfer_size_pos (c : Config) (hB : 0 < c.BLOCK_SIZE) (offset left : Nat)
    (h : 0 < left) : 0 < transfer_size c offset (start_block c offset) left := by
  have h1 := lt_block_end hB offset
  have h2 : offset < (start_block c offset + 1) * c.BLOCK_SIZE := by
    unfold start_block
    split
    · calc offset < (offset / c.BLOCK_SIZE + 1) * c.BLOCK_SIZE := h1
        _ ≤ (offset / c.BLOCK_SIZE + 1 + 1) * c.BLOCK_SIZE :=
          Nat.mul_le_mul_right _ (Nat.le_succ _)
    · exact h1
  unfold transfer_size
  simp only
  split <;> omega

theorem transfer_size_le (c : Config) (offset block left : Nat) :
    transfer_size c offset block left ≤ left := by
  unfold transfer_size
  simp only
  split <;> omega

theorem inode_read_loop_spec (c : Config) (hB : 0 < c.BLOCK_SIZE) (fh i : Nat) :
    ∀ (fuel : Nat) (s : State) (out : Nat → Nat) (to_read done : Nat),
      to_read ≤ fuel →
      (s.open_file_table fh).of_offset + to_read ≤ (s.inode_table i).i_size →
      ∃ r s1 out1, inode_read_loop c fh i fuel s out to_read done = some (r, s1, out1)
        ∧ read_frame fh s s1
        ∧ (r = -1 ∨ (r = ((done + to_read : Nat) : Int)
            ∧ (s1.open_file_table fh).of_offset = (s.open_file_table fh).of_offset + to_read))
        ∧ (s.open_file_table fh).of_offset ≤ (s1.open_file_table fh).of_offset
        ∧ (s1.open_file_table fh).of_offset ≤ (s.open_file_table fh).of_offset + to_read
        ∧ ((∀ off, (s.open_file_table fh).of_offset ≤ off →
              off < (s.open_file_table fh).of_offset + to_read →
              ∃ blk, read_block_of c s i off = some (some blk)) →
            r = ((done + to_read : Nat) : Int)) := by
  intro fuel
  induction fuel with
  | zero =>
    intro s out to_read done h1 h2
    have h0 : to_read = 0 := by omega
    subst h0
    refine ⟨(done : Int), s, out, ?_, read_frame_refl fh s, ?_, ?_, ?_, ?_⟩
    · unfold inode_read_loop
      simp
    · right; simp
    · exact Nat.le_refl _
    · simp
    · intro _; simp
  | succ n ih =>
    intro s out to_read done h1 h2
    by_cases hc : to_read > 0 ∧ (s.open_file_table fh).of_offset < (s.inode_table i).i_size
    · unfold inode_read_loop
      simp only [hc, and_self, not_true_eq_false, if_false]
      have hsame := inode_read_locate_same c s i (start_block c (s.open_file_table fh).of_offset)
      have hfr : read_frame fh s
          (inode_read_locate c s i (start_block c (s.open_file_table fh).of_offset)).2 :=
        read_frame_of_same hsame
      rcases hl : (inode_read_locate c s i (start_block c (s.open_file_table fh).of_offset)).1
        with _ | (_ | block)
      · refine ⟨-1, _, out, rfl, hfr, Or.inl rfl, ?_, ?_, ?_⟩
        · rw [hsame.2.2.2.2.1]
        · rw [hsame.2.2.2.2.1]; omega
        · intro hv
          obtain ⟨blk, hb⟩ := hv _ (Nat.le_refl _) (by omega)
          simp [read_block_of, hl] at hb
      · refine ⟨-1, _, out, rfl, hfr, Or.inl rfl, ?_, ?_, ?_⟩
        · rw [hsame.2.2.2.2.1]
        · rw [hsame.2.2.2.2.1]; omega
        · intro hv
          obtain ⟨blk, hb⟩ := hv _ (Nat.le_refl _) (by omega)
          simp [read_block_of, hl] at hb
      · simp only [hsame.2.2.2.2.1]
        have hpos := transfer_size_pos c hB (s.open_file_table fh).of_offset to_read hc.1
        have hle := transfer_size_le c (s.open_file_table fh).of_offset
          (start_block c (s.open_file_table fh).of_offset) to_read
        generalize hsz : transfer_size c (s.open_file_table fh).of_offset
          (start_block c (s.open_file_table fh).of_offset) to_read = size at hpos hle
        have hfr2 := read_frame_trans hfr (read_frame_copy c
          (inode_read_locate c s i (start_block c (s.open_file_table fh).of_offset)).2 fh block size)
        have hoff : ((inode_read_copy c
            (inode_read_locate c s i (start_block c (s.open_file_table fh).of_offset)).2 fh block
              size).open_file_table fh).of_offset = (s.open_file_table fh).of_offset + size := by
          rw [inode_read_copy_offset, hsame.2.2.2.2.1]
        obtain ⟨r, s1, out1, e1, e2, e3, e4, e5, e6⟩ := ih
          (inode_read_copy c
            (inode_read_locate c s i (start_block c (s.open_file_table fh).of_offset)).2 fh block
              size)
          (memcpy out done (fun j =>
            (inode_read_locate c s i (start_block c (s.open_file_table fh).of_offset)).2.fs_data
              (block + (s.open_file_table fh).of_offset % c.BLOCK_SIZE + j)) size)
          (to_read - size) (done + size) (by omega) (by rw [hoff, hfr2.1]; omega)
        rw [hoff] at e3 e4 e5 e6
        refine ⟨r, s1, out1, e1, read_frame_trans hfr2 e2, ?_, by omega, by omega, ?_⟩
        · rcases e3 with e3 | ⟨e3, e3'⟩
          · exact Or.inl e3
          · right
            constructor
            · rw [e3]; congr 1; omega
            · omega
        · intro hv
          have := e6 (fun off ho1 ho2 => by
            rw [read_block_of_frame c hfr2]
            exact hv off (by omega) (by omega))
          rw [this]; congr 1; omega
    · have h0 : to_read = 0 := by omega
      subst h0
      refine ⟨(done : Int), s, out, ?_, read_frame_refl fh s, ?_, ?_, ?_, ?_⟩
      · unfold inode_read_loop
        simp
      · right; simp
      · exact Nat.le_refl _
      · simp
      · intro _; simp


/-! ## What block allocation and block-index bookkeeping leave alone -/

theorem meta_frame_refl (s : State) : meta_frame s s :=
  ⟨rfl, rfl, rfl, fun _ => ⟨rfl, rfl⟩⟩

theorem meta_frame_trans {s s1 s2 : State} (h1 : meta_frame s s1) (h2 : meta_frame s1 s2) :
    meta_frame s s2 := by
  unfold meta_frame at *
  refine ⟨?_, ?_, ?_, fun j => ⟨?_, ?_⟩⟩
  · rw [h2.1, h1.1]
  · rw [h2.2.1, h1.2.1]
  · rw [h2.2.2.1, h1.2.2.1]
  · rw [(h2.2.2.2 j).1, (h1.2.2.2 j).1]
  · rw [(h2.2.2.2 j).2, (h1.2.2.2 j).2]

theorem meta_frame_inode_write_locate (c : Config) (s : State) (i b : Nat) :
    meta_frame s (inode_write_locate c s i b).2 := by
  unfold inode_write_locate
  simp only [meta_frame]
  split_ifs <;> simp

theorem meta_frame_inode_inicialize_direct_blocks_loop (c : Config) (i : Nat) :
    ∀ (n k : Nat) (s : State),
      meta_frame s (inode_inicialize_direct_blocks_loop c i n k s).2 := by
  intro n
  induction n with
  | zero => intro k s; exact meta_frame_refl s
  | succ n ih =>
    intro k s
    unfold inode_inicialize_direct_blocks_loop
    simp only
    have h1 : meta_frame s
        (write_direct (data_block_alloc c s).2 i k (data_block_alloc c s).1) := by
      simp [meta_frame]
    split
    · exact h1
    · exact meta_frame_trans h1 (ih _ _)

theorem meta_frame_inode_inicialize_direct_blocks (c : Config) (s : State) (i a b : Nat) :
    meta_frame s (inode_inicialize_direct_blocks c s i a b).2 := by
  unfold inode_inicialize_direct_blocks
  split
  · exact meta_frame_refl s
  · exact meta_frame_inode_inicialize_direct_blocks_loop c i _ _ s

theorem meta_frame_inode_inicialize_indirect_blocks_loop (c : Config) (i p e : Nat) :
    ∀ (n k : Nat) (s : State),
      meta_frame s (inode_inicialize_indirect_blocks_loop c i p e n k s) := by
  intro n
  induction n with
  | zero => intro k s; exact meta_frame_refl s
  | succ n ih =>
    intro k s
    unfold inode_inicialize_indirect_blocks_loop
    split
    · refine meta_frame_trans ?_ (ih _ _)
      simp [meta_frame]
    · refine meta_frame_trans ?_ (ih _ _)
      simp [meta_frame]

theorem meta_frame_inode_inicialize_indirect_blocks (c : Config) (s : State) (i a b : Nat) :
    meta_frame s (inode_inicialize_indirect_blocks c s i a b).2 := by
  unfold inode_inicialize_indirect_blocks
  simp only
  split
  · exact meta_frame_refl s
  · split
    · exact meta_frame_refl s
    · split
      · exact meta_frame_refl s
      · exact meta_frame_inode_inicialize_indirect_blocks_loop c i _ _ _ _ s

theorem meta_frame_inode_add_blocks_direct (c : Config) (s : State) (i n : Nat) :
    meta_frame s (inode_add_blocks_direct c s i n).1 := by
  unfold inode_add_blocks_direct
  split
  · simp only
    have h1 : meta_frame s (s.set_i_data_block i
        (realloc (s.inode_table i).i_data_block ((s.inode_table i).number_of_blocks
          + (if DIRECT_BLOCKS_COUNT - (s.inode_table i).number_of_blocks > n then n
              else DIRECT_BLOCKS_COUNT - (s.inode_table i).number_of_blocks)))) := by
      simp [meta_frame]
    have h2 := meta_frame_trans h1 (meta_frame_inode_inicialize_direct_blocks c _ i
      ((s.set_i_data_block i
        (realloc (s.inode_table i).i_data_block ((s.inode_table i).number_of_blocks
          + (if DIRECT_BLOCKS_COUNT - (s.inode_table i).number_of_blocks > n then n
              else DIRECT_BLOCKS_COUNT - (s.inode_table i).number_of_blocks)))).inode_table
                i).number_of_blocks
      (((s.set_i_data_block i
        (realloc (s.inode_table i).i_data_block ((s.inode_table i).number_of_blocks
          + (if DIRECT_BLOCKS_COUNT - (s.inode_table i).number_of_blocks > n then n
              else DIRECT_BLOCKS_COUNT - (s.inode_table i).number_of_blocks)))).inode_table
                i).number_of_blocks
        + (if DIRECT_BLOCKS_COUNT - (s.inode_table i).number_of_blocks > n then n
              else DIRECT_BLOCKS_COUNT - (s.inode_table i).number_of_blocks)))
    refine meta_frame_trans h2 ?_
    simp [meta_frame]
  · exact meta_frame_refl s

theorem meta_frame_inode_add_blocks_indirect (c : Config) (s : State) (i n : Nat) :
    meta_frame s (inode_add_blocks_indirect c s i n).2 := by
  unfold inode_add_blocks_indirect
  split
  · simp only
    have h1 : meta_frame s ((data_block_alloc c s).2.set_indirection_block i
        (data_block_alloc c s).1) := by
      simp [meta_frame]
    split
    · exact h1
    · exact meta_frame_trans h1 (meta_frame_inode_inicialize_indirect_blocks c _ i _ _)
  · exact meta_frame_refl s

theorem meta_frame_inode_add_blocks (c : Config) (s : State) (inumber : Int) (sz off : Nat) :
    meta_frame s (inode_add_blocks c s inumber sz off).2 := by
  unfold inode_add_blocks
  split
  · exact meta_frame_refl s
  · simp only
    split
    · exact meta_frame_refl s
    · split
      · exact meta_frame_refl s
      · exact meta_frame_trans (meta_frame_inode_add_blocks_direct c s _ _)
          (meta_frame_inode_add_blocks_indirect c _ _ _)



/-! ## The loop of `inode_write` -/

theorem write_frame_refl (fh i : Nat) (s : State) : write_frame fh i s s :=
  ⟨rfl, rfl, fun _ _ => rfl, rfl, fun _ => rfl, fun _ _ => rfl⟩

theorem write_frame_trans {fh i : Nat} {s s1 s2 : State} (h1 : write_frame fh i s s1)
    (h2 : write_frame fh i s1 s2) : write_frame fh i s s2 := by
  unfold write_frame at *
  refine ⟨?_, ?_, ?_, ?_, ?_, ?_⟩
  · rw [h2.1, h1.1]
  · rw [h2.2.1, h1.2.1]
  · intro k hk
    rw [h2.2.2.1 k hk, h1.2.2.1 k hk]
  · rw [h2.2.2.2.1, h1.2.2.2.1]
  · intro j
    rw [h2.2.2.2.2.1 j, h1.2.2.2.2.1 j]
  · intro j hj
    rw [h2.2.2.2.2.2 j hj, h1.2.2.2.2.2 j hj]

theorem write_frame_of_meta {fh i : Nat} {s s1 : State} (h : meta_frame s s1) :
    write_frame fh i s s1 := by
  obtain ⟨a1, a2, a3, a4⟩ := h
  exact ⟨a2, a3, fun h _ => by rw [a1], by rw [a1], fun j => (a4 j).2, fun j _ => (a4 j).1⟩

@[simp]
theorem inode_write_copy_offset (c : Config) (s : State) (fh i : Nat) (buf : Nat → Nat)
    (block size done : Nat) :
    ((inode_write_copy c s fh i buf block size done).open_file_table fh).of_offset
      = (s.open_file_table fh).of_offset + size := by
  unfold inode_write_copy
  simp only
  split <;> simp

theorem inode_write_copy_size (c : Config) (s : State) (fh i : Nat) (buf : Nat → Nat)
    (block size done : Nat) :
    ((inode_write_copy c s fh i buf block size done).inode_table i).i_size
      = max (s.inode_table i).i_size ((s.open_file_table fh).of_offset + size) := by
  unfold inode_write_copy
  simp only
  split
  · rename_i h
    simp at h
    simp
    omega
  · rename_i h
    simp at h
    simp
    omega

theorem inode_write_copy_frame (c : Config) (s : State) (fh i : Nat) (buf : Nat → Nat)
    (block size done : Nat) :
    write_frame fh i s (inode_write_copy c s fh i buf block size done) := by
  unfold inode_write_copy
  simp only
  split
  · refine ⟨?_, ?_, ?_, ?_, ?_, ?_⟩ <;> simp
    · intro h hh
      simp [set_of_offset_other _ _ hh]
    · intro j hj
      rw [set_i_size_inode_other _ _ hj]
      simp
  · refine ⟨?_, ?_, ?_, ?_, ?_, ?_⟩ <;> simp
    · intro h hh
      simp [set_of_offset_other _ _ hh]

theorem skip_index_block_ge (b : Nat) : b ≤ skip_index_block b := by
  unfold skip_index_block
  split <;> omega

theorem transfer_size_pos_of_lt (c : Config) (offset block left : Nat)
    (h1 : offset < (block + 1) * c.BLOCK_SIZE) (h : 0 < left) :
    0 < transfer_size c offset block left := by
  unfold transfer_size
  simp only
  split <;> omega

theorem transfer_size_le_room (c : Config) (offset block left : Nat) :
    offset + transfer_size c offset block left ≤ max offset ((block + 1) * c.BLOCK_SIZE) := by
  unfold transfer_size
  simp only
  split <;> omega

theorem inode_write_loop_spec (c : Config) (hB : 0 < c.BLOCK_SIZE) (fh i : Nat)
    (buf : Nat → Nat) :
    ∀ (fuel : Nat) (s : State) (to_write btw done : Nat),
      to_write ≤ fuel →
      (s.open_file_table fh).of_offset < (btw + 1) * c.BLOCK_SIZE →
      (s.open_file_table fh).of_offset ≤ (s.inode_table i).i_size →
      ∃ r s1, inode_write_loop c fh i buf fuel s to_write btw done = some (r, s1)
        ∧ write_frame fh i s s1
        ∧ (r = -1 ∨ (r = ((done + to_write : Nat) : Int)
            ∧ (s1.open_file_table fh).of_offset = (s.open_file_table fh).of_offset + to_write
            ∧ (s1.inode_table i).i_size
              = max (s.inode_table i).i_size ((s.open_file_table fh).of_offset + to_write))) := by
  intro fuel
  induction fuel with
  | zero =>
    intro s to_write btw done h1 h2 h3
    have h0 : to_write = 0 := by omega
    subst h0
    refine ⟨(done : Int), s, ?_, write_frame_refl fh i s, Or.inr ⟨by simp, by simp, ?_⟩⟩
    · unfold inode_write_loop
      simp
    · simp; omega
  | succ n ih =>
    intro s to_write btw done h1 h2 h3
    by_cases hc : to_write = 0
    · subst hc
      refine ⟨(done : Int), s, ?_, write_frame_refl fh i s, Or.inr ⟨by simp, by simp, ?_⟩⟩
      · unfold inode_write_loop
        simp
      · simp; omega
    · unfold inode_write_loop
      simp only [hc, if_false]
      have hmeta := meta_frame_inode_write_locate c s i (skip_index_block btw)
      have hfr : write_frame fh i s (inode_write_locate c s i (skip_index_block btw)).2 :=
        write_frame_of_meta hmeta
      rcases hl : (inode_write_locate c s i (skip_index_block btw)).1 with _ | (_ | block)
      · exact ⟨-1, _, rfl, hfr, Or.inl rfl⟩
      · exact ⟨-1, _, rfl, hfr, Or.inl rfl⟩
      · simp only [hmeta.1]
        have hge := skip_index_block_ge btw
        have hlt : (s.open_file_table fh).of_offset < (skip_index_block btw + 1) * c.BLOCK_SIZE :=
          lt_of_lt_of_le h2 (Nat.mul_le_mul_right _ (by omega))
        have hpos := transfer_size_pos_of_lt c (s.open_file_table fh).of_offset
          (skip_index_block btw) to_write hlt (by omega)
        have hle := transfer_size_le c (s.open_file_table fh).of_offset
          (skip_index_block btw) to_write
        have hroom := transfer_size_le_room c (s.open_file_table fh).of_offset
          (skip_index_block btw) to_write
        generalize hsz : transfer_size c (s.open_file_table fh).of_offset
          (skip_index_block btw) to_write = size at hpos hle hroom
        generalize hs1 : (inode_write_locate c s i (skip_index_block btw)).2 = s1 at hmeta hfr
        have hoff : ((inode_write_copy c s1 fh i buf block size done).open_file_table fh).of_offset
            = (s.open_file_table fh).of_offset + size := by
          rw [inode_write_copy_offset, hmeta.1]
        have hsize : ((inode_write_copy c s1 fh i buf block size done).inode_table i).i_size
            = max (s.inode_table i).i_size ((s.open_file_table fh).of_offset + size) := by
          rw [inode_write_copy_size, hmeta.1, (hmeta.2.2.2 i).1]
        have hfr2 := write_frame_trans hfr (inode_write_copy_frame c s1 fh i buf block size done)
        have hinv : ((inode_write_copy c s1 fh i buf block size done).open_file_table fh).of_offset
            < ((if ((inode_write_copy c s1 fh i buf block size done).open_file_table
                  fh).of_offset % c.BLOCK_SIZE = 0 then skip_index_block btw + 1
                else skip_index_block btw) + 1) * c.BLOCK_SIZE := by
          rw [hoff]
          have hmax : (s.open_file_table fh).of_offset + size
              ≤ (skip_index_block btw + 1) * c.BLOCK_SIZE := by omega
          split
          · calc (s.open_file_table fh).of_offset + size
                ≤ (skip_index_block btw + 1) * c.BLOCK_SIZE := hmax
              _ < (skip_index_block btw + 1) * c.BLOCK_SIZE + c.BLOCK_SIZE := by omega
              _ = (skip_index_block btw + 1 + 1) * c.BLOCK_SIZE := by
                rw [Nat.add_mul (skip_index_block btw + 1) 1, Nat.one_mul]
          · rename_i hne
            rcases Nat.lt_or_eq_of_le hmax with hlt2 | heq
            · exact hlt2
            · exfalso
              apply hne
              rw [heq]
              exact Nat.mul_mod_left _ _
        obtain ⟨r, s2, e1, e2, e3⟩ := ih (inode_write_copy c s1 fh i buf block size done)
          (to_write - size)
          (if ((inode_write_copy c s1 fh i buf block size done).open_file_table
              fh).of_offset % c.BLOCK_SIZE = 0 then skip_index_block btw + 1
            else skip_index_block btw)
          (done + size) (by omega) hinv (by rw [hoff, hsize]; omega)
        refine ⟨r, s2, e1, write_frame_trans hfr2 e2, ?_⟩
        rcases e3 with e3 | ⟨e3, e4, e5⟩
        · exact Or.inl e3
        · right
          refine ⟨?_, ?_, ?_⟩
          · rw [e3]; congr 1; omega
          · rw [e4, hoff]; omega
          · rw [e5, hoff, hsize]; omega



/-! ## `inode_read` and `inode_write` as a whole -/

theorem is_found_iff (x : Option (Option Nat)) : is_found x = true ↔ ∃ blk, x = some (some blk) := by
  rcases x with _ | (_ | b) <;> simp [is_found]

theorem clamp_offset_read_frame (s : State) (fh i : Nat) :
    read_frame fh s (clamp_offset s fh i) := by
  unfold clamp_offset
  split
  · refine ⟨rfl, rfl, rfl, rfl, rfl, ?_, ?_⟩
    · intro h hh
      exact set_of_offset_other _ _ hh
    · simp
  · exact read_frame_refl fh s

theorem clamp_offset_offset (s : State) (fh i : Nat) :
    ((clamp_offset s fh i).open_file_table fh).of_offset
      = min (s.open_file_table fh).of_offset (s.inode_table i).i_size := by
  unfold clamp_offset
  split
  · simp; omega
  · omega

theorem clamp_offset_of_le (s : State) (fh i : Nat)
    (h : (s.open_file_table fh).of_offset ≤ (s.inode_table i).i_size) :
    clamp_offset s fh i = s := by
  unfold clamp_offset
  rw [if_neg (by omega)]

theorem clamp_offset_of_gt (s : State) (fh i : Nat)
    (h : (s.open_file_table fh).of_offset > (s.inode_table i).i_size) :
    clamp_offset s fh i = s.set_of_offset fh (s.inode_table i).i_size := by
  unfold clamp_offset
  rw [if_pos h]

theorem clamp_offset_idem (s : State) (fh i : Nat) :
    clamp_offset (clamp_offset s fh i) fh i = clamp_offset s fh i := by
  apply clamp_offset_of_le
  rw [clamp_offset_offset, (clamp_offset_read_frame s fh i).1]
  omega

theorem inode_read_spec (c : Config) (hB : 0 < c.BLOCK_SIZE) (s : State) (fh i : Nat)
    (buffer : Nat → Nat) (len : Nat) :
    ∃ r s1 out, inode_read c s fh i buffer len = some (r, s1, out)
      ∧ read_frame fh s s1
      ∧ (r = -1 ∨ (r = ((min len ((s.inode_table i).i_size - (s.open_file_table fh).of_offset)
              : Nat) : Int)
          ∧ (s1.open_file_table fh).of_offset
            = min (s.open_file_table fh).of_offset (s.inode_table i).i_size
              + min len ((s.inode_table i).i_size - (s.open_file_table fh).of_offset)))
      ∧ (blocks_valid c s i →
          r = ((min len ((s.inode_table i).i_size - (s.open_file_table fh).of_offset) : Nat)
            : Int)) := by
  have hcf := clamp_offset_read_frame s fh i
  have hco := clamp_offset_offset s fh i
  unfold inode_read
  simp only
  rw [hcf.1, hco]
  have hmin : (if (s.inode_table i).i_size
        - min (s.open_file_table fh).of_offset (s.inode_table i).i_size > len then len
      else (s.inode_table i).i_size
        - min (s.open_file_table fh).of_offset (s.inode_table i).i_size)
      = min len ((s.inode_table i).i_size - (s.open_file_table fh).of_offset) := by
    split <;> omega
  rw [hmin]
  obtain ⟨r, s1, out, e1, e2, e3, _, _, e6⟩ := inode_read_loop_spec c hB fh i
    (min len ((s.inode_table i).i_size - (s.open_file_table fh).of_offset))
    (clamp_offset s fh i) buffer
    (min len ((s.inode_table i).i_size - (s.open_file_table fh).of_offset)) 0
    (Nat.le_refl _) (by rw [hco, hcf.1]; omega)
  refine ⟨r, s1, out, e1, read_frame_trans hcf e2, ?_, ?_⟩
  · rcases e3 with e3 | ⟨e3, e4⟩
    · exact Or.inl e3
    · right
      rw [hco] at e4
      exact ⟨by simpa using e3, e4⟩
  · intro hv
    have := e6 (fun off _ ho2 => by
      rw [read_block_of_frame c hcf]
      exact (is_found_iff _).mp (hv off (by rw [hco] at ho2; omega)))
    simpa using this

/-- What `inode_write` does before its loop: both offset checks, the clamp of `to_write`, and
the call of `inode_add_blocks`; the state, the clamped `to_write` and `block_to_write`. -/
theorem inode_write_eq (c : Config) (s : State) (fh i : Nat) (buffer : Nat → Nat) (n : Nat) :
    inode_write c s fh i buffer n = inode_write c (clamp_offset s fh i) fh i buffer n := by
  unfold inode_write
  simp only [clamp_offset_idem]

theorem inode_write_spec (c : Config) (hB : 0 < c.BLOCK_SIZE) (s : State) (fh i : Nat)
    (buffer : Nat → Nat) (n : Nat) :
    ∃ r s1, inode_write c s fh i buffer n = some (r, s1)
      ∧ write_frame fh i s s1
      ∧ (r = -1 ∨ (0 ≤ r
          ∧ (s1.open_file_table fh).of_offset
            = min (s.open_file_table fh).of_offset (s.inode_table i).i_size + r.toNat
          ∧ (s1.inode_table i).i_size
            = max (s.inode_table i).i_size
              (min (s.open_file_table fh).of_offset (s.inode_table i).i_size + r.toNat)
          ∧ (((min (s.open_file_table fh).of_offset (s.inode_table i).i_size + n) % SIZE_MAX1
              ≤ c.CAPACITY) → r = (n : Int)))) := by
  have hcf := clamp_offset_read_frame s fh i
  have hco := clamp_offset_offset s fh i
  unfold inode_write
  simp only [clamp_offset_idem]
  generalize hs0 : clamp_offset s fh i = s0 at hcf hco
  generalize htw : (if ((s0.open_file_table fh).of_offset + n) % SIZE_MAX1 > c.CAPACITY then
      (c.CAPACITY + SIZE_MAX1 - (s0.open_file_table fh).of_offset % SIZE_MAX1) % SIZE_MAX1
    else n) = tw
  have hfr0 : write_frame fh i s s0 :=
    ⟨hcf.2.2.2.2.1, hcf.2.1, hcf.2.2.2.2.2.1, hcf.2.2.2.2.2.2, fun j => by rw [hcf.1],
      fun j _ => by rw [hcf.1]⟩
  have hmeta : meta_frame s0
      (if tw > (s0.inode_table i).i_size then
        (inode_add_blocks c s0 (s0.open_file_table fh).of_inumber tw
          (s0.open_file_table fh).of_offset).2
      else if ((s0.open_file_table fh).of_offset + tw) % SIZE_MAX1
          ≥ ((s0.inode_table i).number_of_blocks + (s0.inode_table i).number_indirect_blocks)
            * c.BLOCK_SIZE then
        (inode_add_blocks c s0 (s0.open_file_table fh).of_inumber
          (if tw < c.BLOCK_SIZE then c.BLOCK_SIZE else tw) (s0.open_file_table fh).of_offset).2
      else s0) := by
    split
    · exact meta_frame_inode_add_blocks c _ _ _ _
    · split
      · exact meta_frame_inode_add_blocks c _ _ _ _
      · exact meta_frame_refl s0
  generalize hs3 : (if tw > (s0.inode_table i).i_size then
        (inode_add_blocks c s0 (s0.open_file_table fh).of_inumber tw
          (s0.open_file_table fh).of_offset).2
      else if ((s0.open_file_table fh).of_offset + tw) % SIZE_MAX1
          ≥ ((s0.inode_table i).number_of_blocks + (s0.inode_table i).number_indirect_blocks)
            * c.BLOCK_SIZE then
        (inode_add_blocks c s0 (s0.open_file_table fh).of_inumber
          (if tw < c.BLOCK_SIZE then c.BLOCK_SIZE else tw) (s0.open_file_table fh).of_offset).2
      else s0) = s3 at hmeta
  have hlt : (s3.open_file_table fh).of_offset
      < (start_block c (s0.open_file_table fh).of_offset + 1) * c.BLOCK_SIZE := by
    rw [hmeta.1]
    have h1 := lt_block_end hB (s0.open_file_table fh).of_offset
    unfold start_block
    split
    · exact lt_of_lt_of_le h1 (Nat.mul_le_mul_right _ (Nat.le_succ _))
    · exact h1
  obtain ⟨r, s1, e1, e2, e3⟩ := inode_write_loop_spec c hB fh i buffer tw s3 tw
    (start_block c (s0.open_file_table fh).of_offset) 0 (Nat.le_refl _) hlt
    (by rw [hmeta.1, (hmeta.2.2.2 i).1, hco, hcf.1]; omega)
  refine ⟨r, s1, e1, write_frame_trans hfr0 (write_frame_trans (write_frame_of_meta hmeta) e2), ?_⟩
  rcases e3 with e3 | ⟨e3, e4, e5⟩
  · exact Or.inl e3
  · right
    rw [hmeta.1, hco] at e4
    rw [hmeta.1, (hmeta.2.2.2 i).1, hco, hcf.1] at e5
    simp only [Nat.zero_add] at e3
    subst e3
    refine ⟨Int.ofNat_nonneg _, by simpa using e4, by simpa using e5, ?_⟩
    intro hcap
    rw [hco] at htw
    rw [if_neg (by omega)] at htw
    rw [htw]



/-! ## The open-file table is left alone by truncation -/

@[simp]
theorem data_block_free_open_file_table (c : Config) (s : State) (b : Int) :
    (data_block_free c s b).2.open_file_table = s.open_file_table := by
  unfold data_block_free; split <;> rfl

@[simp]
theorem data_block_free_free_open_file_entries (c : Config) (s : State) (b : Int) :
    (data_block_free c s b).2.free_open_file_entries = s.free_open_file_entries := by
  unfold data_block_free; split <;> rfl

theorem open_files_same_trans {s s1 s2 : State} (h1 : open_files_same s s1)
    (h2 : open_files_same s1 s2) : open_files_same s s2 :=
  ⟨h2.1.trans h1.1, h2.2.trans h1.2⟩

theorem inode_free_direct_blocks_loop_open_files (c : Config) (i : Nat) :
    ∀ (n k : Nat) (s : State),
      open_files_same s (inode_free_direct_blocks_loop c i n k s).2 := by
  intro n
  induction n with
  | zero => intro k s; exact ⟨rfl, rfl⟩
  | succ n ih =>
    intro k s
    unfold inode_free_direct_blocks_loop
    simp only
    split
    · simp [open_files_same]
    · refine open_files_same_trans ?_ (ih _ _)
      simp [open_files_same]

theorem inode_free_direct_blocks_open_files (c : Config) (s : State) (i : Nat) :
    open_files_same s (inode_free_direct_blocks c s i).2 := by
  have h := inode_free_direct_blocks_loop_open_files c i DIRECT_BLOCKS_COUNT 0 s
  unfold inode_free_direct_blocks
  simp only
  split
  · exact h
  · exact ⟨by simpa using h.1, by simpa using h.2⟩

theorem inode_free_indirect_blocks_loop_open_files (c : Config) (p : Nat) :
    ∀ (n k : Nat) (s : State),
      open_files_same s (inode_free_indirect_blocks_loop c p n k s).2 := by
  intro n
  induction n with
  | zero => intro k s; exact ⟨rfl, rfl⟩
  | succ n ih =>
    intro k s
    unfold inode_free_indirect_blocks_loop
    simp only
    split
    · split
      · simp [open_files_same]
      · refine open_files_same_trans ?_ (ih _ _)
        simp [open_files_same]
    · simp [open_files_same]

theorem inode_free_indirect_blocks_open_files (c : Config) (s : State) (i : Nat) :
    open_files_same s (inode_free_indirect_blocks c s i).2 := by
  unfold inode_free_indirect_blocks
  split
  · exact ⟨rfl, rfl⟩
  · rename_i p _
    have h := inode_free_indirect_blocks_loop_open_files c p (c.INDEX_COUNT - 1) 1 s
    simp only
    split
    · exact h
    · split
      · exact ⟨by simpa using h.1, by simpa using h.2⟩
      · exact ⟨by simpa using h.1, by simpa using h.2⟩

theorem inode_alloc_first_block_open_files (c : Config) (s : State) (inum : Int) :
    open_files_same s (inode_alloc_first_block c s inum).2 := by
  unfold inode_alloc_first_block
  split
  · exact ⟨rfl, rfl⟩
  · simp only
    split <;> simp [open_files_same]

theorem tfs_open_trunc_direct_open_files (c : Config) (s : State) (i : Nat) :
    open_files_same s (tfs_open_trunc_direct c s i).2 := by
  unfold tfs_open_trunc_direct
  simp only
  split <;> exact inode_free_direct_blocks_open_files c s i

theorem tfs_open_trunc_free_open_files (c : Config) (s : State) (i : Nat) :
    open_files_same s (tfs_open_trunc_free c s i).2 := by
  unfold tfs_open_trunc_free
  split
  · split
    · simp only
      split
      · exact inode_free_indirect_blocks_open_files c s i
      · exact open_files_same_trans (inode_free_indirect_blocks_open_files c s i)
          (tfs_open_trunc_direct_open_files c _ i)
    · exact tfs_open_trunc_direct_open_files c s i
  · exact ⟨rfl, rfl⟩

theorem tfs_open_trunc_open_files (c : Config) (s : State) (inum : Int) (i : Nat) :
    open_files_same s (tfs_open_trunc c s inum i).2 := by
  unfold tfs_open_trunc
  simp only
  have h1 := tfs_open_trunc_free_open_files c s i
  split
  · exact h1
  · have h2 := open_files_same_trans h1 (open_files_same_trans ⟨rfl, rfl⟩
      (inode_alloc_first_block_open_files c
        ((tfs_open_trunc_free c s i).2.set_i_data_block i
          (realloc ((tfs_open_trunc_free c s i).2.inode_table i).i_data_block 1)) inum))
    split <;> exact h2

/-! ## First-fit search -/

theorem first_free_some (bm : Nat → allocation_state_t) :
    ∀ (n i k : Nat), first_free bm n i = some k →
      i ≤ k ∧ k < i + n ∧ bm k = FREE ∧ ∀ j, i ≤ j → j < k → bm j ≠ FREE := by
  intro n
  induction n with
  | zero => intro i k h; simp [first_free] at h
  | succ n ih =>
    intro i k h
    unfold first_free at h
    split at h
    · rename_i hf
      simp at h
      subst h
      exact ⟨Nat.le_refl _, by omega, hf, fun j h1 h2 => by omega⟩
    · rename_i hf
      obtain ⟨a1, a2, a3, a4⟩ := ih (i + 1) k h
      refine ⟨by omega, by omega, a3, fun j h1 h2 => ?_⟩
      by_cases hj : j = i
      · subst hj; exact hf
      · exact a4 j (by omega) h2

theorem first_free_none (bm : Nat → allocation_state_t) :
    ∀ (n i : Nat), first_free bm n i = none → ∀ j, i ≤ j → j < i + n → bm j ≠ FREE := by
  intro n
  induction n with
  | zero => intro i _ j h1 h2; omega
  | succ n ih =>
    intro i h j h1 h2
    unfold first_free at h
    split at h
    · simp at h
    · rename_i hf
      by_cases hj : j = i
      · subst hj; exact hf
      · exact ih (i + 1) h j (by omega) (by omega)

theorem inode_read_at_end (c : Config) (t : State) (fh i : Nat) (buffer : Nat → Nat) (n : Nat)
    (ht : (t.open_file_table fh).of_offset = (t.inode_table i).i_size) :
    inode_read c t fh i buffer n = some (0, t, buffer) := by
  unfold inode_read
  rw [clamp_offset_of_le t fh i (by omega)]
  simp only [ht, Nat.sub_self]
  have h0 : (if 0 > n then n else 0) = 0 := by split <;> omega
  rw [h0]
  unfold inode_read_loop
  simp

theorem find_in_dir_same (c : Config) (s : State) (inumber : Int) (name : List Nat) :
    same_but_marker s (find_in_dir c s inumber name).2 := by
  unfold find_in_dir
  split
  · exact same_but_marker_refl s
  · simp only
    split <;> exact read_direct_same s _ 0

theorem tfs_lookup_same (c : Config) (s : State) (name : Option (List Nat)) :
    same_but_marker s (tfs_lookup c s name).2 := by
  unfold tfs_lookup
  split
  · exact same_but_marker_refl s
  · exact find_in_dir_same c s _ _

/-! ## Raw memory -/

theorem memcpy_inside (m : Nat → Nat) (dst : Nat) (src : Nat → Nat) (n x : Nat)
    (h1 : dst ≤ x) (h2 : x < dst + n) : memcpy m dst src n x = src (x - dst) := by
  simp [memcpy, h1, h2]

theorem memcpy_outside (m : Nat → Nat) (dst : Nat) (src : Nat → Nat) (n x : Nat)
    (h : x < dst ∨ dst + n ≤ x) : memcpy m dst src n x = m x := by
  unfold memcpy
  rw [if_neg]
  omega

theorem write_int_outside (m : Nat → Nat) (a : Nat) (v : Int) (x : Nat)
    (h : x < a ∨ a + 4 ≤ x) : write_int m a v x = m x := by
  unfold write_int
  rw [if_neg (by omega), if_neg (by omega), if_neg (by omega), if_neg (by omega)]

theorem read_int_congr (m m1 : Nat → Nat) (a : Nat)
    (h : ∀ x, a ≤ x → x < a + 4 → m1 x = m x) : read_int m1 a = read_int m a := by
  unfold read_int
  rw [h a (by omega) (by omega), h (a + 1) (by omega) (by omega),
    h (a + 2) (by omega) (by omega), h (a + 3) (by omega) (by omega)]

theorem read_int_write_int_other (m : Nat → Nat) (a b : Nat) (v : Int)
    (h : b + 4 ≤ a ∨ a + 4 ≤ b) : read_int (write_int m a v) b = read_int m b :=
  read_int_congr m _ b (fun x h1 h2 => write_int_outside m a v x (by omega))

theorem read_int_memcpy_other (m : Nat → Nat) (dst : Nat) (src : Nat → Nat) (n b : Nat)
    (h : b + 4 ≤ dst ∨ dst + n ≤ b) : read_int (memcpy m dst src n) b = read_int m b :=
  read_int_congr m _ b (fun x h1 h2 => memcpy_outside m dst src n x (by omega))

theorem read_int_write_int_same (m : Nat → Nat) (a : Nat) (v : Int)
    (h1 : -2147483648 ≤ v) (h2 : v < 2147483648) : read_int (write_int m a v) a = v := by
  unfold read_int write_int
  simp only
  have e1 : a + 1 ≠ a := by omega
  have e2 : a + 2 ≠ a := by omega
  have e3 : a + 3 ≠ a := by omega
  have e4 : a + 2 ≠ a + 1 := by omega
  have e5 : a + 3 ≠ a + 1 := by omega
  have e6 : a + 3 ≠ a + 2 := by omega
  simp only [if_true, e1, e2, e3, e4, e5, e6, if_false]
  generalize hu : (v % 4294967296).toNat = u
  have hu1 : (u : Int) = v % 4294967296 := by
    rw [← hu]
    exact Int.toNat_of_nonneg (Int.emod_nonneg _ (by decide))
  have hu2 : u < 4294967296 := by
    have := Int.emod_lt_of_pos v (show (0 : Int) < 4294967296 by decide)
    omega
  have hsum : u % 256 % 256 + u / 256 % 256 % 256 * 256 + u / 65536 % 256 % 256 * 65536
      + u / 16777216 % 256 % 256 * 16777216 = u := by omega
  rw [hsum]
  split
  · omega
  · omega

/-! ## The block pool -/

theorem get_free_memory_loop_congr (c : Config) {s s1 : State}
    (h : s1.free_blocks = s.free_blocks) :
    ∀ n k, get_free_memory_loop c s1 n k = get_free_memory_loop c s n k := by
  intro n
  induction n with
  | zero => intro k; rfl
  | succ n ih =>
    intro k
    unfold get_free_memory_loop
    rw [h, ih]

theorem get_free_memory_congr (c : Config) {s s1 : State} (h : s1.free_blocks = s.free_blocks) :
    get_free_memory c s1 = get_free_memory c s :=
  get_free_memory_loop_congr c h _ _

theorem get_free_memory_loop_none (c : Config) (s : State) :
    ∀ (n k : Nat), (∀ j, k ≤ j → j < k + n → s.free_blocks j ≠ FREE) →
      get_free_memory_loop c s n k = 0 := by
  intro n
  induction n with
  | zero => intro k _; rfl
  | succ n ih =>
    intro k h
    unfold get_free_memory_loop
    rw [if_neg (h k (Nat.le_refl _) (by omega)), ih (k + 1) (fun j h1 h2 => h j (by omega) (by omega))]

theorem get_free_memory_loop_agree (c : Config) (s s1 : State) :
    ∀ (n k : Nat), (∀ j, k ≤ j → j < k + n → s1.free_blocks j = s.free_blocks j) →
      get_free_memory_loop c s1 n k = get_free_memory_loop c s n k := by
  intro n
  induction n with
  | zero => intro k _; rfl
  | succ n ih =>
    intro k h
    unfold get_free_memory_loop
    simp only [h k (Nat.le_refl _) (by omega), ih (k + 1) (fun j h1 h2 => h j (by omega) (by omega))]

theorem get_free_memory_loop_alloc (c : Config) (s s1 : State) (j0 : Nat)
    (hf : s.free_blocks j0 = FREE) (h1 : s1.free_blocks = upd s.free_blocks j0 TAKEN) :
    ∀ (n k : Nat), k ≤ j0 → j0 < k + n →
      get_free_memory_loop c s1 n k + c.BLOCK_SIZE = get_free_memory_loop c s n k := by
  intro n
  induction n with
  | zero => intro k h1 h2; omega
  | succ n ih =>
    intro k hk1 hk2
    unfold get_free_memory_loop
    by_cases hk : k = j0
    · subst hk
      have hrest := get_free_memory_loop_agree c s s1 n (k + 1) (fun j hj1 _ => by
        rw [h1, upd_other _ _ (by omega : j ≠ k)])
      have e1 : s1.free_blocks k = TAKEN := by rw [h1]; simp
      simp only [e1, hf, hrest]
      simp
      omega
    · have := ih (k + 1) (by omega) (by omega)
      have e1 : s1.free_blocks k = s.free_blocks k := by rw [h1, upd_other _ _ hk]
      simp only [e1]
      omega

/-- When at least one block's worth of memory is free, `data_block_alloc` takes the lowest
free block. -/
theorem data_block_alloc_spec (c : Config) (hB : 0 < c.BLOCK_SIZE) (s : State)
    (h : c.BLOCK_SIZE ≤ get_free_memory c s) :
    ∃ k : Nat, k < c.DATA_BLOCKS ∧ s.free_blocks k = FREE
      ∧ (∀ j, j < k → s.free_blocks j ≠ FREE)
      ∧ data_block_alloc c s = ((k : Int), { s with free_blocks := upd s.free_blocks k TAKEN })
      ∧ get_free_memory c (data_block_alloc c s).2 + c.BLOCK_SIZE = get_free_memory c s := by
  rcases hff : first_free s.free_blocks c.DATA_BLOCKS 0 with _ | k
  · exfalso
    have h0 := get_free_memory_loop_none c s c.DATA_BLOCKS 0
      (fun j h1 h2 => first_free_none _ _ _ hff j h1 h2)
    unfold get_free_memory at h
    omega
  · obtain ⟨_, hk2, hk3, hk4⟩ := first_free_some _ _ _ _ hff
    have he : data_block_alloc c s
        = ((k : Int), { s with free_blocks := upd s.free_blocks k TAKEN }) := by
      unfold data_block_alloc
      rw [hff]
    refine ⟨k, by omega, hk3, fun j hj => hk4 j (Nat.zero_le _) hj, he, ?_⟩
    rw [he]
    exact get_free_memory_loop_alloc c s _ k hk3 rfl c.DATA_BLOCKS 0 (Nat.zero_le _) (by omega)

/-! ## Growing a file -/

theorem slots_length (blocks : List Nat) : (slots blocks).length = blocks.length := by
  simp [slots]

theorem slots_append (a b : List Nat) : slots (a ++ b) = slots a ++ slots b := by
  simp [slots]

theorem slots_getD (blocks : List Nat) (k : Nat) (h : k < blocks.length) :
    (slots blocks).getD k none = some ((blocks.getD k 0 : Nat) : Int) := by
  simp [slots, List.getD, h]

theorem slots_set_fresh (blocks : List Nat) (n : Nat) (k : Nat) :
    (slots blocks ++ List.replicate (n + 1) none).set blocks.length (some (k : Int))
      = slots (blocks ++ [k]) ++ List.replicate n none := by
  rw [List.set_append]
  simp [slots_length, slots_append, List.replicate_succ, slots]

theorem frontier_alloc (c : Config) (hB : 0 < c.BLOCK_SIZE) (s : State) (f : Nat)
    (hf : frontier c s f) (h : c.BLOCK_SIZE ≤ get_free_memory c s) :
    ∃ k : Nat, f ≤ k ∧ k < c.DATA_BLOCKS
      ∧ data_block_alloc c s = ((k : Int), { s with free_blocks := upd s.free_blocks k TAKEN })
      ∧ frontier c (data_block_alloc c s).2 (k + 1)
      ∧ get_free_memory c (data_block_alloc c s).2 + c.BLOCK_SIZE = get_free_memory c s := by
  obtain ⟨k, h1, h2, h3, h4, h5⟩ := data_block_alloc_spec c hB s h
  refine ⟨k, hf k h1 h2, h1, h4, ?_, h5⟩
  rw [h4]
  intro j hj hfree
  simp only at hfree
  by_cases hjk : j = k
  · subst hjk
    simp at hfree
  · rw [upd_other _ _ hjk] at hfree
    by_contra hlt
    exact h3 j (by omega) hfree
theorem alloc_frame_refl (i : Nat) (s : State) : alloc_frame i s s :=
  ⟨rfl, rfl, rfl, rfl, rfl, fun _ _ => rfl, rfl, rfl⟩

theorem alloc_frame_trans {i : Nat} {s s1 s2 : State} (h1 : alloc_frame i s s1)
    (h2 : alloc_frame i s1 s2) : alloc_frame i s s2 := by
  unfold alloc_frame at *
  refine ⟨?_, ?_, ?_, ?_, ?_, ?_, ?_, ?_⟩
  · rw [h2.1, h1.1]
  · rw [h2.2.1, h1.2.1]
  · rw [h2.2.2.1, h1.2.2.1]
  · rw [h2.2.2.2.1, h1.2.2.2.1]
  · rw [h2.2.2.2.2.1, h1.2.2.2.2.1]
  · intro j hj
    rw [h2.2.2.2.2.2.1 j hj, h1.2.2.2.2.2.1 j hj]
  · rw [h2.2.2.2.2.2.2.1, h1.2.2.2.2.2.2.1]
  · rw [h2.2.2.2.2.2.2.2, h1.2.2.2.2.2.2.2]

/-- The loop of `inode_inicialize_direct_blocks` in a pool with enough memory: it fills the
`n` fresh slots of the vector with `n` new blocks, taken in increasing order at or above the
frontier. -/
theorem inode_inicialize_direct_blocks_loop_spec (c : Config) (hB : 0 < c.BLOCK_SIZE) (i : Nat) :
    ∀ (n : Nat) (blocks : List Nat) (f : Nat) (s : State),
      (s.inode_table i).i_data_block = slots blocks ++ List.replicate n none →
      frontier c s f → f ≤ c.DATA_BLOCKS →
      n * c.BLOCK_SIZE ≤ get_free_memory c s →
      ∃ (new : List Nat) (f1 : Nat),
        (inode_inicialize_direct_blocks_loop c i n blocks.length s).1 = 0
        ∧ new.length = n
        ∧ ((inode_inicialize_direct_blocks_loop c i n blocks.length s).2.inode_table
            i).i_data_block = slots (blocks ++ new)
        ∧ (∀ b ∈ new, f ≤ b ∧ b < f1) ∧ new.Nodup ∧ f ≤ f1 ∧ f1 ≤ c.DATA_BLOCKS
        ∧ frontier c (inode_inicialize_direct_blocks_loop c i n blocks.length s).2 f1
        ∧ get_free_memory c (inode_inicialize_direct_blocks_loop c i n blocks.length s).2
            + n * c.BLOCK_SIZE = get_free_memory c s
        ∧ alloc_frame i s (inode_inicialize_direct_blocks_loop c i n blocks.length s).2
        ∧ ((inode_inicialize_direct_blocks_loop c i n blocks.length s).2.inode_table
            i).number_of_blocks = (s.inode_table i).number_of_blocks
        ∧ ((inode_inicialize_direct_blocks_loop c i n blocks.length s).2.inode_table
            i).indirection_block = (s.inode_table i).indirection_block
        ∧ ((inode_inicialize_direct_blocks_loop c i n blocks.length s).2.inode_table
            i).number_indirect_blocks = (s.inode_table i).number_indirect_blocks := by
  intro n
  induction n with
  | zero =>
    intro blocks f s hv hf hfd hm
    refine ⟨[], f, rfl, rfl, ?_, ?_, List.nodup_nil, Nat.le_refl _, hfd, hf, ?_,
      alloc_frame_refl i s, rfl, rfl, rfl⟩
    · simpa [inode_inicialize_direct_blocks_loop] using hv
    · intro b hb; simp at hb
    · simp [inode_inicialize_direct_blocks_loop]
  | succ n ih =>
    intro blocks f s hv hf hfd hm
    have hm1 : c.BLOCK_SIZE ≤ get_free_memory c s := by
      have : (n + 1) * c.BLOCK_SIZE = n * c.BLOCK_SIZE + c.BLOCK_SIZE := by
        rw [Nat.add_mul, Nat.one_mul]
      omega
    obtain ⟨k, hk1, hk2, hk3, hk4, hk5⟩ := frontier_alloc c hB s f hf hm1
    unfold inode_inicialize_direct_blocks_loop
    simp only
    rw [hk3] at hk4 hk5 ⊢
    dsimp only at hk4 hk5 ⊢
    have hne : ((k : Nat) : Int) ≠ -1 := by omega
    rw [if_neg hne]
    set s1 : State := { s with free_blocks := upd s.free_blocks k TAKEN } with hs1
    have hw : write_direct s1 i blocks.length (k : Int)
        = s1.set_i_data_block i (slots (blocks ++ [k]) ++ List.replicate n none) := by
      unfold write_direct
      have hlen : blocks.length < (s1.inode_table i).i_data_block.length := by
        show blocks.length < (s.inode_table i).i_data_block.length
        rw [hv]
        simp [slots_length]
      rw [if_pos hlen]
      show s1.set_i_data_block i ((s.inode_table i).i_data_block.set blocks.length (some (k : Int)))
        = _
      rw [hv, slots_set_fresh]
    rw [hw]
    set s2 := s1.set_i_data_block i (slots (blocks ++ [k]) ++ List.replicate n none) with hs2
    have hm2 : n * c.BLOCK_SIZE ≤ get_free_memory c s2 := by
      have e : get_free_memory c s2 = get_free_memory c s1 := get_free_memory_congr c rfl
      have : (n + 1) * c.BLOCK_SIZE = n * c.BLOCK_SIZE + c.BLOCK_SIZE := by
        rw [Nat.add_mul, Nat.one_mul]
      omega
    have hlen2 : (blocks ++ [k]).length = blocks.length + 1 := by simp
    obtain ⟨new, f1, e1, e2, e3, e4, e5, e6, e7, e8, e9, e10, e11, e12, e13⟩ :=
      ih (blocks ++ [k]) (k + 1) s2 (by simp [hs2]) hk4 (by omega) hm2
    rw [hlen2] at e1 e3 e8 e9 e10 e11 e12 e13
    refine ⟨k :: new, f1, e1, by simp [e2], ?_, ?_, ?_, by omega, e7, e8, ?_, ?_, ?_, ?_, ?_⟩
    · rw [e3]
      simp
    · intro b hb
      rcases List.mem_cons.mp hb with hb | hb
      · subst hb
        exact ⟨hk1, by omega⟩
      · have := e4 b hb
        omega
    · refine List.nodup_cons.mpr ⟨?_, e5⟩
      intro hmem
      have := e4 k hmem
      omega
    · have e : get_free_memory c s2 = get_free_memory c s1 := get_free_memory_congr c rfl
      have : (n + 1) * c.BLOCK_SIZE = n * c.BLOCK_SIZE + c.BLOCK_SIZE := by
        rw [Nat.add_mul, Nat.one_mul]
      omega
    · refine alloc_frame_trans ?_ e10
      refine ⟨rfl, rfl, rfl, rfl, rfl, ?_, ?_, ?_⟩
      · intro j hj
        rw [hs2, set_i_data_block_inode_other _ _ hj]
      · simp [hs2]
      · simp [hs2]
    · rw [e11]; simp [hs2]
    · rw [e12]; simp [hs2]
    · rw [e13]; simp [hs2]
theorem index_entry_store_same (c : Config) (s : State) (p idx : Nat) (v : Int)
    (h1 : -2147483648 ≤ v) (h2 : v < 2147483648) :
    index_entry c (store_int c s (p * c.BLOCK_SIZE + idx * SIZEOF_INT) v) p idx = v := by
  unfold index_entry
  rw [store_int_fs_data]
  exact read_int_write_int_same _ _ _ h1 h2

theorem index_entry_store_other (c : Config) (s : State) (p idx x : Nat) (v : Int)
    (h : x ≠ idx) :
    index_entry c (store_int c s (p * c.BLOCK_SIZE + idx * SIZEOF_INT) v) p x
      = index_entry c s p x := by
  unfold index_entry
  rw [store_int_fs_data]
  apply read_int_write_int_other
  unfold SIZEOF_INT
  omega

theorem index_entry_congr (c : Config) {s s1 : State} (p idx : Nat)
    (h : ∀ a, p * c.BLOCK_SIZE + idx * SIZEOF_INT ≤ a →
      a < p * c.BLOCK_SIZE + idx * SIZEOF_INT + 4 → s1.fs_data a = s.fs_data a) :
    index_entry c s1 p idx = index_entry c s p idx := by
  unfold index_entry
  exact read_int_congr _ _ _ h

theorem data_block_get_nat (c : Config) (p : Nat) (h : p < c.DATA_BLOCKS) :
    data_block_get c (p : Int) = some (p * c.BLOCK_SIZE) := by
  unfold data_block_get valid_block_number
  simp
  omega

theorem store_int_undefined (c : Config) (s : State) (a : Nat) (v : Int)
    (h : ¬ c.FS_DATA_SIZE < a + SIZEOF_INT) :
    (store_int c s a v).undefined_behaviour = s.undefined_behaviour := by
  unfold store_int
  simp [h]

/-- The loop of `inode_inicialize_indirect_blocks` in a pool with enough memory, started at
position `idx`: the positions below `end_` receive new blocks at or above the frontier, the
others -1, and `number_indirect_blocks` counts the blocks. -/
theorem inode_inicialize_indirect_blocks_loop_spec (c : Config) (hB : 4 ≤ c.BLOCK_SIZE)
    (hD : c.DATA_BLOCKS ≤ 2147483647) (i p end_ : Nat) (hp : p + 2 ≤ c.DATA_BLOCKS) :
    ∀ (n idx : Nat) (f : Nat) (s : State),
      idx + n ≤ c.INDEX_COUNT + 1 →
      (s.inode_table i).indirection_block = (p : Int) →
      (s.inode_table i).number_indirect_blocks = min idx end_ →
      frontier c s f → f ≤ c.DATA_BLOCKS →
      (min end_ (idx + n) - min end_ idx) * c.BLOCK_SIZE ≤ get_free_memory c s →
      s.undefined_behaviour = false →
      ∃ f1 : Nat,
        ((inode_inicialize_indirect_blocks_loop c i (p * c.BLOCK_SIZE) end_ n idx s).inode_table
            i).number_indirect_blocks = min (idx + n) end_
        ∧ (∀ x, idx ≤ x → x < idx + n → x < end_ →
            ∃ q : Nat, index_entry c
              (inode_inicialize_indirect_blocks_loop c i (p * c.BLOCK_SIZE) end_ n idx s) p x
                = (q : Int) ∧ f ≤ q ∧ q < f1)
        ∧ (∀ x, idx ≤ x → x < idx + n → end_ ≤ x →
            index_entry c
              (inode_inicialize_indirect_blocks_loop c i (p * c.BLOCK_SIZE) end_ n idx s) p x
                = -1)
        ∧ (∀ a, a < p * c.BLOCK_SIZE + idx * SIZEOF_INT
              ∨ p * c.BLOCK_SIZE + (idx + n) * SIZEOF_INT ≤ a →
            (inode_inicialize_indirect_blocks_loop c i (p * c.BLOCK_SIZE) end_ n idx s).fs_data a
              = s.fs_data a)
        ∧ f ≤ f1 ∧ f1 ≤ c.DATA_BLOCKS
        ∧ (min end_ (idx + n) - min end_ idx > 0 → f < f1)
        ∧ frontier c (inode_inicialize_indirect_blocks_loop c i (p * c.BLOCK_SIZE) end_ n idx s) f1
        ∧ get_free_memory c
              (inode_inicialize_indirect_blocks_loop c i (p * c.BLOCK_SIZE) end_ n idx s)
            + (min end_ (idx + n) - min end_ idx) * c.BLOCK_SIZE = get_free_memory c s
        ∧ (inode_inicialize_indirect_blocks_loop c i (p * c.BLOCK_SIZE) end_ n idx
            s).undefined_behaviour = false
        ∧ (∀ j, j ≠ i →
            (inode_inicialize_indirect_blocks_loop c i (p * c.BLOCK_SIZE) end_ n idx s).inode_table j
              = s.inode_table j)
        ∧ ((inode_inicialize_indirect_blocks_loop c i (p * c.BLOCK_SIZE) end_ n idx s).inode_table
            i).i_data_block = (s.inode_table i).i_data_block
        ∧ ((inode_inicialize_indirect_blocks_loop c i (p * c.BLOCK_SIZE) end_ n idx s).inode_table
            i).number_of_blocks = (s.inode_table i).number_of_blocks
        ∧ ((inode_inicialize_indirect_blocks_loop c i (p * c.BLOCK_SIZE) end_ n idx s).inode_table
            i).indirection_block = (s.inode_table i).indirection_block := by
  have hK : c.INDEX_COUNT * 4 ≤ c.BLOCK_SIZE := by
    unfold Config.INDEX_COUNT SIZEOF_INT
    omega
  have hbound : ∀ idx, idx ≤ c.INDEX_COUNT →
      ¬ c.FS_DATA_SIZE < p * c.BLOCK_SIZE + idx * SIZEOF_INT + SIZEOF_INT := by
    intro idx hidx
    unfold Config.FS_DATA_SIZE SIZEOF_INT
    have h1 : (p + 2) * c.BLOCK_SIZE ≤ c.DATA_BLOCKS * c.BLOCK_SIZE :=
      Nat.mul_le_mul_right _ hp
    have h2 : (p + 2) * c.BLOCK_SIZE = p * c.BLOCK_SIZE + 2 * c.BLOCK_SIZE := Nat.add_mul _ _ _
    have h3 : c.BLOCK_SIZE * c.DATA_BLOCKS = c.DATA_BLOCKS * c.BLOCK_SIZE := Nat.mul_comm _ _
    omega
  intro n
  induction n with
  | zero =>
    intro idx f s _ hind hnib hf hfd hm hub
    refine ⟨f, ?_, ?_, ?_, ?_, Nat.le_refl _, hfd, ?_, hf, ?_, hub,
      fun _ _ => rfl, rfl, rfl, rfl⟩
    · simpa [inode_inicialize_indirect_blocks_loop] using hnib
    · intro x h1 h2; omega
    · intro x h1 h2; omega
    · intro a _; rfl
    · intro h; simp at h
    · simp [inode_inicialize_indirect_blocks_loop]
  | succ n ih =>
    intro idx f s hidx hind hnib hf hfd hm hub
    unfold inode_inicialize_indirect_blocks_loop
    by_cases hlt : idx < end_
    · rw [if_pos hlt]
      have hcount : min end_ (idx + (n + 1)) - min end_ idx
          = (min end_ (idx + 1 + n) - min end_ (idx + 1)) + 1 := by omega
      have hm1 : c.BLOCK_SIZE ≤ get_free_memory c s := by
        rw [hcount, Nat.add_mul, Nat.one_mul] at hm
        omega
      obtain ⟨k, hk1, hk2, hk3, hk4, hk5⟩ := frontier_alloc c (by omega) s f hf hm1
      simp only
      rw [hk3] at hk4 hk5 ⊢
      dsimp only at hk4 hk5 ⊢
      set s1 : State := { s with free_blocks := upd s.free_blocks k TAKEN } with hs1
      have hnib1 : (s1.inode_table i).number_indirect_blocks = idx := by
        show (s.inode_table i).number_indirect_blocks = idx
        omega
      rw [hnib1]
      set s2 := s1.set_number_indirect_blocks i (idx + 1) with hs2
      have hw : (write_index_to_block c s2 i (k : Int)).2
          = store_int c s2 (p * c.BLOCK_SIZE + idx * SIZEOF_INT) (k : Int) := by
        unfold write_index_to_block
        have e1 : (s2.inode_table i).number_indirect_blocks = idx + 1 := by simp [hs2]
        have e2 : (s2.inode_table i).indirection_block = (p : Int) := by
          simp [hs2]
          exact hind
        rw [e1, e2, if_neg (by omega), data_block_get_nat c p (by omega)]
        simp
      rw [hw]
      set s3 := store_int c s2 (p * c.BLOCK_SIZE + idx * SIZEOF_INT) (k : Int) with hs3
      have hmem3 : get_free_memory c s3 = get_free_memory c s1 :=
        get_free_memory_congr c (by simp [hs3, hs2])
      have hf3 : frontier c s3 (k + 1) := by
        intro j hj hfree
        exact hk4 j hj (by simpa [hs3, hs2] using hfree)
      obtain ⟨f1, e1, e2, e3, e4, e5, e6, e7, e8, e9, e10, e11, e12, e13, e14⟩ :=
        ih (idx + 1) (k + 1) s3 (by omega)
          (by simp [hs3, hs2]; exact hind)
          (by simp [hs3, hs2]; omega)
          hf3 (by omega)
          (by rw [hmem3]; rw [hcount, Nat.add_mul, Nat.one_mul] at hm; omega)
          (by rw [hs3, store_int_undefined c s2 _ _ (hbound idx (by omega))]; exact hub)
      refine ⟨f1, ?_, ?_, ?_, ?_, by omega, e6, fun _ => by omega, e8, ?_, e10, ?_, ?_, ?_, ?_⟩
      · rw [e1]; omega
      · intro x hx1 hx2 hx3
        by_cases hxi : x = idx
        · subst hxi
          refine ⟨k, ?_, hk1, by omega⟩
          rw [index_entry_congr c p x (fun a ha1 ha2 => e4 a (Or.inl (by
            unfold SIZEOF_INT at *; omega)))]
          rw [hs3]
          exact index_entry_store_same c s2 p x _ (by omega) (by omega)
        · obtain ⟨q, hq1, hq2, hq3⟩ := e2 x (by omega) (by omega) hx3
          exact ⟨q, hq1, by omega, hq3⟩
      · intro x hx1 hx2 hx3
        exact e3 x (by omega) (by omega) hx3
      · intro a ha
        rw [e4 a (by unfold SIZEOF_INT at *; omega)]
        rw [hs3, store_int_fs_data]
        rw [write_int_outside _ _ _ _ (by unfold SIZEOF_INT at *; omega)]
        rfl
      · rw [hmem3] at e9
        rw [hcount, Nat.add_mul, Nat.one_mul]
        omega
      · intro j hj
        rw [e11 j hj]
        simp [hs3, hs2]
        rw [set_number_indirect_blocks_inode_other _ _ hj]
      · rw [e12]; simp [hs3, hs2]
      · rw [e13]; simp [hs3, hs2]
      · rw [e14]; simp [hs3, hs2]
    · rw [if_neg hlt]
      have hcount : min end_ (idx + (n + 1)) - min end_ idx = 0 := by omega
      have hcount2 : min end_ (idx + 1 + n) - min end_ (idx + 1) = 0 := by omega
      set s3 := store_int c s (p * c.BLOCK_SIZE + idx * SIZEOF_INT) (-1) with hs3
      have hmem3 : get_free_memory c s3 = get_free_memory c s :=
        get_free_memory_congr c (by simp [hs3])
      have hf3 : frontier c s3 f := by
        intro j hj hfree
        exact hf j hj (by simpa [hs3] using hfree)
      obtain ⟨f1, e1, e2, e3, e4, e5, e6, e7, e8, e9, e10, e11, e12, e13, e14⟩ :=
        ih (idx + 1) f s3 (by omega)
          (by simp [hs3]; exact hind)
          (by simp [hs3]; omega)
          hf3 hfd
          (by rw [hcount2]; simp)
          (by rw [hs3, store_int_undefined c s _ _ (hbound idx (by omega))]; exact hub)
      refine ⟨f1, ?_, ?_, ?_, ?_, e5, e6, fun h => by omega, e8, ?_, e10, ?_, ?_, ?_, ?_⟩
      · rw [e1]; omega
      · intro x hx1 hx2 hx3
        omega
      · intro x hx1 hx2 hx3
        by_cases hxi : x = idx
        · subst hxi
          rw [index_entry_congr c p x (fun a ha1 ha2 => e4 a (Or.inl (by
            unfold SIZEOF_INT at *; omega)))]
          rw [hs3]
          exact index_entry_store_same c s p x _ (by omega) (by omega)
        · exact e3 x (by omega) (by omega) hx3
      · intro a ha
        rw [e4 a (by unfold SIZEOF_INT at *; omega)]
        rw [hs3, store_int_fs_data]
        rw [write_int_outside _ _ _ _ (by unfold SIZEOF_INT at *; omega)]
      · rw [hmem3] at e9
        rw [hcount]
        rw [hcount2] at e9
        omega
      · intro j hj
        rw [e11 j hj]
        simp [hs3]
      · rw [e12]; simp [hs3]
      · rw [e13]; simp [hs3]
      · rw [e14]; simp [hs3]
theorem realloc_slots (blocks : List Nat) (n : Nat) :
    realloc (slots blocks) (blocks.length + n) = slots blocks ++ List.replicate n none := by
  unfold realloc
  rw [slots_length, List.take_of_length_le (by rw [slots_length]; omega)]
  congr 2
  omega

theorem frontier_lt_of_memory (c : Config) (hB : 0 < c.BLOCK_SIZE) (s : State) (f : Nat)
    (hf : frontier c s f) (h : c.BLOCK_SIZE ≤ get_free_memory c s) : f < c.DATA_BLOCKS := by
  obtain ⟨k, h1, h2, _⟩ := frontier_alloc c hB s f hf h
  omega

theorem inode_is_free_taken (c : Config) (s : State) (i : Nat) (h1 : i < c.INODE_TABLE_SIZE)
    (h2 : s.freeinode_ts i = TAKEN) : inode_is_free c s (i : Int) = 0 := by
  unfold inode_is_free valid_inumber
  simp [h1, h2]

/-- The first stage of `inode_add_blocks` on a file without indirection block: the vector grows
by `min (DIRECT_BLOCKS_COUNT - number_of_blocks) number_blocks` new blocks. -/
theorem inode_add_blocks_direct_spec (c : Config) (hB : 0 < c.BLOCK_SIZE) (s : State)
    (i : Nat) (blocks : List Nat) (lo f : Nat) (hl : file_layout c s i blocks lo f)
    (hind : (s.inode_table i).indirection_block = -1) (nbk : Nat) :
    ∃ (new : List Nat) (f1 : Nat),
      new.length = min (DIRECT_BLOCKS_COUNT - blocks.length) nbk
      ∧ (inode_add_blocks_direct c s i nbk).2 = nbk - new.length
      ∧ file_layout c (inode_add_blocks_direct c s i nbk).1 i (blocks ++ new) lo f1
      ∧ f ≤ f1
      ∧ alloc_frame i s (inode_add_blocks_direct c s i nbk).1
      ∧ ((inode_add_blocks_direct c s i nbk).1.inode_table i).indirection_block = -1
      ∧ get_free_memory c (inode_add_blocks_direct c s i nbk).1 + new.length * c.BLOCK_SIZE
        = get_free_memory c s := by
  have hlen := hl.len_le
  unfold inode_add_blocks_direct
  rw [hl.count]
  by_cases hlt : blocks.length < DIRECT_BLOCKS_COUNT
  · rw [if_pos hlt]
    simp only [set_i_data_block_get_number_of_blocks, hl.count, hl.vector]
    have hto : (if DIRECT_BLOCKS_COUNT - blocks.length > nbk then nbk
        else DIRECT_BLOCKS_COUNT - blocks.length)
        = min (DIRECT_BLOCKS_COUNT - blocks.length) nbk := by
      split <;> omega
    rw [hto]
    generalize hta : min (DIRECT_BLOCKS_COUNT - blocks.length) nbk = to_add
    rw [realloc_slots]
    set s1 := s.set_i_data_block i (slots blocks ++ List.replicate to_add none) with hs1
    have hinit : inode_inicialize_direct_blocks c s1 i blocks.length (blocks.length + to_add)
        = inode_inicialize_direct_blocks_loop c i to_add blocks.length s1 := by
      unfold inode_inicialize_direct_blocks
      rw [if_neg (by omega)]
      congr 1
      omega
    rw [hinit]
    have hmem1 : get_free_memory c s1 = get_free_memory c s := get_free_memory_congr c rfl
    have hmem := hl.memory
    rw [hind] at hmem
    simp only [if_true] at hmem
    have hmem2 : to_add * c.BLOCK_SIZE ≤ get_free_memory c s1 := by
      rw [hmem1]
      refine le_trans (Nat.mul_le_mul_right _ ?_) hmem
      omega
    obtain ⟨new, f1, e1, e2, e3, e4, e5, e6, e7, e8, e9, e10, e11, e12, e13⟩ :=
      inode_inicialize_direct_blocks_loop_spec c hB i to_add blocks f s1 (by simp [hs1])
        (fun j hj hfree => hl.front j hj hfree) hl.f_le hmem2
    set s2 := (inode_inicialize_direct_blocks_loop c i to_add blocks.length s1).2 with hs2
    have h01 : alloc_frame i s s1 := by
      refine ⟨rfl, rfl, rfl, rfl, rfl, ?_, ?_, ?_⟩
      · intro j hj
        rw [hs1, set_i_data_block_inode_other _ _ hj]
      · simp [hs1]
      · simp [hs1]
    have h10 : alloc_frame i s s2 := alloc_frame_trans h01 e10
    have hm4 : get_free_memory c (s2.set_number_of_blocks i
        ((s2.inode_table i).number_of_blocks + to_add)) = get_free_memory c s2 :=
      get_free_memory_congr c rfl
    refine ⟨new, f1, e2, by rw [e2], ?_, e6, ?_, ?_, by rw [hm4, e2, e9, hmem1]⟩
    · refine
        { taken := by simpa using h10.2.2.2.1 ▸ hl.taken
          inum_lt := hl.inum_lt
          vector := by simpa using e3
          count := by
            simp
            rw [e11]
            simp [hs1, hl.count, e2]
          len_pos := by simp; have := hl.len_pos; omega
          len_le := by simp [e2]; omega
          size_le := by
            simp
            rw [h10.2.2.2.2.2.2.1]
            refine le_trans hl.size_le (Nat.mul_le_mul_right _ (by omega))
          nodup := by
            refine List.nodup_append.mpr ⟨hl.nodup, e5, ?_⟩
            intro a ha hb
            have := hl.upper a ha
            have := e4 a hb
            omega
          lower := by
            intro b hb
            rcases List.mem_append.mp hb with hb | hb
            · exact hl.lower b hb
            · have h1 := e4 b hb
              have h2 := hl.lower _ (List.getElem_mem (show 0 < blocks.length from hl.len_pos))
              have h3 := hl.upper _ (List.getElem_mem (show 0 < blocks.length from hl.len_pos))
              omega
          upper := by
            intro b hb
            rcases List.mem_append.mp hb with hb | hb
            · have := hl.upper b hb
              omega
            · exact (e4 b hb).2
          f_le := e7
          front := by
            intro j hj hfree
            exact e8 j hj (by simpa using hfree)
          memory := by
            have hm3 : get_free_memory c (s2.set_number_of_blocks i
                ((s2.inode_table i).number_of_blocks + to_add)) = get_free_memory c s2 :=
              get_free_memory_congr c rfl
            rw [hm3]
            simp only [set_number_of_blocks_get_indirection_block, e12]
            have hi1 : (s1.inode_table i).indirection_block = -1 := by simp [hs1, hind]
            rw [hi1]
            simp only [if_true, List.length_append, e2]
            have hA : (DIRECT_BLOCKS_COUNT - (blocks.length + to_add) + 16) * c.BLOCK_SIZE
                + to_add * c.BLOCK_SIZE
                = (DIRECT_BLOCKS_COUNT - blocks.length + 16) * c.BLOCK_SIZE := by
              rw [← Nat.add_mul]
              congr 1
              omega
            omega
          indirect := by
            left
            simp
            rw [e12, e13]
            simp [hs1, hind]
            rcases hl.indirect with h | ⟨p, hp, _⟩
            · exact h.2
            · rw [hind] at hp
              omega
          defined := by
            simp
            rw [h10.2.2.2.2.1]
            exact hl.defined }
    · have h23 : alloc_frame i s2 (s2.set_number_of_blocks i
          ((s2.inode_table i).number_of_blocks + to_add)) := by
        refine ⟨rfl, rfl, rfl, rfl, rfl, ?_, ?_, ?_⟩
        · intro j hj
          rw [set_number_of_blocks_inode_other _ _ hj]
        · simp
        · simp
      exact alloc_frame_trans h10 h23
    · simp
      rw [e12]
      simp [hs1, hind]
  · rw [if_neg hlt]
    refine ⟨[], f, by simp; omega, by simp, ?_, Nat.le_refl _, alloc_frame_refl i s, hind,
      by simp⟩
    simpa using hl
/-- The second stage of `inode_add_blocks` on a file without indirection block: when blocks
are still needed, an indirection block and `min number_blocks (INDEX_COUNT + 1)` blocks are
taken from above the frontier. -/
theorem inode_add_blocks_indirect_spec (c : Config) (hB : 8 ≤ c.BLOCK_SIZE)
    (hD : c.DATA_BLOCKS ≤ 2147483647) (s : State)
    (i : Nat) (blocks : List Nat) (lo f : Nat) (hl : file_layout c s i blocks lo f)
    (hind : (s.inode_table i).indirection_block = -1) (rem : Nat)
    (hfull : 0 < rem → blocks.length = DIRECT_BLOCKS_COUNT)
    (hmem : 0 < rem → (1 + min rem (c.INDEX_COUNT + 1) + 2) * c.BLOCK_SIZE ≤ get_free_memory c s) :
    ∃ f1 : Nat,
      file_layout c (inode_add_blocks_indirect c s i rem).2 i blocks lo f1
      ∧ f ≤ f1
      ∧ (∀ a, a < f * c.BLOCK_SIZE →
          (inode_add_blocks_indirect c s i rem).2.fs_data a = s.fs_data a)
      ∧ (∀ j, j ≠ i → (inode_add_blocks_indirect c s i rem).2.inode_table j = s.inode_table j)
      ∧ (0 < rem → ((inode_add_blocks_indirect c s i rem).2.inode_table i).indirection_block ≠ -1)
      ∧ (0 < rem → ((inode_add_blocks_indirect c s i rem).2.inode_table i).number_indirect_blocks
          = min rem (c.INDEX_COUNT + 1)) := by
  have hmeta := meta_frame_inode_add_blocks_indirect c s i rem
  revert hmeta
  unfold inode_add_blocks_indirect
  by_cases hrem : 0 < rem
  · rw [if_pos ⟨hrem, hind⟩]
    have hm := hmem hrem
    have hm1 : c.BLOCK_SIZE ≤ get_free_memory c s := by
      refine le_trans ?_ hm
      calc c.BLOCK_SIZE = 1 * c.BLOCK_SIZE := by omega
        _ ≤ _ := Nat.mul_le_mul_right _ (by omega)
    obtain ⟨p, hp1, hp2, hp3, hp4, hp5⟩ := frontier_alloc c (by omega) s f hl.front hm1
    rw [hp3] at hp4 hp5 ⊢
    dsimp only at hp4 hp5 ⊢
    have hpne : ¬ ((p : Int) = -1) := by omega
    rw [if_neg hpne]
    dsimp only
    set s0 : State := { s with free_blocks := upd s.free_blocks p TAKEN } with hs0
    set s1 := s0.set_indirection_block i (p : Int) with hs1
    have hnib : (s.inode_table i).number_indirect_blocks = 0 := by
      rcases hl.indirect with h | ⟨q, hq, _⟩
      · exact h.2
      · rw [hind] at hq
        omega
    have hnib1 : (s1.inode_table i).number_indirect_blocks = 0 := by
      simp [hs1, hs0, hnib]
    rw [hnib1]
    have hmem0 : get_free_memory c s1 = get_free_memory c s0 := get_free_memory_congr c rfl
    have hm2 : (min rem (c.INDEX_COUNT + 1) + 2) * c.BLOCK_SIZE ≤ get_free_memory c s1 := by
      rw [hmem0]
      have : (1 + min rem (c.INDEX_COUNT + 1) + 2) * c.BLOCK_SIZE
          = (min rem (c.INDEX_COUNT + 1) + 2) * c.BLOCK_SIZE + c.BLOCK_SIZE := by ring
      omega
    have hfr1 : frontier c s1 (p + 1) := hp4
    have hp6 : p + 2 ≤ c.DATA_BLOCKS := by
      have := frontier_lt_of_memory c (by omega) s1 (p + 1) hfr1 (by
        refine le_trans ?_ hm2
        calc c.BLOCK_SIZE = 1 * c.BLOCK_SIZE := by omega
          _ ≤ _ := Nat.mul_le_mul_right _ (by omega))
      omega
    have hinit : (inode_inicialize_indirect_blocks c s1 i 0 (0 + rem)).2
        = inode_inicialize_indirect_blocks_loop c i (p * c.BLOCK_SIZE) rem
            (c.INDEX_COUNT + 1) 0 s1 := by
      unfold inode_inicialize_indirect_blocks
      have h1 : (s1.inode_table i).indirection_block = (p : Int) := by simp [hs1]
      simp only [h1, if_neg hpne, data_block_get_nat c p hp2]
      rw [if_neg (by simp)]
      simp [Config.INDEX_COUNT, SIZEOF_INT]
    rw [hinit]
    obtain ⟨f1, e1, e2, e3, e4, e5, e6, e7, e8, e9, e10, e11, e12, e13, e14⟩ :=
      inode_inicialize_indirect_blocks_loop_spec c (by omega) hD i p rem hp6
        (c.INDEX_COUNT + 1) 0 (p + 1) s1 (by omega) (by simp [hs1]) (by simp [hnib1]) hfr1
        (by omega) (by
          refine le_trans (Nat.mul_le_mul_right _ ?_) hm2
          simp) (by simp [hs1, hs0, hl.defined])
    set s2 := inode_inicialize_indirect_blocks_loop c i (p * c.BLOCK_SIZE) rem
      (c.INDEX_COUNT + 1) 0 s1 with hs2
    intro hmeta
    have hind2 : (s2.inode_table i).indirection_block = (p : Int) := by
      rw [e14]
      simp [hs1]
    have hfull1 := hfull hrem
    refine ⟨f1, ?_, by omega, ?_, ?_, ?_, ?_⟩
    · refine
        { taken := by rw [hmeta.2.2.1]; exact hl.taken
          inum_lt := hl.inum_lt
          vector := by
            rw [e12]
            simp [hs1, hs0, hl.vector]
          count := by
            rw [e13]
            simp [hs1, hs0, hl.count]
          len_pos := hl.len_pos
          len_le := hl.len_le
          size_le := by rw [(hmeta.2.2.2 i).1]; exact hl.size_le
          nodup := hl.nodup
          lower := hl.lower
          upper := by
            intro b hb
            have := hl.upper b hb
            omega
          f_le := e6
          front := e8
          memory := by
            rw [hind2, if_neg hpne, hfull1]
            have h9 := e9
            rw [Nat.zero_add] at h9
            simp only [Nat.min_zero, Nat.zero_min, Nat.sub_zero] at h9
            have : (DIRECT_BLOCKS_COUNT - DIRECT_BLOCKS_COUNT + 2) * c.BLOCK_SIZE
                = 2 * c.BLOCK_SIZE := by simp
            rw [this]
            have h3 : (min rem (c.INDEX_COUNT + 1) + 2) * c.BLOCK_SIZE
                = min rem (c.INDEX_COUNT + 1) * c.BLOCK_SIZE + 2 * c.BLOCK_SIZE := by ring
            omega
          indirect := by
            right
            refine ⟨p, hind2, ?_, ?_, hfull1, ?_, ?_, ?_⟩
            · intro b hb
              have := hl.upper b hb
              omega
            · have := e7 (by
                rw [Nat.zero_add]
                simp only [Nat.min_zero, Nat.zero_min, Nat.sub_zero]
                omega)
              omega
            · rw [e1]
              omega
            · intro idx h1 h2 h3
              rw [e1] at h2
              obtain ⟨q, hq1, hq2, hq3⟩ := e2 idx (by omega) (by omega) (by omega)
              exact ⟨q, hq1, by omega, hq3⟩
            · intro idx h1 h2
              rw [e1] at h1
              exact e3 idx (by omega) (by omega) (by omega)
          defined := e10 }
    · intro a ha
      rw [e4 a (Or.inl ?_)]
      · simp [hs1, hs0]
      · have : f * c.BLOCK_SIZE ≤ p * c.BLOCK_SIZE := Nat.mul_le_mul_right _ hp1
        omega
    · intro j hj
      rw [e11 j hj, hs1, set_indirection_block_inode_other _ _ hj]
    · intro _
      rw [hind2]
      exact hpne
    · intro _
      rw [e1]
      omega
  · rw [if_neg (by omega)]
    intro _
    exact ⟨f, hl, Nat.le_refl _, fun _ _ => rfl, fun _ _ => rfl, fun h => absurd h hrem,
      fun h => absurd h hrem⟩
theorem div_succ_mul_gt (sz B : Nat) (hB : 0 < B) : sz < (sz / B + 1) * B := by
  have := Nat.div_add_mod sz B
  have := Nat.mod_lt sz hB
  have : (sz / B + 1) * B = B * (sz / B) + B := by ring
  omega

/-- Blocks for a write of `sz` bytes at offset `m` of a file in the layout of `file_layout`:
`inode_add_blocks` keeps the layout, extends the vector of direct blocks by blocks taken from
above the frontier, leaves the bytes below the frontier alone, and afterwards either the direct
blocks cover `m + sz` bytes or there are `DIRECT_BLOCKS_COUNT` of them and an indirection
block. -/
theorem inode_add_blocks_spec (c : Config) (hB : 8 ≤ c.BLOCK_SIZE)
    (hD : c.DATA_BLOCKS ≤ 2147483647) (s : State)
    (i : Nat) (blocks : List Nat) (lo f : Nat) (hl : file_layout c s i blocks lo f)
    (sz m : Nat) (hm : m ≤ blocks.length * c.BLOCK_SIZE) (hsz : sz ≤ 11 * c.BLOCK_SIZE)
    (hw : m + sz < SIZE_MAX1) :
    ∃ (new : List Nat) (f1 : Nat),
      file_layout c (inode_add_blocks c s (i : Int) sz m).2 i (blocks ++ new) lo f1
      ∧ f ≤ f1
      ∧ (∀ a, a < f * c.BLOCK_SIZE →
          (inode_add_blocks c s (i : Int) sz m).2.fs_data a = s.fs_data a)
      ∧ (∀ j, j ≠ i → (inode_add_blocks c s (i : Int) sz m).2.inode_table j = s.inode_table j)
      ∧ (m + sz ≤ (blocks ++ new).length * c.BLOCK_SIZE
          ∨ ((blocks ++ new).length = DIRECT_BLOCKS_COUNT
            ∧ ((inode_add_blocks c s (i : Int) sz m).2.inode_table i).indirection_block ≠ -1)) := by
  have hB0 : 0 < c.BLOCK_SIZE := by omega
  have key1 : ∀ L n : Nat, L ≤ DIRECT_BLOCKS_COUNT →
      0 < n - min (DIRECT_BLOCKS_COUNT - L) n →
      L + min (DIRECT_BLOCKS_COUNT - L) n = DIRECT_BLOCKS_COUNT := by
    unfold DIRECT_BLOCKS_COUNT
    intro L n h1 h2
    omega
  have key2 : ∀ d r k x : Nat, d ≤ 11 →
      1 + min (d + 1 - r) (k + 1) + 2 ≤ DIRECT_BLOCKS_COUNT - x + 16 := by
    unfold DIRECT_BLOCKS_COUNT
    intro d r k x h1
    omega
  have key3 : ∀ L n : Nat, ¬ 0 < n - min (DIRECT_BLOCKS_COUNT - L) n →
      min (DIRECT_BLOCKS_COUNT - L) n = n := by
    intro L n h1
    omega
  have hstay : ∀ s1 : State, s1 = s →
      (m + sz ≤ blocks.length * c.BLOCK_SIZE
        ∨ (blocks.length = DIRECT_BLOCKS_COUNT ∧ (s.inode_table i).indirection_block ≠ -1)) →
      ∃ (new : List Nat) (f1 : Nat),
        file_layout c s1 i (blocks ++ new) lo f1 ∧ f ≤ f1
        ∧ (∀ a, a < f * c.BLOCK_SIZE → s1.fs_data a = s.fs_data a)
        ∧ (∀ j, j ≠ i → s1.inode_table j = s.inode_table j)
        ∧ (m + sz ≤ (blocks ++ new).length * c.BLOCK_SIZE
          ∨ ((blocks ++ new).length = DIRECT_BLOCKS_COUNT
            ∧ (s1.inode_table i).indirection_block ≠ -1)) := by
    intro s1 h1 h2
    subst h1
    refine ⟨[], f, by simpa using hl, Nat.le_refl _, fun _ _ => rfl, fun _ _ => rfl, ?_⟩
    simpa using h2
  have hfullind : (s.inode_table i).indirection_block ≠ -1 →
      blocks.length = DIRECT_BLOCKS_COUNT := by
    intro h
    rcases hl.indirect with h1 | ⟨p, _, _, _, h4, _⟩
    · exact absurd h1.1 h
    · exact h4
  unfold inode_add_blocks
  rw [if_neg (by rw [inode_is_free_taken c s i hl.inum_lt hl.taken]; simp)]
  simp only [Int.toNat_ofNat, Nat.mod_eq_of_lt hw, hl.count]
  by_cases h1 : m + sz ≤ (blocks.length + (s.inode_table i).number_indirect_blocks) * c.BLOCK_SIZE
  · rw [if_pos h1]
    refine hstay _ rfl ?_
    rcases hl.indirect with h2 | ⟨p, hp, _, _, h4, _⟩
    · rw [h2.2] at h1
      exact Or.inl h1
    · refine Or.inr ⟨h4, ?_⟩
      rw [hp]
      omega
  · rw [if_neg h1]
    by_cases hind : (s.inode_table i).indirection_block = -1
    · have hmem := hl.memory
      rw [if_pos hind] at hmem
      have h16 : 11 * c.BLOCK_SIZE ≤ get_free_memory c s := by
        refine le_trans (Nat.mul_le_mul_right _ ?_) hmem
        omega
      rw [if_neg (by omega), if_pos (by omega)]
      obtain ⟨new, f1, d1, d2, d3, d4, d5, d6, _⟩ :=
        inode_add_blocks_direct_spec c hB0 s i blocks lo f hl hind (sz / c.BLOCK_SIZE + 1)
      have hdiv : sz / c.BLOCK_SIZE ≤ 11 := by
        rw [Nat.div_le_iff_le_mul_add_pred hB0]
        omega
      have hmem1 := d3.memory
      rw [if_pos d6] at hmem1
      obtain ⟨f2, g1, g2, g3, g4, g5, _⟩ :=
        inode_add_blocks_indirect_spec c hB hD _ i (blocks ++ new) lo f1 d3 d6
          (inode_add_blocks_direct c s i (sz / c.BLOCK_SIZE + 1)).2
          (by
            rw [d2, List.length_append, d1]
            exact key1 _ _ hl.len_le)
          (by
            intro _
            refine le_trans (Nat.mul_le_mul_right _ ?_) hmem1
            rw [d2]
            exact key2 _ _ _ _ hdiv)
      refine ⟨new, f2, g1, by omega, ?_, ?_, ?_⟩
      · intro a ha
        rw [g3 a (lt_of_lt_of_le ha (Nat.mul_le_mul_right _ d4)), d5.1]
      · intro j hj
        rw [g4 j hj, d5.2.2.2.2.2.1 j hj]
      · by_cases hrem : 0 < (inode_add_blocks_direct c s i (sz / c.BLOCK_SIZE + 1)).2
        · right
          refine ⟨?_, g5 hrem⟩
          rw [d2, d1] at hrem
          rw [List.length_append, d1]
          exact key1 _ _ hl.len_le hrem
        · left
          rw [d2, d1] at hrem
          have h3 : new.length = sz / c.BLOCK_SIZE + 1 := by
            rw [d1]
            exact key3 _ _ hrem
          rw [List.length_append, h3, Nat.add_mul]
          have := div_succ_mul_gt sz c.BLOCK_SIZE hB0
          omega
    · have hfull := hfullind hind
      have hd : inode_add_blocks_direct c s i
          (if m + sz ≥ (blocks.length + (s.inode_table i).number_indirect_blocks) * c.BLOCK_SIZE
            then sz / c.BLOCK_SIZE + 1 else sz / c.BLOCK_SIZE)
          = (s, if m + sz ≥ (blocks.length + (s.inode_table i).number_indirect_blocks)
              * c.BLOCK_SIZE then sz / c.BLOCK_SIZE + 1 else sz / c.BLOCK_SIZE) := by
        unfold inode_add_blocks_direct
        rw [if_neg (by rw [hl.count]; omega)]
      have hi : ∀ n, inode_add_blocks_indirect c s i n = (0, s) := by
        intro n
        unfold inode_add_blocks_indirect
        rw [if_neg (by tauto)]
      split
      · exact hstay _ rfl (Or.inr ⟨hfull, hind⟩)
      · rw [hd, hi]
        exact hstay _ rfl (Or.inr ⟨hfull, hind⟩)

/-! ## Writing in the direct region -/

theorem mark_if_false (s : State) : s.mark_if false = s := rfl

theorem data_frame_refl (fh i : Nat) (s : State) : data_frame fh i s s :=
  { pool := rfl, inodes := rfl, handles := rfl, marker := rfl, others := fun _ _ => rfl,
    inumber := rfl, other_inodes := fun _ _ => rfl, kind := rfl, vector := rfl, count := rfl,
    index := rfl, index_count := rfl }

theorem data_frame_trans {fh i : Nat} {s s1 s2 : State} (h1 : data_frame fh i s s1)
    (h2 : data_frame fh i s1 s2) : data_frame fh i s s2 :=
  { pool := by rw [h2.pool, h1.pool]
    inodes := by rw [h2.inodes, h1.inodes]
    handles := by rw [h2.handles, h1.handles]
    marker := by rw [h2.marker, h1.marker]
    others := fun h hh => by rw [h2.others h hh, h1.others h hh]
    inumber := by rw [h2.inumber, h1.inumber]
    other_inodes := fun j hj => by rw [h2.other_inodes j hj, h1.other_inodes j hj]
    kind := by rw [h2.kind, h1.kind]
    vector := by rw [h2.vector, h1.vector]
    count := by rw [h2.count, h1.count]
    index := by rw [h2.index, h1.index]
    index_count := by rw [h2.index_count, h1.index_count] }

theorem inode_write_copy_data_frame (c : Config) (s : State) (fh i : Nat) (buf : Nat → Nat)
    (block size done : Nat)
    (h : ¬ c.FS_DATA_SIZE < block + (s.open_file_table fh).of_offset % c.BLOCK_SIZE + size) :
    data_frame fh i s (inode_write_copy c s fh i buf block size done) := by
  unfold inode_write_copy
  simp only [decide_eq_false h, mark_if_false]
  split
  · refine
      { pool := rfl, inodes := rfl, handles := rfl, marker := rfl, others := ?_, inumber := ?_,
        other_inodes := ?_, kind := ?_, vector := ?_, count := ?_, index := ?_,
        index_count := ?_ } <;> simp
    · intro h hh
      simp [set_of_offset_other _ _ hh]
    · intro j hj
      rw [set_i_size_inode_other _ _ hj]
      simp
  · refine
      { pool := rfl, inodes := rfl, handles := rfl, marker := rfl, others := ?_, inumber := ?_,
        other_inodes := ?_, kind := ?_, vector := ?_, count := ?_, index := ?_,
        index_count := ?_ } <;> simp
    · intro h hh
      simp [set_of_offset_other _ _ hh]

theorem inode_write_copy_fs_data (c : Config) (s : State) (fh i : Nat) (buf : Nat → Nat)
    (block size done : Nat) :
    (inode_write_copy c s fh i buf block size done).fs_data
      = memcpy s.fs_data (block + (s.open_file_table fh).of_offset % c.BLOCK_SIZE)
          (fun j => buf (done + j)) size := by
  unfold inode_write_copy
  simp only
  split <;> simp

theorem inode_write_loop_zero (c : Config) (fh i : Nat) (buf : Nat → Nat) (fuel : Nat)
    (s : State) (btw done : Nat) :
    inode_write_loop c fh i buf fuel s 0 btw done = some ((done : Int), s) := by
  unfold inode_write_loop
  simp

theorem inode_write_loop_step (c : Config) (fh i : Nat) (buf : Nat → Nat) (fuel : Nat)
    (s s1 : State) (to_write btw done block : Nat) (h0 : to_write ≠ 0)
    (hl : inode_write_locate c s i (skip_index_block btw) = (some (some block), s1)) :
    inode_write_loop c fh i buf (fuel + 1) s to_write btw done
      = inode_write_loop c fh i buf fuel
          (inode_write_copy c s1 fh i buf block
            (transfer_size c (s1.open_file_table fh).of_offset (skip_index_block btw) to_write)
            done)
          (to_write - transfer_size c (s1.open_file_table fh).of_offset (skip_index_block btw)
            to_write)
          (if ((inode_write_copy c s1 fh i buf block
                (transfer_size c (s1.open_file_table fh).of_offset (skip_index_block btw)
                  to_write) done).open_file_table fh).of_offset % c.BLOCK_SIZE = 0
            then skip_index_block btw + 1 else skip_index_block btw)
          (done + transfer_size c (s1.open_file_table fh).of_offset (skip_index_block btw)
            to_write) := by
  conv_lhs => unfold inode_write_loop
  simp only [h0, if_false, hl]

theorem read_direct_slots (s : State) (i : Nat) (blocks : List Nat) (k : Nat)
    (hv : (s.inode_table i).i_data_block = slots blocks) (hk : k < blocks.length) :
    read_direct s i k = (((blocks.getD k 0 : Nat) : Int), s) := by
  unfold read_direct
  rw [hv, slots_getD blocks k hk]

theorem inode_write_locate_direct (c : Config) (s : State) (i : Nat) (blocks : List Nat)
    (k : Nat) (hv : (s.inode_table i).i_data_block = slots blocks) (hk : k < blocks.length)
    (hlen : blocks.length ≤ DIRECT_BLOCKS_COUNT) (hb : blocks.getD k 0 < c.DATA_BLOCKS) :
    inode_write_locate c s i k = (some (some (blocks.getD k 0 * c.BLOCK_SIZE)), s) := by
  unfold inode_write_locate
  rw [if_pos (by omega), read_direct_slots s i blocks k hv hk]
  simp only [data_block_get_nat c _ hb]

theorem getD_mem (blocks : List Nat) (k : Nat) (hk : k < blocks.length) :
    blocks.getD k 0 ∈ blocks := by
  rw [List.getD_eq_getElem _ _ hk]
  exact List.getElem_mem hk

theorem direct_addr_inj (c : Config) (hB : 0 < c.BLOCK_SIZE) (blocks : List Nat)
    (hnd : blocks.Nodup) (p q : Nat) (hp : p < blocks.length * c.BLOCK_SIZE)
    (hq : q < blocks.length * c.BLOCK_SIZE)
    (h : direct_addr c blocks p = direct_addr c blocks q) : p = q := by
  unfold direct_addr at h
  have hp1 : p / c.BLOCK_SIZE < blocks.length := (Nat.div_lt_iff_lt_mul hB).mpr hp
  have hq1 : q / c.BLOCK_SIZE < blocks.length := (Nat.div_lt_iff_lt_mul hB).mpr hq
  have hpm := Nat.mod_lt p hB
  have hqm := Nat.mod_lt q hB
  have h1 : (blocks.getD (p / c.BLOCK_SIZE) 0 * c.BLOCK_SIZE + p % c.BLOCK_SIZE) / c.BLOCK_SIZE
      = (blocks.getD (q / c.BLOCK_SIZE) 0 * c.BLOCK_SIZE + q % c.BLOCK_SIZE) / c.BLOCK_SIZE := by
    rw [h]
  have h2 : (blocks.getD (p / c.BLOCK_SIZE) 0 * c.BLOCK_SIZE + p % c.BLOCK_SIZE) % c.BLOCK_SIZE
      = (blocks.getD (q / c.BLOCK_SIZE) 0 * c.BLOCK_SIZE + q % c.BLOCK_SIZE) % c.BLOCK_SIZE := by
    rw [h]
  rw [Nat.mul_comm, Nat.mul_add_div hB, Nat.div_eq_of_lt hpm, Nat.mul_comm _ c.BLOCK_SIZE,
    Nat.mul_add_div hB, Nat.div_eq_of_lt hqm] at h1
  rw [Nat.mul_comm, Nat.mul_add_mod, Nat.mod_mod, Nat.mul_comm _ c.BLOCK_SIZE,
    Nat.mul_add_mod, Nat.mod_mod] at h2
  simp only [Nat.add_zero] at h1
  rw [List.getD_eq_getElem _ _ hp1, List.getD_eq_getElem _ _ hq1] at h1
  have h3 : p / c.BLOCK_SIZE = q / c.BLOCK_SIZE := (List.Nodup.getElem_inj_iff hnd).mp h1
  have := Nat.div_add_mod p c.BLOCK_SIZE
  have := Nat.div_add_mod q c.BLOCK_SIZE
  rw [h3] at *
  omega

theorem direct_addr_same_block (c : Config) (hB : 0 < c.BLOCK_SIZE) (blocks : List Nat)
    (off x : Nat) (h : off % c.BLOCK_SIZE + x < c.BLOCK_SIZE) :
    direct_addr c blocks (off + x)
      = blocks.getD (off / c.BLOCK_SIZE) 0 * c.BLOCK_SIZE + off % c.BLOCK_SIZE + x := by
  unfold direct_addr
  have h1 := Nat.div_add_mod off c.BLOCK_SIZE
  have h2 : off + x = c.BLOCK_SIZE * (off / c.BLOCK_SIZE) + (off % c.BLOCK_SIZE + x) := by omega
  have h3 : (off + x) / c.BLOCK_SIZE = off / c.BLOCK_SIZE := by
    rw [h2, Nat.mul_add_div hB, Nat.div_eq_of_lt h]
    omega
  have h4 : (off + x) % c.BLOCK_SIZE = off % c.BLOCK_SIZE + x := by
    rw [h2, Nat.mul_add_mod, Nat.mod_eq_of_lt h]
  rw [h3, h4]
  omega
theorem skip_index_block_of_lt (k : Nat) (h : k < DIRECT_BLOCKS_COUNT) :
    skip_index_block k = k := by
  unfold skip_index_block
  rw [if_neg (by omega)]

theorem transfer_size_eq (c : Config) (offset block left : Nat) :
    transfer_size c offset block left = min left ((block + 1) * c.BLOCK_SIZE - offset) := by
  unfold transfer_size
  simp only
  split <;> omega

theorem block_end_le (c : Config) (b : Nat) (h : b < c.DATA_BLOCKS) :
    (b + 1) * c.BLOCK_SIZE ≤ c.FS_DATA_SIZE := by
  unfold Config.FS_DATA_SIZE
  rw [Nat.mul_comm c.BLOCK_SIZE]
  exact Nat.mul_le_mul_right _ h

/-- The loop of `inode_write` inside the direct blocks `blocks` of the file: it returns the
number of bytes asked for, stores byte `x` of the buffer at file position `offset + x`, and
changes no other byte of `fs_data`. -/
theorem inode_write_loop_direct (c : Config) (hB : 0 < c.BLOCK_SIZE) (fh i : Nat)
    (buf : Nat → Nat) (blocks : List Nat) (hnd : blocks.Nodup)
    (hlen : blocks.length ≤ DIRECT_BLOCKS_COUNT) (hv : ∀ b ∈ blocks, b < c.DATA_BLOCKS) :
    ∀ (fuel : Nat) (s : State) (to_write done : Nat),
      to_write ≤ fuel →
      (s.inode_table i).i_data_block = slots blocks →
      (s.open_file_table fh).of_offset + to_write ≤ blocks.length * c.BLOCK_SIZE →
      (s.open_file_table fh).of_offset ≤ (s.inode_table i).i_size →
      ∃ s1, inode_write_loop c fh i buf fuel s to_write
            ((s.open_file_table fh).of_offset / c.BLOCK_SIZE) done
          = some (((done + to_write : Nat) : Int), s1)
        ∧ data_frame fh i s s1
        ∧ (s1.open_file_table fh).of_offset = (s.open_file_table fh).of_offset + to_write
        ∧ (s1.inode_table i).i_size
          = max (s.inode_table i).i_size ((s.open_file_table fh).of_offset + to_write)
        ∧ (∀ x, x < to_write →
            s1.fs_data (direct_addr c blocks ((s.open_file_table fh).of_offset + x))
              = buf (done + x))
        ∧ (∀ a, (∀ x, x < to_write →
              a ≠ direct_addr c blocks ((s.open_file_table fh).of_offset + x)) →
            s1.fs_data a = s.fs_data a) := by
  intro fuel
  induction fuel with
  | zero =>
    intro s to_write done h1 h2 h3 h4
    have h0 : to_write = 0 := by omega
    subst h0
    refine ⟨s, inode_write_loop_zero c fh i buf 0 s _ done, data_frame_refl fh i s, rfl, ?_,
      fun x hx => absurd hx (Nat.not_lt_zero x), fun _ _ => rfl⟩
    simp only [Nat.add_zero]
    omega
  | succ n ih =>
    intro s to_write done h1 h2 h3 h4
    by_cases hc : to_write = 0
    · subst hc
      refine ⟨s, inode_write_loop_zero c fh i buf _ s _ done, data_frame_refl fh i s, rfl, ?_,
        fun x hx => absurd hx (Nat.not_lt_zero x), fun _ _ => rfl⟩
      simp only [Nat.add_zero]
      omega
    · generalize hoff : (s.open_file_table fh).of_offset = off at h3 h4 ⊢
      have hk : off / c.BLOCK_SIZE < blocks.length := by
        rw [Nat.div_lt_iff_lt_mul hB]
        omega
      have hskip := skip_index_block_of_lt (off / c.BLOCK_SIZE) (by omega)
      have hbk := hv _ (getD_mem blocks _ hk)
      have hloc := inode_write_locate_direct c s i blocks _ h2 hk hlen hbk
      rw [inode_write_loop_step c fh i buf n s s to_write _ done _ hc (by rw [hskip]; exact hloc)]
      simp only [hskip, hoff]
      have hdm := Nat.div_add_mod off c.BLOCK_SIZE
      have hml := Nat.mod_lt off hB
      have hend : (off / c.BLOCK_SIZE + 1) * c.BLOCK_SIZE
          = c.BLOCK_SIZE * (off / c.BLOCK_SIZE) + c.BLOCK_SIZE := by ring
      have hts := transfer_size_eq c off (off / c.BLOCK_SIZE) to_write
      generalize transfer_size c off (off / c.BLOCK_SIZE) to_write = size at hts ⊢
      generalize hb : blocks.getD (off / c.BLOCK_SIZE) 0 = b at hbk hloc ⊢
      have hnoub : ¬ c.FS_DATA_SIZE
          < b * c.BLOCK_SIZE + (s.open_file_table fh).of_offset % c.BLOCK_SIZE + size := by
        have := block_end_le c b hbk
        have : (b + 1) * c.BLOCK_SIZE = b * c.BLOCK_SIZE + c.BLOCK_SIZE := by ring
        rw [hoff]
        omega
      have hdf := inode_write_copy_data_frame c s fh i buf (b * c.BLOCK_SIZE) size done hnoub
      have hfs := inode_write_copy_fs_data c s fh i buf (b * c.BLOCK_SIZE) size done
      have ho4 := inode_write_copy_offset c s fh i buf (b * c.BLOCK_SIZE) size done
      have hz4 := inode_write_copy_size c s fh i buf (b * c.BLOCK_SIZE) size done
      rw [hoff] at hfs ho4 hz4
      generalize inode_write_copy c s fh i buf (b * c.BLOCK_SIZE) size done = s4
        at hdf hfs ho4 hz4 ⊢
      have h4in : ∀ x, x < size →
          s4.fs_data (direct_addr c blocks (off + x)) = buf (done + x) := by
        intro x hx
        rw [direct_addr_same_block c hB blocks off x (by omega), hb, hfs,
          memcpy_inside _ _ _ _ _ (by omega) (by omega)]
        congr 1
        omega
      have h4out : ∀ a, (∀ x, x < size → a ≠ direct_addr c blocks (off + x)) →
          s4.fs_data a = s.fs_data a := by
        intro a ha
        rw [hfs]
        apply memcpy_outside
        by_contra hcon
        apply ha (a - (b * c.BLOCK_SIZE + off % c.BLOCK_SIZE)) (by omega)
        rw [direct_addr_same_block c hB blocks off _ (by omega), hb]
        omega
      by_cases hrest : to_write - size = 0
      · rw [hrest, inode_write_loop_zero]
        have hsz : size = to_write := by omega
        subst hsz
        exact ⟨s4, by rw [Nat.cast_add], hdf, ho4, hz4, h4in, h4out⟩
      · have hfull : off + size = (off / c.BLOCK_SIZE + 1) * c.BLOCK_SIZE := by omega
        have hbtw : (if (s4.open_file_table fh).of_offset % c.BLOCK_SIZE = 0
            then off / c.BLOCK_SIZE + 1 else off / c.BLOCK_SIZE)
            = (s4.open_file_table fh).of_offset / c.BLOCK_SIZE := by
          rw [ho4, hfull, Nat.mul_mod_left, if_pos rfl, Nat.mul_div_cancel _ hB]
        rw [hbtw]
        obtain ⟨s1, e1, e2, e3, e4, e5, e6⟩ := ih s4 (to_write - size) (done + size) (by omega)
          (by rw [hdf.vector]; exact h2) (by rw [ho4]; omega) (by rw [ho4, hz4]; omega)
        rw [ho4] at e3 e4 e5 e6
        refine ⟨s1, ?_, data_frame_trans hdf e2, by rw [e3]; omega, by rw [e4, hz4]; omega,
          ?_, ?_⟩
        · rw [e1]
          congr 3
          omega
        · intro x hx
          by_cases hxs : x < size
          · rw [e6, h4in x hxs]
            intro y hy hcon
            have := direct_addr_inj c hB blocks hnd _ _ (by omega) (by omega) hcon
            omega
          · have := e5 (x - size) (by omega)
            rw [show off + size + (x - size) = off + x by omega,
              show done + size + (x - size) = done + x by omega] at this
            exact this
        · intro a ha
          rw [e6, h4out]
          · intro x hx
            exact ha x (by omega)
          · intro y hy
            have := ha (size + y) (by omega)
            rw [show off + size + y = off + (size + y) by omega]
            exact this
theorem direct_addr_block (c : Config) (hB : 0 < c.BLOCK_SIZE) (blocks : List Nat) (p : Nat)
    (hp : p < blocks.length * c.BLOCK_SIZE) :
    ∃ b, b ∈ blocks ∧ b * c.BLOCK_SIZE ≤ direct_addr c blocks p
      ∧ direct_addr c blocks p < (b + 1) * c.BLOCK_SIZE := by
  have hk : p / c.BLOCK_SIZE < blocks.length := (Nat.div_lt_iff_lt_mul hB).mpr hp
  refine ⟨blocks.getD (p / c.BLOCK_SIZE) 0, getD_mem blocks _ hk, ?_, ?_⟩
  · unfold direct_addr
    omega
  · unfold direct_addr
    have := Nat.mod_lt p hB
    rw [Nat.add_mul, Nat.one_mul]
    omega

theorem direct_addr_append (c : Config) (hB : 0 < c.BLOCK_SIZE) (blocks new : List Nat)
    (p : Nat) (hp : p < blocks.length * c.BLOCK_SIZE) :
    direct_addr c (blocks ++ new) p = direct_addr c blocks p := by
  have hk : p / c.BLOCK_SIZE < blocks.length := (Nat.div_lt_iff_lt_mul hB).mpr hp
  unfold direct_addr
  rw [List.getD_append _ _ _ _ hk]

/-- A change of bytes inside the direct blocks of the file, of `of_offset` and of `i_size`
keeps the layout, as long as the size stays inside the direct blocks. -/
theorem file_layout_of_data_frame (c : Config) {s s1 : State}
    {fh i : Nat} {blocks : List Nat} {lo f : Nat} (hl : file_layout c s i blocks lo f)
    (hd : data_frame fh i s s1)
    (hsize : (s1.inode_table i).i_size ≤ blocks.length * c.BLOCK_SIZE)
    (hfs : ∀ a, (∀ b, b ∈ blocks → a < b * c.BLOCK_SIZE ∨ (b + 1) * c.BLOCK_SIZE ≤ a) →
      s1.fs_data a = s.fs_data a) :
    file_layout c s1 i blocks lo f :=
  { taken := by rw [hd.inodes]; exact hl.taken
    inum_lt := hl.inum_lt
    vector := by rw [hd.vector]; exact hl.vector
    count := by rw [hd.count]; exact hl.count
    len_pos := hl.len_pos
    len_le := hl.len_le
    size_le := hsize
    nodup := hl.nodup
    lower := hl.lower
    upper := hl.upper
    f_le := hl.f_le
    front := by
      intro j hj hfree
      rw [hd.pool] at hfree
      exact hl.front j hj hfree
    memory := by
      rw [get_free_memory_congr c hd.pool, hd.index]
      exact hl.memory
    indirect := by
      rcases hl.indirect with h | ⟨p, h1, h2, h3, h4, h5, h6, h7⟩
      · left
        rw [hd.index, hd.index_count]
        exact h
      · right
        have hK : c.INDEX_COUNT * 4 ≤ c.BLOCK_SIZE := by
          unfold Config.INDEX_COUNT SIZEOF_INT
          omega
        have hent : ∀ idx, idx < c.INDEX_COUNT →
            index_entry c s1 p idx = index_entry c s p idx := by
          intro idx hidx
          apply index_entry_congr
          intro a ha1 ha2
          apply hfs
          intro b hb
          have hbp := h2 b hb
          right
          have : (b + 1) * c.BLOCK_SIZE ≤ p * c.BLOCK_SIZE := Nat.mul_le_mul_right _ hbp
          omega
        refine ⟨p, by rw [hd.index]; exact h1, h2, h3, h4, by rw [hd.index_count]; exact h5,
          ?_, ?_⟩
        · intro idx i1 i2 i3
          rw [hd.index_count] at i2
          rw [hent idx i3]
          exact h6 idx i1 i2 i3
        · intro idx i1 i2
          rw [hd.index_count] at i1
          rw [hent idx i2]
          exact h7 idx i1 i2
    defined := by rw [hd.marker]; exact hl.defined }

/-- The function `inode_write` for a write that ends inside the direct region, on a file in the
layout of `file_layout`: it returns the length asked for, the file keeps its layout (with
more direct blocks if needed), the bytes of the buffer are at the positions from the offset on,
and the other positions of the file and the bytes below block `lo` are as before. -/
theorem inode_write_direct (c : Config) (hB : 8 ≤ c.BLOCK_SIZE)
    (hS : c.FS_DATA_SIZE ≤ 2147483647) (s : State) (fh i : Nat) (blocks : List Nat)
    (lo f : Nat) (hl : file_layout c s i blocks lo f) (buf : Nat → Nat) (n : Nat)
    (hin : (s.open_file_table fh).of_inumber = (i : Int))
    (hoff : (s.open_file_table fh).of_offset ≤ (s.inode_table i).i_size)
    (hn : (s.open_file_table fh).of_offset + n ≤ DIRECT_BLOCKS_COUNT * c.BLOCK_SIZE) :
    ∃ (s1 : State) (new : List Nat) (f1 : Nat),
      inode_write c s fh i buf n = some ((n : Int), s1)
      ∧ file_layout c s1 i (blocks ++ new) lo f1
      ∧ f ≤ f1
      ∧ (s1.open_file_table fh).of_offset = (s.open_file_table fh).of_offset + n
      ∧ (s1.inode_table i).i_size
        = max (s.inode_table i).i_size ((s.open_file_table fh).of_offset + n)
      ∧ (∀ x, x < n →
          s1.fs_data (direct_addr c (blocks ++ new) ((s.open_file_table fh).of_offset + x))
            = buf x)
      ∧ (∀ p, p < blocks.length * c.BLOCK_SIZE →
          p < (s.open_file_table fh).of_offset ∨ (s.open_file_table fh).of_offset + n ≤ p →
          s1.fs_data (direct_addr c (blocks ++ new) p) = s.fs_data (direct_addr c blocks p))
      ∧ (∀ a, a < lo * c.BLOCK_SIZE → s1.fs_data a = s.fs_data a)
      ∧ s1.free_open_file_entries = s.free_open_file_entries
      ∧ s1.freeinode_ts = s.freeinode_ts
      ∧ (∀ h, h ≠ fh → s1.open_file_table h = s.open_file_table h)
      ∧ (s1.open_file_table fh).of_inumber = (s.open_file_table fh).of_inumber
      ∧ (∀ j, j ≠ i → s1.inode_table j = s.inode_table j) := by
  have hB0 : 0 < c.BLOCK_SIZE := by omega
  have hb0 := hl.upper _ (getD_mem blocks 0 hl.len_pos)
  have hlo0 := hl.lower _ (getD_mem blocks 0 hl.len_pos)
  have hDpos : 0 < c.DATA_BLOCKS := by have := hl.f_le; omega
  have hD : c.DATA_BLOCKS ≤ 2147483647 := by
    unfold Config.FS_DATA_SIZE at hS
    calc c.DATA_BLOCKS = 1 * c.DATA_BLOCKS := by omega
      _ ≤ c.BLOCK_SIZE * c.DATA_BLOCKS := Nat.mul_le_mul_right _ hB0
      _ ≤ _ := hS
  have hBle : c.BLOCK_SIZE ≤ 2147483647 := by
    unfold Config.FS_DATA_SIZE at hS
    calc c.BLOCK_SIZE = c.BLOCK_SIZE * 1 := by omega
      _ ≤ c.BLOCK_SIZE * c.DATA_BLOCKS := Nat.mul_le_mul_left _ hDpos
      _ ≤ _ := hS
  have hsl := hl.size_le
  have hll := hl.len_le
  generalize hoffv : (s.open_file_table fh).of_offset = off at hoff hn ⊢
  generalize hszv : (s.inode_table i).i_size = size at hoff hsl ⊢
  have hoffL : off ≤ blocks.length * c.BLOCK_SIZE := by omega
  have h10 : DIRECT_BLOCKS_COUNT * c.BLOCK_SIZE = 10 * c.BLOCK_SIZE := rfl
  have hcap : off + n ≤ c.CAPACITY := by
    unfold Config.CAPACITY
    refine le_trans hn (Nat.mul_le_mul_right _ (by omega))
  have hwrap : off + n < SIZE_MAX1 := by
    unfold SIZE_MAX1
    omega
  -- the state after the allocation step
  have hstep : ∃ (s3 : State) (new : List Nat) (f1 : Nat),
      inode_write c s fh i buf n = inode_write_loop c fh i buf n s3 n (start_block c off) 0
      ∧ file_layout c s3 i (blocks ++ new) lo f1 ∧ f ≤ f1
      ∧ (∀ a, a < f * c.BLOCK_SIZE → s3.fs_data a = s.fs_data a)
      ∧ (∀ j, j ≠ i → s3.inode_table j = s.inode_table j)
      ∧ meta_frame s s3
      ∧ off + n ≤ (blocks ++ new).length * c.BLOCK_SIZE := by
    unfold inode_write
    simp only [clamp_offset_of_le s fh i (by omega), hoffv, hszv, hin, Nat.mod_eq_of_lt hwrap,
      if_neg (Nat.not_lt.mpr hcap), hl.count]
    have hadd : ∀ sz, n ≤ sz → sz ≤ 11 * c.BLOCK_SIZE →
        ∃ (new : List Nat) (f1 : Nat),
          file_layout c (inode_add_blocks c s (i : Int) sz off).2 i (blocks ++ new) lo f1
          ∧ f ≤ f1
          ∧ (∀ a, a < f * c.BLOCK_SIZE →
            (inode_add_blocks c s (i : Int) sz off).2.fs_data a = s.fs_data a)
          ∧ (∀ j, j ≠ i → (inode_add_blocks c s (i : Int) sz off).2.inode_table j
              = s.inode_table j)
          ∧ meta_frame s (inode_add_blocks c s (i : Int) sz off).2
          ∧ off + n ≤ (blocks ++ new).length * c.BLOCK_SIZE := by
      intro sz h1 h2
      obtain ⟨new, f1, a1, a2, a3, a4, a5⟩ := inode_add_blocks_spec c hB hD s i blocks lo f hl
        sz off hoffL h2 (by unfold SIZE_MAX1; omega)
      refine ⟨new, f1, a1, a2, a3, a4, meta_frame_inode_add_blocks c s _ sz off, ?_⟩
      rcases a5 with a5 | a5
      · omega
      · rw [a5.1]
        omega
    split
    · obtain ⟨new, f1, a1, a2, a3, a4, a5, a6⟩ := hadd n (Nat.le_refl _) (by omega)
      exact ⟨_, new, f1, rfl, a1, a2, a3, a4, a5, a6⟩
    · split
      · obtain ⟨new, f1, a1, a2, a3, a4, a5, a6⟩ :=
          hadd (if n < c.BLOCK_SIZE then c.BLOCK_SIZE else n) (by split <;> omega)
            (by split <;> omega)
        exact ⟨_, new, f1, rfl, a1, a2, a3, a4, a5, a6⟩
      · rename_i h1 h2
        refine ⟨s, [], f, rfl, by simpa using hl, Nat.le_refl _, fun _ _ => rfl,
          fun _ _ => rfl, meta_frame_refl s, ?_⟩
        simp only [List.append_nil]
        rcases hl.indirect with h | ⟨p, _, _, _, h4, _⟩
        · rw [h.2] at h2
          simp only [Nat.add_zero] at h2
          omega
        · rw [h4]
          omega
  obtain ⟨s3, new, f1, e1, e2, e3, e4, e5, e6, e7⟩ := hstep
  rw [e1]
  have hoff3 : (s3.open_file_table fh).of_offset = off := by rw [e6.1, hoffv]
  have hsz3 : (s3.inode_table i).i_size = size := by rw [(e6.2.2.2 i).1, hszv]
  have hv3 : ∀ b ∈ blocks ++ new, b < c.DATA_BLOCKS := fun b hb =>
    lt_of_lt_of_le (e2.upper b hb) e2.f_le
  have hstart : n ≠ 0 → start_block c off = off / c.BLOCK_SIZE := by
    intro hn0
    unfold start_block
    rw [if_neg]
    rw [h10] at hn
    have : off / c.BLOCK_SIZE < 10 := by
      rw [Nat.div_lt_iff_lt_mul hB0]
      omega
    unfold DIRECT_BLOCKS_COUNT
    omega
  have hloop : ∃ s1, inode_write_loop c fh i buf n s3 n (start_block c off) 0
        = some ((n : Int), s1)
      ∧ data_frame fh i s3 s1
      ∧ (s1.open_file_table fh).of_offset = off + n
      ∧ (s1.inode_table i).i_size = max size (off + n)
      ∧ (∀ x, x < n → s1.fs_data (direct_addr c (blocks ++ new) (off + x)) = buf x)
      ∧ (∀ a, (∀ x, x < n → a ≠ direct_addr c (blocks ++ new) (off + x)) →
          s1.fs_data a = s3.fs_data a) := by
    by_cases hn0 : n = 0
    · subst hn0
      rw [inode_write_loop_zero]
      refine ⟨s3, rfl, data_frame_refl fh i s3, by rw [hoff3]; rfl, ?_,
        fun x hx => absurd hx (Nat.not_lt_zero x), fun _ _ => rfl⟩
      rw [hsz3]
      simp only [Nat.add_zero]
      omega
    · obtain ⟨s1, g1, g2, g3, g4, g5, g6⟩ := inode_write_loop_direct c hB0 fh i buf
        (blocks ++ new) e2.nodup e2.len_le hv3 n s3 n 0 (Nat.le_refl _) e2.vector
        (by rw [hoff3]; exact e7) (by rw [hoff3, hsz3]; exact hoff)
      rw [hoff3] at g1 g3 g4 g5 g6
      rw [hsz3] at g4
      rw [hstart hn0]
      refine ⟨s1, ?_, g2, g3, g4, ?_, g6⟩
      · rw [g1]
        simp
      · intro x hx
        rw [g5 x hx]
        simp
  obtain ⟨s1, g1, g2, g3, g4, g5, g6⟩ := hloop
  have hinblock : ∀ a, (∀ b, b ∈ blocks ++ new → a < b * c.BLOCK_SIZE ∨ (b + 1) * c.BLOCK_SIZE ≤ a) →
      s1.fs_data a = s3.fs_data a := by
    intro a ha
    apply g6
    intro x hx hcon
    obtain ⟨b, hb1, hb2, hb3⟩ := direct_addr_block c hB0 (blocks ++ new) (off + x) (by omega)
    rcases ha b hb1 with h | h
    · omega
    · omega
  refine ⟨s1, new, f1, g1, ?_, e3, g3, g4, g5, ?_, ?_, ?_, ?_, ?_, ?_, ?_⟩
  · refine file_layout_of_data_frame c e2 g2 ?_ hinblock
    rw [g4]
    have : blocks.length * c.BLOCK_SIZE ≤ (blocks ++ new).length * c.BLOCK_SIZE := by
      apply Nat.mul_le_mul_right
      simp
    omega
  · intro p hp hpo
    have hp2 : p < (blocks ++ new).length * c.BLOCK_SIZE := by
      refine lt_of_lt_of_le hp (Nat.mul_le_mul_right _ ?_)
      simp
    rw [g6, direct_addr_append c hB0 blocks new p hp]
    · apply e4
      obtain ⟨b, hb1, hb2, hb3⟩ := direct_addr_block c hB0 blocks p hp
      have hbf := hl.upper b hb1
      have : (b + 1) * c.BLOCK_SIZE ≤ f * c.BLOCK_SIZE := Nat.mul_le_mul_right _ hbf
      omega
    · intro x hx hcon
      have := direct_addr_inj c hB0 (blocks ++ new) e2.nodup _ _ hp2 (by omega) hcon
      omega
  · intro a ha
    rw [hinblock, e4]
    · have : lo * c.BLOCK_SIZE ≤ f * c.BLOCK_SIZE := Nat.mul_le_mul_right _ (by omega)
      omega
    · intro b hb
      left
      have : lo * c.BLOCK_SIZE ≤ b * c.BLOCK_SIZE := Nat.mul_le_mul_right _ (e2.lower b hb)
      omega
  · rw [g2.handles, e6.2.1]
  · rw [g2.inodes, e6.2.2.1]
  · intro h hh
    rw [g2.others h hh, e6.1]
  · rw [g2.inumber, e6.1]
  · intro j hj
    rw [g2.other_inodes j hj, e5 j hj]

/-! ## Reading in the direct region -/

theorem set_of_offset_self (s : State) (fh : Nat) :
    s.set_of_offset fh (s.open_file_table fh).of_offset = s := by
  cases s
  simp only [State.set_of_offset]
  congr 1
  funext h
  unfold upd
  split
  · rename_i hh
    rw [hh]
  · rfl

theorem set_of_offset_twice (s : State) (fh : Nat) (a b : Nat) :
    (s.set_of_offset fh a).set_of_offset fh b = s.set_of_offset fh b := by
  cases s
  simp only [State.set_of_offset]
  congr 1
  funext h
  unfold upd
  split
  · simp
  · rfl

theorem inode_read_loop_zero (c : Config) (fh i : Nat) (fuel : Nat) (s : State)
    (out : Nat → Nat) (done : Nat) :
    inode_read_loop c fh i fuel s out 0 done = some ((done : Int), s, out) := by
  unfold inode_read_loop
  simp

theorem inode_read_loop_step (c : Config) (fh i : Nat) (fuel : Nat) (s s1 : State)
    (out : Nat → Nat) (to_read done block : Nat) (h0 : 0 < to_read)
    (h1 : (s.open_file_table fh).of_offset < (s.inode_table i).i_size)
    (hl : inode_read_locate c s i (start_block c (s.open_file_table fh).of_offset)
      = (some (some block), s1)) :
    inode_read_loop c fh i (fuel + 1) s out to_read done
      = inode_read_loop c fh i fuel
          (inode_read_copy c s1 fh block
            (transfer_size c (s1.open_file_table fh).of_offset
              (start_block c (s.open_file_table fh).of_offset) to_read))
          (memcpy out done
            (fun j => s1.fs_data (block + (s1.open_file_table fh).of_offset % c.BLOCK_SIZE + j))
            (transfer_size c (s1.open_file_table fh).of_offset
              (start_block c (s.open_file_table fh).of_offset) to_read))
          (to_read - transfer_size c (s1.open_file_table fh).of_offset
            (start_block c (s.open_file_table fh).of_offset) to_read)
          (done + transfer_size c (s1.open_file_table fh).of_offset
            (start_block c (s.open_file_table fh).of_offset) to_read) := by
  conv_lhs => unfold inode_read_loop
  have h2 : ¬ ¬ (to_read > 0 ∧ (s.open_file_table fh).of_offset < (s.inode_table i).i_size) :=
    not_not.mpr ⟨h0, h1⟩
  simp only [if_neg h2, hl]

theorem inode_read_locate_direct (c : Config) (s : State) (i : Nat) (blocks : List Nat)
    (k : Nat) (hv : (s.inode_table i).i_data_block = slots blocks) (hk : k < blocks.length)
    (hlen : blocks.length ≤ DIRECT_BLOCKS_COUNT) (hb : blocks.getD k 0 < c.DATA_BLOCKS) :
    inode_read_locate c s i k = (some (some (blocks.getD k 0 * c.BLOCK_SIZE)), s) := by
  unfold inode_read_locate
  rw [if_pos (by omega), read_direct_slots s i blocks k hv hk]
  simp only [data_block_get_nat c _ hb]

theorem inode_read_copy_eq (c : Config) (s : State) (fh block size : Nat)
    (h : ¬ c.FS_DATA_SIZE < block + (s.open_file_table fh).of_offset % c.BLOCK_SIZE + size) :
    inode_read_copy c s fh block size
      = s.set_of_offset fh ((s.open_file_table fh).of_offset + size) := by
  unfold inode_read_copy
  simp only [decide_eq_false h, mark_if_false]

theorem start_block_of_lt (c : Config) (off : Nat)
    (h : off / c.BLOCK_SIZE < DIRECT_BLOCKS_COUNT) : start_block c off = off / c.BLOCK_SIZE := by
  unfold start_block
  rw [if_neg (by omega)]

/-- The loop of `inode_read` over `d` bytes inside the direct blocks `blocks` of the file, `d`
being all that is left to read or ending at the end of a block: the loop goes on with the
offset and the count advanced by `d` and with position `off + x` of the file at byte
`done + x` of the buffer, for `x < d`. -/
theorem inode_read_loop_direct (c : Config) (hB : 0 < c.BLOCK_SIZE) (fh i : Nat)
    (blocks : List Nat) (hlen : blocks.length ≤ DIRECT_BLOCKS_COUNT)
    (hv : ∀ b ∈ blocks, b < c.DATA_BLOCKS) :
    ∀ (fuel : Nat) (s : State) (out : Nat → Nat) (to_read done d : Nat),
      to_read ≤ fuel →
      (s.inode_table i).i_data_block = slots blocks →
      d ≤ to_read →
      (s.open_file_table fh).of_offset + d ≤ blocks.length * c.BLOCK_SIZE →
      (s.open_file_table fh).of_offset + to_read ≤ (s.inode_table i).i_size →
      (d = to_read ∨ ((s.open_file_table fh).of_offset + d) % c.BLOCK_SIZE = 0) →
      ∃ (fuel1 : Nat) (out1 : Nat → Nat),
        to_read - d ≤ fuel1
        ∧ inode_read_loop c fh i fuel s out to_read done
          = inode_read_loop c fh i fuel1
              (s.set_of_offset fh ((s.open_file_table fh).of_offset + d)) out1 (to_read - d)
              (done + d)
        ∧ (∀ x, x < d →
            out1 (done + x)
              = s.fs_data (direct_addr c blocks ((s.open_file_table fh).of_offset + x)))
        ∧ (∀ a, a < done ∨ done + d ≤ a → out1 a = out a) := by
  intro fuel
  induction fuel with
  | zero =>
    intro s out to_read done d h1 h2 h3 h4 h5 h6
    have h0 : to_read = 0 := by omega
    subst h0
    have hd : d = 0 := by omega
    subst hd
    refine ⟨0, out, by omega, ?_, fun x hx => absurd hx (Nat.not_lt_zero x), fun _ _ => rfl⟩
    simp only [Nat.add_zero, Nat.sub_zero, set_of_offset_self]
  | succ n ih =>
    intro s out to_read done d h1 h2 h3 h4 h5 h6
    by_cases hd : d = 0
    · subst hd
      refine ⟨n + 1, out, by omega, ?_, fun x hx => absurd hx (Nat.not_lt_zero x),
        fun _ _ => rfl⟩
      simp only [Nat.add_zero, Nat.sub_zero, set_of_offset_self]
    · generalize hoff : (s.open_file_table fh).of_offset = off at h4 h5 h6 ⊢
      have hk : off / c.BLOCK_SIZE < blocks.length := by
        rw [Nat.div_lt_iff_lt_mul hB]
        omega
      have hstart := start_block_of_lt c off (by omega)
      have hbk := hv _ (getD_mem blocks _ hk)
      have hloc := inode_read_locate_direct c s i blocks _ h2 hk hlen hbk
      rw [inode_read_loop_step c fh i n s s out to_read done _ (by omega) (by omega)
        (by rw [hoff, hstart]; exact hloc)]
      simp only [hoff, hstart]
      have hdm := Nat.div_add_mod off c.BLOCK_SIZE
      have hml := Nat.mod_lt off hB
      have hend : (off / c.BLOCK_SIZE + 1) * c.BLOCK_SIZE
          = c.BLOCK_SIZE * (off / c.BLOCK_SIZE) + c.BLOCK_SIZE := by ring
      have hts := transfer_size_eq c off (off / c.BLOCK_SIZE) to_read
      have hsd : transfer_size c off (off / c.BLOCK_SIZE) to_read ≤ d := by
        rcases h6 with h6 | h6
        · rw [hts, h6]
          omega
        · have h7 : (off / c.BLOCK_SIZE + 1) * c.BLOCK_SIZE ≤ off + d := by
            obtain ⟨q, hq⟩ := Nat.dvd_of_mod_eq_zero h6
            rw [hq, Nat.mul_comm c.BLOCK_SIZE q]
            apply Nat.mul_le_mul_right
            have : off / c.BLOCK_SIZE < q := by
              rw [Nat.div_lt_iff_lt_mul hB, Nat.mul_comm]
              omega
            omega
          rw [hts]
          omega
      generalize transfer_size c off (off / c.BLOCK_SIZE) to_read = size at hts hsd ⊢
      generalize hb : blocks.getD (off / c.BLOCK_SIZE) 0 = b at hbk hloc ⊢
      have hnoub : ¬ c.FS_DATA_SIZE
          < b * c.BLOCK_SIZE + (s.open_file_table fh).of_offset % c.BLOCK_SIZE + size := by
        have := block_end_le c b hbk
        have : (b + 1) * c.BLOCK_SIZE = b * c.BLOCK_SIZE + c.BLOCK_SIZE := by ring
        rw [hoff]
        omega
      rw [inode_read_copy_eq c s fh _ size hnoub, hoff]
      obtain ⟨fuel1, out1, e1, e2, e3, e4⟩ := ih (s.set_of_offset fh (off + size))
        (memcpy out done (fun j => s.fs_data (b * c.BLOCK_SIZE + off % c.BLOCK_SIZE + j)) size)
        (to_read - size) (done + size) (d - size) (by omega) (by simpa using h2) (by omega)
        (by simp only [set_of_offset_get_same]; omega)
        (by simp only [set_of_offset_get_same, set_of_offset_inode_table]; omega)
        (by
          simp only [set_of_offset_get_same]
          rcases h6 with h6 | h6
          · left
            omega
          · right
            rw [show off + size + (d - size) = off + d by omega]
            exact h6)
      simp only [set_of_offset_get_same, set_of_offset_twice, set_of_offset_fs_data] at e2 e3
      rw [show off + size + (d - size) = off + d by omega,
        show to_read - size - (d - size) = to_read - d by omega,
        show done + size + (d - size) = done + d by omega] at e2
      refine ⟨fuel1, out1, by omega, e2, ?_, ?_⟩
      · intro x hx
        by_cases hxs : x < size
        · rw [e4 (done + x) (by omega), memcpy_inside _ _ _ _ _ (by omega) (by omega),
            direct_addr_same_block c hB blocks off x (by omega), hb]
          congr 1
          omega
        · have := e3 (x - size) (by omega)
          rw [show done + size + (x - size) = done + x by omega,
            show off + size + (x - size) = off + x by omega] at this
          exact this
      · intro a ha
        rw [e4 a (by omega), memcpy_outside _ _ _ _ _ (by omega)]
/-- The function `inode_read` on a file whose size lies inside its direct blocks: it returns
`min(len, size - offset)`, the only change of the state is the offset, and the buffer receives
the bytes of the file from the offset on. -/
theorem inode_read_direct (c : Config) (hB : 0 < c.BLOCK_SIZE) (s : State) (fh i : Nat)
    (blocks : List Nat) (hvec : (s.inode_table i).i_data_block = slots blocks)
    (hlen : blocks.length ≤ DIRECT_BLOCKS_COUNT) (hv : ∀ b ∈ blocks, b < c.DATA_BLOCKS)
    (hsize : (s.inode_table i).i_size ≤ blocks.length * c.BLOCK_SIZE)
    (hoff : (s.open_file_table fh).of_offset ≤ (s.inode_table i).i_size)
    (out : Nat → Nat) (len : Nat) :
    ∃ out1 : Nat → Nat,
      inode_read c s fh i out len
        = some (((min len ((s.inode_table i).i_size - (s.open_file_table fh).of_offset) : Nat)
              : Int),
            s.set_of_offset fh ((s.open_file_table fh).of_offset
              + min len ((s.inode_table i).i_size - (s.open_file_table fh).of_offset)),
            out1)
      ∧ (∀ x, x < min len ((s.inode_table i).i_size - (s.open_file_table fh).of_offset) →
          out1 x = s.fs_data (direct_addr c blocks ((s.open_file_table fh).of_offset + x)))
      ∧ (∀ a, min len ((s.inode_table i).i_size - (s.open_file_table fh).of_offset) ≤ a →
          out1 a = out a) := by
  unfold inode_read
  simp only [clamp_offset_of_le s fh i hoff]
  have hmin : (if (s.inode_table i).i_size - (s.open_file_table fh).of_offset > len then len
      else (s.inode_table i).i_size - (s.open_file_table fh).of_offset)
      = min len ((s.inode_table i).i_size - (s.open_file_table fh).of_offset) := by
    split <;> omega
  rw [hmin]
  generalize min len ((s.inode_table i).i_size - (s.open_file_table fh).of_offset) = m
    at hmin ⊢
  have hm : (s.open_file_table fh).of_offset + m ≤ (s.inode_table i).i_size := by
    rw [← hmin]
    split <;> omega
  obtain ⟨fuel1, out1, e1, e2, e3, e4⟩ := inode_read_loop_direct c hB fh i blocks hlen hv m s
    out m 0 m (Nat.le_refl _) hvec (Nat.le_refl _) (by omega) hm (Or.inl rfl)
  rw [e2, Nat.sub_self, inode_read_loop_zero]
  refine ⟨out1, by simp, ?_, ?_⟩
  · intro x hx
    have := e3 x hx
    rw [Nat.zero_add] at this
    exact this
  · intro a ha
    exact e4 a (by omega)

/-! ## Looking a name up after writes -/

theorem strncmp_eq_congr (m m1 : Nat → Nat) (addr : Nat) (str : List Nat) :
    ∀ (n j : Nat), (∀ a, addr + j ≤ a → a < addr + j + n → m1 a = m a) →
      strncmp_eq m1 addr str n j = strncmp_eq m addr str n j := by
  intro n
  induction n with
  | zero => intro j _; rfl
  | succ n ih =>
    intro j h
    unfold strncmp_eq
    rw [h (addr + j) (Nat.le_refl _) (by omega),
      ih (j + 1) (fun a h1 h2 => h a (by omega) (by omega))]

theorem find_in_dir_loop_congr (c : Config) (s s1 : State) (dir_entry : Nat)
    (name : List Nat) :
    ∀ (n i : Nat),
      (∀ a, dir_entry ≤ a → a < dir_entry + (i + n) * c.SIZEOF_DIR_ENTRY →
        s1.fs_data a = s.fs_data a) →
      find_in_dir_loop c s1 dir_entry name n i = find_in_dir_loop c s dir_entry name n i := by
  intro n
  induction n with
  | zero => intro i _; rfl
  | succ n ih =>
    intro i h
    have hsz : c.MAX_FILE_NAME ≤ c.D_INUMBER_OFFSET := by
      unfold Config.D_INUMBER_OFFSET
      omega
    have hmul : (i + (n + 1)) * c.SIZEOF_DIR_ENTRY
        = i * c.SIZEOF_DIR_ENTRY + c.SIZEOF_DIR_ENTRY + n * c.SIZEOF_DIR_ENTRY := by ring
    have hse : c.SIZEOF_DIR_ENTRY = c.D_INUMBER_OFFSET + 4 := rfl
    have e1 : read_int s1.fs_data (dir_entry + i * c.SIZEOF_DIR_ENTRY + c.D_INUMBER_OFFSET)
        = read_int s.fs_data (dir_entry + i * c.SIZEOF_DIR_ENTRY + c.D_INUMBER_OFFSET) :=
      read_int_congr _ _ _ (fun a h1 h2 => h a (by omega) (by omega))
    have e2 : strncmp_eq s1.fs_data (dir_entry + i * c.SIZEOF_DIR_ENTRY) name c.MAX_FILE_NAME 0
        = strncmp_eq s.fs_data (dir_entry + i * c.SIZEOF_DIR_ENTRY) name c.MAX_FILE_NAME 0 :=
      strncmp_eq_congr _ _ _ _ _ _ (fun a h1 h2 => h a (by omega) (by omega))
    unfold find_in_dir_loop
    simp only [e1, e2]
    rw [ih (i + 1) (fun a h1 h2 => h a h1 (by
      rw [show i + 1 + n = i + (n + 1) by omega] at h2
      exact h2))]

/-- The result of `tfs_lookup` depends only on the root inode and on the bytes of its block. -/
theorem tfs_lookup_congr (c : Config) (s s1 : State) (name : Option (List Nat)) (rb : Nat)
    (h0 : s1.inode_table 0 = s.inode_table 0)
    (hrb : (s.inode_table 0).i_data_block.getD 0 none = some (rb : Int))
    (hfs : ∀ a, a < (rb + 1) * c.BLOCK_SIZE → s1.fs_data a = s.fs_data a) :
    (tfs_lookup c s1 name).1 = (tfs_lookup c s name).1 ∧ (tfs_lookup c s1 name).2 = s1 := by
  have hr : ∀ t : State, t.inode_table 0 = s.inode_table 0 →
      read_direct t 0 0 = ((rb : Int), t) := by
    intro t ht
    unfold read_direct
    rw [ht, hrb]
  unfold tfs_lookup
  split
  · exact ⟨rfl, rfl⟩
  · unfold find_in_dir
    have hz : (ROOT_DIR_INUM : Int).toNat = 0 := rfl
    simp only [hz, h0]
    split
    · exact ⟨rfl, rfl⟩
    · simp only [hr s1 h0, hr s rfl]
      rcases hg : data_block_get c (rb : Int) with _ | d
      · exact ⟨rfl, rfl⟩
      · refine ⟨?_, rfl⟩
        simp only
        apply find_in_dir_loop_congr
        intro a h1 h2
        apply hfs
        unfold data_block_get at hg
        split at hg
        · exact absurd hg (by simp)
        · simp only [Int.toNat_ofNat, Option.some.injEq] at hg
          have : c.MAX_DIR_ENTRIES * c.SIZEOF_DIR_ENTRY ≤ c.BLOCK_SIZE :=
            Nat.div_mul_le_self _ _
          rw [Nat.zero_add] at h2
          rw [Nat.add_mul, Nat.one_mul]
          omega

/-! ## Sequences of writes to a new file -/

theorem written_start (c : Config) (st : State) (fh i : Nat) (blocks : List Nat) (lo f : Nat)
    (hl : file_layout c st i blocks lo f) (hsize : (st.inode_table i).i_size = 0)
    (hoff : (st.open_file_table fh).of_offset = 0) (data : Nat → Nat) :
    written c st st fh i lo 0 data :=
  { layout := ⟨blocks, f, hl, fun p hp => absurd hp (Nat.not_lt_zero p)⟩
    offset := hoff
    size := hsize
    inumber := rfl
    handles := rfl
    inodes := rfl
    others := fun _ _ => rfl
    other_inodes := fun _ _ => rfl
    low := fun _ _ => rfl }

theorem tfs_write_eq (c : Config) (s : State) (fh i : Nat) (buf : Nat → Nat) (n : Nat)
    (h1 : fh < c.MAX_OPEN_FILES) (h2 : (s.open_file_table fh).of_inumber = (i : Int))
    (h3 : i < c.INODE_TABLE_SIZE) :
    tfs_write c s (fh : Int) buf n = inode_write c s fh i buf n := by
  unfold tfs_write get_open_file_entry inode_get valid_file_handle valid_inumber
  simp [h1, h2, h3]

theorem tfs_read_eq (c : Config) (s : State) (fh i : Nat) (buf : Nat → Nat) (n : Nat)
    (h1 : fh < c.MAX_OPEN_FILES) (h2 : (s.open_file_table fh).of_inumber = (i : Int))
    (h3 : i < c.INODE_TABLE_SIZE) :
    tfs_read c s (fh : Int) buf n = inode_read c s fh i buf n := by
  unfold tfs_read get_open_file_entry inode_get valid_file_handle valid_inumber
  simp [h1, h2, h3]

/-- One more `tfs_write` that ends inside the direct region: it returns the length asked for
and the file holds the bytes written so far followed by those of the buffer. -/
theorem written_step (c : Config) (hB : 8 ≤ c.BLOCK_SIZE) (hS : c.FS_DATA_SIZE ≤ 2147483647)
    (st s : State) (fh i lo : Nat) (m : Nat) (data : Nat → Nat)
    (hw : written c st s fh i lo m data) (hfh : fh < c.MAX_OPEN_FILES)
    (hin : (st.open_file_table fh).of_inumber = (i : Int)) (buf : Nat → Nat) (n : Nat)
    (hn : m + n ≤ DIRECT_BLOCKS_COUNT * c.BLOCK_SIZE)
    (hbuf : ∀ x, x < n → buf x = data (m + x)) :
    ∃ s1, tfs_write c s (fh : Int) buf n = some ((n : Int), s1)
      ∧ written c st s1 fh i lo (m + n) data := by
  obtain ⟨blocks, f, hl, hby⟩ := hw.layout
  have hin2 : (s.open_file_table fh).of_inumber = (i : Int) := by rw [hw.inumber, hin]
  rw [tfs_write_eq c s fh i buf n hfh hin2 hl.inum_lt]
  obtain ⟨s1, new, f1, e1, e2, e3, e4, e5, e6, e7, e8, e9, e10, e11, e12, e13⟩ :=
    inode_write_direct c hB hS s fh i blocks lo f hl buf n hin2
      (by rw [hw.offset, hw.size]) (by rw [hw.offset]; exact hn)
  rw [hw.offset] at e4 e5 e6 e7
  rw [hw.size] at e5
  have hsl := hl.size_le
  rw [hw.size] at hsl
  refine ⟨s1, e1,
    { layout := ⟨blocks ++ new, f1, e2, ?_⟩
      offset := e4
      size := by rw [e5]; omega
      inumber := by rw [e12, hw.inumber]
      handles := by rw [e9, hw.handles]
      inodes := by rw [e10, hw.inodes]
      others := fun h hh => by rw [e11 h hh, hw.others h hh]
      other_inodes := fun j hj => by rw [e13 j hj, hw.other_inodes j hj]
      low := fun a ha => by rw [e8 a ha, hw.low a ha] }⟩
  intro p hp
  by_cases hpm : p < m
  · rw [e7 p (by omega) (Or.inl hpm)]
    exact hby p hpm
  · have := e6 (p - m) (by omega)
    rw [show m + (p - m) = p by omega] at this
    rw [this, hbuf (p - m) (by omega)]
    congr 1
    omega
theorem total_length_cons (w : (Nat → Nat) × Nat) (ws : List ((Nat → Nat) × Nat)) :
    total_length (w :: ws) = w.2 + total_length ws := by
  simp [total_length]

/-- A list of writes that ends inside the direct region: every call returns the length asked
for. -/
theorem written_all (c : Config) (hB : 8 ≤ c.BLOCK_SIZE) (hS : c.FS_DATA_SIZE ≤ 2147483647)
    (st : State) (fh i lo : Nat) (hfh : fh < c.MAX_OPEN_FILES)
    (hin : (st.open_file_table fh).of_inumber = (i : Int)) (data : Nat → Nat) :
    ∀ (ws : List ((Nat → Nat) × Nat)) (s : State) (m : Nat),
      written c st s fh i lo m data →
      m + total_length ws ≤ DIRECT_BLOCKS_COUNT * c.BLOCK_SIZE →
      (∀ p, p < total_length ws → written_bytes ws p = data (m + p)) →
      ∃ s1, write_all c (fh : Int) ws s = some (ws.map (fun w => (w.2 : Int)), s1)
        ∧ written c st s1 fh i lo (m + total_length ws) data := by
  intro ws
  induction ws with
  | nil =>
    intro s m hw _ _
    exact ⟨s, rfl, by simpa [total_length] using hw⟩
  | cons w rest ih =>
    intro s m hw hlen hdata
    rw [total_length_cons] at hlen hdata
    obtain ⟨s1, e1, e2⟩ := written_step c hB hS st s fh i lo m data hw hfh hin w.1 w.2
      (by omega) (by
        intro x hx
        have := hdata x (by omega)
        unfold written_bytes at this
        rw [if_pos hx] at this
        exact this)
    obtain ⟨s2, g1, g2⟩ := ih s1 (m + w.2) e2 (by omega) (by
      intro p hp
      have := hdata (w.2 + p) (by omega)
      unfold written_bytes at this
      rw [if_neg (by omega), show w.2 + p - w.2 = p by omega] at this
      rw [this]
      congr 1
      omega)
    refine ⟨s2, ?_, ?_⟩
    · unfold write_all
      simp only [e1, g1, List.map_cons]
    · rw [total_length_cons, ← Nat.add_assoc]
      exact g2

theorem tfs_close_eq (c : Config) (s : State) (fh : Nat) (h1 : fh < c.MAX_OPEN_FILES)
    (h2 : s.free_open_file_entries fh = TAKEN) :
    tfs_close c s (fh : Int)
      = (0, { s with free_open_file_entries := upd s.free_open_file_entries fh FREE }) := by
  unfold tfs_close remove_from_open_file_table valid_file_handle
  simp [h1, h2]

/-- Closing handle `fh` and opening the file again by its name, with flags 0, in a state `s`
that has the root directory of `st`: the calls succeed and only change the open-file table,
where the new handle has offset 0. -/
theorem tfs_reopen (c : Config) (st s : State) (fh i lo : Nat)
    (path : Option (List Nat)) (rb : Nat) (htaken : s.free_open_file_entries fh = TAKEN)
    (h0 : s.inode_table 0 = st.inode_table 0)
    (hlow : ∀ a, a < lo * c.BLOCK_SIZE → s.fs_data a = st.fs_data a)
    (ho : open_file c st fh i path rb lo) (hi : i < c.INODE_TABLE_SIZE) :
    (tfs_close c s (fh : Int)).1 = 0
      ∧ ∃ fh2 : Nat, fh2 < c.MAX_OPEN_FILES
        ∧ tfs_open c (tfs_close c s (fh : Int)).2 path 0
          = ((fh2 : Int),
              { s with
                free_open_file_entries := upd (upd s.free_open_file_entries fh FREE) fh2 TAKEN
                open_file_table := upd s.open_file_table fh2
                  { of_inumber := (i : Int), of_offset := 0 } }) := by
  rw [tfs_close_eq c s fh ho.handle_lt htaken]
  refine ⟨rfl, ?_⟩
  simp only
  generalize hs1 : ({ s with free_open_file_entries := upd s.free_open_file_entries fh FREE }
    : State) = s1
  have hvalid : valid_pathname path = true := by
    by_contra hcon
    have hf := ho.found
    unfold tfs_lookup at hf
    simp only [hcon] at hf
    simp at hf
  have hlook := tfs_lookup_congr c st s1 path rb
    (by
      rw [← hs1]
      exact h0)
    ho.root_block
    (by
      intro a ha
      rw [← hs1]
      apply hlow
      have : (rb + 1) * c.BLOCK_SIZE ≤ lo * c.BLOCK_SIZE := Nat.mul_le_mul_right _ ho.root_below
      omega)
  rw [ho.found] at hlook
  obtain ⟨fh2, hff⟩ : ∃ fh2, first_free s1.free_open_file_entries c.MAX_OPEN_FILES 0
      = some fh2 := by
    rcases hffn : first_free s1.free_open_file_entries c.MAX_OPEN_FILES 0 with _ | k
    · exfalso
      apply first_free_none _ _ _ hffn fh (Nat.zero_le _) (by have := ho.handle_lt; omega)
      rw [← hs1]
      simp [upd]
    · exact ⟨k, rfl⟩
  have hlt := (first_free_some _ _ _ _ hff).2.1
  refine ⟨fh2, by omega, ?_⟩
  unfold tfs_open
  simp only [hvalid, hlook.1, hlook.2]
  have hge : ((i : Int) ≥ 0) := by omega
  simp only [Bool.not_true, Bool.false_eq_true, if_false, if_pos hge]
  unfold tfs_open_existing inode_get valid_inumber
  have hv : decide (0 ≤ (i : Int) ∧ (i : Int) < (c.INODE_TABLE_SIZE : Int)) = true := by
    simp
    omega
  have ht : (0 : Nat) &&& TFS_O_TRUNC = 0 := by decide
  have ha : (0 : Nat) &&& TFS_O_APPEND = 0 := by decide
  simp only [hv, ht, ha, Bool.not_true, Bool.false_eq_true, if_false, ne_eq,
    not_true_eq_false, Int.toNat_ofNat]
  unfold add_to_open_file_table
  simp only [hff]
  rw [← hs1]

theorem frontier_of_first_free (c : Config) (s : State) (k : Nat)
    (h : first_free s.free_blocks c.DATA_BLOCKS 0 = some k) : frontier c s k := by
  intro j _ hfree
  by_contra hcon
  exact (first_free_some _ _ _ _ h).2.2.2 j (Nat.zero_le _) (by omega) hfree

set_option maxRecDepth 100000 in
/-- With 1024-byte blocks, the file "/f1" created after `tfs_init` is inode 1 with the one
direct block 1, below the frontier 2 of the pool. -/
theorem state_created_layout :
    file_layout example_config (state_created example_config) 1 [1] 1 2 :=
  { taken := by decide!
    inum_lt := by decide
    vector := by decide!
    count := by decide!
    len_pos := by decide
    len_le := by decide
    size_le := by decide!
    nodup := by decide
    lower := by decide
    upper := by decide
    f_le := by decide
    front := frontier_of_first_free _ _ _ (by decide!)
    memory := by decide!
    indirect := Or.inl ⟨by decide!, by decide!⟩
    defined := by decide! }

set_option maxRecDepth 100000 in
/-- With 1024-byte blocks, handle 0 is open on the file "/f1" created after `tfs_init`, and
the block of the root directory is block 0. -/
theorem state_created_open :
    open_file example_config (state_created example_config) 0 1 path_f1 0 1 :=
  { handle_lt := by decide
    handle_taken := by decide!
    inumber := by decide!
    not_root := by decide
    root_block := by decide!
    root_below := by decide
    found := by decide! }

set_option maxRecDepth 100000 in
theorem state_created_empty :
    ((state_created example_config).inode_table 1).i_size = 0
      ∧ ((state_created example_config).open_file_table 0).of_offset = 0 := by
  decide!

/-! ## Blocks behind the indirection block -/

theorem index_entry_in_fs (c : Config) (p k : Nat) (hp : p < c.DATA_BLOCKS)
    (hk : k < c.INDEX_COUNT) :
    ¬ c.FS_DATA_SIZE < p * c.BLOCK_SIZE + k * SIZEOF_INT + SIZEOF_INT := by
  have h1 := block_end_le c p hp
  have h2 : c.INDEX_COUNT * 4 ≤ c.BLOCK_SIZE := by
    unfold Config.INDEX_COUNT SIZEOF_INT
    omega
  rw [Nat.add_mul, Nat.one_mul] at h1
  unfold SIZEOF_INT
  omega

theorem load_int_eq (c : Config) (s : State) (a : Nat)
    (h : ¬ c.FS_DATA_SIZE < a + SIZEOF_INT) : load_int c s a = (read_int s.fs_data a, s) := by
  unfold load_int
  rw [decide_eq_false h, mark_if_false]

theorem inode_invalid_indirect_block_eq (c : Config) (s : State) (i p k : Nat)
    (hind : (s.inode_table i).indirection_block = (p : Int)) (hp : p < c.DATA_BLOCKS)
    (hk : k < c.INDEX_COUNT) :
    inode_invalid_indirect_block c s i k = (decide (index_entry c s p k = -1), s) := by
  unfold inode_invalid_indirect_block
  rw [hind, data_block_get_nat c p hp]
  simp only
  rw [if_neg (by unfold Config.INDEX_COUNT at hk; omega),
    load_int_eq c s _ (index_entry_in_fs c p k hp hk)]
  rfl

theorem inode_invalid_indirect_block_last (c : Config) (s : State) (i k : Nat)
    (hk : c.INDEX_COUNT ≤ k) :
    inode_invalid_indirect_block c s i k = (true, s) := by
  unfold inode_invalid_indirect_block
  split
  · rfl
  · rw [if_pos (by unfold Config.INDEX_COUNT at hk; omega)]

theorem load_index_eq (c : Config) (s : State) (p k : Nat) (hp : p < c.DATA_BLOCKS)
    (hk : k < c.INDEX_COUNT) :
    load_index c s (some (p * c.BLOCK_SIZE)) k = (index_entry c s p k, s) := by
  unfold load_index
  simp only
  rw [load_int_eq c s _ (index_entry_in_fs c p k hp hk)]
  rfl

/-- The block that `inode_write` finds for block number `DIRECT_BLOCKS_COUNT + k` when entry
`k` of the indirection block holds block `q`. -/
theorem inode_write_locate_hit (c : Config) (s : State) (i p q k : Nat)
    (hind : (s.inode_table i).indirection_block = (p : Int)) (hp : p < c.DATA_BLOCKS)
    (hk : k < c.INDEX_COUNT) (he : index_entry c s p k = (q : Int)) (hq : q < c.DATA_BLOCKS) :
    inode_write_locate c s i (DIRECT_BLOCKS_COUNT + k) = (some (some (q * c.BLOCK_SIZE)), s) := by
  unfold inode_write_locate
  rw [if_neg (by omega)]
  simp only [Nat.add_sub_cancel_left, inode_invalid_indirect_block_eq c s i p k hind hp hk, he,
    hind, data_block_get_nat c p hp, load_index_eq c s p k hp hk, data_block_get_nat c q hq]
  rw [if_neg (by simp)]

/-- The block that `inode_read` finds for block number `DIRECT_BLOCKS_COUNT + k` when entry
`k` of the indirection block holds block `q`. -/
theorem inode_read_locate_hit (c : Config) (s : State) (i p q k : Nat)
    (hind : (s.inode_table i).indirection_block = (p : Int)) (hp : p < c.DATA_BLOCKS)
    (hk : k < c.INDEX_COUNT) (he : index_entry c s p k = (q : Int)) (hq : q < c.DATA_BLOCKS) :
    inode_read_locate c s i (DIRECT_BLOCKS_COUNT + k) = (some (some (q * c.BLOCK_SIZE)), s) := by
  unfold inode_read_locate
  rw [if_neg (by omega), if_neg (by rw [hind]; omega)]
  simp only [Nat.add_sub_cancel_left, inode_invalid_indirect_block_eq c s i p k hind hp hk, he,
    hind, data_block_get_nat c p hp, load_index_eq c s p k hp hk, data_block_get_nat c q hq]
  rw [if_neg (by simp)]
theorem write_index_to_block_eq (c : Config) (s : State) (i p n : Nat) (b : Int)
    (hind : (s.inode_table i).indirection_block = (p : Int)) (hp : p < c.DATA_BLOCKS)
    (hn : (s.inode_table i).number_indirect_blocks = n + 1) :
    write_index_to_block c s i b
      = (0, store_int c s (p * c.BLOCK_SIZE + n * SIZEOF_INT) b) := by
  unfold write_index_to_block
  rw [if_neg (by omega), hind, data_block_get_nat c p hp]
  simp only [hn, Nat.add_sub_cancel]

/-- The block that `inode_write` finds for block number `DIRECT_BLOCKS_COUNT + k` when entry
`k` of the indirection block is -1 and `number_indirect_blocks` is `k`: a block taken from
the pool, stored at entries `k + 1` and `k`. -/
theorem inode_write_locate_miss (c : Config) (hB : 4 ≤ c.BLOCK_SIZE)
    (hD : c.DATA_BLOCKS ≤ 2147483647) (s : State) (i p k f : Nat)
    (hind : (s.inode_table i).indirection_block = (p : Int)) (hp : p + 2 ≤ c.DATA_BLOCKS)
    (hk : k < c.INDEX_COUNT) (he : index_entry c s p k = -1)
    (hnib : (s.inode_table i).number_indirect_blocks = k) (hfront : frontier c s f)
    (hmem : c.BLOCK_SIZE ≤ get_free_memory c s) :
    ∃ (a : Nat) (s1 : State),
      inode_write_locate c s i (DIRECT_BLOCKS_COUNT + k) = (some (some (a * c.BLOCK_SIZE)), s1)
      ∧ f ≤ a ∧ a < c.DATA_BLOCKS
      ∧ (s1.inode_table i).indirection_block = (p : Int)
      ∧ index_entry c s1 p k = (a : Int)
      ∧ (∀ x, x < p * c.BLOCK_SIZE ∨ (p + 2) * c.BLOCK_SIZE ≤ x → s1.fs_data x = s.fs_data x)
      ∧ (s1.inode_table i).i_data_block = (s.inode_table i).i_data_block
      ∧ (s1.inode_table i).number_of_blocks = (s.inode_table i).number_of_blocks
      ∧ (∀ j, j ≠ i → s1.inode_table j = s.inode_table j)
      ∧ s1.undefined_behaviour = s.undefined_behaviour := by
  have hB0 : 0 < c.BLOCK_SIZE := by omega
  have hp1 : p < c.DATA_BLOCKS := by omega
  have hK : c.INDEX_COUNT * 4 ≤ c.BLOCK_SIZE := by
    unfold Config.INDEX_COUNT SIZEOF_INT
    omega
  have hfs := block_end_le c (p + 1) (by omega)
  have hfs2 : (p + 1 + 1) * c.BLOCK_SIZE = p * c.BLOCK_SIZE + c.BLOCK_SIZE + c.BLOCK_SIZE := by
    ring
  obtain ⟨a, ha1, ha2, ha3, ha4, ha5⟩ := frontier_alloc c hB0 s f hfront hmem
  unfold inode_write_locate
  rw [if_neg (by omega)]
  simp only [Nat.add_sub_cancel_left, hind, data_block_get_nat c p hp1,
    inode_invalid_indirect_block_eq c s i p k hind hp1 hk, he, decide_True, if_true, ha3]
  rw [if_neg (by omega)]
  generalize hsA : ({ s with free_blocks := upd s.free_blocks a TAKEN } : State) = sA
  have hA1 : sA.inode_table = s.inode_table := by rw [← hsA]
  have hA2 : sA.fs_data = s.fs_data := by rw [← hsA]
  have hA3 : sA.undefined_behaviour = s.undefined_behaviour := by rw [← hsA]
  simp only [hA1, hnib, set_number_indirect_blocks_get_same]
  generalize hs3 : sA.set_number_indirect_blocks i (k + 1) = s3
  have h31 : (s3.inode_table i).indirection_block = (p : Int) := by
    rw [← hs3]
    simp [hA1, hind]
  have h32 : (s3.inode_table i).number_indirect_blocks = k + 1 := by
    rw [← hs3]
    simp
  have h33 : s3.fs_data = s.fs_data := by rw [← hs3]; simp [hA2]
  have hst : store_index c s3 (some (p * c.BLOCK_SIZE)) (k + 1) (a : Int)
      = store_int c s3 (p * c.BLOCK_SIZE + (k + 1) * SIZEOF_INT) (a : Int) := rfl
  rw [hst]
  generalize hs4 : store_int c s3 (p * c.BLOCK_SIZE + (k + 1) * SIZEOF_INT) (a : Int) = s4
  have h41 : (s4.inode_table i).indirection_block = (p : Int) := by
    rw [← hs4]
    simp [h31]
  have h42 : (s4.inode_table i).number_indirect_blocks = k + 1 := by
    rw [← hs4]
    simp [h32]
  rw [write_index_to_block_eq c s4 i p k (a : Int) h41 hp1 h42]
  simp only
  rw [if_neg (by omega)]
  generalize hs5 : store_int c s4 (p * c.BLOCK_SIZE + k * SIZEOF_INT) (a : Int) = s5
  have h51 : (s5.inode_table i).indirection_block = (p : Int) := by
    rw [← hs5]
    simp [h41]
  have h52 : index_entry c s5 p k = (a : Int) := by
    rw [← hs5]
    exact index_entry_store_same c s4 p k (a : Int) (by omega) (by omega)
  rw [inode_invalid_indirect_block_eq c s5 i p k h51 hp1 hk, h52]
  rw [if_neg (by simp)]
  simp only [load_index_eq c s5 p k hp1 hk, h52, data_block_get_nat c a ha2]
  refine ⟨a, s5, rfl, ha1, ha2, h51, h52, ?_, ?_, ?_, ?_, ?_⟩
  · intro x hx
    have hx2 : (p + 2) * c.BLOCK_SIZE = p * c.BLOCK_SIZE + 2 * c.BLOCK_SIZE := by ring
    rw [hx2] at hx
    rw [← hs5, store_int_fs_data, ← hs4, store_int_fs_data, h33,
      write_int_outside _ _ _ _ (by unfold SIZEOF_INT; omega),
      write_int_outside _ _ _ _ (by unfold SIZEOF_INT; omega)]
  · rw [← hs5, ← hs4, ← hs3]
    simp [hA1]
  · rw [← hs5, ← hs4, ← hs3]
    simp [hA1]
  · intro j hj
    rw [← hs5, ← hs4, ← hs3]
    simp only [store_int_inode_table]
    rw [set_number_indirect_blocks_inode_other _ _ hj, hA1]
  · rw [← hs5, store_int_undefined c s4 _ _ (index_entry_in_fs c p k hp1 hk), ← hs4,
      store_int_undefined c s3 _ _ (by unfold SIZEOF_INT; omega), ← hs3]
    simp [hA3]
theorem start_block_cross (c : Config) (hB : 0 < c.BLOCK_SIZE) :
    start_block c (DIRECT_BLOCKS_COUNT * c.BLOCK_SIZE) = DIRECT_BLOCKS_COUNT + 1 := by
  unfold start_block
  rw [Nat.mul_div_cancel _ hB, if_pos (Nat.le_refl _)]

/-- The block for file position `DIRECT_BLOCKS_COUNT * BLOCK_SIZE` of a file with
`DIRECT_BLOCKS_COUNT` direct blocks and an indirection block, in the layout of `file_layout`:
`inode_write` finds the block of entry 1, a new one if the entry is still -1. -/
theorem inode_write_locate_cross (c : Config) (hB : 8 ≤ c.BLOCK_SIZE)
    (hD : c.DATA_BLOCKS ≤ 2147483647) (s : State) (i : Nat) (blocks : List Nat) (lo f : Nat)
    (hl : file_layout c s i blocks lo f)
    (hind : (s.inode_table i).indirection_block ≠ -1) :
    ∃ (p q : Nat) (s1 : State),
      inode_write_locate c s i (DIRECT_BLOCKS_COUNT + 1) = (some (some (q * c.BLOCK_SIZE)), s1)
      ∧ (s1.inode_table i).indirection_block = (p : Int)
      ∧ (∀ b ∈ blocks, b < p) ∧ p < q ∧ q < c.DATA_BLOCKS
      ∧ index_entry c s1 p 1 = (q : Int)
      ∧ (∀ x, x < p * c.BLOCK_SIZE → s1.fs_data x = s.fs_data x)
      ∧ (s1.inode_table i).i_data_block = (s.inode_table i).i_data_block
      ∧ (∀ j, j ≠ i → s1.inode_table j = s.inode_table j)
      ∧ s1.undefined_behaviour = false := by
  have hK : 1 < c.INDEX_COUNT := by
    unfold Config.INDEX_COUNT SIZEOF_INT
    omega
  rcases hl.indirect with h | ⟨p, h1, h2, h3, h4, h5, h6, h7⟩
  · exact absurd h.1 hind
  · have hf := hl.f_le
    by_cases hn : 2 ≤ (s.inode_table i).number_indirect_blocks
    · obtain ⟨q, hq1, hq2, hq3⟩ := h6 1 (Nat.le_refl _) (by omega) hK
      refine ⟨p, q, s, inode_write_locate_hit c s i p q 1 h1 (by omega) hK hq1 (by omega), h1,
        h2, hq2, by omega, hq1, fun _ _ => rfl, rfl, fun _ _ => rfl, hl.defined⟩
    · have hmem := hl.memory
      rw [if_neg hind] at hmem
      have hmem2 : c.BLOCK_SIZE ≤ get_free_memory c s := by
        refine le_trans ?_ hmem
        calc c.BLOCK_SIZE = 1 * c.BLOCK_SIZE := by omega
          _ ≤ _ := Nat.mul_le_mul_right _ (by omega)
      obtain ⟨a, s1, e1, e2, e3, e4, e5, e6, e7, e8, e9, e10⟩ :=
        inode_write_locate_miss c (by omega) hD s i p 1 f h1 (by omega) hK
          (h7 1 (by omega) hK) (by omega) hl.front hmem2
      exact ⟨p, a, s1, e1, e4, h2, by omega, e3, e5, fun x hx => e6 x (Or.inl hx), e7, e9,
        by rw [e10]; exact hl.defined⟩

/-- The function `inode_write` for one byte at offset `DIRECT_BLOCKS_COUNT * BLOCK_SIZE`, the
size of the file: it returns 1, the inode has an indirection block `p` afterwards, and the
byte is at the start of the block of entry 1. -/
theorem inode_write_cross (c : Config) (hB : 8 ≤ c.BLOCK_SIZE)
    (hS : c.FS_DATA_SIZE ≤ 2147483647) (s : State) (fh i : Nat) (blocks : List Nat)
    (lo f : Nat) (hl : file_layout c s i blocks lo f) (buf : Nat → Nat)
    (hin : (s.open_file_table fh).of_inumber = (i : Int))
    (hoff : (s.open_file_table fh).of_offset = DIRECT_BLOCKS_COUNT * c.BLOCK_SIZE)
    (hsize : (s.inode_table i).i_size = DIRECT_BLOCKS_COUNT * c.BLOCK_SIZE) :
    ∃ (s1 : State) (p q : Nat),
      inode_write c s fh i buf 1 = some (1, s1)
      ∧ (s1.inode_table i).indirection_block = (p : Int) ∧ p < c.DATA_BLOCKS
      ∧ index_entry c s1 p 1 = (q : Int) ∧ q < c.DATA_BLOCKS
      ∧ s1.fs_data (q * c.BLOCK_SIZE) = buf 0
      ∧ (s1.inode_table i).i_data_block = slots blocks
      ∧ blocks.length = DIRECT_BLOCKS_COUNT
      ∧ (s1.inode_table i).i_size = DIRECT_BLOCKS_COUNT * c.BLOCK_SIZE + 1
      ∧ (∀ x, x < lo * c.BLOCK_SIZE → s1.fs_data x = s.fs_data x)
      ∧ (∀ x, x < DIRECT_BLOCKS_COUNT * c.BLOCK_SIZE →
          s1.fs_data (direct_addr c blocks x) = s.fs_data (direct_addr c blocks x))
      ∧ s1.free_open_file_entries = s.free_open_file_entries
      ∧ (∀ j, j ≠ i → s1.inode_table j = s.inode_table j)
      ∧ s1.undefined_behaviour = false := by
  have hB0 : 0 < c.BLOCK_SIZE := by omega
  have hb0 := hl.upper _ (getD_mem blocks 0 hl.len_pos)
  have hlo0 := hl.lower _ (getD_mem blocks 0 hl.len_pos)
  have hDpos : 0 < c.DATA_BLOCKS := by have := hl.f_le; omega
  have hD : c.DATA_BLOCKS ≤ 2147483647 := by
    unfold Config.FS_DATA_SIZE at hS
    calc c.DATA_BLOCKS = 1 * c.DATA_BLOCKS := by omega
      _ ≤ c.BLOCK_SIZE * c.DATA_BLOCKS := Nat.mul_le_mul_right _ hB0
      _ ≤ _ := hS
  have hBle : c.BLOCK_SIZE ≤ 2147483647 := by
    unfold Config.FS_DATA_SIZE at hS
    calc c.BLOCK_SIZE = c.BLOCK_SIZE * 1 := by omega
      _ ≤ c.BLOCK_SIZE * c.DATA_BLOCKS := Nat.mul_le_mul_left _ hDpos
      _ ≤ _ := hS
  have h10 : DIRECT_BLOCKS_COUNT * c.BLOCK_SIZE = 10 * c.BLOCK_SIZE := rfl
  have hK : 1 < c.INDEX_COUNT := by
    unfold Config.INDEX_COUNT SIZEOF_INT
    omega
  have hlen : blocks.length = DIRECT_BLOCKS_COUNT := by
    have h1 := hl.size_le
    have h2 := hl.len_le
    rw [hsize] at h1
    have := Nat.le_of_mul_le_mul_right h1 hB0
    omega
  have hcap : DIRECT_BLOCKS_COUNT * c.BLOCK_SIZE + 1 ≤ c.CAPACITY := by
    unfold Config.CAPACITY
    rw [Nat.add_mul]
    have : 1 * c.BLOCK_SIZE ≤ c.INDEX_COUNT * c.BLOCK_SIZE := Nat.mul_le_mul_right _ (by omega)
    omega
  have hwrap : DIRECT_BLOCKS_COUNT * c.BLOCK_SIZE + 1 < SIZE_MAX1 := by
    unfold SIZE_MAX1
    omega
  -- the state after the allocation step
  have hstep : ∃ (s3 : State) (f3 : Nat),
      inode_write c s fh i buf 1
        = inode_write_loop c fh i buf 1 s3 1 (DIRECT_BLOCKS_COUNT + 1) 0
      ∧ file_layout c s3 i blocks lo f3
      ∧ (s3.inode_table i).indirection_block ≠ -1
      ∧ (∀ a, a < f * c.BLOCK_SIZE → s3.fs_data a = s.fs_data a)
      ∧ (∀ j, j ≠ i → s3.inode_table j = s.inode_table j)
      ∧ meta_frame s s3 := by
    unfold inode_write
    simp only [clamp_offset_of_le s fh i (by omega), hoff, hsize, hin, Nat.mod_eq_of_lt hwrap,
      if_neg (Nat.not_lt.mpr hcap), hl.count, start_block_cross c hB0]
    rw [if_neg (by omega)]
    split
    · rw [if_pos (by omega)]
      obtain ⟨new, f1, a1, a2, a3, a4, a5⟩ := inode_add_blocks_spec c hB hD s i blocks lo f hl
        c.BLOCK_SIZE (DIRECT_BLOCKS_COUNT * c.BLOCK_SIZE) (by rw [hlen]) (by omega)
        (by unfold SIZE_MAX1; omega)
      have hnew : new = [] := by
        have := a1.len_le
        rw [List.length_append, hlen] at this
        exact List.length_eq_zero.mp (by omega)
      subst hnew
      rw [List.append_nil] at a1 a5
      refine ⟨_, f1, rfl, a1, ?_, a3, a4, meta_frame_inode_add_blocks c s _ _ _⟩
      rcases a5 with a5 | a5
      · rw [hlen] at a5
        omega
      · exact a5.2
    · rename_i h2
      refine ⟨s, f, rfl, hl, ?_, fun _ _ => rfl, fun _ _ => rfl, meta_frame_refl s⟩
      intro hcon
      rcases hl.indirect with h | ⟨p, hp, _⟩
      · rw [h.2, hlen] at h2
        simp only [Nat.add_zero] at h2
        omega
      · rw [hcon] at hp
        omega
  obtain ⟨s3, f3, e1, e2, e3, e4, e5, e6⟩ := hstep
  rw [e1]
  obtain ⟨p, q, s5, g1, g2, g3, g4, g5, g6, g7, g8, g9, g10⟩ :=
    inode_write_locate_cross c hB hD s3 i blocks lo f3 e2 e3
  have hm5 := meta_frame_inode_write_locate c s3 i (DIRECT_BLOCKS_COUNT + 1)
  rw [g1] at hm5
  simp only at hm5
  have hskip : skip_index_block (DIRECT_BLOCKS_COUNT + 1) = DIRECT_BLOCKS_COUNT + 1 := by
    unfold skip_index_block
    rw [if_neg (by omega)]
  have ho5 : (s5.open_file_table fh).of_offset = DIRECT_BLOCKS_COUNT * c.BLOCK_SIZE := by
    rw [hm5.1, e6.1, hoff]
  have hz5 : (s5.inode_table i).i_size = DIRECT_BLOCKS_COUNT * c.BLOCK_SIZE := by
    rw [(hm5.2.2.2 i).1, (e6.2.2.2 i).1, hsize]
  rw [inode_write_loop_step c fh i buf 0 s3 s5 1 _ 0 (q * c.BLOCK_SIZE) (by omega)
    (by rw [hskip]; exact g1)]
  have hts : transfer_size c (s5.open_file_table fh).of_offset
      (skip_index_block (DIRECT_BLOCKS_COUNT + 1)) 1 = 1 := by
    rw [transfer_size_eq, ho5, hskip]
    have : (DIRECT_BLOCKS_COUNT + 1 + 1) * c.BLOCK_SIZE
        = DIRECT_BLOCKS_COUNT * c.BLOCK_SIZE + 2 * c.BLOCK_SIZE := by ring
    omega
  rw [hts, Nat.sub_self, inode_write_loop_zero]
  have hmod : (s5.open_file_table fh).of_offset % c.BLOCK_SIZE = 0 := by
    rw [ho5, Nat.mul_mod_left]
  have hqe := block_end_le c q g5
  rw [Nat.add_mul, Nat.one_mul] at hqe
  have hnoub : ¬ c.FS_DATA_SIZE
      < q * c.BLOCK_SIZE + (s5.open_file_table fh).of_offset % c.BLOCK_SIZE + 1 := by
    rw [hmod]
    omega
  have hdf := inode_write_copy_data_frame c s5 fh i buf (q * c.BLOCK_SIZE) 1 0 hnoub
  have hfs := inode_write_copy_fs_data c s5 fh i buf (q * c.BLOCK_SIZE) 1 0
  have hz6 := inode_write_copy_size c s5 fh i buf (q * c.BLOCK_SIZE) 1 0
  rw [hmod] at hfs
  rw [ho5, hz5] at hz6
  generalize inode_write_copy c s5 fh i buf (q * c.BLOCK_SIZE) 1 0 = s6 at hdf hfs hz6 ⊢
  have hpq : (p + 1) * c.BLOCK_SIZE ≤ q * c.BLOCK_SIZE := Nat.mul_le_mul_right _ g4
  rw [Nat.add_mul, Nat.one_mul] at hpq
  have hlow6 : ∀ x, x < p * c.BLOCK_SIZE → s6.fs_data x = s5.fs_data x := by
    intro x hx
    rw [hfs, memcpy_outside _ _ _ _ _ (by omega)]
  have hbp : ∀ b ∈ blocks, (b + 1) * c.BLOCK_SIZE ≤ p * c.BLOCK_SIZE ∧
      (b + 1) * c.BLOCK_SIZE ≤ f * c.BLOCK_SIZE := fun b hb =>
    ⟨Nat.mul_le_mul_right _ (g3 b hb), Nat.mul_le_mul_right _ (hl.upper b hb)⟩
  have hlop : lo * c.BLOCK_SIZE ≤ blocks.getD 0 0 * c.BLOCK_SIZE := Nat.mul_le_mul_right _ hlo0
  have hb0p := hbp _ (getD_mem blocks 0 hl.len_pos)
  rw [Nat.add_mul, Nat.one_mul] at hb0p
  refine ⟨s6, p, q, by simp, by rw [hdf.index, g2], by omega, ?_, g5, ?_, ?_, hlen, ?_, ?_, ?_,
    ?_, ?_, ?_⟩
  · rw [← g6]
    apply index_entry_congr
    intro a ha1 ha2
    rw [hfs, memcpy_outside _ _ _ _ _ (by unfold SIZEOF_INT at ha1 ha2; omega)]
  · rw [hfs, memcpy_inside _ _ _ _ _ (by omega) (by omega)]
    simp
  · rw [hdf.vector, g8, e2.vector]
  · rw [hz6]
    omega
  · intro x hx
    rw [hlow6 x (by omega), g7 x (by omega), e4 x (by omega)]
  · intro x hx
    obtain ⟨b, hb1, hb2, hb3⟩ := direct_addr_block c hB0 blocks x (by rw [hlen]; exact hx)
    have := hbp b hb1
    rw [hlow6 _ (by omega), g7 _ (by omega), e4 _ (by omega)]
  · rw [hdf.handles, hm5.2.1, e6.2.1]
  · intro j hj
    rw [hdf.other_inodes j hj, g9 j hj, e5 j hj]
  · rw [hdf.marker, g10]
/-- The function `inode_read` from offset 0 for `DIRECT_BLOCKS_COUNT * BLOCK_SIZE + 1` bytes
of a file of that size whose entry 1 of the indirection block holds block `q`: it returns the
length, with the bytes of the direct blocks followed by the first byte of block `q`. -/
theorem inode_read_cross (c : Config) (hB : 8 ≤ c.BLOCK_SIZE) (s : State) (fh i : Nat)
    (blocks : List Nat) (p q : Nat) (hvec : (s.inode_table i).i_data_block = slots blocks)
    (hlen : blocks.length = DIRECT_BLOCKS_COUNT) (hv : ∀ b ∈ blocks, b < c.DATA_BLOCKS)
    (hsize : (s.inode_table i).i_size = DIRECT_BLOCKS_COUNT * c.BLOCK_SIZE + 1)
    (hoff : (s.open_file_table fh).of_offset = 0)
    (hind : (s.inode_table i).indirection_block = (p : Int)) (hp : p < c.DATA_BLOCKS)
    (he : index_entry c s p 1 = (q : Int)) (hq : q < c.DATA_BLOCKS) (out : Nat → Nat) :
    ∃ (s1 : State) (out1 : Nat → Nat),
      inode_read c s fh i out (DIRECT_BLOCKS_COUNT * c.BLOCK_SIZE + 1)
        = some (((DIRECT_BLOCKS_COUNT * c.BLOCK_SIZE + 1 : Nat) : Int), s1, out1)
      ∧ (∀ x, x < DIRECT_BLOCKS_COUNT * c.BLOCK_SIZE →
          out1 x = s.fs_data (direct_addr c blocks x))
      ∧ out1 (DIRECT_BLOCKS_COUNT * c.BLOCK_SIZE) = s.fs_data (q * c.BLOCK_SIZE) := by
  have hB0 : 0 < c.BLOCK_SIZE := by omega
  have hK : 1 < c.INDEX_COUNT := by
    unfold Config.INDEX_COUNT SIZEOF_INT
    omega
  unfold inode_read
  simp only [clamp_offset_of_le s fh i (by omega), hsize, hoff, Nat.sub_zero, gt_iff_lt,
    lt_self_iff_false, if_false]
  generalize hT : DIRECT_BLOCKS_COUNT * c.BLOCK_SIZE = T at hsize ⊢
  obtain ⟨fuel1, out1, e1, e2, e3, e4⟩ := inode_read_loop_direct c hB0 fh i blocks
    (by omega) hv (T + 1) s out (T + 1) 0 T (Nat.le_refl _) hvec (by omega)
    (by rw [hoff, hlen, hT]; omega) (by rw [hoff, hsize]; omega)
    (Or.inr (by rw [hoff, ← hT, Nat.zero_add, Nat.mul_mod_left]))
  rw [e2]
  simp only [hoff, Nat.zero_add, Nat.add_sub_cancel_left] at e1 e3 e4 ⊢
  obtain ⟨n, rfl⟩ : ∃ n, fuel1 = n + 1 := ⟨fuel1 - 1, by omega⟩
  generalize hs1 : s.set_of_offset fh T = s1
  have ho1 : (s1.open_file_table fh).of_offset = T := by rw [← hs1]; simp
  have ht1 : s1.inode_table = s.inode_table := by rw [← hs1]; simp
  have hf1 : s1.fs_data = s.fs_data := by rw [← hs1]; simp
  have hloc := inode_read_locate_hit c s1 i p q 1 (by rw [ht1]; exact hind) hp hK
    (by
      rw [← he]
      exact index_entry_congr c p 1 (fun a _ _ => by rw [hf1]))
    hq
  have hsb : start_block c (s1.open_file_table fh).of_offset = DIRECT_BLOCKS_COUNT + 1 := by
    rw [ho1, ← hT]
    exact start_block_cross c hB0
  rw [inode_read_loop_step c fh i n s1 s1 out1 1 T (q * c.BLOCK_SIZE) (by omega)
    (by rw [ho1, ht1, hsize]; omega) (by rw [hsb]; exact hloc)]
  have hts : transfer_size c (s1.open_file_table fh).of_offset
      (start_block c (s1.open_file_table fh).of_offset) 1 = 1 := by
    rw [hsb, transfer_size_eq, ho1, ← hT]
    have : (DIRECT_BLOCKS_COUNT + 1 + 1) * c.BLOCK_SIZE
        = DIRECT_BLOCKS_COUNT * c.BLOCK_SIZE + 2 * c.BLOCK_SIZE := by ring
    omega
  rw [hts, Nat.sub_self, inode_read_loop_zero]
  refine ⟨_, _, rfl, ?_, ?_⟩
  · intro x hx
    rw [memcpy_outside _ _ _ _ _ (by omega)]
    exact e3 x hx
  · rw [memcpy_inside _ _ _ _ _ (by omega) (by omega), hf1, ho1, ← hT, Nat.mul_mod_left]
    simp

/-! ## Writing to a file whose blocks are all allocated -/

theorem inode_write_copy_inode (c : Config) (s : State) (fh i : Nat) (buf : Nat → Nat)
    (block size done : Nat) :
    ((inode_write_copy c s fh i buf block size done).inode_table i).i_data_block
        = (s.inode_table i).i_data_block
      ∧ ((inode_write_copy c s fh i buf block size done).inode_table i).indirection_block
        = (s.inode_table i).indirection_block := by
  unfold inode_write_copy
  simp only
  split <;> simp

theorem preallocated_copy (c : Config) (s : State) (fh i : Nat) (buf : Nat → Nat)
    (blk size done : Nat) (blocks : List Nat) (p : Nat) (h : preallocated c s i blocks p)
    (hrange : (p + 1) * c.BLOCK_SIZE ≤ blk + (s.open_file_table fh).of_offset % c.BLOCK_SIZE
      ∨ blk + (s.open_file_table fh).of_offset % c.BLOCK_SIZE + size ≤ p * c.BLOCK_SIZE) :
    preallocated c (inode_write_copy c s fh i buf blk size done) i blocks p :=
  { vector := by rw [(inode_write_copy_inode c s fh i buf blk size done).1]; exact h.vector
    full := h.full
    below := h.below
    index := by rw [(inode_write_copy_inode c s fh i buf blk size done).2]; exact h.index
    index_lt := h.index_lt
    entries := by
      intro x hx1 hx2
      obtain ⟨q, hq1, hq2, hq3⟩ := h.entries x hx1 hx2
      refine ⟨q, ?_, hq2, hq3⟩
      rw [← hq1]
      apply index_entry_congr
      intro a ha1 ha2
      rw [inode_write_copy_fs_data]
      apply memcpy_outside
      have hK : c.INDEX_COUNT * 4 ≤ c.BLOCK_SIZE := by
        unfold Config.INDEX_COUNT SIZEOF_INT
        omega
      unfold SIZEOF_INT at ha1 ha2
      rw [Nat.add_mul, Nat.one_mul] at hrange
      omega }

/-- The loop of `inode_write` on a file whose blocks are all allocated, started at a block
boundary past the direct region or anywhere inside it: it returns the number of bytes asked
for, as long as they end inside the capacity. -/
theorem inode_write_loop_preallocated (c : Config) (hB : 8 ≤ c.BLOCK_SIZE) (fh i : Nat)
    (buf : Nat → Nat) (blocks : List Nat) (p : Nat) :
    ∀ (fuel : Nat) (s : State) (to_write btw done : Nat),
      to_write ≤ fuel →
      preallocated c s i blocks p →
      (to_write = 0
        ∨ (btw < DIRECT_BLOCKS_COUNT ∧ btw = (s.open_file_table fh).of_offset / c.BLOCK_SIZE)
        ∨ (btw = DIRECT_BLOCKS_COUNT
          ∧ (s.open_file_table fh).of_offset = DIRECT_BLOCKS_COUNT * c.BLOCK_SIZE)
        ∨ (DIRECT_BLOCKS_COUNT + 2 ≤ btw
          ∧ (s.open_file_table fh).of_offset = btw * c.BLOCK_SIZE)) →
      (s.open_file_table fh).of_offset + to_write ≤ c.CAPACITY →
      ∃ s1, inode_write_loop c fh i buf fuel s to_write btw done
        = some (((done + to_write : Nat) : Int), s1) := by
  have hB0 : 0 < c.BLOCK_SIZE := by omega
  have hK : 1 < c.INDEX_COUNT := by
    unfold Config.INDEX_COUNT SIZEOF_INT
    omega
  have hcapv : c.CAPACITY = DIRECT_BLOCKS_COUNT * c.BLOCK_SIZE + c.INDEX_COUNT * c.BLOCK_SIZE := by
    unfold Config.CAPACITY
    ring
  have h10 : DIRECT_BLOCKS_COUNT = 10 := rfl
  intro fuel
  induction fuel with
  | zero =>
    intro s to_write btw done h1 _ _ _
    have h0 : to_write = 0 := by omega
    subst h0
    exact ⟨s, inode_write_loop_zero c fh i buf 0 s btw done⟩
  | succ n ih =>
    intro s to_write btw done h1 hp hinv hcap
    by_cases hc : to_write = 0
    · subst hc
      exact ⟨s, inode_write_loop_zero c fh i buf _ s btw done⟩
    · generalize hoff : (s.open_file_table fh).of_offset = off at hinv hcap
      have hdm := Nat.div_add_mod off c.BLOCK_SIZE
      have hml := Nat.mod_lt off hB0
      -- the block found, where the copy goes, and the position after it
      have hfind : ∃ blk : Nat,
          inode_write_locate c s i (skip_index_block btw) = (some (some blk), s)
          ∧ ((p + 1) * c.BLOCK_SIZE ≤ blk + off % c.BLOCK_SIZE
            ∨ blk + off % c.BLOCK_SIZE + transfer_size c off (skip_index_block btw) to_write
              ≤ p * c.BLOCK_SIZE)
          ∧ 0 < transfer_size c off (skip_index_block btw) to_write
          ∧ transfer_size c off (skip_index_block btw) to_write ≤ to_write
          ∧ (to_write - transfer_size c off (skip_index_block btw) to_write = 0
            ∨ ((off + transfer_size c off (skip_index_block btw) to_write) % c.BLOCK_SIZE = 0
              ∧ ((skip_index_block btw + 1 < DIRECT_BLOCKS_COUNT
                  ∧ skip_index_block btw + 1
                    = (off + transfer_size c off (skip_index_block btw) to_write)
                      / c.BLOCK_SIZE)
                ∨ (skip_index_block btw + 1 = DIRECT_BLOCKS_COUNT
                  ∧ off + transfer_size c off (skip_index_block btw) to_write
                    = DIRECT_BLOCKS_COUNT * c.BLOCK_SIZE)
                ∨ (DIRECT_BLOCKS_COUNT + 2 ≤ skip_index_block btw + 1
                  ∧ off + transfer_size c off (skip_index_block btw) to_write
                    = (skip_index_block btw + 1) * c.BLOCK_SIZE)))) := by
        rcases hinv with hinv | ⟨hb1, hb2⟩ | ⟨hb1, hb2⟩ | ⟨hb1, hb2⟩
        · exact absurd hinv hc
        · -- inside the direct region
          have hskip := skip_index_block_of_lt btw hb1
          rw [hskip, transfer_size_eq]
          have hk : btw < blocks.length := by rw [hp.full]; exact hb1
          have hbp := hp.below _ (getD_mem blocks btw hk)
          have hbd : blocks.getD btw 0 < c.DATA_BLOCKS := lt_trans hbp hp.index_lt
          have hbe : (blocks.getD btw 0 + 1) * c.BLOCK_SIZE ≤ p * c.BLOCK_SIZE :=
            Nat.mul_le_mul_right _ hbp
          rw [Nat.add_mul, Nat.one_mul] at hbe
          have hend : (btw + 1) * c.BLOCK_SIZE = c.BLOCK_SIZE * btw + c.BLOCK_SIZE := by ring
          rw [hb2] at hend ⊢
          refine ⟨_, inode_write_locate_direct c s i blocks _ hp.vector (by rw [← hb2]; exact hk)
            (by rw [hp.full]) (by rw [← hb2]; exact hbd), Or.inr ?_, by omega, by omega, ?_⟩
          · rw [← hb2]
            rw [hb2] at hbe ⊢
            omega
          · by_cases hrest : to_write - min to_write
                ((off / c.BLOCK_SIZE + 1) * c.BLOCK_SIZE - off) = 0
            · exact Or.inl hrest
            · right
              have hfull : off + min to_write ((off / c.BLOCK_SIZE + 1) * c.BLOCK_SIZE - off)
                  = (off / c.BLOCK_SIZE + 1) * c.BLOCK_SIZE := by omega
              rw [hfull, Nat.mul_mod_left, Nat.mul_div_cancel _ hB0]
              refine ⟨rfl, ?_⟩
              rw [← hb2]
              rw [h10] at hb1 ⊢
              by_cases h9 : btw + 1 < 10
              · exact Or.inl ⟨h9, rfl⟩
              · exact Or.inr (Or.inl ⟨by omega, by rw [show btw + 1 = 10 by omega]⟩)
        · -- the first block past the direct region: entry 1, two blocks of room
          have hskip : skip_index_block btw = DIRECT_BLOCKS_COUNT + 1 := by
            unfold skip_index_block
            rw [if_pos hb1, hb1]
          rw [hskip, transfer_size_eq]
          obtain ⟨q, hq1, hq2, hq3⟩ := hp.entries 1 (Nat.le_refl _) hK
          have hqe : (p + 1) * c.BLOCK_SIZE ≤ q * c.BLOCK_SIZE := Nat.mul_le_mul_right _ hq2
          have hend : (DIRECT_BLOCKS_COUNT + 1 + 1) * c.BLOCK_SIZE
              = DIRECT_BLOCKS_COUNT * c.BLOCK_SIZE + 2 * c.BLOCK_SIZE := by ring
          have hend2 : (DIRECT_BLOCKS_COUNT + 1 + 1) * c.BLOCK_SIZE
              = (DIRECT_BLOCKS_COUNT + 1 + 1) * c.BLOCK_SIZE := rfl
          refine ⟨_, inode_write_locate_hit c s i p q 1 hp.index hp.index_lt hK hq1 hq3,
            Or.inl (by omega), by omega, by omega, ?_⟩
          by_cases hrest : to_write - min to_write
              ((DIRECT_BLOCKS_COUNT + 1 + 1) * c.BLOCK_SIZE - off) = 0
          · exact Or.inl hrest
          · right
            have hfull : off + min to_write ((DIRECT_BLOCKS_COUNT + 1 + 1) * c.BLOCK_SIZE - off)
                = (DIRECT_BLOCKS_COUNT + 1 + 1) * c.BLOCK_SIZE := by omega
            rw [hfull, Nat.mul_mod_left]
            exact ⟨rfl, Or.inr (Or.inr ⟨by omega, rfl⟩)⟩
        · -- a later block: entry `btw - DIRECT_BLOCKS_COUNT`, one block of room
          have hskip : skip_index_block btw = btw := by
            unfold skip_index_block
            rw [if_neg (by omega)]
          rw [hskip, transfer_size_eq]
          have hend : (btw + 1) * c.BLOCK_SIZE = btw * c.BLOCK_SIZE + c.BLOCK_SIZE := by ring
          have hlt : btw < DIRECT_BLOCKS_COUNT + c.INDEX_COUNT := by
            by_contra hcon
            have : (DIRECT_BLOCKS_COUNT + c.INDEX_COUNT) * c.BLOCK_SIZE ≤ btw * c.BLOCK_SIZE :=
              Nat.mul_le_mul_right _ (by omega)
            rw [Nat.add_mul] at this
            omega
          obtain ⟨q, hq1, hq2, hq3⟩ := hp.entries (btw - DIRECT_BLOCKS_COUNT) (by omega)
            (by omega)
          have hqe : (p + 1) * c.BLOCK_SIZE ≤ q * c.BLOCK_SIZE := Nat.mul_le_mul_right _ hq2
          have hloc := inode_write_locate_hit c s i p q (btw - DIRECT_BLOCKS_COUNT) hp.index
            hp.index_lt (by omega) hq1 hq3
          rw [show DIRECT_BLOCKS_COUNT + (btw - DIRECT_BLOCKS_COUNT) = btw by omega] at hloc
          refine ⟨_, hloc, Or.inl (by omega), by omega, by omega, ?_⟩
          by_cases hrest : to_write - min to_write ((btw + 1) * c.BLOCK_SIZE - off) = 0
          · exact Or.inl hrest
          · right
            have hfull : off + min to_write ((btw + 1) * c.BLOCK_SIZE - off)
                = (btw + 1) * c.BLOCK_SIZE := by omega
            rw [hfull, Nat.mul_mod_left]
            exact ⟨rfl, Or.inr (Or.inr ⟨by omega, rfl⟩)⟩
      obtain ⟨blk, hloc, hrange, hpos, hle, hnext⟩ := hfind
      rw [inode_write_loop_step c fh i buf n s s to_write btw done blk hc hloc, hoff]
      generalize transfer_size c off (skip_index_block btw) to_write = size
        at hrange hpos hle hnext ⊢
      have hp4 := preallocated_copy c s fh i buf blk size done blocks p hp
        (by rw [hoff]; exact hrange)
      have ho4 := inode_write_copy_offset c s fh i buf blk size done
      rw [hoff] at ho4
      generalize inode_write_copy c s fh i buf blk size done = s4 at hp4 ho4 ⊢
      rcases hnext with hnext | ⟨hmod, hnext⟩
      · rw [hnext, inode_write_loop_zero]
        refine ⟨s4, ?_⟩
        rw [show done + to_write = done + size by omega]
      · rw [ho4, if_pos hmod]
        obtain ⟨s1, e1⟩ := ih s4 (to_write - size) (skip_index_block btw + 1) (done + size)
          (by omega) hp4 (Or.inr (by rw [ho4]; exact hnext)) (by rw [ho4]; omega)
        refine ⟨s1, ?_⟩
        rw [e1, show done + size + (to_write - size) = done + to_write by omega]
theorem capacity_div (c : Config) (hB : 0 < c.BLOCK_SIZE) :
    c.CAPACITY / c.BLOCK_SIZE = DIRECT_BLOCKS_COUNT + c.INDEX_COUNT := by
  unfold Config.CAPACITY
  exact Nat.mul_div_cancel _ hB

/-- Blocks for a write of `CAPACITY` bytes at offset 0 to a file without indirection block, in
a pool with memory for `INDEX_COUNT + 14` blocks: afterwards the file has all its direct
blocks, an indirection block, and a block in every entry of it. -/
theorem inode_add_blocks_capacity (c : Config) (hB : 8 ≤ c.BLOCK_SIZE)
    (hD : c.DATA_BLOCKS ≤ 2147483647) (s : State) (i : Nat) (blocks : List Nat) (lo f : Nat)
    (hl : file_layout c s i blocks lo f)
    (hind : (s.inode_table i).indirection_block = -1)
    (hmem : (c.INDEX_COUNT + 14) * c.BLOCK_SIZE ≤ get_free_memory c s)
    (hw : c.CAPACITY < SIZE_MAX1) :
    ∃ (blocks1 : List Nat) (p : Nat),
      preallocated c (inode_add_blocks c s (i : Int) c.CAPACITY 0).2 i blocks1 p := by
  have hB0 : 0 < c.BLOCK_SIZE := by omega
  have hK : 1 < c.INDEX_COUNT := by
    unfold Config.INDEX_COUNT SIZEOF_INT
    omega
  have hcapv : c.CAPACITY = DIRECT_BLOCKS_COUNT * c.BLOCK_SIZE + c.INDEX_COUNT * c.BLOCK_SIZE := by
    unfold Config.CAPACITY
    ring
  have h10 : DIRECT_BLOCKS_COUNT = 10 := rfl
  have hdb : DIRECT_BLOCKS_COUNT * c.BLOCK_SIZE = 10 * c.BLOCK_SIZE := rfl
  have hnib : (s.inode_table i).number_indirect_blocks = 0 := by
    rcases hl.indirect with h | ⟨q, hq, _⟩
    · exact h.2
    · rw [hind] at hq
      omega
  have hLB : blocks.length * c.BLOCK_SIZE ≤ DIRECT_BLOCKS_COUNT * c.BLOCK_SIZE :=
    Nat.mul_le_mul_right _ hl.len_le
  have hKB : 1 * c.BLOCK_SIZE ≤ c.INDEX_COUNT * c.BLOCK_SIZE := Nat.mul_le_mul_right _ (by omega)
  have hmemv : (c.INDEX_COUNT + 14) * c.BLOCK_SIZE
      = c.INDEX_COUNT * c.BLOCK_SIZE + 14 * c.BLOCK_SIZE := by ring
  unfold inode_add_blocks
  rw [if_neg (by rw [inode_is_free_taken c s i hl.inum_lt hl.taken]; simp)]
  simp only [Int.toNat_ofNat, Nat.zero_add, Nat.mod_eq_of_lt hw, hl.count, hnib, Nat.add_zero]
  rw [if_neg (by omega), if_neg (by omega), if_pos (by omega), capacity_div c hB0]
  obtain ⟨new, f1, d1, d2, d3, d4, d5, d6, d7⟩ :=
    inode_add_blocks_direct_spec c hB0 s i blocks lo f hl hind
      (DIRECT_BLOCKS_COUNT + c.INDEX_COUNT + 1)
  have hlen := hl.len_le
  have hpos := hl.len_pos
  have hnew : new.length = DIRECT_BLOCKS_COUNT - blocks.length := by
    rw [d1]
    omega
  have hnewB : new.length * c.BLOCK_SIZE ≤ 10 * c.BLOCK_SIZE :=
    Nat.mul_le_mul_right _ (by omega)
  obtain ⟨f2, g1, g2, g3, g4, g5, g6⟩ :=
    inode_add_blocks_indirect_spec c hB hD _ i (blocks ++ new) lo f1 d3 d6
      (inode_add_blocks_direct c s i (DIRECT_BLOCKS_COUNT + c.INDEX_COUNT + 1)).2
      (by
        intro _
        rw [List.length_append, hnew]
        omega)
      (by
        intro _
        rw [d2, hnew]
        have hmin : min (DIRECT_BLOCKS_COUNT + c.INDEX_COUNT + 1
            - (DIRECT_BLOCKS_COUNT - blocks.length)) (c.INDEX_COUNT + 1) = c.INDEX_COUNT + 1 := by
          omega
        rw [hmin]
        have : (1 + (c.INDEX_COUNT + 1) + 2) * c.BLOCK_SIZE
            = c.INDEX_COUNT * c.BLOCK_SIZE + 4 * c.BLOCK_SIZE := by ring
        omega)
  have hrem : 0 < (inode_add_blocks_direct c s i (DIRECT_BLOCKS_COUNT + c.INDEX_COUNT + 1)).2 := by
    rw [d2, hnew]
    omega
  have hn6 := g6 hrem
  have hmin : min (inode_add_blocks_direct c s i (DIRECT_BLOCKS_COUNT + c.INDEX_COUNT + 1)).2
      (c.INDEX_COUNT + 1) = c.INDEX_COUNT + 1 := by
    rw [d2, hnew]
    omega
  rw [hmin] at hn6
  rcases g1.indirect with h | ⟨p, h1, h2, h3, h4, h5, h6, h7⟩
  · exact absurd h.1 (g5 hrem)
  · have hf2 := g1.f_le
    refine ⟨blocks ++ new, p,
      { vector := g1.vector
        full := h4
        below := h2
        index := h1
        index_lt := by omega
        entries := ?_ }⟩
    intro x hx1 hx2
    obtain ⟨q, hq1, hq2, hq3⟩ := h6 x hx1 (by rw [hn6]; omega) hx2
    exact ⟨q, hq1, hq2, by omega⟩

/-- The result of `inode_write` when the offset is at the capacity: 0, with every size as
before. -/
theorem inode_write_at_capacity (c : Config) (s : State) (fh i : Nat) (buf : Nat → Nat)
    (n : Nat) (hw : c.CAPACITY + n < SIZE_MAX1) (hn : 0 < n)
    (hoff : (s.open_file_table fh).of_offset = c.CAPACITY)
    (hsize : (s.inode_table i).i_size = c.CAPACITY) :
    ∃ s1, inode_write c s fh i buf n = some (0, s1)
      ∧ (s1.inode_table i).i_size = c.CAPACITY
      ∧ (s1.open_file_table fh).of_offset = c.CAPACITY := by
  unfold inode_write
  simp only [clamp_offset_of_le s fh i (by omega), hoff, hsize, Nat.mod_eq_of_lt hw]
  rw [if_pos (by omega)]
  have h0 : (c.CAPACITY + SIZE_MAX1 - c.CAPACITY % SIZE_MAX1) % SIZE_MAX1 = 0 := by
    have hc : c.CAPACITY % SIZE_MAX1 = c.CAPACITY := Nat.mod_eq_of_lt (by omega)
    rw [hc, Nat.add_sub_cancel_left, Nat.mod_self]
  rw [h0, inode_write_loop_zero]
  refine ⟨_, rfl, ?_, ?_⟩
  · split
    · rw [(meta_frame_inode_add_blocks c s _ _ _).2.2.2 i |>.1, hsize]
    · split
      · rw [(meta_frame_inode_add_blocks c s _ _ _).2.2.2 i |>.1, hsize]
      · exact hsize
  · split
    · rw [(meta_frame_inode_add_blocks c s _ _ _).1, hoff]
    · split
      · rw [(meta_frame_inode_add_blocks c s _ _ _).1, hoff]
      · exact hoff

/-- The clamp of `inode_write`: a request that ends past the capacity is the request for the
bytes up to the capacity. -/
theorem inode_write_clamp (c : Config) (s : State) (fh i : Nat) (buf : Nat → Nat) (n : Nat)
    (hle : min (s.open_file_table fh).of_offset (s.inode_table i).i_size ≤ c.CAPACITY)
    (hw : c.CAPACITY < SIZE_MAX1)
    (hwn : min (s.open_file_table fh).of_offset (s.inode_table i).i_size + n < SIZE_MAX1)
    (hgt : c.CAPACITY < min (s.open_file_table fh).of_offset (s.inode_table i).i_size + n) :
    inode_write c s fh i buf n
      = inode_write c s fh i buf
          (c.CAPACITY - min (s.open_file_table fh).of_offset (s.inode_table i).i_size) := by
  have ho := clamp_offset_offset s fh i
  unfold inode_write
  simp only [clamp_offset_idem, ho]
  generalize min (s.open_file_table fh).of_offset (s.inode_table i).i_size = off
    at hle hwn hgt ⊢
  have e1 : (off + n) % SIZE_MAX1 = off + n := Nat.mod_eq_of_lt hwn
  have e2 : (off + (c.CAPACITY - off)) % SIZE_MAX1 = c.CAPACITY := by
    rw [Nat.add_sub_cancel' hle, Nat.mod_eq_of_lt hw]
  have e3 : (c.CAPACITY + SIZE_MAX1 - off % SIZE_MAX1) % SIZE_MAX1 = c.CAPACITY - off := by
    have hc : off % SIZE_MAX1 = off := Nat.mod_eq_of_lt (by omega)
    have hd : (c.CAPACITY - off) % SIZE_MAX1 = c.CAPACITY - off := Nat.mod_eq_of_lt (by omega)
    rw [hc, show c.CAPACITY + SIZE_MAX1 - off = (c.CAPACITY - off) + SIZE_MAX1 by omega,
      Nat.add_mod_right, hd]
  rw [e1, e2, if_pos hgt, if_neg (Nat.lt_irrefl _), e3]

/-! ## The claims -/

/-- Read length, with the block search of the code.  For every state, open-file entry `fh`, inode `i` and length `len`,
`inode_read` returns, and its result is -1 or exactly `min(len, size - offset)`, the offset
being first clamped to the size (the difference is a truncated one); it is never more than
`len` and never more than the bytes left in the file.  When every position below the size lies
in a block that the read loop finds (`blocks_valid`), the result is `min(len, size - offset)`. -/
theorem inode_read_length (c : Config) (hB : 0 < c.BLOCK_SIZE) (s : State) (fh i : Nat)
    (buffer : Nat → Nat) (len : Nat) :
    ∃ r s1 out, inode_read c s fh i buffer len = some (r, s1, out)
      ∧ (r = -1 ∨ r = ((min len ((s.inode_table i).i_size - (s.open_file_table fh).of_offset)
          : Nat) : Int))
      ∧ r ≤ (len : Int)
      ∧ r ≤ (((s.inode_table i).i_size - (s.open_file_table fh).of_offset : Nat) : Int)
      ∧ (blocks_valid c s i →
          r = ((min len ((s.inode_table i).i_size - (s.open_file_table fh).of_offset) : Nat)
            : Int)) := by
  obtain ⟨r, s1, out, e1, _, e3, e4⟩ := inode_read_spec c hB s fh i buffer len
  refine ⟨r, s1, out, e1, ?_, ?_, ?_, e4⟩
  · rcases e3 with e3 | ⟨e3, _⟩
    · exact Or.inl e3
    · exact Or.inr e3
  · rcases e3 with e3 | ⟨e3, _⟩
    · rw [e3]; omega
    · rw [e3]; omega
  · rcases e3 with e3 | ⟨e3, _⟩
    · rw [e3]; omega
    · rw [e3]; omega

/-- An instance of `inode_read_length`: 39 bytes asked of the 4-byte file "/f1" of the first scenario. -/
theorem inode_read_length_witness :
    0 < example_config.BLOCK_SIZE
      ∧ ∃ r s1 out,
        inode_read example_config (state_reopened example_config text_AAA 4 0) 0 1
            (fun _ => 0) 39 = some (r, s1, out)
          ∧ (r = -1 ∨ r = ((min 39
              (((state_reopened example_config text_AAA 4 0).inode_table 1).i_size
                - ((state_reopened example_config text_AAA 4 0).open_file_table 0).of_offset)
              : Nat) : Int))
          ∧ r ≤ ((39 : Nat) : Int)
          ∧ r ≤ ((((state_reopened example_config text_AAA 4 0).inode_table 1).i_size
                - ((state_reopened example_config text_AAA 4 0).open_file_table 0).of_offset
              : Nat) : Int)
          ∧ (blocks_valid example_config (state_reopened example_config text_AAA 4 0) 1 →
              r = ((min 39
                (((state_reopened example_config text_AAA 4 0).inode_table 1).i_size
                  - ((state_reopened example_config text_AAA 4 0).open_file_table 0).of_offset)
                : Nat) : Int)) :=
  ⟨by decide, inode_read_length example_config (by decide) _ 0 1 _ 39⟩

/-- C5. Offset and size after a transfer.  When `inode_read` or `inode_write` is entered with
offset at most the inode's size, it returns, and if the result `r` is not negative the
entry's offset afterwards is the prior offset plus `r`; after such a write the inode's size is
the larger of the prior size and the prior offset plus `r`. -/
theorem transfer_advances_offset (c : Config) (hB : 0 < c.BLOCK_SIZE) (s : State) (fh i : Nat)
    (buffer : Nat → Nat) (n : Nat)
    (hle : (s.open_file_table fh).of_offset ≤ (s.inode_table i).i_size) :
    (∃ r s1 out, inode_read c s fh i buffer n = some (r, s1, out)
        ∧ (0 ≤ r →
          ((s1.open_file_table fh).of_offset : Int) = (s.open_file_table fh).of_offset + r))
      ∧ (∃ r s1, inode_write c s fh i buffer n = some (r, s1)
        ∧ (0 ≤ r →
          ((s1.open_file_table fh).of_offset : Int) = (s.open_file_table fh).of_offset + r
            ∧ ((s1.inode_table i).i_size : Int)
              = max ((s.inode_table i).i_size : Int) ((s.open_file_table fh).of_offset + r))) := by
  constructor
  · obtain ⟨r, s1, out, e1, _, e3, _⟩ := inode_read_spec c hB s fh i buffer n
    refine ⟨r, s1, out, e1, fun hr => ?_⟩
    rcases e3 with e3 | ⟨e3, e4⟩
    · omega
    · rw [e3, e4]
      have : min (s.open_file_table fh).of_offset (s.inode_table i).i_size
          = (s.open_file_table fh).of_offset := by omega
      rw [this]
      push_cast
      rfl
  · obtain ⟨r, s1, e1, _, e3⟩ := inode_write_spec c hB s fh i buffer n
    refine ⟨r, s1, e1, fun hr => ?_⟩
    rcases e3 with e3 | ⟨_, e4, e5, _⟩
    · omega
    · have hmin : min (s.open_file_table fh).of_offset (s.inode_table i).i_size
          = (s.open_file_table fh).of_offset := by omega
      rw [hmin] at e4 e5
      rw [e4, e5]
      have hr2 : ((r.toNat : Nat) : Int) = r := Int.toNat_of_nonneg hr
      constructor
      · push_cast
        rw [hr2]
      · push_cast
        rw [hr2]

set_option maxRecDepth 100000 in
/-- Witness of C5: a 4-byte transfer on the new, empty file "/f1". -/
theorem transfer_advances_offset_witness :
    0 < example_config.BLOCK_SIZE
      ∧ ((state_created example_config).open_file_table 0).of_offset
        ≤ ((state_created example_config).inode_table 1).i_size
      ∧ (∃ r s1 out, inode_read example_config (state_created example_config) 0 1
            text_AAA 4 = some (r, s1, out)
          ∧ (0 ≤ r →
            ((s1.open_file_table 0).of_offset : Int)
              = ((state_created example_config).open_file_table 0).of_offset + r))
      ∧ (∃ r s1, inode_write example_config (state_created example_config) 0 1 text_AAA 4
            = some (r, s1)
          ∧ (0 ≤ r →
            ((s1.open_file_table 0).of_offset : Int)
                = ((state_created example_config).open_file_table 0).of_offset + r
              ∧ ((s1.inode_table 1).i_size : Int)
                = max (((state_created example_config).inode_table 1).i_size : Int)
                  (((state_created example_config).open_file_table 0).of_offset + r))) :=
  ⟨by decide, by decide!,
    transfer_advances_offset example_config (by decide) _ 0 1 _ 4 (by decide!)⟩


/-- Offset sanitation, the part that holds in every state.  If the entry's offset exceeds the inode's size on entry, `inode_read`
returns 0 and leaves the offset equal to the size, and both `inode_read` and `inode_write` do
exactly what they do from the state in which the offset is the size; in particular
`inode_write` returns, and unless it returns -1 it leaves the offset at size plus the
result, which is `n` when size plus `n` is within the capacity. -/
theorem offset_sanitation (c : Config) (hB : 0 < c.BLOCK_SIZE) (s : State) (fh i : Nat)
    (buffer : Nat → Nat) (n : Nat)
    (hgt : (s.open_file_table fh).of_offset > (s.inode_table i).i_size) :
    inode_read c s fh i buffer n
        = some (0, s.set_of_offset fh (s.inode_table i).i_size, buffer)
      ∧ inode_read c s fh i buffer n
        = inode_read c (s.set_of_offset fh (s.inode_table i).i_size) fh i buffer n
      ∧ inode_write c s fh i buffer n
        = inode_write c (s.set_of_offset fh (s.inode_table i).i_size) fh i buffer n
      ∧ ∃ r s1, inode_write c s fh i buffer n = some (r, s1)
        ∧ (r = -1 ∨ (0 ≤ r
          ∧ ((s1.open_file_table fh).of_offset : Int) = (s.inode_table i).i_size + r
          ∧ (((s.inode_table i).i_size + n) % SIZE_MAX1 ≤ c.CAPACITY → r = (n : Int)))) := by
  have hc := clamp_offset_of_gt s fh i hgt
  have hread : ∀ t : State, (t.open_file_table fh).of_offset = (t.inode_table i).i_size →
      inode_read c t fh i buffer n = some (0, t, buffer) := by
    intro t ht
    unfold inode_read
    rw [clamp_offset_of_le t fh i (by omega)]
    simp only [ht, Nat.sub_self]
    have h0 : (if 0 > n then n else 0) = 0 := by split <;> omega
    rw [h0]
    unfold inode_read_loop
    simp
  refine ⟨?_, ?_, ?_, ?_⟩
  · unfold inode_read
    rw [hc]
    simp only [set_of_offset_inode_table, set_of_offset_get_same, Nat.sub_self]
    have h0 : (if 0 > n then n else 0) = 0 := by split <;> omega
    rw [h0]
    unfold inode_read_loop
    simp
  · rw [hread (s.set_of_offset fh (s.inode_table i).i_size) (by simp)]
    unfold inode_read
    rw [hc]
    simp only [set_of_offset_inode_table, set_of_offset_get_same, Nat.sub_self]
    have h0 : (if 0 > n then n else 0) = 0 := by split <;> omega
    rw [h0]
    unfold inode_read_loop
    simp
  · rw [inode_write_eq, hc]
  · obtain ⟨r, s1, e1, _, e3⟩ := inode_write_spec c hB s fh i buffer n
    refine ⟨r, s1, e1, ?_⟩
    rcases e3 with e3 | ⟨e3, e4, _, e6⟩
    · exact Or.inl e3
    · right
      have hmin : min (s.open_file_table fh).of_offset (s.inode_table i).i_size
          = (s.inode_table i).i_size := by omega
      rw [hmin] at e4 e6
      refine ⟨e3, ?_, e6⟩
      rw [e4]
      push_cast
      rw [Int.toNat_of_nonneg e3]

/-- C9. Reads are read-only.  `inode_read` and `tfs_read` return, whatever the state and the
arguments, and whether the result is a count or -1 the state afterwards has the same inode
table (every field of every inode), inode bitmap, block bitmap (hence the same
`get_free_memory`), data bytes and open-file bitmap; of the open-file table only the offset of
the entry read through may differ. -/
theorem read_changes_only_offset (c : Config) (hB : 0 < c.BLOCK_SIZE) (s : State)
    (fhandle : Int) (fh i : Nat) (buffer : Nat → Nat) (len : Nat) :
    (∃ r s1 out, inode_read c s fh i buffer len = some (r, s1, out)
        ∧ s1.inode_table = s.inode_table ∧ s1.freeinode_ts = s.freeinode_ts
        ∧ s1.fs_data = s.fs_data ∧ s1.free_blocks = s.free_blocks
        ∧ s1.free_open_file_entries = s.free_open_file_entries
        ∧ get_free_memory c s1 = get_free_memory c s
        ∧ (∀ h, h ≠ fh → s1.open_file_table h = s.open_file_table h)
        ∧ (s1.open_file_table fh).of_inumber = (s.open_file_table fh).of_inumber)
      ∧ (∃ r s1 out, tfs_read c s fhandle buffer len = some (r, s1, out)
        ∧ s1.inode_table = s.inode_table ∧ s1.freeinode_ts = s.freeinode_ts
        ∧ s1.fs_data = s.fs_data ∧ s1.free_blocks = s.free_blocks
        ∧ s1.free_open_file_entries = s.free_open_file_entries
        ∧ get_free_memory c s1 = get_free_memory c s
        ∧ (∀ h, h ≠ fhandle.toNat → s1.open_file_table h = s.open_file_table h)
        ∧ (s1.open_file_table fhandle.toNat).of_inumber
          = (s.open_file_table fhandle.toNat).of_inumber) := by
  have key : ∀ (fh i : Nat), ∃ r s1 out, inode_read c s fh i buffer len = some (r, s1, out)
        ∧ s1.inode_table = s.inode_table ∧ s1.freeinode_ts = s.freeinode_ts
        ∧ s1.fs_data = s.fs_data ∧ s1.free_blocks = s.free_blocks
        ∧ s1.free_open_file_entries = s.free_open_file_entries
        ∧ get_free_memory c s1 = get_free_memory c s
        ∧ (∀ h, h ≠ fh → s1.open_file_table h = s.open_file_table h)
        ∧ (s1.open_file_table fh).of_inumber = (s.open_file_table fh).of_inumber := by
    intro fh i
    obtain ⟨r, s1, out, e1, ⟨a1, a2, a3, a4, a5, a6, a7⟩, _, _⟩ :=
      inode_read_spec c hB s fh i buffer len
    exact ⟨r, s1, out, e1, a1, a2, a3, a4, a5, get_free_memory_congr c a4, a6, a7⟩
  refine ⟨key fh i, ?_⟩
  unfold tfs_read
  unfold get_open_file_entry
  split
  · exact ⟨-1, s, buffer, rfl, rfl, rfl, rfl, rfl, rfl, rfl, fun _ _ => rfl, rfl⟩
  · rename_i file hfile
    split at hfile
    · exact absurd hfile (by simp)
    · have hf : file = fhandle.toNat := by
        simp at hfile
        exact hfile.symm
      subst hf
      split
      · exact ⟨-1, s, buffer, rfl, rfl, rfl, rfl, rfl, rfl, rfl, fun _ _ => rfl, rfl⟩
      · exact key _ _

/-- Witness of C9: reading 39 bytes of the 4-byte file "/f1" through handle 0. -/
theorem read_changes_only_offset_witness :
    0 < example_config.BLOCK_SIZE
      ∧ (∃ r s1 out,
          tfs_read example_config (state_reopened example_config text_AAA 4 0) 0 (fun _ => 0) 39
            = some (r, s1, out)
          ∧ s1.inode_table = (state_reopened example_config text_AAA 4 0).inode_table
          ∧ s1.fs_data = (state_reopened example_config text_AAA 4 0).fs_data
          ∧ s1.free_blocks = (state_reopened example_config text_AAA 4 0).free_blocks) := by
  refine ⟨by decide, ?_⟩
  obtain ⟨_, r, s1, out, e, a1, _, a3, a4, _⟩ :=
    read_changes_only_offset example_config (by decide)
      (state_reopened example_config text_AAA 4 0) 0 0 1 (fun _ => 0) 39
  exact ⟨r, s1, out, e, a1, a3, a4⟩

set_option maxRecDepth 100000 in
/-- An instance of `offset_sanitation`: the entry of the 4-byte file "/f1" with its offset moved to 9. -/
theorem offset_sanitation_witness :
    0 < example_config.BLOCK_SIZE
      ∧ (((state_reopened example_config text_AAA 4 0).set_of_offset 0 9).open_file_table
          0).of_offset
        > (((state_reopened example_config text_AAA 4 0).set_of_offset 0 9).inode_table 1).i_size
      ∧ inode_read example_config ((state_reopened example_config text_AAA 4 0).set_of_offset 0 9)
          0 1 (fun _ => 0) 39
        = some (0, ((state_reopened example_config text_AAA 4 0).set_of_offset 0 9).set_of_offset 0
            (((state_reopened example_config text_AAA 4 0).set_of_offset 0 9).inode_table
              1).i_size, fun _ => 0) :=
  ⟨by decide, by decide!,
    (offset_sanitation example_config (by decide)
      ((state_reopened example_config text_AAA 4 0).set_of_offset 0 9) 0 1 (fun _ => 0) 39
      (by decide!)).1⟩

/-- C10. Initial offset.  Let `tfs_open` be called on the name of a file that exists
(`tfs_lookup` finds it) and return a handle `h >= 0` whose open-file slot the call itself turned
from FREE to TAKEN.  Then entry `h` holds the file's inumber; its offset is 0 when APPEND is
clear; and when APPEND is set and TRUNC is clear its offset is the inode's size, and a
`tfs_read` that follows returns 0 for every requested length (changing nothing). -/
theorem tfs_open_initial_offset (c : Config) (s : State) (name : Option (List Nat))
    (flags : Nat) (hv : valid_pathname name = true) (hex : 0 ≤ (tfs_lookup c s name).1)
    (hr : 0 ≤ (tfs_open c s name flags).1)
    (hfree : s.free_open_file_entries (tfs_open c s name flags).1.toNat = FREE)
    (htaken : (tfs_open c s name flags).2.free_open_file_entries
      (tfs_open c s name flags).1.toNat = TAKEN) :
    ((tfs_open c s name flags).2.open_file_table (tfs_open c s name flags).1.toNat).of_inumber
        = (tfs_lookup c s name).1
      ∧ (flags &&& TFS_O_APPEND = 0 →
        ((tfs_open c s name flags).2.open_file_table
          (tfs_open c s name flags).1.toNat).of_offset = 0)
      ∧ (flags &&& TFS_O_APPEND ≠ 0 → flags &&& TFS_O_TRUNC = 0 →
        ((tfs_open c s name flags).2.open_file_table
            (tfs_open c s name flags).1.toNat).of_offset
          = (s.inode_table (tfs_lookup c s name).1.toNat).i_size
        ∧ ∀ (buffer : Nat → Nat) (len : Nat),
          tfs_read c (tfs_open c s name flags).2 (tfs_open c s name flags).1 buffer len
            = some (0, (tfs_open c s name flags).2, buffer)) := by
  have hls := tfs_lookup_same c s name
  have hopen : tfs_open c s name flags
      = tfs_open_existing c (tfs_lookup c s name).2 (tfs_lookup c s name).1 flags := by
    unfold tfs_open
    simp [hv, hex]
  rw [hopen] at hr hfree htaken ⊢
  generalize hl1 : (tfs_lookup c s name).1 = inum at *
  generalize hl2 : (tfs_lookup c s name).2 = sl at *
  unfold tfs_open_existing at hr hfree htaken ⊢
  rcases hget : inode_get c inum with _ | i
  · rw [hget] at hr
    simp at hr
  · rw [hget] at hr hfree htaken
    simp only at hr hfree htaken ⊢
    have hi : i = inum.toNat ∧ valid_inumber c inum = true := by
      unfold inode_get at hget
      split at hget
      · simp at hget
      · rename_i hvi
        simp at hget
        simp at hvi
        exact ⟨hget.symm, by simpa using hvi⟩
    have ht : open_files_same sl
        (if flags &&& TFS_O_TRUNC ≠ 0 then tfs_open_trunc c sl inum i else (none, sl)).2 := by
      split
      · exact tfs_open_trunc_open_files c sl inum i
      · exact ⟨rfl, rfl⟩
    have ht0 : flags &&& TFS_O_TRUNC = 0 →
        (if flags &&& TFS_O_TRUNC ≠ 0 then tfs_open_trunc c sl inum i else (none, sl))
          = (none, sl) := by
      intro h0
      rw [if_neg (by simp [h0])]
    generalize htt : (if flags &&& TFS_O_TRUNC ≠ 0 then tfs_open_trunc c sl inum i
      else (none, sl)) = t at *
    rcases ht1 : t.1 with _ | e
    · rw [ht1] at hr hfree htaken
      simp only at hr hfree htaken ⊢
      unfold add_to_open_file_table at hr hfree htaken ⊢
      rcases hff : first_free t.2.free_open_file_entries c.MAX_OPEN_FILES 0 with _ | k
      · rw [hff] at hr
        simp at hr
      · rw [hff] at hr hfree htaken
        simp only at hr hfree htaken ⊢
        obtain ⟨_, hk, _, _⟩ := first_free_some _ _ _ _ hff
        simp only [Int.toNat_ofNat, upd_same]
        refine ⟨trivial, ?_, ?_⟩
        · intro h0
          rw [if_neg (by simp [h0])]
        · intro h1 h0
          rw [if_pos h1]
          have ht2 := ht0 h0
          subst ht2
          simp only
          refine ⟨by rw [hi.1, hls.1], ?_⟩
          intro buffer len
          unfold tfs_read
          have hg : get_open_file_entry c (k : Int) = some k := by
            unfold get_open_file_entry valid_file_handle
            simp
            omega
          rw [hg]
          simp only [upd_same]
          rw [hget]
          simp only
          apply inode_read_at_end
          simp
    · rw [ht1] at hr hfree htaken
      simp only at hr hfree htaken
      rw [ht.2, hls.2.2.2.2.2] at htaken
      rw [hfree] at htaken
      exact absurd htaken (by decide)

set_option maxRecDepth 100000 in
/-- Witness of C10: the third scenario, "/f1" (4 bytes) opened with APPEND. -/
theorem tfs_open_initial_offset_witness :
    valid_pathname path_f1 = true
      ∧ 0 ≤ (tfs_lookup example_config
          (tfs_close example_config (state_reopened example_config text_AAA 4 0) 0).2 path_f1).1
      ∧ ((tfs_open example_config
            (tfs_close example_config (state_reopened example_config text_AAA 4 0) 0).2 path_f1
            TFS_O_APPEND).2.open_file_table 0).of_offset = 4
      ∧ tfs_read example_config
          (tfs_open example_config
            (tfs_close example_config (state_reopened example_config text_AAA 4 0) 0).2 path_f1
            TFS_O_APPEND).2
          (tfs_open example_config
            (tfs_close example_config (state_reopened example_config text_AAA 4 0) 0).2 path_f1
            TFS_O_APPEND).1 (fun _ => 0) 39
        = some (0, (tfs_open example_config
            (tfs_close example_config (state_reopened example_config text_AAA 4 0) 0).2 path_f1
            TFS_O_APPEND).2, fun _ => 0) := by
  have h := tfs_open_initial_offset example_config
    (tfs_close example_config (state_reopened example_config text_AAA 4 0) 0).2 path_f1
    TFS_O_APPEND (by decide) (by decide!) (by decide!) (by decide!) (by decide!)
  refine ⟨by decide, by decide!, by decide!, ?_⟩
  exact (h.2.2 (by decide) (by decide)).2 (fun _ => 0) 39

set_option maxRecDepth 1000000 in
/-- C1 fails in the code.  With 1024-byte blocks, after `tfs_init` and
`tfs_open("/f1", TFS_O_CREAT)`, one `tfs_write` of the 12289 bytes of `pattern` returns 12289;
after `tfs_close` and `tfs_open("/f1", 0)` the `tfs_read` of 12289 bytes returns 12289, but
byte 11264 of the buffer is the byte written at position 12288, not the one written at
position 11264.  No access of the run is undefined. -/
theorem round_trip_broken_past_eleven_blocks :
    (tfs_init example_config State.zero).1 = 0
      ∧ (tfs_open example_config (tfs_init example_config State.zero).2 path_f1 TFS_O_CREAT).1 = 0
      ∧ (tfs_write example_config (state_created example_config) 0 pattern 12289).map
          (fun r => r.1) = some 12289
      ∧ (tfs_close example_config
          (after_write example_config (state_created example_config) 0 pattern 12289) 0).1 = 0
      ∧ (tfs_open example_config (tfs_close example_config
          (after_write example_config (state_created example_config) 0 pattern 12289) 0).2
            path_f1 0).1 = 0
      ∧ (tfs_read example_config (state_reopened example_config pattern 12289 0) 0
            (fun _ => 0) 12289).map (fun r => (r.1, r.2.2 11264, r.2.1.undefined_behaviour))
          = some (12289, pattern 12288, false)
      ∧ pattern 12288 ≠ pattern 11264 := by
  decide!

set_option maxRecDepth 1000000 in
/-- C4 fails in the code.  With 16-byte blocks (capacity 224 bytes) and 40 blocks in the pool,
a new file is filled with 208 bytes, which returns 208; the `tfs_write` of one more byte, at
offset 208 of capacity 224, returns -1 although 23 blocks of the pool are free before the call
(368 bytes of free memory); the call takes a block from the pool (352 bytes are free after it)
and leaves the size at 208.  No access of the run is undefined. -/
theorem write_fails_in_last_block :
    (tfs_write small_config (state_created small_config) 0 pattern 208).map (fun r => r.1)
        = some 208
      ∧ get_free_memory small_config
          (after_write small_config (state_created small_config) 0 pattern 208) = 368
      ∧ (tfs_write small_config
            (after_write small_config (state_created small_config) 0 pattern 208) 0 pattern 1).map
          (fun r => (r.1, get_free_memory small_config r.2, (r.2.inode_table 1).i_size,
            r.2.undefined_behaviour))
        = some (-1, 352, 208, false) := by
  decide!

/-- C7. Crossing into the indirect region.  Let `i` be a new, empty file in the layout of
`file_layout`, open with offset 0 through handle `fh` and found under `path`.  After any list
of calls of `tfs_write` that fill it with exactly `DIRECT_BLOCKS_COUNT * BLOCK_SIZE` bytes
(each call returns the length asked for), the `tfs_write` of one further byte `buf 0` returns
1 and the inode's `indirection_block` is then a valid block index; after `tfs_close` and
`tfs_open(path, 0)`, the `tfs_read` of `DIRECT_BLOCKS_COUNT * BLOCK_SIZE + 1` bytes returns
that length, the last byte read is `buf 0`, and the bytes before it are those written. -/
theorem indirect_region_crossing (c : Config) (hB : 8 ≤ c.BLOCK_SIZE)
    (hS : c.FS_DATA_SIZE ≤ 2147483647) (st : State) (fh i : Nat) (blocks : List Nat)
    (lo f rb : Nat) (path : Option (List Nat)) (hl : file_layout c st i blocks lo f)
    (ho : open_file c st fh i path rb lo) (hsize : (st.inode_table i).i_size = 0)
    (hoff : (st.open_file_table fh).of_offset = 0) (ws : List ((Nat → Nat) × Nat))
    (hfill : total_length ws = DIRECT_BLOCKS_COUNT * c.BLOCK_SIZE) (buf : Nat → Nat) :
    ∃ s : State,
      write_all c (fh : Int) ws st = some (ws.map (fun w => (w.2 : Int)), s)
      ∧ ∃ s1 : State,
        tfs_write c s (fh : Int) buf 1 = some (1, s1)
        ∧ (∃ p : Nat, (s1.inode_table i).indirection_block = (p : Int) ∧ p < c.DATA_BLOCKS)
        ∧ (tfs_close c s1 (fh : Int)).1 = 0
        ∧ ∃ (fh2 : Nat) (s2 : State),
          tfs_open c (tfs_close c s1 (fh : Int)).2 path 0 = ((fh2 : Int), s2)
          ∧ ∀ out : Nat → Nat, ∃ (s3 : State) (out1 : Nat → Nat),
            tfs_read c s2 (fh2 : Int) out (DIRECT_BLOCKS_COUNT * c.BLOCK_SIZE + 1)
              = some (((DIRECT_BLOCKS_COUNT * c.BLOCK_SIZE + 1 : Nat) : Int), s3, out1)
            ∧ out1 (DIRECT_BLOCKS_COUNT * c.BLOCK_SIZE) = buf 0
            ∧ ∀ x, x < DIRECT_BLOCKS_COUNT * c.BLOCK_SIZE → out1 x = written_bytes ws x := by
  obtain ⟨s, hwa, hw⟩ := written_all c hB hS st fh i lo ho.handle_lt ho.inumber
    (written_bytes ws) ws st 0 (written_start c st fh i blocks lo f hl hsize hoff _)
    (by rw [hfill]; omega) (fun p _ => by rw [Nat.zero_add])
  rw [Nat.zero_add, hfill] at hw
  refine ⟨s, hwa, ?_⟩
  obtain ⟨blocks1, f1, hl1, hby⟩ := hw.layout
  have hin : (s.open_file_table fh).of_inumber = (i : Int) := by rw [hw.inumber, ho.inumber]
  obtain ⟨s1, p, q, e1, e2, e3, e4, e5, e6, e7, e8, e9, e10, e11, e12, e13, e14⟩ :=
    inode_write_cross c hB hS s fh i blocks1 lo f1 hl1 buf hin hw.offset hw.size
  refine ⟨s1, ?_, ⟨p, e2, e3⟩, ?_⟩
  · rw [tfs_write_eq c s fh i buf 1 ho.handle_lt hin hl.inum_lt]
    exact e1
  obtain ⟨hclose, fh2, hfh2, hopen⟩ := tfs_reopen c st s1 fh i lo path rb
    (by rw [e12, hw.handles]; exact ho.handle_taken)
    (by rw [e13 0 (Ne.symm ho.not_root), hw.other_inodes 0 (Ne.symm ho.not_root)])
    (fun a ha => by rw [e10 a ha, hw.low a ha]) ho hl.inum_lt
  refine ⟨hclose, fh2, _, hopen, ?_⟩
  intro out
  generalize hs2 : ({ s1 with
      free_open_file_entries := upd (upd s1.free_open_file_entries fh FREE) fh2 TAKEN
      open_file_table := upd s1.open_file_table fh2 { of_inumber := (i : Int), of_offset := 0 } }
    : State) = s2
  have ht2 : s2.inode_table = s1.inode_table := by rw [← hs2]
  have hf2 : s2.fs_data = s1.fs_data := by rw [← hs2]
  have ho2 : (s2.open_file_table fh2).of_offset = 0 := by
    rw [← hs2]
    simp [upd]
  have hi2 : (s2.open_file_table fh2).of_inumber = (i : Int) := by
    rw [← hs2]
    simp [upd]
  rw [tfs_read_eq c s2 fh2 i out _ hfh2 hi2 hl.inum_lt]
  obtain ⟨s3, out1, g1, g2, g3⟩ := inode_read_cross c hB s2 fh2 i blocks1 p q
    (by rw [ht2]; exact e7) e8 (fun b hb => lt_of_lt_of_le (hl1.upper b hb) hl1.f_le)
    (by rw [ht2]; exact e9) ho2 (by rw [ht2]; exact e2) e3
    (by
      rw [← e4]
      exact index_entry_congr c p 1 (fun a _ _ => by rw [hf2]))
    e5 out
  refine ⟨s3, out1, g1, by rw [g3, hf2, e6], ?_⟩
  intro x hx
  rw [g2 x hx, hf2, e11 x hx]
  exact hby x hx

/-- Witness of C7: with 1024-byte blocks, the new file "/f1" after `tfs_init` is filled by
one write of 6000 bytes and one of 4240 bytes of `pattern`, and then the byte `text_AAA 0` is
written. -/
theorem indirect_region_crossing_witness :
    8 ≤ example_config.BLOCK_SIZE
      ∧ example_config.FS_DATA_SIZE ≤ 2147483647
      ∧ file_layout example_config (state_created example_config) 1 [1] 1 2
      ∧ open_file example_config (state_created example_config) 0 1 path_f1 0 1
      ∧ ((state_created example_config).inode_table 1).i_size = 0
      ∧ ((state_created example_config).open_file_table 0).of_offset = 0
      ∧ total_length [(pattern, 6000), (pattern, 4240)]
        = DIRECT_BLOCKS_COUNT * example_config.BLOCK_SIZE
      ∧ ∃ s : State,
        write_all example_config ((0 : Nat) : Int) [(pattern, 6000), (pattern, 4240)]
            (state_created example_config)
          = some ([(pattern, 6000), (pattern, 4240)].map (fun w => (w.2 : Int)), s)
        ∧ ∃ s1 : State,
          tfs_write example_config s ((0 : Nat) : Int) text_AAA 1 = some (1, s1)
          ∧ (∃ p : Nat, (s1.inode_table 1).indirection_block = (p : Int)
              ∧ p < example_config.DATA_BLOCKS)
          ∧ (tfs_close example_config s1 ((0 : Nat) : Int)).1 = 0
          ∧ ∃ (fh2 : Nat) (s2 : State),
            tfs_open example_config (tfs_close example_config s1 ((0 : Nat) : Int)).2
                path_f1 0 = ((fh2 : Int), s2)
            ∧ ∀ out : Nat → Nat, ∃ (s3 : State) (out1 : Nat → Nat),
              tfs_read example_config s2 (fh2 : Int) out
                  (DIRECT_BLOCKS_COUNT * example_config.BLOCK_SIZE + 1)
                = some (((DIRECT_BLOCKS_COUNT * example_config.BLOCK_SIZE + 1 : Nat) : Int),
                    s3, out1)
              ∧ out1 (DIRECT_BLOCKS_COUNT * example_config.BLOCK_SIZE) = text_AAA 0
              ∧ ∀ x, x < DIRECT_BLOCKS_COUNT * example_config.BLOCK_SIZE →
                out1 x = written_bytes [(pattern, 6000), (pattern, 4240)] x :=
  ⟨by decide, by decide, state_created_layout, state_created_open, state_created_empty.1,
    state_created_empty.2, by decide,
    indirect_region_crossing example_config (by decide) (by decide)
      (state_created example_config) 0 1 [1] 1 2 0 path_f1 state_created_layout
      state_created_open state_created_empty.1 state_created_empty.2
      [(pattern, 6000), (pattern, 4240)] (by decide) text_AAA⟩

/-- Capacity clamp on a new file.  Let `i` be a new, empty file without indirection block, in the layout
of `file_layout`, open with offset 0 through handle `fh`, in a pool with memory for
`INDEX_COUNT + 14` blocks.  One `tfs_write` asking for `CAPACITY + 1` bytes returns `CAPACITY`
and leaves size and offset at `CAPACITY`; a following `tfs_write` of one byte through the same
handle returns 0 and leaves the size at `CAPACITY`.  In general, for every state, when the
offset (clamped to the size) is inside the capacity and the request ends past it,
`inode_write` behaves as for the request truncated to `CAPACITY - offset`. -/
theorem capacity_clamp (c : Config) (hB : 8 ≤ c.BLOCK_SIZE) (hS : c.FS_DATA_SIZE ≤ 2147483647)
    (st : State) (fh i : Nat) (blocks : List Nat) (lo f : Nat)
    (hl : file_layout c st i blocks lo f) (hfh : fh < c.MAX_OPEN_FILES)
    (hin : (st.open_file_table fh).of_inumber = (i : Int))
    (hsize : (st.inode_table i).i_size = 0) (hoff : (st.open_file_table fh).of_offset = 0)
    (hind : (st.inode_table i).indirection_block = -1)
    (hmem : (c.INDEX_COUNT + 14) * c.BLOCK_SIZE ≤ get_free_memory c st)
    (buf buf2 : Nat → Nat) :
    (∃ s1 : State,
        tfs_write c st (fh : Int) buf (c.CAPACITY + 1) = some ((c.CAPACITY : Int), s1)
        ∧ (s1.inode_table i).i_size = c.CAPACITY
        ∧ (s1.open_file_table fh).of_offset = c.CAPACITY
        ∧ ∃ s2 : State,
          tfs_write c s1 (fh : Int) buf2 1 = some (0, s2)
          ∧ (s2.inode_table i).i_size = c.CAPACITY)
      ∧ ∀ (s : State) (fh1 i1 : Nat) (b : Nat → Nat) (n : Nat),
        min (s.open_file_table fh1).of_offset (s.inode_table i1).i_size ≤ c.CAPACITY →
        min (s.open_file_table fh1).of_offset (s.inode_table i1).i_size + n < SIZE_MAX1 →
        c.CAPACITY < min (s.open_file_table fh1).of_offset (s.inode_table i1).i_size + n →
        inode_write c s fh1 i1 b n
          = inode_write c s fh1 i1 b
              (c.CAPACITY - min (s.open_file_table fh1).of_offset (s.inode_table i1).i_size) := by
  have hB0 : 0 < c.BLOCK_SIZE := by omega
  have hDpos : 0 < c.DATA_BLOCKS := by
    have := hl.f_le
    have := hl.upper _ (getD_mem blocks 0 hl.len_pos)
    omega
  have hD : c.DATA_BLOCKS ≤ 2147483647 := by
    unfold Config.FS_DATA_SIZE at hS
    calc c.DATA_BLOCKS = 1 * c.DATA_BLOCKS := by omega
      _ ≤ c.BLOCK_SIZE * c.DATA_BLOCKS := Nat.mul_le_mul_right _ hB0
      _ ≤ _ := hS
  have hBle : c.BLOCK_SIZE ≤ 2147483647 := by
    unfold Config.FS_DATA_SIZE at hS
    calc c.BLOCK_SIZE = c.BLOCK_SIZE * 1 := by omega
      _ ≤ c.BLOCK_SIZE * c.DATA_BLOCKS := Nat.mul_le_mul_left _ hDpos
      _ ≤ _ := hS
  have hKle : c.INDEX_COUNT ≤ c.BLOCK_SIZE := by
    unfold Config.INDEX_COUNT SIZEOF_INT
    omega
  have hcap : c.CAPACITY + 1 < SIZE_MAX1 := by
    have h1 : c.CAPACITY ≤ (10 + 2147483647) * 2147483647 := by
      unfold Config.CAPACITY
      exact Nat.mul_le_mul (by unfold DIRECT_BLOCKS_COUNT; omega) hBle
    unfold SIZE_MAX1
    omega
  have hcpos : 0 < c.CAPACITY := by
    unfold Config.CAPACITY
    exact Nat.mul_pos (by unfold DIRECT_BLOCKS_COUNT; omega) hB0
  have hclamp : ∀ (s : State) (fh1 i1 : Nat) (b : Nat → Nat) (n : Nat),
      min (s.open_file_table fh1).of_offset (s.inode_table i1).i_size ≤ c.CAPACITY →
      min (s.open_file_table fh1).of_offset (s.inode_table i1).i_size + n < SIZE_MAX1 →
      c.CAPACITY < min (s.open_file_table fh1).of_offset (s.inode_table i1).i_size + n →
      inode_write c s fh1 i1 b n
        = inode_write c s fh1 i1 b
            (c.CAPACITY - min (s.open_file_table fh1).of_offset (s.inode_table i1).i_size) :=
    fun s fh1 i1 b n h1 h2 h3 => inode_write_clamp c s fh1 i1 b n h1 (by omega) h2 h3
  refine ⟨?_, hclamp⟩
  -- the first write
  have hfirst : ∃ s1 : State, inode_write c st fh i buf c.CAPACITY
      = some ((c.CAPACITY : Int), s1) := by
    obtain ⟨blocks1, p, hp⟩ := inode_add_blocks_capacity c hB hD st i blocks lo f hl hind hmem
      (by omega)
    have hm := meta_frame_inode_add_blocks c st (i : Int) c.CAPACITY 0
    unfold inode_write
    simp only [clamp_offset_of_le st fh i (by omega), hoff, hsize, hin, Nat.zero_add]
    have hmod : c.CAPACITY % SIZE_MAX1 = c.CAPACITY := Nat.mod_eq_of_lt (by omega)
    rw [hmod, if_neg (Nat.lt_irrefl _), if_pos hcpos]
    have hsb : start_block c 0 = 0 := by
      unfold start_block
      rw [Nat.zero_div, if_neg (by unfold DIRECT_BLOCKS_COUNT; omega)]
    rw [hsb]
    obtain ⟨s1, e1⟩ := inode_write_loop_preallocated c hB fh i buf blocks1 p c.CAPACITY _
      c.CAPACITY 0 0 (Nat.le_refl _) hp
      (Or.inr (Or.inl ⟨by unfold DIRECT_BLOCKS_COUNT; omega, by rw [hm.1, hoff, Nat.zero_div]⟩))
      (by rw [hm.1, hoff]; omega)
    exact ⟨s1, by rw [e1, Nat.zero_add]⟩
  obtain ⟨s1, e1⟩ := hfirst
  obtain ⟨r, s1', g1, g2, g3⟩ := inode_write_spec c hB0 st fh i buf c.CAPACITY
  rw [e1] at g1
  have hr : r = (c.CAPACITY : Int) := by
    have := congrArg (fun o => o.map (fun q => q.1)) g1
    simpa using this.symm
  have hs : s1' = s1 := by
    have := congrArg (fun o => o.map (fun q => q.2)) g1
    simpa using this.symm
  subst hs
  rw [hr, hoff, hsize] at g3
  have hfacts : (s1'.inode_table i).i_size = c.CAPACITY
      ∧ (s1'.open_file_table fh).of_offset = c.CAPACITY := by
    rcases g3 with g3 | ⟨_, g4, g5, _⟩
    · omega
    · simp only [Int.toNat_ofNat, Nat.min_self, Nat.zero_add] at g4 g5
      exact ⟨by rw [g5]; omega, g4⟩
  have hin1 : (s1'.open_file_table fh).of_inumber = (i : Int) := by
    rw [g2.2.2.2.1, hin]
  refine ⟨s1', ?_, hfacts.1, hfacts.2, ?_⟩
  · rw [tfs_write_eq c st fh i buf _ hfh hin hl.inum_lt,
      hclamp st fh i buf (c.CAPACITY + 1) (by rw [hoff]; omega) (by rw [hoff, hsize]; omega)
        (by rw [hoff, hsize]; omega)]
    rw [hoff, hsize]
    exact e1
  · obtain ⟨s2, k1, k2, _⟩ := inode_write_at_capacity c s1' fh i buf2 1 (by omega)
      (by omega) hfacts.2 hfacts.1
    exact ⟨s2, by rw [tfs_write_eq c s1' fh i buf2 1 hfh hin1 hl.inum_lt]; exact k1, k2⟩

set_option maxRecDepth 100000 in
/-- An instance of `capacity_clamp`: the new file "/f1" after `tfs_init`, with 1024-byte blocks: the capacity
is 272384 bytes. -/
theorem capacity_clamp_witness :
    8 ≤ example_config.BLOCK_SIZE
      ∧ example_config.FS_DATA_SIZE ≤ 2147483647
      ∧ file_layout example_config (state_created example_config) 1 [1] 1 2
      ∧ 0 < example_config.MAX_OPEN_FILES
      ∧ ((state_created example_config).open_file_table 0).of_inumber = ((1 : Nat) : Int)
      ∧ ((state_created example_config).inode_table 1).i_size = 0
      ∧ ((state_created example_config).open_file_table 0).of_offset = 0
      ∧ ((state_created example_config).inode_table 1).indirection_block = -1
      ∧ (example_config.INDEX_COUNT + 14) * example_config.BLOCK_SIZE
        ≤ get_free_memory example_config (state_created example_config)
      ∧ ((∃ s1 : State,
          tfs_write example_config (state_created example_config) ((0 : Nat) : Int) pattern
              (example_config.CAPACITY + 1) = some ((example_config.CAPACITY : Int), s1)
          ∧ (s1.inode_table 1).i_size = example_config.CAPACITY
          ∧ (s1.open_file_table 0).of_offset = example_config.CAPACITY
          ∧ ∃ s2 : State,
            tfs_write example_config s1 ((0 : Nat) : Int) text_AAA 1 = some (0, s2)
            ∧ (s2.inode_table 1).i_size = example_config.CAPACITY)
        ∧ ∀ (s : State) (fh1 i1 : Nat) (b : Nat → Nat) (n : Nat),
          min (s.open_file_table fh1).of_offset (s.inode_table i1).i_size
            ≤ example_config.CAPACITY →
          min (s.open_file_table fh1).of_offset (s.inode_table i1).i_size + n < SIZE_MAX1 →
          example_config.CAPACITY
            < min (s.open_file_table fh1).of_offset (s.inode_table i1).i_size + n →
          inode_write example_config s fh1 i1 b n
            = inode_write example_config s fh1 i1 b
                (example_config.CAPACITY
                  - min (s.open_file_table fh1).of_offset (s.inode_table i1).i_size)) :=
  ⟨by decide, by decide, state_created_layout, by decide, state_created_open.inumber,
    state_created_empty.1, state_created_empty.2, by decide!, by decide!,
    capacity_clamp example_config (by decide) (by decide) (state_created example_config) 0 1
      [1] 1 2 state_created_layout (by decide) state_created_open.inumber
      state_created_empty.1 state_created_empty.2 (by decide!) (by decide!) pattern text_AAA⟩

/-! ## The bitmap of open files plays no part in reading and writing -/

@[simp]
theorem with_open_bitmap_inode_table (s : State) (bm : Nat → allocation_state_t) :
    (s.with_open_bitmap bm).inode_table = s.inode_table := rfl

@[simp]
theorem with_open_bitmap_freeinode_ts (s : State) (bm : Nat → allocation_state_t) :
    (s.with_open_bitmap bm).freeinode_ts = s.freeinode_ts := rfl

@[simp]
theorem with_open_bitmap_fs_data (s : State) (bm : Nat → allocation_state_t) :
    (s.with_open_bitmap bm).fs_data = s.fs_data := rfl

@[simp]
theorem with_open_bitmap_free_blocks (s : State) (bm : Nat → allocation_state_t) :
    (s.with_open_bitmap bm).free_blocks = s.free_blocks := rfl

@[simp]
theorem with_open_bitmap_open_file_table (s : State) (bm : Nat → allocation_state_t) :
    (s.with_open_bitmap bm).open_file_table = s.open_file_table := rfl

@[simp]
theorem with_open_bitmap_free_open_file_entries (s : State) (bm : Nat → allocation_state_t) :
    (s.with_open_bitmap bm).free_open_file_entries = bm := rfl

@[simp]
theorem with_open_bitmap_undefined_behaviour (s : State) (bm : Nat → allocation_state_t) :
    (s.with_open_bitmap bm).undefined_behaviour = s.undefined_behaviour := rfl

theorem with_open_bitmap_set_inode (s : State) (bm : Nat → allocation_state_t) (i : Nat)
    (ino : inode_t) : (s.with_open_bitmap bm).set_inode i ino = (s.set_inode i ino).with_open_bitmap bm :=
  rfl

theorem with_open_bitmap_set_of_offset (s : State) (bm : Nat → allocation_state_t) (h v : Nat) :
    (s.with_open_bitmap bm).set_of_offset h v = (s.set_of_offset h v).with_open_bitmap bm := rfl

theorem with_open_bitmap_mark_if (s : State) (bm : Nat → allocation_state_t) (b : Bool) :
    (s.with_open_bitmap bm).mark_if b = (s.mark_if b).with_open_bitmap bm := by
  cases b <;> rfl

theorem with_open_bitmap_mark_undefined (s : State) (bm : Nat → allocation_state_t) :
    (s.with_open_bitmap bm).mark_undefined = s.mark_undefined.with_open_bitmap bm := rfl

theorem with_open_bitmap_set_i_size (s : State) (bm : Nat → allocation_state_t) (i v : Nat) :
    (s.with_open_bitmap bm).set_i_size i v = (s.set_i_size i v).with_open_bitmap bm := rfl

theorem with_open_bitmap_set_i_data_block (s : State) (bm : Nat → allocation_state_t) (i : Nat)
    (v : List (Option Int)) :
    (s.with_open_bitmap bm).set_i_data_block i v = (s.set_i_data_block i v).with_open_bitmap bm :=
  rfl

theorem with_open_bitmap_set_number_of_blocks (s : State) (bm : Nat → allocation_state_t)
    (i v : Nat) :
    (s.with_open_bitmap bm).set_number_of_blocks i v
      = (s.set_number_of_blocks i v).with_open_bitmap bm := rfl

theorem with_open_bitmap_set_indirection_block (s : State) (bm : Nat → allocation_state_t)
    (i : Nat) (v : Int) :
    (s.with_open_bitmap bm).set_indirection_block i v
      = (s.set_indirection_block i v).with_open_bitmap bm := rfl

theorem with_open_bitmap_set_number_indirect_blocks (s : State) (bm : Nat → allocation_state_t)
    (i v : Nat) :
    (s.with_open_bitmap bm).set_number_indirect_blocks i v
      = (s.set_number_indirect_blocks i v).with_open_bitmap bm := rfl

theorem with_open_bitmap_store_int (c : Config) (s : State) (bm : Nat → allocation_state_t)
    (a : Nat) (v : Int) :
    store_int c (s.with_open_bitmap bm) a v = (store_int c s a v).with_open_bitmap bm := by
  unfold store_int
  cases decide (c.FS_DATA_SIZE < a + SIZEOF_INT) <;> rfl

theorem with_open_bitmap_load_int (c : Config) (s : State) (bm : Nat → allocation_state_t)
    (a : Nat) :
    load_int c (s.with_open_bitmap bm) a = ((load_int c s a).1, (load_int c s a).2.with_open_bitmap bm) := by
  unfold load_int
  simp only [with_open_bitmap_fs_data, with_open_bitmap_mark_if]

theorem with_open_bitmap_read_direct (s : State) (bm : Nat → allocation_state_t) (i k : Nat) :
    read_direct (s.with_open_bitmap bm) i k
      = ((read_direct s i k).1, (read_direct s i k).2.with_open_bitmap bm) := by
  unfold read_direct
  simp only [with_open_bitmap_inode_table]
  split <;> rfl

theorem with_open_bitmap_write_direct (s : State) (bm : Nat → allocation_state_t) (i k : Nat)
    (b : Int) :
    write_direct (s.with_open_bitmap bm) i k b = (write_direct s i k b).with_open_bitmap bm := by
  unfold write_direct
  simp only [with_open_bitmap_inode_table]
  split <;> rfl

theorem with_open_bitmap_data_block_alloc (c : Config) (s : State)
    (bm : Nat → allocation_state_t) :
    data_block_alloc c (s.with_open_bitmap bm)
      = ((data_block_alloc c s).1, (data_block_alloc c s).2.with_open_bitmap bm) := by
  unfold data_block_alloc
  simp only [with_open_bitmap_free_blocks]
  split <;> rfl

theorem with_open_bitmap_get_free_memory (c : Config) (s : State)
    (bm : Nat → allocation_state_t) :
    get_free_memory c (s.with_open_bitmap bm) = get_free_memory c s :=
  get_free_memory_congr c rfl

theorem with_open_bitmap_store_index (c : Config) (s : State) (bm : Nat → allocation_state_t)
    (p : Option Nat) (k : Nat) (v : Int) :
    store_index c (s.with_open_bitmap bm) p k v = (store_index c s p k v).with_open_bitmap bm := by
  unfold store_index
  split
  · rfl
  · exact with_open_bitmap_store_int c s bm _ v

theorem with_open_bitmap_load_index (c : Config) (s : State) (bm : Nat → allocation_state_t)
    (p : Option Nat) (k : Nat) :
    load_index c (s.with_open_bitmap bm) p k
      = ((load_index c s p k).1, (load_index c s p k).2.with_open_bitmap bm) := by
  unfold load_index
  split
  · rfl
  · exact with_open_bitmap_load_int c s bm _

theorem with_open_bitmap_write_index_to_block (c : Config) (s : State)
    (bm : Nat → allocation_state_t) (i : Nat) (b : Int) :
    write_index_to_block c (s.with_open_bitmap bm) i b
      = ((write_index_to_block c s i b).1,
          (write_index_to_block c s i b).2.with_open_bitmap bm) := by
  unfold write_index_to_block
  simp only [with_open_bitmap_inode_table]
  split
  · rfl
  · split
    · rfl
    · simp only [with_open_bitmap_store_int]

theorem with_open_bitmap_inode_invalid_indirect_block (c : Config) (s : State)
    (bm : Nat → allocation_state_t) (i k : Nat) :
    inode_invalid_indirect_block c (s.with_open_bitmap bm) i k
      = ((inode_invalid_indirect_block c s i k).1,
          (inode_invalid_indirect_block c s i k).2.with_open_bitmap bm) := by
  unfold inode_invalid_indirect_block
  simp only [with_open_bitmap_inode_table]
  split
  · rfl
  · split
    · rfl
    · simp only [with_open_bitmap_load_int]
theorem with_open_bitmap_inode_inicialize_direct_blocks_loop (c : Config)
    (bm : Nat → allocation_state_t) (i : Nat) :
    ∀ (n k : Nat) (s : State),
      inode_inicialize_direct_blocks_loop c i n k (s.with_open_bitmap bm)
        = ((inode_inicialize_direct_blocks_loop c i n k s).1,
            (inode_inicialize_direct_blocks_loop c i n k s).2.with_open_bitmap bm) := by
  intro n
  induction n with
  | zero => intro k s; rfl
  | succ n ih =>
    intro k s
    unfold inode_inicialize_direct_blocks_loop
    simp only [with_open_bitmap_data_block_alloc, with_open_bitmap_write_direct]
    split
    · rfl
    · exact ih _ _

theorem with_open_bitmap_inode_inicialize_direct_blocks (c : Config) (s : State)
    (bm : Nat → allocation_state_t) (i a b : Nat) :
    inode_inicialize_direct_blocks c (s.with_open_bitmap bm) i a b
      = ((inode_inicialize_direct_blocks c s i a b).1,
          (inode_inicialize_direct_blocks c s i a b).2.with_open_bitmap bm) := by
  unfold inode_inicialize_direct_blocks
  split
  · rfl
  · exact with_open_bitmap_inode_inicialize_direct_blocks_loop c bm i _ _ s

theorem with_open_bitmap_inode_inicialize_indirect_blocks_loop (c : Config)
    (bm : Nat → allocation_state_t) (i p e : Nat) :
    ∀ (n k : Nat) (s : State),
      inode_inicialize_indirect_blocks_loop c i p e n k (s.with_open_bitmap bm)
        = (inode_inicialize_indirect_blocks_loop c i p e n k s).with_open_bitmap bm := by
  intro n
  induction n with
  | zero => intro k s; rfl
  | succ n ih =>
    intro k s
    unfold inode_inicialize_indirect_blocks_loop
    simp only [with_open_bitmap_data_block_alloc, with_open_bitmap_inode_table,
      with_open_bitmap_set_number_indirect_blocks, with_open_bitmap_write_index_to_block,
      with_open_bitmap_store_int]
    split
    · exact ih _ _
    · exact ih _ _

theorem with_open_bitmap_inode_inicialize_indirect_blocks (c : Config) (s : State)
    (bm : Nat → allocation_state_t) (i a b : Nat) :
    inode_inicialize_indirect_blocks c (s.with_open_bitmap bm) i a b
      = ((inode_inicialize_indirect_blocks c s i a b).1,
          (inode_inicialize_indirect_blocks c s i a b).2.with_open_bitmap bm) := by
  unfold inode_inicialize_indirect_blocks
  simp only [with_open_bitmap_inode_table]
  split
  · rfl
  · split
    · rfl
    · split
      · rfl
      · simp only [with_open_bitmap_inode_inicialize_indirect_blocks_loop]

theorem with_open_bitmap_inode_add_blocks_direct (c : Config) (s : State)
    (bm : Nat → allocation_state_t) (i n : Nat) :
    inode_add_blocks_direct c (s.with_open_bitmap bm) i n
      = ((inode_add_blocks_direct c s i n).1.with_open_bitmap bm,
          (inode_add_blocks_direct c s i n).2) := by
  unfold inode_add_blocks_direct
  simp only [with_open_bitmap_inode_table, with_open_bitmap_set_i_data_block,
    with_open_bitmap_inode_inicialize_direct_blocks, with_open_bitmap_set_number_of_blocks]
  split <;> rfl

theorem with_open_bitmap_inode_add_blocks_indirect (c : Config) (s : State)
    (bm : Nat → allocation_state_t) (i n : Nat) :
    inode_add_blocks_indirect c (s.with_open_bitmap bm) i n
      = ((inode_add_blocks_indirect c s i n).1,
          (inode_add_blocks_indirect c s i n).2.with_open_bitmap bm) := by
  unfold inode_add_blocks_indirect
  simp only [with_open_bitmap_inode_table, with_open_bitmap_data_block_alloc,
    with_open_bitmap_set_indirection_block, with_open_bitmap_inode_inicialize_indirect_blocks]
  split
  · split <;> rfl
  · rfl

theorem with_open_bitmap_inode_add_blocks (c : Config) (s : State)
    (bm : Nat → allocation_state_t) (inumber : Int) (sz off : Nat) :
    inode_add_blocks c (s.with_open_bitmap bm) inumber sz off
      = ((inode_add_blocks c s inumber sz off).1,
          (inode_add_blocks c s inumber sz off).2.with_open_bitmap bm) := by
  have h1 : inode_is_free c (s.with_open_bitmap bm) inumber = inode_is_free c s inumber := rfl
  unfold inode_add_blocks
  simp only [h1, with_open_bitmap_inode_table, with_open_bitmap_get_free_memory,
    with_open_bitmap_inode_add_blocks_direct, with_open_bitmap_inode_add_blocks_indirect]
  split
  · rfl
  · split
    · rfl
    · split <;> rfl

theorem with_open_bitmap_inode_write_locate (c : Config) (s : State)
    (bm : Nat → allocation_state_t) (i k : Nat) :
    inode_write_locate c (s.with_open_bitmap bm) i k
      = ((inode_write_locate c s i k).1, (inode_write_locate c s i k).2.with_open_bitmap bm) := by
  unfold inode_write_locate
  simp only [with_open_bitmap_read_direct, with_open_bitmap_inode_table,
    with_open_bitmap_inode_invalid_indirect_block, with_open_bitmap_data_block_alloc,
    with_open_bitmap_set_number_indirect_blocks, with_open_bitmap_store_index,
    with_open_bitmap_write_index_to_block, with_open_bitmap_load_index]
  split
  · rfl
  · split
    · split
      · rfl
      · split
        · rfl
        · split <;> rfl
    · rfl

theorem with_open_bitmap_inode_read_locate (c : Config) (s : State)
    (bm : Nat → allocation_state_t) (i k : Nat) :
    inode_read_locate c (s.with_open_bitmap bm) i k
      = ((inode_read_locate c s i k).1, (inode_read_locate c s i k).2.with_open_bitmap bm) := by
  unfold inode_read_locate
  simp only [with_open_bitmap_read_direct, with_open_bitmap_inode_table,
    with_open_bitmap_inode_invalid_indirect_block, with_open_bitmap_load_index]
  split
  · rfl
  · split
    · rfl
    · split <;> rfl

theorem with_open_bitmap_set_fs_data (s : State) (bm : Nat → allocation_state_t)
    (m : Nat → Nat) :
    ({ s.with_open_bitmap bm with fs_data := m } : State)
      = ({ s with fs_data := m } : State).with_open_bitmap bm := rfl

theorem with_open_bitmap_inode_write_copy (c : Config) (s : State)
    (bm : Nat → allocation_state_t) (fh i : Nat) (buf : Nat → Nat) (block size done : Nat) :
    inode_write_copy c (s.with_open_bitmap bm) fh i buf block size done
      = (inode_write_copy c s fh i buf block size done).with_open_bitmap bm := by
  unfold inode_write_copy
  simp only
  rw [with_open_bitmap_set_fs_data]
  simp only [with_open_bitmap_mark_if, with_open_bitmap_set_of_offset,
    with_open_bitmap_open_file_table, with_open_bitmap_inode_table, with_open_bitmap_fs_data,
    with_open_bitmap_set_i_size]
  split <;> rfl

theorem with_open_bitmap_inode_read_copy (c : Config) (s : State)
    (bm : Nat → allocation_state_t) (fh block size : Nat) :
    inode_read_copy c (s.with_open_bitmap bm) fh block size
      = (inode_read_copy c s fh block size).with_open_bitmap bm := by
  unfold inode_read_copy
  simp only [with_open_bitmap_open_file_table, with_open_bitmap_mark_if,
    with_open_bitmap_set_of_offset]

theorem with_open_bitmap_clamp_offset (s : State) (bm : Nat → allocation_state_t)
    (fh i : Nat) :
    clamp_offset (s.with_open_bitmap bm) fh i = (clamp_offset s fh i).with_open_bitmap bm := by
  unfold clamp_offset
  simp only [with_open_bitmap_open_file_table, with_open_bitmap_inode_table]
  split <;> rfl
theorem with_open_bitmap_inode_write_loop (c : Config) (bm : Nat → allocation_state_t)
    (fh i : Nat) (buf : Nat → Nat) :
    ∀ (fuel : Nat) (s : State) (to_write btw done : Nat),
      inode_write_loop c fh i buf fuel (s.with_open_bitmap bm) to_write btw done
        = (inode_write_loop c fh i buf fuel s to_write btw done).map
            (fun r => (r.1, r.2.with_open_bitmap bm)) := by
  intro fuel
  induction fuel with
  | zero =>
    intro s to_write btw done
    unfold inode_write_loop
    split <;> rfl
  | succ n ih =>
    intro s to_write btw done
    by_cases hc : to_write = 0
    · subst hc
      rw [inode_write_loop_zero, inode_write_loop_zero]
      rfl
    · conv_lhs => unfold inode_write_loop
      conv_rhs => unfold inode_write_loop
      simp only [hc, if_false, with_open_bitmap_inode_write_locate]
      rcases hl : (inode_write_locate c s i (skip_index_block btw)).1 with _ | (_ | block)
      · rfl
      · rfl
      · simp only [with_open_bitmap_open_file_table, with_open_bitmap_inode_write_copy]
        exact ih _ _ _ _

theorem with_open_bitmap_inode_read_loop (c : Config) (bm : Nat → allocation_state_t)
    (fh i : Nat) :
    ∀ (fuel : Nat) (s : State) (out : Nat → Nat) (to_read done : Nat),
      inode_read_loop c fh i fuel (s.with_open_bitmap bm) out to_read done
        = (inode_read_loop c fh i fuel s out to_read done).map
            (fun r => (r.1, r.2.1.with_open_bitmap bm, r.2.2)) := by
  intro fuel
  induction fuel with
  | zero =>
    intro s out to_read done
    unfold inode_read_loop
    simp only [with_open_bitmap_open_file_table, with_open_bitmap_inode_table]
    split <;> rfl
  | succ n ih =>
    intro s out to_read done
    conv_lhs => unfold inode_read_loop
    conv_rhs => unfold inode_read_loop
    simp only [with_open_bitmap_open_file_table, with_open_bitmap_inode_table,
      with_open_bitmap_inode_read_locate]
    split
    · rfl
    · rcases hl : (inode_read_locate c s i
          (start_block c (s.open_file_table fh).of_offset)).1 with _ | (_ | block)
      · rfl
      · rfl
      · simp only [with_open_bitmap_open_file_table, with_open_bitmap_inode_read_copy,
          with_open_bitmap_fs_data]
        exact ih _ _ _ _

theorem with_open_bitmap_inode_write (c : Config) (s : State) (bm : Nat → allocation_state_t)
    (fh i : Nat) (buf : Nat → Nat) (n : Nat) :
    inode_write c (s.with_open_bitmap bm) fh i buf n
      = (inode_write c s fh i buf n).map (fun r => (r.1, r.2.with_open_bitmap bm)) := by
  have hite : ∀ (P Q : Prop) [Decidable P] [Decidable Q] (a b e : State),
      (if P then a.with_open_bitmap bm else if Q then b.with_open_bitmap bm
        else e.with_open_bitmap bm)
        = (if P then a else if Q then b else e).with_open_bitmap bm := by
    intro P Q _ _ a b e
    split
    · rfl
    · split <;> rfl
  unfold inode_write
  simp only [with_open_bitmap_clamp_offset, with_open_bitmap_open_file_table,
    with_open_bitmap_inode_table, with_open_bitmap_inode_add_blocks, hite]
  exact with_open_bitmap_inode_write_loop c bm fh i buf _ _ _ _ _

theorem with_open_bitmap_inode_read (c : Config) (s : State) (bm : Nat → allocation_state_t)
    (fh i : Nat) (buf : Nat → Nat) (n : Nat) :
    inode_read c (s.with_open_bitmap bm) fh i buf n
      = (inode_read c s fh i buf n).map (fun r => (r.1, r.2.1.with_open_bitmap bm, r.2.2)) := by
  unfold inode_read
  simp only [with_open_bitmap_clamp_offset, with_open_bitmap_open_file_table,
    with_open_bitmap_inode_table]
  exact with_open_bitmap_inode_read_loop c bm fh i _ _ _ _ _

theorem with_open_bitmap_tfs_write (c : Config) (s : State) (bm : Nat → allocation_state_t)
    (fh : Int) (buf : Nat → Nat) (n : Nat) :
    tfs_write c (s.with_open_bitmap bm) fh buf n
      = (tfs_write c s fh buf n).map (fun r => (r.1, r.2.with_open_bitmap bm)) := by
  unfold tfs_write
  split
  · rfl
  · simp only [with_open_bitmap_open_file_table]
    split
    · rfl
    · exact with_open_bitmap_inode_write c s bm _ _ buf n

theorem with_open_bitmap_tfs_read (c : Config) (s : State) (bm : Nat → allocation_state_t)
    (fh : Int) (buf : Nat → Nat) (n : Nat) :
    tfs_read c (s.with_open_bitmap bm) fh buf n
      = (tfs_read c s fh buf n).map (fun r => (r.1, r.2.1.with_open_bitmap bm, r.2.2)) := by
  unfold tfs_read
  split
  · rfl
  · simp only [with_open_bitmap_open_file_table]
    split
    · rfl
    · exact with_open_bitmap_inode_read c s bm _ _ buf n

/-! ## Initialisation -/

theorem get_free_memory_loop_all_free (c : Config) (s : State) :
    ∀ (n k : Nat), (∀ j, k ≤ j → j < k + n → s.free_blocks j = FREE) →
      get_free_memory_loop c s n k = n * c.BLOCK_SIZE := by
  intro n
  induction n with
  | zero => intro k _; simp [get_free_memory_loop]
  | succ n ih =>
    intro k h
    unfold get_free_memory_loop
    rw [if_pos (h k (Nat.le_refl _) (by omega)), ih (k + 1) (fun j h1 h2 => h j (by omega) (by omega))]
    ring

/-- The loop of `inode_create` over the entries `i, ..., i + n - 1` of a new directory block:
every one of them gets `d_inumber = -1`, and nothing else changes. -/
theorem inode_create_dir_loop_spec (c : Config) (base : Nat) :
    ∀ (n i : Nat) (s : State),
      base + (i + n) * c.SIZEOF_DIR_ENTRY ≤ c.FS_DATA_SIZE →
      (inode_create_dir_loop c base n i s).inode_table = s.inode_table
      ∧ (inode_create_dir_loop c base n i s).freeinode_ts = s.freeinode_ts
      ∧ (inode_create_dir_loop c base n i s).free_blocks = s.free_blocks
      ∧ (inode_create_dir_loop c base n i s).open_file_table = s.open_file_table
      ∧ (inode_create_dir_loop c base n i s).free_open_file_entries = s.free_open_file_entries
      ∧ (inode_create_dir_loop c base n i s).undefined_behaviour = s.undefined_behaviour
      ∧ (∀ k, i ≤ k → k < i + n →
          read_int (inode_create_dir_loop c base n i s).fs_data
            (base + k * c.SIZEOF_DIR_ENTRY + c.D_INUMBER_OFFSET) = -1)
      ∧ (∀ a, a < base + i * c.SIZEOF_DIR_ENTRY ∨ base + (i + n) * c.SIZEOF_DIR_ENTRY ≤ a →
          (inode_create_dir_loop c base n i s).fs_data a = s.fs_data a) := by
  have hsz : c.SIZEOF_DIR_ENTRY = c.D_INUMBER_OFFSET + 4 := rfl
  intro n
  induction n with
  | zero =>
    intro i s _
    refine ⟨rfl, rfl, rfl, rfl, rfl, rfl, fun k h1 h2 => ?_, fun _ _ => rfl⟩
    omega
  | succ n ih =>
    intro i s hb
    have hmul : (i + (n + 1)) * c.SIZEOF_DIR_ENTRY
        = i * c.SIZEOF_DIR_ENTRY + c.SIZEOF_DIR_ENTRY + n * c.SIZEOF_DIR_ENTRY := by ring
    have hmul2 : (i + 1 + n) * c.SIZEOF_DIR_ENTRY
        = i * c.SIZEOF_DIR_ENTRY + c.SIZEOF_DIR_ENTRY + n * c.SIZEOF_DIR_ENTRY := by ring
    have hmul3 : (i + 1) * c.SIZEOF_DIR_ENTRY = i * c.SIZEOF_DIR_ENTRY + c.SIZEOF_DIR_ENTRY := by
      ring
    unfold inode_create_dir_loop
    generalize hs1 : store_int c s (base + i * c.SIZEOF_DIR_ENTRY + c.D_INUMBER_OFFSET) (-1) = s1
    obtain ⟨e1, e2, e3, e4, e5, e6, e7, e8⟩ := ih (i + 1) s1 (by rw [hmul2]; rw [hmul] at hb; exact hb)
    have hub : s1.undefined_behaviour = s.undefined_behaviour := by
      rw [← hs1]
      apply store_int_undefined
      unfold SIZEOF_INT
      rw [hmul] at hb
      omega
    refine ⟨by rw [e1, ← hs1]; simp, by rw [e2, ← hs1]; simp, by rw [e3, ← hs1]; simp,
      by rw [e4, ← hs1]; simp, by rw [e5, ← hs1]; simp, by rw [e6, hub], ?_, ?_⟩
    · intro k h1 h2
      by_cases hk : k = i
      · subst hk
        rw [read_int_congr s1.fs_data _ _ (fun x hx1 hx2 => e8 x (Or.inl (by rw [hmul3]; omega))),
          ← hs1, store_int_fs_data]
        exact read_int_write_int_same _ _ _ (by omega) (by omega)
      · exact e7 k (by omega) (by omega)
    · intro a ha
      rw [e8 a (by rw [hmul3, hmul2]; rw [hmul] at ha; omega), ← hs1, store_int_fs_data]
      apply write_int_outside
      rw [hmul] at ha
      omega

/-! ## Opening an existing file -/

/-- A lookup that finds a file has read the root directory without an undefined access: the
path is valid and the state is unchanged. -/
theorem tfs_lookup_found (c : Config) (s : State) (name : Option (List Nat))
    (h : 0 ≤ (tfs_lookup c s name).1) :
    valid_pathname name = true ∧ (tfs_lookup c s name).2 = s := by
  unfold tfs_lookup at h ⊢
  by_cases hv : valid_pathname name = true
  · refine ⟨hv, ?_⟩
    simp only [hv, Bool.not_true, Bool.false_eq_true, if_false] at h ⊢
    unfold find_in_dir at h ⊢
    split
    · rfl
    · rename_i hc
      rw [if_neg hc] at h
      unfold read_direct at h ⊢
      rcases hg : ((s.inode_table (ROOT_DIR_INUM : Int).toNat).i_data_block.getD 0 none)
        with _ | b
      · exfalso
        simp only [hg] at h
        have hd : data_block_get c (-1) = none := by
          unfold data_block_get valid_block_number
          simp
        simp only [hd] at h
        omega
      · simp only
        cases data_block_get c b <;> rfl
  · exfalso
    simp only [hv] at h
    simp at h

/-- The function `add_to_open_file_table` fails without a change, or takes the first FREE slot
and stores the entry there. -/
theorem add_to_open_file_table_spec (c : Config) (s : State) (inumber : Int) (offset : Nat) :
    ((add_to_open_file_table c s inumber offset).1 = -1
        ∧ (add_to_open_file_table c s inumber offset).2 = s
        ∧ ∀ h, h < c.MAX_OPEN_FILES → s.free_open_file_entries h ≠ FREE)
      ∨ ∃ h : Nat, h < c.MAX_OPEN_FILES ∧ s.free_open_file_entries h = FREE
        ∧ (∀ j, j < h → s.free_open_file_entries j ≠ FREE)
        ∧ add_to_open_file_table c s inumber offset
          = ((h : Int),
            { s with
              free_open_file_entries := upd s.free_open_file_entries h TAKEN
              open_file_table := upd s.open_file_table h
                { of_inumber := inumber, of_offset := offset } }) := by
  unfold add_to_open_file_table
  rcases hff : first_free s.free_open_file_entries c.MAX_OPEN_FILES 0 with _ | k
  · left
    refine ⟨rfl, rfl, ?_⟩
    intro h hh
    exact first_free_none _ _ _ hff h (Nat.zero_le _) (by omega)
  · right
    obtain ⟨_, h2, h3, h4⟩ := first_free_some _ _ _ _ hff
    exact ⟨k, by omega, h3, fun j hj => h4 j (Nat.zero_le _) hj, rfl⟩

/-- What `tfs_open` does with an existing file when TRUNC is clear: it fails without a change,
or it takes the first FREE open-file slot. -/
theorem tfs_open_existing_eq (c : Config) (s : State) (name : Option (List Nat))
    (flags : Nat) (hex : 0 ≤ (tfs_lookup c s name).1) (ht : flags &&& TFS_O_TRUNC = 0) :
    tfs_open c s name flags
      = match inode_get c (tfs_lookup c s name).1 with
        | none => (-1, s)
        | some i =>
          add_to_open_file_table c s (tfs_lookup c s name).1
            (if flags &&& TFS_O_APPEND ≠ 0 then (s.inode_table i).i_size else 0) := by
  obtain ⟨hv, hst⟩ := tfs_lookup_found c s name hex
  unfold tfs_open
  have hge : (tfs_lookup c s name).1 ≥ 0 := hex
  simp only [hv, Bool.not_true, Bool.false_eq_true, if_false, if_pos hge, hst]
  unfold tfs_open_existing
  rcases inode_get c (tfs_lookup c s name).1 with _ | i
  · rfl
  · simp only [ht, ne_eq, not_true_eq_false, if_false]

/-! ## Creating a file -/

theorem first_free_exists (bm : Nat → allocation_state_t) (n j : Nat) (h1 : j < n)
    (h2 : bm j = FREE) :
    ∃ k, first_free bm n 0 = some k ∧ k < n ∧ bm k = FREE ∧ ∀ x, x < k → bm x ≠ FREE := by
  rcases hff : first_free bm n 0 with _ | k
  · exact absurd h2 (first_free_none bm n 0 hff j (Nat.zero_le _) (by omega))
  · obtain ⟨_, a2, a3, a4⟩ := first_free_some bm n 0 k hff
    exact ⟨k, rfl, by omega, a3, fun x hx => a4 x (Nat.zero_le _) hx⟩

theorem strlen_cons (a : Nat) (t : List Nat) :
    strlen (a :: t) = if a ≠ 0 then strlen t + 1 else 0 := by
  unfold strlen
  by_cases h : a = 0
  · simp [h, List.takeWhile]
  · simp [h, List.takeWhile]

/-- A valid path is "/" followed by a name that is not empty. -/
theorem valid_pathname_name (path : Option (List Nat)) (h : valid_pathname path = true) :
    strlen (path.getD []).tail ≠ 0 := by
  unfold valid_pathname at h
  rcases path with _ | str
  · simp at h
  · rcases str with _ | ⟨a, t⟩
    · simp [strlen] at h
    · simp only [decide_eq_true_eq, strlen_cons] at h
      simp only [Option.getD_some, List.tail_cons]
      split at h
      · omega
      · omega

/-- The comparison `strncmp` finds a name equal to the bytes stored at `addr` when these are
the bytes of the name with its terminator, and the name is shorter than the bound. -/
theorem strncmp_eq_stored (m : Nat → Nat) (addr : Nat) (str : List Nat) :
    ∀ (n j : Nat), (∀ x, j ≤ x → x ≤ strlen str → m (addr + x) = char_at str x) →
      j ≤ strlen str → strlen str < j + n → strncmp_eq m addr str n j = true := by
  intro n
  induction n with
  | zero => intro j _ h1 h2; omega
  | succ n ih =>
    intro j h h1 h2
    unfold strncmp_eq
    have e := h j (Nat.le_refl _) h1
    rw [if_neg (by simp [e])]
    by_cases h0 : m (addr + j) = 0
    · rw [if_pos h0]
    · rw [if_neg h0]
      have hj : j < strlen str := by
        by_contra hc
        apply h0
        rw [e]
        unfold char_at
        rw [if_neg hc]
      exact ih (j + 1) (fun x hx1 hx2 => h x (by omega) hx2) (by omega) (by omega)

/-- The scan of `find_in_dir` returns -1 only if no entry in use carries the name. -/
theorem find_in_dir_loop_none (c : Config) (s : State) (dir_entry : Nat) (name : List Nat) :
    ∀ (n i : Nat), find_in_dir_loop c s dir_entry name n i = -1 →
      ∀ k, i ≤ k → k < i + n →
        ¬ (read_int s.fs_data (dir_entry + k * c.SIZEOF_DIR_ENTRY + c.D_INUMBER_OFFSET) ≠ -1
          ∧ strncmp_eq s.fs_data (dir_entry + k * c.SIZEOF_DIR_ENTRY) name c.MAX_FILE_NAME 0
            = true) := by
  intro n
  induction n with
  | zero => intro i _ k h1 h2; omega
  | succ n ih =>
    intro i h k h1 h2
    unfold find_in_dir_loop at h
    simp only at h
    split at h
    · rename_i hm
      exact absurd h hm.1
    · rename_i hm
      by_cases hk : k = i
      · rw [hk]
        exact hm
      · exact ih (i + 1) h k (by omega) (by omega)

/-- The scan of `find_in_dir` returns the inumber of the first entry in use that carries the
name. -/
theorem find_in_dir_loop_first (c : Config) (s : State) (dir_entry : Nat) (name : List Nat)
    (k0 : Nat) :
    ∀ (n i : Nat), i ≤ k0 → k0 < i + n →
      (∀ k, i ≤ k → k < k0 →
        ¬ (read_int s.fs_data (dir_entry + k * c.SIZEOF_DIR_ENTRY + c.D_INUMBER_OFFSET) ≠ -1
          ∧ strncmp_eq s.fs_data (dir_entry + k * c.SIZEOF_DIR_ENTRY) name c.MAX_FILE_NAME 0
            = true)) →
      read_int s.fs_data (dir_entry + k0 * c.SIZEOF_DIR_ENTRY + c.D_INUMBER_OFFSET) ≠ -1 →
      strncmp_eq s.fs_data (dir_entry + k0 * c.SIZEOF_DIR_ENTRY) name c.MAX_FILE_NAME 0
        = true →
      find_in_dir_loop c s dir_entry name n i
        = read_int s.fs_data (dir_entry + k0 * c.SIZEOF_DIR_ENTRY + c.D_INUMBER_OFFSET) := by
  intro n
  induction n with
  | zero => intro i h1 h2; omega
  | succ n ih =>
    intro i h1 h2 hno ha hb
    unfold find_in_dir_loop
    simp only
    by_cases hk : i = k0
    · rw [hk, if_pos ⟨ha, hb⟩]
    · rw [if_neg (hno i (Nat.le_refl _) (by omega))]
      exact ih (i + 1) (by omega) (by omega) (fun k hk1 hk2 => hno k (by omega) hk2) ha hb
theorem inode_create_loop_eq (c : Config) (s : State) (t : inode_type) (i : Nat) :
    ∀ (n k : Nat), first_free s.freeinode_ts n k = some i →
      inode_create_loop c s t n k = inode_create_at c s t i := by
  intro n
  induction n with
  | zero => intro k h; simp [first_free] at h
  | succ n ih =>
    intro k h
    unfold first_free at h
    unfold inode_create_loop
    split at h
    · rename_i hf
      simp only [Option.some.injEq] at h
      rw [if_pos hf, h]
    · rename_i hf
      rw [if_neg hf]
      exact ih (k + 1) h

/-- The function `inode_create(T_FILE)` with the first FREE inode slot `i` and the first FREE
block `b`: it returns `i`, marks both TAKEN, and inode `i` becomes an empty file whose vector
holds block `b`. -/
theorem inode_create_file (c : Config) (s : State) (i b : Nat)
    (hi : first_free s.freeinode_ts c.INODE_TABLE_SIZE 0 = some i)
    (hb : first_free s.free_blocks c.DATA_BLOCKS 0 = some b) :
    inode_create c s T_FILE
      = ((i : Int),
        { s with
          freeinode_ts := upd s.freeinode_ts i TAKEN
          free_blocks := upd s.free_blocks b TAKEN
          inode_table := upd s.inode_table i
            { i_node_type := T_FILE, i_size := 0, i_data_block := [some (b : Int)],
              number_of_blocks := 1, indirection_block := -1, number_indirect_blocks := 0 } }) := by
  have hlt : i < c.INODE_TABLE_SIZE := by
    have := (first_free_some _ _ _ _ hi).2.1
    omega
  unfold inode_create
  rw [inode_create_loop_eq c s T_FILE i _ _ hi]
  unfold inode_create_at
  simp only
  unfold inode_alloc_first_block valid_inumber
  have hv : decide (0 ≤ (i : Int) ∧ (i : Int) < (c.INODE_TABLE_SIZE : Int)) = true := by
    simp
    omega
  simp only [hv, Bool.not_true, Bool.false_eq_true, if_false]
  unfold data_block_alloc
  simp only [set_i_size_free_blocks, set_indirection_block_free_blocks,
    set_number_indirect_blocks_free_blocks, set_number_of_blocks_free_blocks,
    set_i_data_block_free_blocks, set_i_node_type_free_blocks, hb]
  have hne : ¬ ((b : Int) = -1) := by omega
  simp only [hne, if_false, Int.toNat_ofNat]
  unfold write_direct
  simp [State.set_i_data_block, State.set_i_size, State.set_indirection_block,
    State.set_number_indirect_blocks, State.set_number_of_blocks, State.set_i_node_type,
    State.set_inode, upd]
  funext j
  unfold upd
  split <;> rfl
/-- The scan of `add_dir_entry` stops at the first entry whose inumber is -1. -/
theorem add_dir_entry_loop_first (c : Config) (s : State) (dir_entry : Nat) (v : Int)
    (name : List Nat) (k0 : Nat)
    (hfree : read_int s.fs_data (dir_entry + k0 * c.SIZEOF_DIR_ENTRY + c.D_INUMBER_OFFSET)
      = -1) :
    ∀ (n i : Nat), i ≤ k0 → k0 < i + n →
      (∀ k, i ≤ k → k < k0 →
        read_int s.fs_data (dir_entry + k * c.SIZEOF_DIR_ENTRY + c.D_INUMBER_OFFSET) ≠ -1) →
      add_dir_entry_loop c s dir_entry v name n i
        = add_dir_entry_loop c s dir_entry v name 1 k0 := by
  intro n
  induction n with
  | zero => intro i h1 h2; omega
  | succ n ih =>
    intro i h1 h2 hno
    by_cases hk : i = k0
    · rw [hk]
      unfold add_dir_entry_loop
      simp only [load_int, hfree, if_true]
    · conv_lhs => unfold add_dir_entry_loop
      simp only [load_int]
      rw [if_neg (hno i (Nat.le_refl _) (by omega))]
      exact ih (i + 1) (by omega) (by omega) (fun k hk1 hk2 => hno k (by omega) hk2)

/-- The body of `add_dir_entry` at an entry whose inumber is -1: the entry receives the
inumber and the name with its terminator, the bytes outside the entry and the rest of the
state are unchanged. -/
theorem add_dir_entry_at (c : Config) (s : State) (dir_entry : Nat) (v : Int)
    (name : List Nat) (k0 : Nat) (hM : 1 ≤ c.MAX_FILE_NAME)
    (hfree : read_int s.fs_data (dir_entry + k0 * c.SIZEOF_DIR_ENTRY + c.D_INUMBER_OFFSET)
      = -1) :
    (add_dir_entry_loop c s dir_entry v name 1 k0).1 = 0
      ∧ (add_dir_entry_loop c s dir_entry v name 1 k0).2.inode_table = s.inode_table
      ∧ (add_dir_entry_loop c s dir_entry v name 1 k0).2.freeinode_ts = s.freeinode_ts
      ∧ (add_dir_entry_loop c s dir_entry v name 1 k0).2.free_blocks = s.free_blocks
      ∧ (add_dir_entry_loop c s dir_entry v name 1 k0).2.open_file_table = s.open_file_table
      ∧ (add_dir_entry_loop c s dir_entry v name 1 k0).2.free_open_file_entries
        = s.free_open_file_entries
      ∧ (∀ a, a < dir_entry + k0 * c.SIZEOF_DIR_ENTRY
          ∨ dir_entry + k0 * c.SIZEOF_DIR_ENTRY + c.SIZEOF_DIR_ENTRY ≤ a →
          (add_dir_entry_loop c s dir_entry v name 1 k0).2.fs_data a = s.fs_data a)
      ∧ (-2147483648 ≤ v → v < 2147483648 →
          read_int (add_dir_entry_loop c s dir_entry v name 1 k0).2.fs_data
            (dir_entry + k0 * c.SIZEOF_DIR_ENTRY + c.D_INUMBER_OFFSET) = v)
      ∧ (strlen name + 1 ≤ c.MAX_FILE_NAME →
          strncmp_eq (add_dir_entry_loop c s dir_entry v name 1 k0).2.fs_data
            (dir_entry + k0 * c.SIZEOF_DIR_ENTRY) name c.MAX_FILE_NAME 0 = true)
      ∧ (dir_entry + k0 * c.SIZEOF_DIR_ENTRY + c.SIZEOF_DIR_ENTRY ≤ c.FS_DATA_SIZE →
          (add_dir_entry_loop c s dir_entry v name 1 k0).2.undefined_behaviour
            = s.undefined_behaviour) := by
  have hoff : c.MAX_FILE_NAME ≤ c.D_INUMBER_OFFSET := by
    unfold Config.D_INUMBER_OFFSET
    omega
  have hse : c.SIZEOF_DIR_ENTRY = c.D_INUMBER_OFFSET + 4 := rfl
  generalize he : dir_entry + k0 * c.SIZEOF_DIR_ENTRY = entry at hfree ⊢
  have hfs : (add_dir_entry_loop c s dir_entry v name 1 k0).2.fs_data
      = upd (strncpy (write_int s.fs_data (entry + c.D_INUMBER_OFFSET) v) entry name
          (c.MAX_FILE_NAME - 1)) (entry + (c.MAX_FILE_NAME - 1)) 0 := by
    unfold add_dir_entry_loop
    simp only [load_int, he, hfree, if_true, mark_if_fs_data, store_int_fs_data]
  have hrest : (add_dir_entry_loop c s dir_entry v name 1 k0).1 = 0
      ∧ (add_dir_entry_loop c s dir_entry v name 1 k0).2.inode_table = s.inode_table
      ∧ (add_dir_entry_loop c s dir_entry v name 1 k0).2.freeinode_ts = s.freeinode_ts
      ∧ (add_dir_entry_loop c s dir_entry v name 1 k0).2.free_blocks = s.free_blocks
      ∧ (add_dir_entry_loop c s dir_entry v name 1 k0).2.open_file_table = s.open_file_table
      ∧ (add_dir_entry_loop c s dir_entry v name 1 k0).2.free_open_file_entries
        = s.free_open_file_entries := by
    unfold add_dir_entry_loop
    simp only [load_int, he, hfree, if_true, mark_if_inode_table, mark_if_freeinode_ts,
      mark_if_free_blocks, mark_if_open_file_table, mark_if_free_open_file_entries,
      store_int_inode_table, store_int_freeinode_ts, store_int_free_blocks,
      store_int_open_file_table, store_int_free_open_file_entries, and_self]
  obtain ⟨r1, r2, r3, r4, r5, r6⟩ := hrest
  refine ⟨r1, r2, r3, r4, r5, r6, ?_, ?_, ?_, ?_⟩
  · intro a ha
    rw [hfs]
    unfold upd strncpy
    rw [if_neg (by omega), memcpy_outside _ _ _ _ _ (by omega),
      write_int_outside _ _ _ _ (by omega)]
  · intro h1 h2
    rw [hfs]
    rw [read_int_congr (strncpy (write_int s.fs_data (entry + c.D_INUMBER_OFFSET) v) entry name
      (c.MAX_FILE_NAME - 1)) _ _ (by
        intro x hx1 hx2
        unfold upd
        rw [if_neg (by omega)])]
    unfold strncpy
    rw [read_int_memcpy_other _ _ _ _ _ (by omega)]
    exact read_int_write_int_same _ _ _ h1 h2
  · intro hlen
    apply strncmp_eq_stored _ _ _ _ _ _ (Nat.zero_le _) (by omega)
    intro x _ hx
    rw [hfs]
    unfold upd
    by_cases hx1 : x = c.MAX_FILE_NAME - 1
    · rw [if_pos (by omega)]
      unfold char_at
      rw [if_neg (by omega)]
    · rw [if_neg (by omega)]
      unfold strncpy
      rw [memcpy_inside _ _ _ _ _ (by omega) (by omega)]
      congr 1
      omega
  · intro h2
    unfold add_dir_entry_loop
    simp only [load_int, he, hfree, if_true]
    unfold State.mark_if
    rw [if_neg (by simp; omega), if_neg (by simp; omega)]
    simp only
    exact store_int_undefined c s _ v (by unfold SIZEOF_INT; omega)
/-- A lookup in a state whose root inode is a directory with block `rb` scans that block. -/
theorem tfs_lookup_root (c : Config) (s : State) (path : Option (List Nat)) (rb : Nat)
    (hv : valid_pathname path = true) (hN : 0 < c.INODE_TABLE_SIZE)
    (hdir : (s.inode_table 0).i_node_type = T_DIRECTORY)
    (hrb : (s.inode_table 0).i_data_block.getD 0 none = some (rb : Int))
    (hrbv : rb < c.DATA_BLOCKS) :
    tfs_lookup c s path
      = (find_in_dir_loop c s (rb * c.BLOCK_SIZE) (path.getD []).tail c.MAX_DIR_ENTRIES 0, s) := by
  unfold tfs_lookup find_in_dir valid_inumber read_direct
  have hz : (ROOT_DIR_INUM : Int).toNat = 0 := rfl
  have hvi : decide (0 ≤ ROOT_DIR_INUM ∧ ROOT_DIR_INUM < (c.INODE_TABLE_SIZE : Int)) = true := by
    unfold ROOT_DIR_INUM
    simp
    omega
  simp only [hv, hz, hvi, hdir, hrb, data_block_get_nat c rb hrbv]
  simp

/-- The function `add_dir_entry` on the root directory with block `rb`, for a valid inumber
and a name that is not empty, scans that block. -/
theorem add_dir_entry_root (c : Config) (s : State) (i : Nat) (name : List Nat) (rb : Nat)
    (hi : i < c.INODE_TABLE_SIZE) (hname : strlen name ≠ 0)
    (hdir : (s.inode_table 0).i_node_type = T_DIRECTORY)
    (hrb : (s.inode_table 0).i_data_block.getD 0 none = some (rb : Int))
    (hrbv : rb < c.DATA_BLOCKS) :
    add_dir_entry c s ROOT_DIR_INUM (i : Int) name
      = add_dir_entry_loop c s (rb * c.BLOCK_SIZE) (i : Int) name c.MAX_DIR_ENTRIES 0 := by
  unfold add_dir_entry valid_inumber read_direct
  have hz : (ROOT_DIR_INUM : Int).toNat = 0 := rfl
  have hvi : decide (0 ≤ ROOT_DIR_INUM ∧ ROOT_DIR_INUM < (c.INODE_TABLE_SIZE : Int)) = true := by
    unfold ROOT_DIR_INUM
    simp
    omega
  have hvj : decide (0 ≤ (i : Int) ∧ (i : Int) < (c.INODE_TABLE_SIZE : Int)) = true := by
    simp
    omega
  simp only [hz, hvi, hvj, hdir, hrb, data_block_get_nat c rb hrbv, hname]
  simp

/-- C17. Close.  For every state and every `h`, `tfs_close(h)` returns 0 and marks open-file
slot `h` FREE when `0 <= h < MAX_OPEN_FILES` and slot `h` is TAKEN, and otherwise returns -1
and changes nothing; so its result is 0 exactly in the first case.  It changes no other
open-file slot, no open-file entry, no inode, no byte of `fs_data`, neither of the other
bitmaps, and closing `h` once more returns -1. -/
theorem tfs_close_spec (c : Config) (s : State) (h : Int) :
    tfs_close c s h
        = (if 0 ≤ h ∧ h < (c.MAX_OPEN_FILES : Int) ∧ s.free_open_file_entries h.toNat = TAKEN
          then (0, { s with free_open_file_entries := upd s.free_open_file_entries h.toNat FREE })
          else (-1, s))
      ∧ ((tfs_close c s h).1 = 0
          ↔ 0 ≤ h ∧ h < (c.MAX_OPEN_FILES : Int) ∧ s.free_open_file_entries h.toNat = TAKEN)
      ∧ (∀ k, k ≠ h.toNat →
          (tfs_close c s h).2.free_open_file_entries k = s.free_open_file_entries k)
      ∧ (tfs_close c s h).2.open_file_table = s.open_file_table
      ∧ (tfs_close c s h).2.inode_table = s.inode_table
      ∧ (tfs_close c s h).2.freeinode_ts = s.freeinode_ts
      ∧ (tfs_close c s h).2.fs_data = s.fs_data
      ∧ (tfs_close c s h).2.free_blocks = s.free_blocks
      ∧ (tfs_close c s h).2.undefined_behaviour = s.undefined_behaviour
      ∧ (tfs_close c (tfs_close c s h).2 h).1 = -1 := by
  have heq : tfs_close c s h
      = (if 0 ≤ h ∧ h < (c.MAX_OPEN_FILES : Int) ∧ s.free_open_file_entries h.toNat = TAKEN
        then (0, { s with free_open_file_entries := upd s.free_open_file_entries h.toNat FREE })
        else (-1, s)) := by
    unfold tfs_close remove_from_open_file_table valid_file_handle
    by_cases h1 : 0 ≤ h ∧ h < (c.MAX_OPEN_FILES : Int)
    · by_cases h2 : s.free_open_file_entries h.toNat = TAKEN
      · simp [h1, h2]
      · simp [h1, h2]
    · have h3 : ¬ (0 ≤ h ∧ h < (c.MAX_OPEN_FILES : Int)
          ∧ s.free_open_file_entries h.toNat = TAKEN) := fun hh => h1 ⟨hh.1, hh.2.1⟩
      rw [if_neg h3]
      simp [h1]
  refine ⟨heq, ?_, ?_, ?_, ?_, ?_, ?_, ?_, ?_, ?_⟩
  · rw [heq]
    split
    · rename_i hc
      simp [hc]
    · rename_i hc
      simp [hc]
  · intro k hk
    rw [heq]
    split
    · simp [upd, hk]
    · rfl
  · rw [heq]; split <;> rfl
  · rw [heq]; split <;> rfl
  · rw [heq]; split <;> rfl
  · rw [heq]; split <;> rfl
  · rw [heq]; split <;> rfl
  · rw [heq]; split <;> rfl
  · rw [heq]
    split
    · rename_i hc
      unfold tfs_close remove_from_open_file_table valid_file_handle
      simp [upd]
    · rename_i hc
      rw [heq, if_neg hc]

/-- C18. Handle validation in read/write.  For every state, buffer and length: when the handle
is outside `[0, MAX_OPEN_FILES)`, `tfs_write` and `tfs_read` return -1 and leave the state (and
the buffer) as they were; when it is inside, they are `inode_write` and `inode_read` on the
entry of the handle and the inode of the inumber stored there (-1 if that inumber is not
valid), whatever the bitmap `free_open_file_entries` holds: with any other bitmap `bm` in its
place the calls return the same results and produce the same state (with `bm` in place of the
bitmap), in particular after `tfs_close` of the same handle. -/
theorem handle_validation (c : Config) (s : State) (fh : Int) (buf : Nat → Nat) (n : Nat)
    (bm : Nat → allocation_state_t) :
    ((fh < 0 ∨ (c.MAX_OPEN_FILES : Int) ≤ fh) →
        tfs_write c s fh buf n = some (-1, s) ∧ tfs_read c s fh buf n = some (-1, s, buf))
      ∧ ((0 ≤ fh ∧ fh < (c.MAX_OPEN_FILES : Int)) →
        tfs_write c s fh buf n
            = (match inode_get c (s.open_file_table fh.toNat).of_inumber with
              | none => some (-1, s)
              | some i => inode_write c s fh.toNat i buf n)
          ∧ tfs_read c s fh buf n
            = (match inode_get c (s.open_file_table fh.toNat).of_inumber with
              | none => some (-1, s, buf)
              | some i => inode_read c s fh.toNat i buf n))
      ∧ tfs_write c (s.with_open_bitmap bm) fh buf n
        = (tfs_write c s fh buf n).map (fun r => (r.1, r.2.with_open_bitmap bm))
      ∧ tfs_read c (s.with_open_bitmap bm) fh buf n
        = (tfs_read c s fh buf n).map (fun r => (r.1, r.2.1.with_open_bitmap bm, r.2.2))
      ∧ ((tfs_close c s fh).1 = 0 →
        tfs_write c (tfs_close c s fh).2 fh buf n
            = (tfs_write c s fh buf n).map
                (fun r => (r.1, r.2.with_open_bitmap (upd s.free_open_file_entries fh.toNat FREE)))
          ∧ tfs_read c (tfs_close c s fh).2 fh buf n
            = (tfs_read c s fh buf n).map
                (fun r => (r.1,
                  r.2.1.with_open_bitmap (upd s.free_open_file_entries fh.toNat FREE), r.2.2))) := by
  refine ⟨?_, ?_, with_open_bitmap_tfs_write c s bm fh buf n,
    with_open_bitmap_tfs_read c s bm fh buf n, ?_⟩
  · intro h
    have hv : valid_file_handle c fh = false := by
      unfold valid_file_handle
      simp
      omega
    unfold tfs_write tfs_read get_open_file_entry
    simp [hv]
  · intro h
    have hv : valid_file_handle c fh = true := by
      unfold valid_file_handle
      simp
      omega
    unfold tfs_write tfs_read get_open_file_entry
    simp only [hv, Bool.not_true, Bool.false_eq_true, if_false]
    constructor <;> (cases inode_get c (s.open_file_table fh.toNat).of_inumber <;> first | rfl | trivial)
  · intro h
    have hcl : (tfs_close c s fh).2
        = s.with_open_bitmap (upd s.free_open_file_entries fh.toNat FREE) := by
      unfold tfs_close remove_from_open_file_table at h ⊢
      split
      · rename_i hc
        rw [if_pos hc] at h
        simp at h
      · rfl
    rw [hcl]
    exact ⟨with_open_bitmap_tfs_write c s _ fh buf n, with_open_bitmap_tfs_read c s _ fh buf n⟩
/-- C19. Initialisation.  In every configuration with at least one inode slot and one data
block, and from every state, `tfs_init` returns 0 and leaves inode 0 TAKEN, of directory kind,
with size `BLOCK_SIZE` and the one direct block 0, in which every directory entry has inumber
-1; every other inode slot is FREE, every open-file slot is FREE, block 0 is the only TAKEN
block and `get_free_memory` is `DATA_BLOCKS * BLOCK_SIZE - BLOCK_SIZE`.  No access of the call
is undefined. -/
theorem tfs_init_spec (c : Config) (hI : 0 < c.INODE_TABLE_SIZE) (hD : 0 < c.DATA_BLOCKS)
    (s : State) :
    (tfs_init c s).1 = 0
      ∧ (tfs_init c s).2.freeinode_ts 0 = TAKEN
      ∧ ((tfs_init c s).2.inode_table 0).i_node_type = T_DIRECTORY
      ∧ ((tfs_init c s).2.inode_table 0).i_size = c.BLOCK_SIZE
      ∧ ((tfs_init c s).2.inode_table 0).i_data_block = [some 0]
      ∧ ((tfs_init c s).2.inode_table 0).number_of_blocks = 1
      ∧ ((tfs_init c s).2.inode_table 0).indirection_block = -1
      ∧ ((tfs_init c s).2.inode_table 0).number_indirect_blocks = 0
      ∧ (∀ k, k < c.MAX_DIR_ENTRIES →
          read_int (tfs_init c s).2.fs_data (k * c.SIZEOF_DIR_ENTRY + c.D_INUMBER_OFFSET) = -1)
      ∧ (∀ j, j ≠ 0 → (tfs_init c s).2.freeinode_ts j = FREE)
      ∧ (∀ h, (tfs_init c s).2.free_open_file_entries h = FREE)
      ∧ (tfs_init c s).2.free_blocks 0 = TAKEN
      ∧ (∀ j, j ≠ 0 → (tfs_init c s).2.free_blocks j = FREE)
      ∧ get_free_memory c (tfs_init c s).2 = c.DATA_BLOCKS * c.BLOCK_SIZE - c.BLOCK_SIZE
      ∧ (tfs_init c s).2.undefined_behaviour = s.undefined_behaviour := by
  obtain ⟨N, hN⟩ : ∃ N, c.INODE_TABLE_SIZE = N + 1 := ⟨c.INODE_TABLE_SIZE - 1, by omega⟩
  obtain ⟨M, hM⟩ : ∃ M, c.DATA_BLOCKS = M + 1 := ⟨c.DATA_BLOCKS - 1, by omega⟩
  -- the state in which the directory entries are initialised
  generalize hs2 : (((((({ state_init s with
      freeinode_ts := upd (state_init s).freeinode_ts 0 TAKEN } : State).set_i_node_type 0
      T_DIRECTORY).set_i_data_block 0 [none]).set_number_of_blocks 0 1
      ).set_number_indirect_blocks 0 0).set_indirection_block 0 (-1)) = s2
  have hfb : s2.free_blocks = fun _ => FREE := by rw [← hs2]; rfl
  have halloc : data_block_alloc c s2
      = (((0 : Nat) : Int), { s2 with free_blocks := upd s2.free_blocks 0 TAKEN }) := by
    unfold data_block_alloc
    rw [hM]
    unfold first_free
    rw [hfb]
    simp
  generalize hs3 : ({ s2 with free_blocks := upd s2.free_blocks 0 TAKEN } : State) = s3 at halloc
  generalize hs5 : write_direct (s3.set_i_size 0 c.BLOCK_SIZE) 0 0 ((0 : Nat) : Int) = s5
  have hcreate : inode_create c (state_init s) T_DIRECTORY
      = (((0 : Nat) : Int), inode_create_dir_loop c (0 * c.BLOCK_SIZE) c.MAX_DIR_ENTRIES 0 s5) := by
    unfold inode_create
    rw [hN]
    unfold inode_create_loop
    have hfree : (state_init s).freeinode_ts 0 = FREE := rfl
    rw [if_pos hfree]
    unfold inode_create_at
    simp only [hs2, halloc]
    rw [if_neg (by omega), hs5, data_block_get_nat c 0 hD]
  have hbound : 0 * c.BLOCK_SIZE + (0 + c.MAX_DIR_ENTRIES) * c.SIZEOF_DIR_ENTRY
      ≤ c.FS_DATA_SIZE := by
    have h1 : c.MAX_DIR_ENTRIES * c.SIZEOF_DIR_ENTRY ≤ c.BLOCK_SIZE := Nat.div_mul_le_self _ _
    have h2 : c.BLOCK_SIZE * 1 ≤ c.BLOCK_SIZE * c.DATA_BLOCKS := Nat.mul_le_mul_left _ hD
    unfold Config.FS_DATA_SIZE
    rw [Nat.zero_add, Nat.zero_mul]
    omega
  obtain ⟨e1, e2, e3, e4, e5, e6, e7, e8⟩ :=
    inode_create_dir_loop_spec c (0 * c.BLOCK_SIZE) c.MAX_DIR_ENTRIES 0 s5 hbound
  have hinit : tfs_init c s
      = (0, inode_create_dir_loop c (0 * c.BLOCK_SIZE) c.MAX_DIR_ENTRIES 0 s5) := by
    unfold tfs_init
    rw [hcreate]
    simp [ROOT_DIR_INUM]
  rw [hinit]
  simp only
  have h3t : s3.inode_table = s2.inode_table := by rw [← hs3]
  have hino : s5.inode_table 0
      = { i_node_type := T_DIRECTORY, i_size := c.BLOCK_SIZE, i_data_block := [some 0],
          number_of_blocks := 1, indirection_block := -1, number_indirect_blocks := 0 } := by
    rw [← hs5]
    unfold write_direct
    simp only [set_i_size_get_i_data_block, h3t]
    have hv : (s2.inode_table 0).i_data_block = [none] := by rw [← hs2]; simp
    rw [hv, if_pos (by simp)]
    rw [← hs3, ← hs2]
    simp [State.set_i_data_block, State.set_i_size, State.set_indirection_block,
      State.set_number_indirect_blocks, State.set_number_of_blocks, State.set_i_node_type,
      State.set_inode, upd]
  have h5fi : s5.freeinode_ts = upd (fun _ => FREE) 0 TAKEN := by
    rw [← hs5, ← hs3, ← hs2]
    simp [state_init]
  have h5fb : s5.free_blocks = upd (fun _ => FREE) 0 TAKEN := by
    rw [← hs5]
    simp only [write_direct_free_blocks, set_i_size_free_blocks]
    rw [← hs3]
    simp only [hfb]
  have h5fo : s5.free_open_file_entries = fun _ => FREE := by
    rw [← hs5, ← hs3, ← hs2]
    simp [state_init]
  have h5ub : s5.undefined_behaviour = s.undefined_behaviour := by
    rw [← hs5]
    unfold write_direct
    simp only [set_i_size_get_i_data_block, h3t]
    have hv : (s2.inode_table 0).i_data_block = [none] := by rw [← hs2]; simp
    rw [hv, if_pos (by simp)]
    rw [← hs3, ← hs2]
    simp [state_init]
  rw [e1, e2, e3, e5, e6, hino, h5fi, h5fb, h5fo, h5ub]
  refine ⟨trivial, by simp [upd], rfl, rfl, rfl, rfl, rfl, rfl, ?_, ?_, fun _ => rfl, by simp [upd],
    ?_, ?_, rfl⟩
  · intro k hk
    have := e7 k (Nat.zero_le _) (by omega)
    simpa using this
  · intro j hj
    simp [upd, hj]
  · intro j hj
    simp [upd, hj]
  · have hmem : get_free_memory c (inode_create_dir_loop c (0 * c.BLOCK_SIZE) c.MAX_DIR_ENTRIES 0 s5)
        = get_free_memory c s3 := by
      apply get_free_memory_congr
      rw [e3, h5fb, ← hs3, hfb]
    have hall : get_free_memory c s2 = c.DATA_BLOCKS * c.BLOCK_SIZE := by
      unfold get_free_memory
      apply get_free_memory_loop_all_free
      intro j _ _
      rw [hfb]
    by_cases hB : c.BLOCK_SIZE = 0
    · rw [hmem]
      unfold get_free_memory
      rw [hB]
      have : ∀ n k, get_free_memory_loop c s3 n k = 0 := by
        intro n
        induction n with
        | zero => intro k; rfl
        | succ n ih =>
          intro k
          unfold get_free_memory_loop
          rw [ih, hB]
          simp
      rw [this]
      simp
    · have hsp := data_block_alloc_spec c (by omega) s2 (by
        rw [hall]
        calc c.BLOCK_SIZE = 1 * c.BLOCK_SIZE := by omega
          _ ≤ _ := Nat.mul_le_mul_right _ hD)
      obtain ⟨k, _, _, _, _, h5⟩ := hsp
      rw [halloc] at h5
      simp only at h5
      rw [hmem]
      omega

theorem tfs_init_spec_witness :
    0 < example_config.INODE_TABLE_SIZE ∧ 0 < example_config.DATA_BLOCKS ∧
    ((tfs_init example_config (state_created example_config)).1 = 0
      ∧ (tfs_init example_config (state_created example_config)).2.freeinode_ts 0 = TAKEN
      ∧ ((tfs_init example_config (state_created example_config)).2.inode_table 0).i_node_type = T_DIRECTORY
      ∧ ((tfs_init example_config (state_created example_config)).2.inode_table 0).i_size = example_config.BLOCK_SIZE
      ∧ ((tfs_init example_config (state_created example_config)).2.inode_table 0).i_data_block = [some 0]
      ∧ ((tfs_init example_config (state_created example_config)).2.inode_table 0).number_of_blocks = 1
      ∧ ((tfs_init example_config (state_created example_config)).2.inode_table 0).indirection_block = -1
      ∧ ((tfs_init example_config (state_created example_config)).2.inode_table 0).number_indirect_blocks = 0
      ∧ (∀ k, k < example_config.MAX_DIR_ENTRIES →
          read_int (tfs_init example_config (state_created example_config)).2.fs_data (k * example_config.SIZEOF_DIR_ENTRY + example_config.D_INUMBER_OFFSET) = -1)
      ∧ (∀ j, j ≠ 0 → (tfs_init example_config (state_created example_config)).2.freeinode_ts j = FREE)
      ∧ (∀ h, (tfs_init example_config (state_created example_config)).2.free_open_file_entries h = FREE)
      ∧ (tfs_init example_config (state_created example_config)).2.free_blocks 0 = TAKEN
      ∧ (∀ j, j ≠ 0 → (tfs_init example_config (state_created example_config)).2.free_blocks j = FREE)
      ∧ get_free_memory example_config (tfs_init example_config (state_created example_config)).2 = example_config.DATA_BLOCKS * example_config.BLOCK_SIZE - example_config.BLOCK_SIZE
      ∧ (tfs_init example_config (state_created example_config)).2.undefined_behaviour = (state_created example_config).undefined_behaviour) :=
  ⟨by decide, by decide, tfs_init_spec example_config (by decide) (by decide)
    (state_created example_config)⟩

set_option maxRecDepth 1000000 in
/-- C11 fails in the code.  With 1024-byte blocks, after `tfs_init`,
`tfs_open("/f1", TFS_O_CREAT)`, a `tfs_write` of the 4 bytes "AAA!" and `tfs_close`, no access
has been undefined and the file has size 4 and a vector of one slot, holding block 1.  The call
`tfs_open("/f1", TFS_O_TRUNC)` then reads slots of `i_data_block` that the vector does not
have: the run is marked undefined, the call returns -1 and the file keeps its size 4 and its
vector, while block 1 has been marked FREE. -/
theorem truncate_reads_past_vector :
    (tfs_write example_config (state_created example_config) 0 text_AAA 4).map (fun r => r.1)
        = some 4
      ∧ (tfs_close example_config
          (after_write example_config (state_created example_config) 0 text_AAA 4) 0).1 = 0
      ∧ (tfs_close example_config
          (after_write example_config (state_created example_config) 0 text_AAA 4) 0
          ).2.undefined_behaviour = false
      ∧ (tfs_close example_config
          (after_write example_config (state_created example_config) 0 text_AAA 4) 0
          ).2.inode_table 1
        = { i_node_type := T_FILE, i_size := 4, i_data_block := [some 1], number_of_blocks := 1,
            indirection_block := -1, number_indirect_blocks := 0 }
      ∧ (tfs_open example_config (tfs_close example_config
          (after_write example_config (state_created example_config) 0 text_AAA 4) 0).2
          path_f1 TFS_O_TRUNC).1 = -1
      ∧ (tfs_open example_config (tfs_close example_config
          (after_write example_config (state_created example_config) 0 text_AAA 4) 0).2
          path_f1 TFS_O_TRUNC).2.undefined_behaviour = true
      ∧ (tfs_open example_config (tfs_close example_config
          (after_write example_config (state_created example_config) 0 text_AAA 4) 0).2
          path_f1 TFS_O_TRUNC).2.inode_table 1
        = { i_node_type := T_FILE, i_size := 4, i_data_block := [some 1], number_of_blocks := 1,
            indirection_block := -1, number_indirect_blocks := 0 }
      ∧ (tfs_open example_config (tfs_close example_config
          (after_write example_config (state_created example_config) 0 text_AAA 4) 0).2
          path_f1 TFS_O_TRUNC).2.free_blocks 1 = FREE := by
  decide!

set_option maxRecDepth 1000000 in
/-- C12 fails in the code, with 1024-byte blocks.  (1) The new empty file "/f1" holds block 1
after `tfs_open("/f1", TFS_O_CREAT)` and `tfs_close`; `tfs_open("/f1", TFS_O_TRUNC)` returns
handle 0 with no undefined access, frees nothing and reserves block 2: blocks 0, 1 and 2 are
TAKEN and `get_free_memory` drops from 1046528 to 1045504.  (2) After a write of 10240 bytes
the file holds the direct blocks 1 to 10, the indirection block 11 and the blocks 12 and 13 of
its entries 0 and 1 (free memory 1034240); `tfs_open("/f1", TFS_O_TRUNC)` returns handle 0 with
no undefined access and leaves blocks 0, 1 and 12 TAKEN, with `get_free_memory` 1045504 (not
1034240 + 13 * 1024 - 1024 = 1046528) and `number_of_blocks` 0. -/
theorem truncate_leaks_blocks :
    (get_free_memory example_config (state_closed example_config pattern 0) = 1046528
      ∧ taken_blocks example_config (state_closed example_config pattern 0) = [0, 1]
      ∧ (state_closed example_config pattern 0).inode_table 1
        = { i_node_type := T_FILE, i_size := 0, i_data_block := [some 1],
            number_of_blocks := 1, indirection_block := -1, number_indirect_blocks := 0 }
      ∧ (tfs_open example_config (state_closed example_config pattern 0) path_f1
          TFS_O_TRUNC).1 = 0
      ∧ (tfs_open example_config (state_closed example_config pattern 0) path_f1
          TFS_O_TRUNC).2.undefined_behaviour = false
      ∧ taken_blocks example_config (tfs_open example_config
          (state_closed example_config pattern 0) path_f1 TFS_O_TRUNC).2 = [0, 1, 2]
      ∧ get_free_memory example_config (tfs_open example_config
          (state_closed example_config pattern 0) path_f1 TFS_O_TRUNC).2 = 1045504)
    ∧ ((tfs_write example_config (state_created example_config) 0 pattern 10240).map
          (fun r => r.1) = some 10240
      ∧ (state_closed example_config pattern 10240).inode_table 1
        = { i_node_type := T_FILE, i_size := 10240,
            i_data_block := slots [1, 2, 3, 4, 5, 6, 7, 8, 9, 10],
            number_of_blocks := 10, indirection_block := 11, number_indirect_blocks := 2 }
      ∧ (List.range 3).map (index_entry example_config
          (state_closed example_config pattern 10240) 11) = [12, 13, -1]
      ∧ taken_blocks example_config (state_closed example_config pattern 10240)
        = [0, 1, 2, 3, 4, 5, 6, 7, 8, 9, 10, 11, 12, 13]
      ∧ get_free_memory example_config (state_closed example_config pattern 10240) = 1034240
      ∧ (tfs_open example_config (state_closed example_config pattern 10240) path_f1
          TFS_O_TRUNC).1 = 0
      ∧ (tfs_open example_config (state_closed example_config pattern 10240) path_f1
          TFS_O_TRUNC).2.undefined_behaviour = false
      ∧ taken_blocks example_config (tfs_open example_config
          (state_closed example_config pattern 10240) path_f1 TFS_O_TRUNC).2 = [0, 1, 12]
      ∧ get_free_memory example_config (tfs_open example_config
          (state_closed example_config pattern 10240) path_f1 TFS_O_TRUNC).2 = 1045504
      ∧ (tfs_open example_config (state_closed example_config pattern 10240) path_f1
          TFS_O_TRUNC).2.inode_table 1
        = { i_node_type := T_FILE, i_size := 0, i_data_block := [some 1],
            number_of_blocks := 0, indirection_block := -1, number_indirect_blocks := 0 }) := by
  refine ⟨?_, ?_⟩
  · decide!
  · decide!

set_option maxRecDepth 1000000 in
/-- C15 fails in the code.  With 1024-byte blocks and the files "/f1" (handle 0) and "/f2"
(handle 1, inode 2) open, seven calls of `tfs_write` return 8192, 2048, 8192, 2048, 1, 1 and
1032 with no undefined access; the last one, through handle 0, copies 1032 bytes from byte 1
of block 23 and so overwrites entries 0 and 1 of block 24, the indirection block of "/f2".
Then `tfs_open("/f2", TFS_O_TRUNC)` returns 1 with no undefined access: 1 is not -1, and slot
1 was TAKEN before the call (it is the handle of the earlier open of "/f2"); the call opens no
slot, the open-file table is as before, and no block has been freed. -/
theorem tfs_open_returns_one :
    (write_pattern_all example_config (interleaved_writes example_config)
        (state_two_files example_config)).map (fun r => r.1)
        = some [8192, 2048, 8192, 2048, 1, 1, 1032]
      ∧ (after_pattern_writes example_config (interleaved_writes example_config)
          (state_two_files example_config)).undefined_behaviour = false
      ∧ ((after_pattern_writes example_config (interleaved_writes example_config)
          (state_two_files example_config)).inode_table 2).indirection_block = 24
      ∧ (tfs_lookup example_config (after_pattern_writes example_config
          (interleaved_writes example_config) (state_two_files example_config)) path_f2).1 = 2
      ∧ taken_handles example_config (after_pattern_writes example_config
          (interleaved_writes example_config) (state_two_files example_config)) = [0, 1]
      ∧ (tfs_open example_config (after_pattern_writes example_config
          (interleaved_writes example_config) (state_two_files example_config))
          path_f2 TFS_O_TRUNC).1 = 1
      ∧ (tfs_open example_config (after_pattern_writes example_config
          (interleaved_writes example_config) (state_two_files example_config))
          path_f2 TFS_O_TRUNC).2.undefined_behaviour = false
      ∧ taken_handles example_config (tfs_open example_config (after_pattern_writes
          example_config (interleaved_writes example_config) (state_two_files example_config))
          path_f2 TFS_O_TRUNC).2 = [0, 1]
      ∧ (List.range example_config.MAX_OPEN_FILES).map (tfs_open example_config
          (after_pattern_writes example_config (interleaved_writes example_config)
            (state_two_files example_config)) path_f2 TFS_O_TRUNC).2.open_file_table
        = (List.range example_config.MAX_OPEN_FILES).map (after_pattern_writes example_config
          (interleaved_writes example_config) (state_two_files example_config)).open_file_table
      ∧ taken_blocks example_config (tfs_open example_config (after_pattern_writes
          example_config (interleaved_writes example_config) (state_two_files example_config))
          path_f2 TFS_O_TRUNC).2
        = taken_blocks example_config (after_pattern_writes example_config
          (interleaved_writes example_config) (state_two_files example_config)) := by
  decide!

set_option maxRecDepth 1000000 in
/-- C16 fails in the code.  With 16-byte blocks the root directory has two entries.  After
`tfs_open("/f1", TFS_O_CREAT)` and `tfs_open("/f2", TFS_O_CREAT)` both entries are used, the
inodes 0, 1, 2 and the blocks 0, 1, 2 are TAKEN and `get_free_memory` is 592.  The call
`tfs_open("/f3", TFS_O_CREAT)` returns -1 with no undefined access and leaves the inode bitmap
and the open-file slots as they were, but block 3, reserved for the new inode, stays TAKEN:
`get_free_memory` is 576. -/
theorem failed_create_leaks_block :
    small_config.MAX_DIR_ENTRIES = 2
      ∧ (tfs_open small_config (state_created small_config) path_f2 TFS_O_CREAT).1 = 1
      ∧ (state_two_files small_config).undefined_behaviour = false
      ∧ (tfs_lookup small_config (state_two_files small_config) path_f3).1 = -1
      ∧ taken_inodes small_config (state_two_files small_config) = [0, 1, 2]
      ∧ taken_blocks small_config (state_two_files small_config) = [0, 1, 2]
      ∧ taken_handles small_config (state_two_files small_config) = [0, 1]
      ∧ get_free_memory small_config (state_two_files small_config) = 592
      ∧ (tfs_open small_config (state_two_files small_config) path_f3 TFS_O_CREAT).1 = -1
      ∧ (tfs_open small_config (state_two_files small_config) path_f3 TFS_O_CREAT
          ).2.undefined_behaviour = false
      ∧ taken_inodes small_config
          (tfs_open small_config (state_two_files small_config) path_f3 TFS_O_CREAT).2 = [0, 1, 2]
      ∧ taken_handles small_config
          (tfs_open small_config (state_two_files small_config) path_f3 TFS_O_CREAT).2 = [0, 1]
      ∧ taken_blocks small_config
          (tfs_open small_config (state_two_files small_config) path_f3 TFS_O_CREAT).2
        = [0, 1, 2, 3]
      ∧ get_free_memory small_config
          (tfs_open small_config (state_two_files small_config) path_f3 TFS_O_CREAT).2 = 576 := by
  decide!

set_option maxRecDepth 1000000 in
/-- C20 fails in the code.  With 16-byte blocks the capacity is 224 bytes, 14 data blocks.  The
new file "/f1" holds block 1 and `get_free_memory` is 608.  The write of 225 bytes is clamped:
it returns 224, with no undefined access.  The file then needs 14 data blocks and one
indirection block, 14 blocks more than it held, but the write has reserved 15: the blocks 1 to
16 are TAKEN, `number_indirect_blocks` is 5 and `get_free_memory` is 368 (not
608 - 14 * 16 = 384). -/
theorem clamped_write_takes_one_block_more :
    small_config.CAPACITY = 224
      ∧ get_free_memory small_config (state_created small_config) = 608
      ∧ taken_blocks small_config (state_created small_config) = [0, 1]
      ∧ (tfs_write small_config (state_created small_config) 0 pattern 225).map (fun r => r.1)
        = some 224
      ∧ (after_write small_config (state_created small_config) 0 pattern 225
          ).undefined_behaviour = false
      ∧ (after_write small_config (state_created small_config) 0 pattern 225).inode_table 1
        = { i_node_type := T_FILE, i_size := 224,
            i_data_block := slots [1, 2, 3, 4, 5, 6, 7, 8, 9, 10],
            number_of_blocks := 10, indirection_block := 11, number_indirect_blocks := 5 }
      ∧ (List.range 5).map (index_entry small_config
          (after_write small_config (state_created small_config) 0 pattern 225) 11)
        = [12, 13, 14, 15, 16]
      ∧ taken_blocks small_config
          (after_write small_config (state_created small_config) 0 pattern 225)
        = [0, 1, 2, 3, 4, 5, 6, 7, 8, 9, 10, 11, 12, 13, 14, 15, 16]
      ∧ get_free_memory small_config
          (after_write small_config (state_created small_config) 0 pattern 225) = 368 := by
  decide!

/-- Opening an existing file without TRUNC, frame and direct blocks.  For every state `s`, every name that
`tfs_lookup` finds and every flags value with the TRUNC bit clear, `tfs_open` leaves the inode
table, the inode bitmap, the block bitmap, every byte of `fs_data` (the directory and the
data) and the marker as they are.  It either returns -1 with the state unchanged, or returns
a handle `h` whose slot was FREE, and then the state differs from `s` only in that slot `h` is
TAKEN and entry `h` holds the inumber found and the offset (the size with APPEND, else 0).
In particular, when APPEND is clear and the file holds its content `data` in direct blocks,
then after a successful open the reads through the new handle return that content: from
every position `o` inside the file a read of `n` bytes returns `min n (size - o)`, puts
`data o, data (o + 1), ...` into the buffer and moves the offset by the count. -/
theorem open_without_trunc_preserves (c : Config) (s : State) (name : Option (List Nat))
    (flags : Nat) (hex : 0 ≤ (tfs_lookup c s name).1) (ht : flags &&& TFS_O_TRUNC = 0) :
    (tfs_open c s name flags).2.inode_table = s.inode_table
      ∧ (tfs_open c s name flags).2.freeinode_ts = s.freeinode_ts
      ∧ (tfs_open c s name flags).2.free_blocks = s.free_blocks
      ∧ (tfs_open c s name flags).2.fs_data = s.fs_data
      ∧ (tfs_open c s name flags).2.undefined_behaviour = s.undefined_behaviour
      ∧ (((tfs_open c s name flags).1 = -1 ∧ (tfs_open c s name flags).2 = s)
        ∨ ∃ h : Nat, h < c.MAX_OPEN_FILES ∧ s.free_open_file_entries h = FREE
          ∧ tfs_open c s name flags
            = ((h : Int),
              { s with
                free_open_file_entries := upd s.free_open_file_entries h TAKEN
                open_file_table := upd s.open_file_table h
                  { of_inumber := (tfs_lookup c s name).1
                    of_offset := if flags &&& TFS_O_APPEND ≠ 0
                      then (s.inode_table (tfs_lookup c s name).1.toNat).i_size else 0 } }))
      ∧ (∀ (i : Nat) (blocks : List Nat) (data : Nat → Nat),
          (tfs_lookup c s name).1 = (i : Int) → i < c.INODE_TABLE_SIZE → 0 < c.BLOCK_SIZE →
          flags &&& TFS_O_APPEND = 0 →
          (s.inode_table i).i_data_block = slots blocks →
          blocks.length ≤ DIRECT_BLOCKS_COUNT → (∀ b ∈ blocks, b < c.DATA_BLOCKS) →
          (s.inode_table i).i_size ≤ blocks.length * c.BLOCK_SIZE →
          file_bytes c s blocks (s.inode_table i).i_size data →
          0 ≤ (tfs_open c s name flags).1 →
          ((tfs_open c s name flags).2.open_file_table
              (tfs_open c s name flags).1.toNat).of_offset = 0
            ∧ ∀ (o : Nat), o ≤ (s.inode_table i).i_size → ∀ (out : Nat → Nat) (n : Nat),
              ∃ out1 : Nat → Nat,
                tfs_read c
                    ((tfs_open c s name flags).2.set_of_offset
                      (tfs_open c s name flags).1.toNat o)
                    (tfs_open c s name flags).1 out n
                  = some (((min n ((s.inode_table i).i_size - o) : Nat) : Int),
                      (tfs_open c s name flags).2.set_of_offset
                        (tfs_open c s name flags).1.toNat
                        (o + min n ((s.inode_table i).i_size - o)),
                      out1)
                ∧ (∀ x, x < min n ((s.inode_table i).i_size - o) → out1 x = data (o + x))
                ∧ (∀ a, min n ((s.inode_table i).i_size - o) ≤ a → out1 a = out a)) := by
  have heq := tfs_open_existing_eq c s name flags hex ht
  have hmain : ((tfs_open c s name flags).1 = -1 ∧ (tfs_open c s name flags).2 = s)
      ∨ ∃ h : Nat, h < c.MAX_OPEN_FILES ∧ s.free_open_file_entries h = FREE
        ∧ tfs_open c s name flags
          = ((h : Int),
            { s with
              free_open_file_entries := upd s.free_open_file_entries h TAKEN
              open_file_table := upd s.open_file_table h
                { of_inumber := (tfs_lookup c s name).1
                  of_offset := if flags &&& TFS_O_APPEND ≠ 0
                    then (s.inode_table (tfs_lookup c s name).1.toNat).i_size else 0 } }) := by
    rw [heq]
    rcases hg : inode_get c (tfs_lookup c s name).1 with _ | i
    · left
      exact ⟨rfl, rfl⟩
    · have hi : i = (tfs_lookup c s name).1.toNat := by
        unfold inode_get at hg
        split at hg
        · exact absurd hg (by simp)
        · simp only [Option.some.injEq] at hg
          exact hg.symm
      simp only
      rcases add_to_open_file_table_spec c s (tfs_lookup c s name).1
          (if flags &&& TFS_O_APPEND ≠ 0 then (s.inode_table i).i_size else 0)
        with ⟨h1, h2, _⟩ | ⟨h, h1, h2, _, h4⟩
      · left
        exact ⟨h1, h2⟩
      · right
        refine ⟨h, h1, h2, ?_⟩
        rw [h4, hi]
  have hframe : (tfs_open c s name flags).2.inode_table = s.inode_table
      ∧ (tfs_open c s name flags).2.freeinode_ts = s.freeinode_ts
      ∧ (tfs_open c s name flags).2.free_blocks = s.free_blocks
      ∧ (tfs_open c s name flags).2.fs_data = s.fs_data
      ∧ (tfs_open c s name flags).2.undefined_behaviour = s.undefined_behaviour := by
    rcases hmain with ⟨_, h2⟩ | ⟨h, _, _, h3⟩
    · rw [h2]
      exact ⟨rfl, rfl, rfl, rfl, rfl⟩
    · rw [h3]
      exact ⟨rfl, rfl, rfl, rfl, rfl⟩
  obtain ⟨f1, f2, f3, f4, f5⟩ := hframe
  refine ⟨f1, f2, f3, f4, f5, hmain, ?_⟩
  intro i blocks data hlk hi hB ha hvec hlen hval hsize hbytes hok
  rcases hmain with ⟨h1, _⟩ | ⟨h, hh, _, h3⟩
  · omega
  · have ha1 : ¬ (flags &&& TFS_O_APPEND ≠ 0) := by simp [ha]
    rw [if_neg ha1] at h3
    rw [h3]
    simp only [Int.toNat_ofNat]
    refine ⟨by simp [upd], ?_⟩
    generalize hs2 : ({ s with
        free_open_file_entries := upd s.free_open_file_entries h TAKEN
        open_file_table := upd s.open_file_table h
          { of_inumber := (tfs_lookup c s name).1, of_offset := 0 } } : State) = s2
    have ht2 : s2.inode_table = s.inode_table := by rw [← hs2]
    have hf2 : s2.fs_data = s.fs_data := by rw [← hs2]
    have hi2 : (s2.open_file_table h).of_inumber = (i : Int) := by
      rw [← hs2, ← hlk]
      simp [upd]
    intro o ho out n
    rw [tfs_read_eq c _ h i out n hh (by simpa using hi2) hi]
    obtain ⟨out1, e1, e2, e3⟩ := inode_read_direct c hB (s2.set_of_offset h o) h i blocks
      (by simp [ht2, hvec]) hlen hval
      (by
        simp only [set_of_offset_inode_table, ht2]
        exact hsize)
      (by
        simp only [set_of_offset_inode_table, ht2, set_of_offset_get_same]
        exact ho)
      out n
    simp only [set_of_offset_inode_table, ht2, set_of_offset_get_same,
      set_of_offset_twice, set_of_offset_fs_data, hf2] at e1 e2 e3
    refine ⟨out1, e1, ?_, e3⟩
    intro x hx
    rw [e2 x hx]
    exact hbytes (o + x) (by omega)

set_option maxRecDepth 1000000 in
/-- An instance of `open_without_trunc_preserves`: with 1024-byte blocks, the file "/f1" holds "AAA!" and is closed; it is
opened with `TFS_O_CREAT` and a read of up to 39 bytes through the new handle returns the 4
bytes. -/
theorem open_without_trunc_preserves_witness :
    0 ≤ (tfs_lookup example_config (state_closed example_config text_AAA 4) path_f1).1
      ∧ TFS_O_CREAT &&& TFS_O_TRUNC = 0
      ∧ (tfs_open example_config (state_closed example_config text_AAA 4) path_f1
          TFS_O_CREAT).1 = 0
      ∧ (tfs_open example_config (state_closed example_config text_AAA 4) path_f1
          TFS_O_CREAT).2.inode_table = (state_closed example_config text_AAA 4).inode_table
      ∧ (tfs_open example_config (state_closed example_config text_AAA 4) path_f1
          TFS_O_CREAT).2.free_blocks = (state_closed example_config text_AAA 4).free_blocks
      ∧ (tfs_open example_config (state_closed example_config text_AAA 4) path_f1
          TFS_O_CREAT).2.fs_data = (state_closed example_config text_AAA 4).fs_data
      ∧ ∃ out1 : Nat → Nat,
          tfs_read example_config
              ((tfs_open example_config (state_closed example_config text_AAA 4) path_f1
                TFS_O_CREAT).2.set_of_offset
                (tfs_open example_config (state_closed example_config text_AAA 4) path_f1
                  TFS_O_CREAT).1.toNat 0)
              (tfs_open example_config (state_closed example_config text_AAA 4) path_f1
                TFS_O_CREAT).1 (fun _ => 0) 39
            = some (((min 39 (((state_closed example_config text_AAA 4).inode_table 1).i_size
                  - 0) : Nat) : Int),
                (tfs_open example_config (state_closed example_config text_AAA 4) path_f1
                  TFS_O_CREAT).2.set_of_offset
                  (tfs_open example_config (state_closed example_config text_AAA 4) path_f1
                    TFS_O_CREAT).1.toNat
                  (0 + min 39 (((state_closed example_config text_AAA 4).inode_table 1).i_size
                    - 0)),
                out1)
          ∧ (∀ x, x < min 39 (((state_closed example_config text_AAA 4).inode_table 1).i_size
              - 0) → out1 x = text_AAA (0 + x))
          ∧ (∀ a, min 39 (((state_closed example_config text_AAA 4).inode_table 1).i_size - 0)
              ≤ a → out1 a = (fun _ => 0) a) := by
  have h := open_without_trunc_preserves example_config (state_closed example_config text_AAA 4)
    path_f1 TFS_O_CREAT (by decide!) (by decide)
  have hb : file_bytes example_config (state_closed example_config text_AAA 4) [1]
      ((state_closed example_config text_AAA 4).inode_table 1).i_size text_AAA := by
    unfold file_bytes
    decide!
  refine ⟨by decide!, by decide, by decide!, h.1, h.2.2.1, h.2.2.2.1, ?_⟩
  exact (h.2.2.2.2.2.2 1 [1] text_AAA (by decide!) (by decide) (by decide) (by decide)
    (by decide!) (by decide) (by decide) (by decide!) hb (by decide!)).2 0 (Nat.zero_le _)
    (fun _ => 0) 39

/-- C13. Creating a file.  Let the root inode be TAKEN, a directory whose block `rb` is a block
of the pool, let `path` be valid ("/" followed by a name that is not empty) with a name of at
most `MAX_FILE_NAME - 1` bytes that `tfs_lookup` does not find (it returns -1), and let an
inode slot, a data block, an entry of the root directory and an open-file slot be free.  Then
for every flags value with the CREAT bit set, `tfs_open` returns a handle `h` whose slot was
FREE; afterwards `tfs_lookup(path)` returns an inumber `i` whose slot was FREE before and is
TAKEN now, inode `i` is a file of size 0, slot `h` is TAKEN and entry `h` holds inumber `i`
with offset 0.  The call makes no undefined access. -/
theorem create_opens_new_file (c : Config) (s : State) (path : Option (List Nat))
    (flags : Nat) (rb : Nat) (hN : c.INODE_TABLE_SIZE ≤ 2147483648)
    (hv : valid_pathname path = true)
    (hlen : strlen (path.getD []).tail + 1 ≤ c.MAX_FILE_NAME)
    (hflag : flags &&& TFS_O_CREAT ≠ 0)
    (hroot : s.freeinode_ts 0 = TAKEN)
    (hdir : (s.inode_table 0).i_node_type = T_DIRECTORY)
    (hrb : (s.inode_table 0).i_data_block.getD 0 none = some (rb : Int))
    (hrbv : rb < c.DATA_BLOCKS)
    (habsent : (tfs_lookup c s path).1 = -1)
    (hinode : ∃ j, j < c.INODE_TABLE_SIZE ∧ s.freeinode_ts j = FREE)
    (hblock : ∃ b, b < c.DATA_BLOCKS ∧ s.free_blocks b = FREE)
    (hentry : ∃ k, k < c.MAX_DIR_ENTRIES
      ∧ read_int s.fs_data (rb * c.BLOCK_SIZE + k * c.SIZEOF_DIR_ENTRY + c.D_INUMBER_OFFSET)
        = -1)
    (hslot : ∃ h, h < c.MAX_OPEN_FILES ∧ s.free_open_file_entries h = FREE) :
    ∃ h i : Nat, h < c.MAX_OPEN_FILES ∧ i < c.INODE_TABLE_SIZE
      ∧ (tfs_open c s path flags).1 = (h : Int)
      ∧ s.free_open_file_entries h = FREE
      ∧ s.freeinode_ts i = FREE
      ∧ (tfs_lookup c (tfs_open c s path flags).2 path).1 = (i : Int)
      ∧ (tfs_open c s path flags).2.freeinode_ts i = TAKEN
      ∧ ((tfs_open c s path flags).2.inode_table i).i_node_type = T_FILE
      ∧ ((tfs_open c s path flags).2.inode_table i).i_size = 0
      ∧ (tfs_open c s path flags).2.free_open_file_entries h = TAKEN
      ∧ (tfs_open c s path flags).2.open_file_table h = { of_inumber := (i : Int), of_offset := 0 }
      ∧ (tfs_open c s path flags).2.undefined_behaviour = s.undefined_behaviour := by
  obtain ⟨j, hj1, hj2⟩ := hinode
  obtain ⟨i, hi, hilt, hifree, _⟩ := first_free_exists s.freeinode_ts _ j hj1 hj2
  obtain ⟨b0, hb01, hb02⟩ := hblock
  obtain ⟨b, hb, hblt, _, _⟩ := first_free_exists s.free_blocks _ b0 hb01 hb02
  obtain ⟨h0, hh1, hh2⟩ := hslot
  obtain ⟨h, hh, hhlt, hhfree, _⟩ := first_free_exists s.free_open_file_entries _ h0 hh1 hh2
  have hN0 : 0 < c.INODE_TABLE_SIZE := by omega
  have hi0 : i ≠ 0 := by
    intro h0
    rw [h0, hroot] at hifree
    exact absurd hifree (by decide)
  -- the first free entry of the directory
  have hk0 := Nat.find_spec hentry
  have hkmin : ∀ k, k < Nat.find hentry →
      read_int s.fs_data (rb * c.BLOCK_SIZE + k * c.SIZEOF_DIR_ENTRY + c.D_INUMBER_OFFSET)
        ≠ -1 := by
    intro k hk hc
    exact Nat.find_min hentry hk ⟨by omega, hc⟩
  generalize Nat.find hentry = k0 at hk0 hkmin
  obtain ⟨hk0lt, hk0free⟩ := hk0
  generalize hname : (path.getD []).tail = name at hlen
  have hnz : strlen name ≠ 0 := by
    rw [← hname]
    exact valid_pathname_name path hv
  have hlook := tfs_lookup_root c s path rb hv hN0 hdir hrb hrbv
  rw [hname] at hlook
  rw [hlook] at habsent
  simp only at habsent
  have hnomatch := find_in_dir_loop_none c s _ name _ _ habsent
  -- the state after `inode_create`
  have hcreate := inode_create_file c s i b hi hb
  generalize hs1 : ({ s with
      freeinode_ts := upd s.freeinode_ts i TAKEN
      free_blocks := upd s.free_blocks b TAKEN
      inode_table := upd s.inode_table i
        { i_node_type := T_FILE, i_size := 0, i_data_block := [some (b : Int)],
          number_of_blocks := 1, indirection_block := -1, number_indirect_blocks := 0 } }
    : State) = s1 at hcreate
  have h1root : s1.inode_table 0 = s.inode_table 0 := by
    rw [← hs1]
    simp [upd, Ne.symm hi0]
  have h1fs : s1.fs_data = s.fs_data := by rw [← hs1]
  have h1free : read_int s1.fs_data
      (rb * c.BLOCK_SIZE + k0 * c.SIZEOF_DIR_ENTRY + c.D_INUMBER_OFFSET) = -1 := by
    rw [h1fs]
    exact hk0free
  -- the state after `add_dir_entry`
  have hadd : add_dir_entry c s1 ROOT_DIR_INUM (i : Int) name
      = add_dir_entry_loop c s1 (rb * c.BLOCK_SIZE) (i : Int) name 1 k0 := by
    rw [add_dir_entry_root c s1 i name rb hilt hnz (by rw [h1root]; exact hdir)
      (by rw [h1root]; exact hrb) hrbv]
    exact add_dir_entry_loop_first c s1 _ _ name k0 h1free _ _ (Nat.zero_le _) (by omega)
      (fun k _ hk => by
        rw [h1fs]
        exact hkmin k hk)
  obtain ⟨a1, a2, a3, a4, a5, a6, a7, a8, a9, a10⟩ :=
    add_dir_entry_at c s1 (rb * c.BLOCK_SIZE) (i : Int) name k0 (by omega) h1free
  generalize hr2 : add_dir_entry_loop c s1 (rb * c.BLOCK_SIZE) (i : Int) name 1 k0 = r2
    at hadd a1 a2 a3 a4 a5 a6 a7 a8 a9 a10
  -- the open-file table
  have hopen : add_to_open_file_table c r2.2 (i : Int) 0
      = ((h : Int),
        { r2.2 with
          free_open_file_entries := upd r2.2.free_open_file_entries h TAKEN
          open_file_table := upd r2.2.open_file_table h
            { of_inumber := (i : Int), of_offset := 0 } }) := by
    unfold add_to_open_file_table
    rw [a6, ← hs1]
    simp only [hh]
  have hres : tfs_open c s path flags
      = ((h : Int),
        { r2.2 with
          free_open_file_entries := upd r2.2.free_open_file_entries h TAKEN
          open_file_table := upd r2.2.open_file_table h
            { of_inumber := (i : Int), of_offset := 0 } }) := by
    unfold tfs_open
    rw [tfs_lookup_root c s path rb hv hN0 hdir hrb hrbv, hname]
    simp only [hv, Bool.not_true, Bool.false_eq_true, if_false, habsent]
    rw [if_neg (by omega), if_pos hflag]
    simp only [hcreate, hadd, a1]
    rw [if_neg (by omega), if_neg (by omega)]
    exact hopen
  generalize hs3 : ({ r2.2 with
      free_open_file_entries := upd r2.2.free_open_file_entries h TAKEN
      open_file_table := upd r2.2.open_file_table h
        { of_inumber := (i : Int), of_offset := 0 } } : State) = s3 at hres
  have h3tab : s3.inode_table = s1.inode_table := by rw [← hs3, a2]
  have h3fs : s3.fs_data = r2.2.fs_data := by rw [← hs3]
  have hbound : rb * c.BLOCK_SIZE + k0 * c.SIZEOF_DIR_ENTRY + c.SIZEOF_DIR_ENTRY
      ≤ c.FS_DATA_SIZE := by
    have e1 : (k0 + 1) * c.SIZEOF_DIR_ENTRY ≤ c.MAX_DIR_ENTRIES * c.SIZEOF_DIR_ENTRY :=
      Nat.mul_le_mul_right _ hk0lt
    have e2 : c.MAX_DIR_ENTRIES * c.SIZEOF_DIR_ENTRY ≤ c.BLOCK_SIZE := Nat.div_mul_le_self _ _
    have e3 : (rb + 1) * c.BLOCK_SIZE ≤ c.DATA_BLOCKS * c.BLOCK_SIZE :=
      Nat.mul_le_mul_right _ hrbv
    have e4 : c.FS_DATA_SIZE = c.DATA_BLOCKS * c.BLOCK_SIZE := Nat.mul_comm _ _
    rw [Nat.succ_mul] at e1 e3
    omega
  -- the lookup afterwards
  have hlook3 : (tfs_lookup c s3 path).1 = (i : Int) := by
    rw [tfs_lookup_root c s3 path rb hv hN0 (by rw [h3tab, h1root]; exact hdir)
      (by rw [h3tab, h1root]; exact hrb) hrbv, hname]
    simp only
    have hval : read_int s3.fs_data
        (rb * c.BLOCK_SIZE + k0 * c.SIZEOF_DIR_ENTRY + c.D_INUMBER_OFFSET) = (i : Int) := by
      rw [h3fs]
      exact a8 (by omega) (by omega)
    rw [← hval]
    apply find_in_dir_loop_first c s3 _ name k0 _ _ (Nat.zero_le _) (by omega)
    · intro k _ hk
      have hse : c.SIZEOF_DIR_ENTRY = c.D_INUMBER_OFFSET + 4 := rfl
      have hoff : c.MAX_FILE_NAME ≤ c.D_INUMBER_OFFSET := by
        unfold Config.D_INUMBER_OFFSET
        omega
      have hmul : (k + 1) * c.SIZEOF_DIR_ENTRY ≤ k0 * c.SIZEOF_DIR_ENTRY :=
        Nat.mul_le_mul_right _ hk
      rw [Nat.succ_mul] at hmul
      have e1 : read_int s3.fs_data
          (rb * c.BLOCK_SIZE + k * c.SIZEOF_DIR_ENTRY + c.D_INUMBER_OFFSET)
          = read_int s.fs_data
            (rb * c.BLOCK_SIZE + k * c.SIZEOF_DIR_ENTRY + c.D_INUMBER_OFFSET) := by
        apply read_int_congr
        intro x hx1 hx2
        rw [h3fs, a7 x (by omega), h1fs]
      have e2 : strncmp_eq s3.fs_data (rb * c.BLOCK_SIZE + k * c.SIZEOF_DIR_ENTRY) name
          c.MAX_FILE_NAME 0
          = strncmp_eq s.fs_data (rb * c.BLOCK_SIZE + k * c.SIZEOF_DIR_ENTRY) name
            c.MAX_FILE_NAME 0 := by
        apply strncmp_eq_congr
        intro x hx1 hx2
        rw [h3fs, a7 x (by omega), h1fs]
      rw [e1, e2]
      exact hnomatch k (Nat.zero_le _) (by omega)
    · rw [hval]
      omega
    · rw [h3fs]
      exact a9 hlen
  refine ⟨h, i, hhlt, hilt, ?_, hhfree, hifree, ?_, ?_, ?_, ?_, ?_, ?_, ?_⟩
  · rw [hres]
  · rw [hres]
    exact hlook3
  · rw [hres]
    simp only
    rw [← hs3]
    simp only
    rw [a3, ← hs1]
    simp [upd]
  · rw [hres]
    simp only
    rw [h3tab, ← hs1]
    simp [upd]
  · rw [hres]
    simp only
    rw [h3tab, ← hs1]
    simp [upd]
  · rw [hres]
    simp only
    rw [← hs3]
    simp [upd]
  · rw [hres]
    simp only
    rw [← hs3]
    simp [upd]
  · rw [hres]
    simp only
    rw [← hs3]
    simp only
    rw [a10 hbound, ← hs1]

set_option maxRecDepth 1000000 in
/-- Witness of C13: with 1024-byte blocks, after `tfs_init` and `tfs_open("/f1", TFS_O_CREAT)`,
the file "/f2" is created. -/
theorem create_opens_new_file_witness :
    example_config.INODE_TABLE_SIZE ≤ 2147483648
      ∧ valid_pathname path_f2 = true
      ∧ strlen (path_f2.getD []).tail + 1 ≤ example_config.MAX_FILE_NAME
      ∧ TFS_O_CREAT &&& TFS_O_CREAT ≠ 0
      ∧ (state_created example_config).freeinode_ts 0 = TAKEN
      ∧ ((state_created example_config).inode_table 0).i_node_type = T_DIRECTORY
      ∧ ((state_created example_config).inode_table 0).i_data_block.getD 0 none
        = some ((0 : Nat) : Int)
      ∧ 0 < example_config.DATA_BLOCKS
      ∧ (tfs_lookup example_config (state_created example_config) path_f2).1 = -1
      ∧ (∃ j, j < example_config.INODE_TABLE_SIZE
        ∧ (state_created example_config).freeinode_ts j = FREE)
      ∧ (∃ b, b < example_config.DATA_BLOCKS
        ∧ (state_created example_config).free_blocks b = FREE)
      ∧ (∃ k, k < example_config.MAX_DIR_ENTRIES
        ∧ read_int (state_created example_config).fs_data
            (0 * example_config.BLOCK_SIZE + k * example_config.SIZEOF_DIR_ENTRY
              + example_config.D_INUMBER_OFFSET) = -1)
      ∧ (∃ h, h < example_config.MAX_OPEN_FILES
        ∧ (state_created example_config).free_open_file_entries h = FREE)
      ∧ (∃ h i : Nat, h < example_config.MAX_OPEN_FILES ∧ i < example_config.INODE_TABLE_SIZE
      ∧ (tfs_open example_config (state_created example_config) path_f2 TFS_O_CREAT).1 = (h : Int)
      ∧ (state_created example_config).free_open_file_entries h = FREE
      ∧ (state_created example_config).freeinode_ts i = FREE
      ∧ (tfs_lookup example_config (tfs_open example_config (state_created example_config) path_f2 TFS_O_CREAT).2 path_f2).1 = (i : Int)
      ∧ (tfs_open example_config (state_created example_config) path_f2 TFS_O_CREAT).2.freeinode_ts i = TAKEN
      ∧ ((tfs_open example_config (state_created example_config) path_f2 TFS_O_CREAT).2.inode_table i).i_node_type = T_FILE
      ∧ ((tfs_open example_config (state_created example_config) path_f2 TFS_O_CREAT).2.inode_table i).i_size = 0
      ∧ (tfs_open example_config (state_created example_config) path_f2 TFS_O_CREAT).2.free_open_file_entries h = TAKEN
      ∧ (tfs_open example_config (state_created example_config) path_f2 TFS_O_CREAT).2.open_file_table h = { of_inumber := (i : Int), of_offset := 0 }
      ∧ (tfs_open example_config (state_created example_config) path_f2 TFS_O_CREAT).2.undefined_behaviour = (state_created example_config).undefined_behaviour) :=
  ⟨by decide, by decide, by decide, by decide, by decide!, by decide!, by decide!, by decide,
    by decide!, ⟨2, by decide, by decide!⟩, ⟨2, by decide, by decide!⟩,
    ⟨1, by decide, by decide!⟩, ⟨1, by decide, by decide!⟩,
    create_opens_new_file example_config (state_created example_config) path_f2 TFS_O_CREAT 0
      (by decide) (by decide) (by decide) (by decide) (by decide!) (by decide!) (by decide!)
      (by decide) (by decide!) ⟨2, by decide, by decide!⟩ ⟨2, by decide, by decide!⟩
      ⟨1, by decide, by decide!⟩ ⟨1, by decide, by decide!⟩⟩

/-! ## Allocation of blocks and inodes -/

theorem get_free_memory_loop_count (c : Config) (s : State) :
    ∀ (n k : Nat), get_free_memory_loop c s n k
      = c.BLOCK_SIZE
        * ((List.range' k n).filter (fun j => decide (s.free_blocks j = FREE))).length := by
  intro n
  induction n with
  | zero => intro k; simp [get_free_memory_loop]
  | succ n ih =>
    intro k
    unfold get_free_memory_loop
    rw [ih (k + 1), List.range'_succ, List.filter_cons]
    by_cases h : s.free_blocks k = FREE
    · simp only [h, if_true, decide_True, List.length_cons]
      ring
    · simp only [h, if_false, decide_False, Nat.zero_add]
      rfl

theorem first_free_full (bm : Nat → allocation_state_t) (n : Nat)
    (h : ∀ j, j < n → bm j ≠ FREE) : first_free bm n 0 = none := by
  rcases hff : first_free bm n 0 with _ | k
  · rfl
  · obtain ⟨_, a2, a3, _⟩ := first_free_some bm n 0 k hff
    exact absurd a3 (h k (by omega))

theorem get_free_memory_le (c : Config) (s : State) :
    get_free_memory c s ≤ c.FS_DATA_SIZE := by
  unfold get_free_memory
  rw [get_free_memory_loop_count]
  have h1 : ((List.range' 0 c.DATA_BLOCKS).filter
      (fun j => decide (s.free_blocks j = FREE))).length ≤ c.DATA_BLOCKS := by
    have := List.length_filter_le (fun j => decide (s.free_blocks j = FREE))
      (List.range' 0 c.DATA_BLOCKS)
    simpa using this
  exact Nat.mul_le_mul_left _ h1
theorem inode_create_loop_none (c : Config) (s : State) (t : inode_type) :
    ∀ (n k : Nat), first_free s.freeinode_ts n k = none →
      inode_create_loop c s t n k = (-1, s) := by
  intro n
  induction n with
  | zero => intro k _; rfl
  | succ n ih =>
    intro k h
    unfold first_free at h
    unfold inode_create_loop
    split at h
    · exact absurd h (by simp)
    · rename_i hf
      rw [if_neg hf]
      exact ih (k + 1) h

theorem upd_upd_self {α : Type} (f : Nat → α) (i : Nat) (v w : α) (h : f i = w) :
    upd (upd f i v) i w = f := by
  funext j
  unfold upd
  by_cases hj : j = i
  · rw [if_pos hj, hj, h]
  · rw [if_neg hj, if_neg hj]
/-- The function `inode_create(T_DIRECTORY)` with the first FREE inode slot `i` and the first
FREE block `b`: it returns `i`, marks both TAKEN, inode `i` becomes a directory of size
`BLOCK_SIZE` whose vector holds block `b`, and the entries of block `b` are initialised. -/
theorem inode_create_directory (c : Config) (s : State) (i b : Nat)
    (hi : first_free s.freeinode_ts c.INODE_TABLE_SIZE 0 = some i)
    (hb : first_free s.free_blocks c.DATA_BLOCKS 0 = some b) :
    inode_create c s T_DIRECTORY
      = ((i : Int),
        inode_create_dir_loop c (b * c.BLOCK_SIZE) c.MAX_DIR_ENTRIES 0
          { s with
            freeinode_ts := upd s.freeinode_ts i TAKEN
            free_blocks := upd s.free_blocks b TAKEN
            inode_table := upd s.inode_table i
              { i_node_type := T_DIRECTORY, i_size := c.BLOCK_SIZE,
                i_data_block := [some (b : Int)], number_of_blocks := 1,
                indirection_block := -1, number_indirect_blocks := 0 } }) := by
  have hblt : b < c.DATA_BLOCKS := by
    have := (first_free_some _ _ _ _ hb).2.1
    omega
  unfold inode_create
  rw [inode_create_loop_eq c s T_DIRECTORY i _ _ hi]
  unfold inode_create_at
  simp only
  unfold data_block_alloc
  simp only [set_indirection_block_free_blocks, set_number_indirect_blocks_free_blocks,
    set_number_of_blocks_free_blocks, set_i_data_block_free_blocks,
    set_i_node_type_free_blocks, hb]
  have hne : ¬ ((b : Int) = -1) := by omega
  simp only [hne, if_false, data_block_get_nat c b hblt]
  congr 2
  unfold write_direct
  simp [State.set_i_data_block, State.set_i_size, State.set_indirection_block,
    State.set_number_indirect_blocks, State.set_number_of_blocks, State.set_i_node_type,
    State.set_inode, upd]
  funext j
  unfold upd
  split <;> rfl
/-! ## Directory entries -/

/-- The scan of `add_dir_entry` fails without a change when no entry has inumber -1. -/
theorem add_dir_entry_loop_full (c : Config) (s : State) (dir_entry : Nat) (v : Int)
    (name : List Nat) :
    ∀ (n i : Nat),
      (∀ k, i ≤ k → k < i + n →
        read_int s.fs_data (dir_entry + k * c.SIZEOF_DIR_ENTRY + c.D_INUMBER_OFFSET) ≠ -1) →
      add_dir_entry_loop c s dir_entry v name n i = (-1, s) := by
  intro n
  induction n with
  | zero => intro i _; rfl
  | succ n ih =>
    intro i h
    unfold add_dir_entry_loop
    simp only [load_int]
    rw [if_neg (h i (Nat.le_refl _) (by omega))]
    exact ih (i + 1) (fun k h1 h2 => h k (by omega) (by omega))

/-- The checks of `add_dir_entry` before its scan, for a directory inode whose first slot holds
block `rb`. -/
theorem add_dir_entry_eq (c : Config) (s : State) (dir child : Int) (name : List Nat)
    (rb : Nat) (hrb : (s.inode_table dir.toNat).i_data_block.getD 0 none = some (rb : Int))
    (hrbv : rb < c.DATA_BLOCKS) :
    add_dir_entry c s dir child name
      = if (0 ≤ dir ∧ dir < (c.INODE_TABLE_SIZE : Int))
          ∧ (0 ≤ child ∧ child < (c.INODE_TABLE_SIZE : Int))
          ∧ (s.inode_table dir.toNat).i_node_type = T_DIRECTORY ∧ strlen name ≠ 0
        then add_dir_entry_loop c s (rb * c.BLOCK_SIZE) child name c.MAX_DIR_ENTRIES 0
        else (-1, s) := by
  unfold add_dir_entry valid_inumber read_direct
  by_cases h1 : 0 ≤ dir ∧ dir < (c.INODE_TABLE_SIZE : Int)
  · by_cases h2 : 0 ≤ child ∧ child < (c.INODE_TABLE_SIZE : Int)
    · by_cases h3 : (s.inode_table dir.toNat).i_node_type = T_DIRECTORY
      · by_cases h4 : strlen name = 0
        · simp [h1, h2, h3, h4]
        · have hv1 : decide (0 ≤ dir ∧ dir < (c.INODE_TABLE_SIZE : Int)) = true :=
            decide_eq_true h1
          have hv2 : decide (0 ≤ child ∧ child < (c.INODE_TABLE_SIZE : Int)) = true :=
            decide_eq_true h2
          simp only [hv1, hv2, h3, hrb, data_block_get_nat c rb hrbv, h4]
          simp [h1, h2, h4]
      · simp [h1, h2, h3]
    · simp [h1, h2]
  · simp [h1]

/-- The name bytes that the body of `add_dir_entry` leaves in the entry: the first
`MAX_FILE_NAME - 1` bytes of the name, padded with zeros, and a terminator. -/
theorem add_dir_entry_at_name (c : Config) (s : State) (dir_entry : Nat) (v : Int)
    (name : List Nat) (k0 : Nat)
    (hfree : read_int s.fs_data (dir_entry + k0 * c.SIZEOF_DIR_ENTRY + c.D_INUMBER_OFFSET)
      = -1) :
    (∀ j, j < c.MAX_FILE_NAME - 1 →
        (add_dir_entry_loop c s dir_entry v name 1 k0).2.fs_data
          (dir_entry + k0 * c.SIZEOF_DIR_ENTRY + j) = char_at name j)
      ∧ (add_dir_entry_loop c s dir_entry v name 1 k0).2.fs_data
          (dir_entry + k0 * c.SIZEOF_DIR_ENTRY + (c.MAX_FILE_NAME - 1)) = 0 := by
  have hfs : (add_dir_entry_loop c s dir_entry v name 1 k0).2.fs_data
      = upd (strncpy (write_int s.fs_data
            (dir_entry + k0 * c.SIZEOF_DIR_ENTRY + c.D_INUMBER_OFFSET) v)
          (dir_entry + k0 * c.SIZEOF_DIR_ENTRY) name (c.MAX_FILE_NAME - 1))
        (dir_entry + k0 * c.SIZEOF_DIR_ENTRY + (c.MAX_FILE_NAME - 1)) 0 := by
    unfold add_dir_entry_loop
    simp only [load_int, hfree, if_true, mark_if_fs_data, store_int_fs_data]
  rw [hfs]
  constructor
  · intro j hj
    unfold upd strncpy
    rw [if_neg (by omega), memcpy_inside _ _ _ _ _ (by omega) (by omega)]
    congr 1
    omega
  · simp [upd]
/-- The checks of `find_in_dir` before its scan, for a directory inode whose first slot holds
block `rb`. -/
theorem find_in_dir_eq (c : Config) (s : State) (dir : Int) (name : List Nat) (rb : Nat)
    (hrb : (s.inode_table dir.toNat).i_data_block.getD 0 none = some (rb : Int))
    (hrbv : rb < c.DATA_BLOCKS) :
    find_in_dir c s dir name
      = if (0 ≤ dir ∧ dir < (c.INODE_TABLE_SIZE : Int))
          ∧ (s.inode_table dir.toNat).i_node_type = T_DIRECTORY
        then (find_in_dir_loop c s (rb * c.BLOCK_SIZE) name c.MAX_DIR_ENTRIES 0, s)
        else (-1, s) := by
  unfold find_in_dir valid_inumber read_direct
  by_cases h1 : 0 ≤ dir ∧ dir < (c.INODE_TABLE_SIZE : Int)
  · by_cases h3 : (s.inode_table dir.toNat).i_node_type = T_DIRECTORY
    · have hv1 : decide (0 ≤ dir ∧ dir < (c.INODE_TABLE_SIZE : Int)) = true :=
        decide_eq_true h1
      simp only [hv1, h3, hrb, data_block_get_nat c rb hrbv]
      simp [h1]
    · simp [h1, h3]
  · simp [h1]

/-- After the body of `add_dir_entry` has filled the first entry `k0` whose inumber was -1
with a name that no entry in use carried, the scan of `find_in_dir` for that name returns the
inumber stored. -/
theorem find_in_dir_loop_after_add (c : Config) (s : State) (dir_entry : Nat) (child : Int)
    (name : List Nat) (k0 : Nat) (hk0 : k0 < c.MAX_DIR_ENTRIES)
    (hlen : strlen name + 1 ≤ c.MAX_FILE_NAME)
    (hc1 : 0 ≤ child) (hc2 : child < 2147483648)
    (hfree : read_int s.fs_data (dir_entry + k0 * c.SIZEOF_DIR_ENTRY + c.D_INUMBER_OFFSET)
      = -1)
    (hno : ∀ k, k < k0 →
      ¬ (read_int s.fs_data (dir_entry + k * c.SIZEOF_DIR_ENTRY + c.D_INUMBER_OFFSET) ≠ -1
        ∧ strncmp_eq s.fs_data (dir_entry + k * c.SIZEOF_DIR_ENTRY) name c.MAX_FILE_NAME 0
          = true)) :
    find_in_dir_loop c (add_dir_entry_loop c s dir_entry child name 1 k0).2 dir_entry name
      c.MAX_DIR_ENTRIES 0 = child := by
  obtain ⟨_, _, _, _, _, _, a7, a8, a9, _⟩ :=
    add_dir_entry_at c s dir_entry child name k0 (by omega) hfree
  generalize (add_dir_entry_loop c s dir_entry child name 1 k0).2 = s2 at a7 a8 a9
  have hval := a8 (by omega) hc2
  rw [← hval]
  apply find_in_dir_loop_first c s2 _ name k0 _ _ (Nat.zero_le _) (by omega)
  · intro k _ hk
    have hse : c.SIZEOF_DIR_ENTRY = c.D_INUMBER_OFFSET + 4 := rfl
    have hoff : c.MAX_FILE_NAME ≤ c.D_INUMBER_OFFSET := by
      unfold Config.D_INUMBER_OFFSET
      omega
    have hmul : (k + 1) * c.SIZEOF_DIR_ENTRY ≤ k0 * c.SIZEOF_DIR_ENTRY :=
      Nat.mul_le_mul_right _ hk
    rw [Nat.succ_mul] at hmul
    have e1 : read_int s2.fs_data (dir_entry + k * c.SIZEOF_DIR_ENTRY + c.D_INUMBER_OFFSET)
        = read_int s.fs_data (dir_entry + k * c.SIZEOF_DIR_ENTRY + c.D_INUMBER_OFFSET) := by
      apply read_int_congr
      intro x hx1 hx2
      rw [a7 x (by omega)]
    have e2 : strncmp_eq s2.fs_data (dir_entry + k * c.SIZEOF_DIR_ENTRY) name
        c.MAX_FILE_NAME 0
        = strncmp_eq s.fs_data (dir_entry + k * c.SIZEOF_DIR_ENTRY) name c.MAX_FILE_NAME 0 := by
      apply strncmp_eq_congr
      intro x hx1 hx2
      rw [a7 x (by omega)]
    rw [e1, e2]
    exact hno k hk
  · rw [hval]
    omega
  · exact a9 hlen

/-! ## The offset of the entry used never passes the size -/

theorem inode_write_loop_offset_le (c : Config) (fh i : Nat) (buf : Nat → Nat) :
    ∀ (fuel : Nat) (s : State) (to_write btw done : Nat) (r : Int) (s1 : State),
      inode_write_loop c fh i buf fuel s to_write btw done = some (r, s1) →
      (s.open_file_table fh).of_offset ≤ (s.inode_table i).i_size →
      (s1.open_file_table fh).of_offset ≤ (s1.inode_table i).i_size
        ∧ (s.inode_table i).i_size ≤ (s1.inode_table i).i_size := by
  intro fuel
  induction fuel with
  | zero =>
    intro s tw btw done r s1 h hle
    unfold inode_write_loop at h
    by_cases hc : tw = 0
    · simp only [hc, if_true, Option.some.injEq, Prod.mk.injEq] at h
      rw [← h.2]
      exact ⟨hle, Nat.le_refl _⟩
    · simp [hc] at h
  | succ n ih =>
    intro s tw btw done r s1 h hle
    by_cases hc : tw = 0
    · subst hc
      rw [inode_write_loop_zero] at h
      simp only [Option.some.injEq, Prod.mk.injEq] at h
      rw [← h.2]
      exact ⟨hle, Nat.le_refl _⟩
    · unfold inode_write_loop at h
      simp only [hc, if_false] at h
      have hmeta := meta_frame_inode_write_locate c s i (skip_index_block btw)
      have hkeep : ((inode_write_locate c s i (skip_index_block btw)).2.open_file_table
          fh).of_offset
          ≤ ((inode_write_locate c s i (skip_index_block btw)).2.inode_table i).i_size := by
        rw [hmeta.1, (hmeta.2.2.2 i).1]
        exact hle
      have hsame : ((inode_write_locate c s i (skip_index_block btw)).2.inode_table i).i_size
          = (s.inode_table i).i_size := (hmeta.2.2.2 i).1
      rcases hl : (inode_write_locate c s i (skip_index_block btw)).1 with _ | (_ | block)
      · simp only [hl, Option.some.injEq, Prod.mk.injEq] at h
        rw [← h.2]
        exact ⟨hkeep, by rw [hsame]⟩
      · simp only [hl, Option.some.injEq, Prod.mk.injEq] at h
        rw [← h.2]
        exact ⟨hkeep, by rw [hsame]⟩
      · simp only [hl] at h
        have hstep := ih _ _ _ _ _ _ h (by
          rw [inode_write_copy_offset, inode_write_copy_size]
          omega)
        rw [inode_write_copy_size, hsame] at hstep
        exact ⟨hstep.1, by omega⟩

/-- When `inode_write` returns, with any result, the offset of its entry is at most the size
of its inode, and the size has not shrunk. -/
theorem inode_write_offset_le (c : Config) (s : State) (fh i : Nat) (buf : Nat → Nat)
    (n : Nat) (r : Int) (s1 : State) (h : inode_write c s fh i buf n = some (r, s1)) :
    (s1.open_file_table fh).of_offset ≤ (s1.inode_table i).i_size
      ∧ (s.inode_table i).i_size ≤ (s1.inode_table i).i_size := by
  unfold inode_write at h
  simp only [clamp_offset_idem] at h
  have hcf := clamp_offset_read_frame s fh i
  have hco := clamp_offset_offset s fh i
  generalize clamp_offset s fh i = s0 at h hcf hco
  have h0 : (s0.open_file_table fh).of_offset ≤ (s0.inode_table i).i_size := by
    rw [hco, hcf.1]
    omega
  generalize htw : (if ((s0.open_file_table fh).of_offset + n) % SIZE_MAX1 > c.CAPACITY then
      (c.CAPACITY + SIZE_MAX1 - (s0.open_file_table fh).of_offset % SIZE_MAX1) % SIZE_MAX1
    else n) = tw at h
  have hmeta : meta_frame s0
      (if tw > (s0.inode_table i).i_size then
        (inode_add_blocks c s0 (s0.open_file_table fh).of_inumber tw
          (s0.open_file_table fh).of_offset).2
      else if ((s0.open_file_table fh).of_offset + tw) % SIZE_MAX1
          ≥ ((s0.inode_table i).number_of_blocks + (s0.inode_table i).number_indirect_blocks)
            * c.BLOCK_SIZE then
        (inode_add_blocks c s0 (s0.open_file_table fh).of_inumber
          (if tw < c.BLOCK_SIZE then c.BLOCK_SIZE else tw) (s0.open_file_table fh).of_offset).2
      else s0) := by
    split
    · exact meta_frame_inode_add_blocks c s0 _ _ _
    · split
      · exact meta_frame_inode_add_blocks c s0 _ _ _
      · exact meta_frame_refl s0
  generalize hs3 : (if tw > (s0.inode_table i).i_size then
        (inode_add_blocks c s0 (s0.open_file_table fh).of_inumber tw
          (s0.open_file_table fh).of_offset).2
      else if ((s0.open_file_table fh).of_offset + tw) % SIZE_MAX1
          ≥ ((s0.inode_table i).number_of_blocks + (s0.inode_table i).number_indirect_blocks)
            * c.BLOCK_SIZE then
        (inode_add_blocks c s0 (s0.open_file_table fh).of_inumber
          (if tw < c.BLOCK_SIZE then c.BLOCK_SIZE else tw) (s0.open_file_table fh).of_offset).2
      else s0) = s3 at h hmeta
  have hloop := inode_write_loop_offset_le c fh i buf _ _ _ _ _ r s1 h (by
    rw [hmeta.1, (hmeta.2.2.2 i).1]
    exact h0)
  rw [(hmeta.2.2.2 i).1, hcf.1] at hloop
  exact hloop

/-- When `inode_read` returns, with any result, the offset of its entry is at most the size of
its inode. -/
theorem inode_read_offset_le (c : Config) (hB : 0 < c.BLOCK_SIZE) (s : State) (fh i : Nat)
    (buf : Nat → Nat) (n : Nat) :
    ∃ r s1 out, inode_read c s fh i buf n = some (r, s1, out) ∧ read_frame fh s s1
      ∧ (s1.open_file_table fh).of_offset ≤ (s1.inode_table i).i_size := by
  have hcf := clamp_offset_read_frame s fh i
  have hco := clamp_offset_offset s fh i
  unfold inode_read
  simp only
  generalize clamp_offset s fh i = s0 at hcf hco
  generalize htr : (if (s0.inode_table i).i_size - (s0.open_file_table fh).of_offset > n then n
    else (s0.inode_table i).i_size - (s0.open_file_table fh).of_offset) = tr
  have hle : (s0.open_file_table fh).of_offset + tr ≤ (s0.inode_table i).i_size := by
    rw [← htr, hco, hcf.1]
    split <;> omega
  obtain ⟨r, s1, out, e1, e2, _, _, e5, _⟩ := inode_read_loop_spec c hB fh i tr s0 buf tr 0
    (Nat.le_refl _) hle
  refine ⟨r, s1, out, e1, read_frame_trans hcf e2, ?_⟩
  rw [e2.1]
  omega

/-! ## The open-file table is left alone by the creation of a file -/

theorem open_files_same_refl (s : State) : open_files_same s s := ⟨rfl, rfl⟩

theorem inode_create_dir_loop_open_files (c : Config) (base : Nat) :
    ∀ (n k : Nat) (s : State), open_files_same s (inode_create_dir_loop c base n k s) := by
  intro n
  induction n with
  | zero => intro k s; exact ⟨rfl, rfl⟩
  | succ n ih =>
    intro k s
    unfold inode_create_dir_loop
    refine open_files_same_trans ?_ (ih _ _)
    simp [open_files_same]

theorem data_block_alloc_open_files (c : Config) (s : State) :
    open_files_same s (data_block_alloc c s).2 := by
  unfold data_block_alloc
  split <;> exact ⟨rfl, rfl⟩

theorem write_direct_open_files (s : State) (i k : Nat) (b : Int) :
    open_files_same s (write_direct s i k b) := by
  unfold write_direct
  split <;> exact ⟨rfl, rfl⟩

theorem inode_create_at_open_files (c : Config) (s : State) (t : inode_type) (i : Nat) :
    open_files_same s (inode_create_at c s t i).2 := by
  unfold inode_create_at
  simp only
  generalize hs2 : (((((({ s with freeinode_ts := upd s.freeinode_ts i TAKEN } : State
    ).set_i_node_type i t).set_i_data_block i [none]).set_number_of_blocks i 1
    ).set_number_indirect_blocks i 0).set_indirection_block i (-1)) = s2
  have h2 : open_files_same s s2 := by
    rw [← hs2]
    exact ⟨rfl, rfl⟩
  cases t
  · simp only
    have h3 := open_files_same_trans h2 (open_files_same_trans ⟨rfl, rfl⟩
      (inode_alloc_first_block_open_files c (s2.set_i_size i 0) (i : Int)))
    split <;> exact h3
  · simp only
    have h3 := open_files_same_trans h2 (data_block_alloc_open_files c s2)
    generalize data_block_alloc c s2 = r at h3
    split
    · exact ⟨h3.1, h3.2⟩
    · have h4 : open_files_same s (write_direct (r.2.set_i_size i c.BLOCK_SIZE) i 0 r.1) :=
        open_files_same_trans h3
          (open_files_same_trans ⟨rfl, rfl⟩ (write_direct_open_files _ _ _ _))
      generalize write_direct (r.2.set_i_size i c.BLOCK_SIZE) i 0 r.1 = s5 at h4
      split
      · exact ⟨h4.1, h4.2⟩
      · exact open_files_same_trans h4 (inode_create_dir_loop_open_files c _ _ _ _)

theorem inode_create_open_files (c : Config) (s : State) (t : inode_type) :
    open_files_same s (inode_create c s t).2 := by
  unfold inode_create
  generalize c.INODE_TABLE_SIZE = n
  generalize 0 = k
  induction n generalizing k with
  | zero => exact ⟨rfl, rfl⟩
  | succ n ih =>
    unfold inode_create_loop
    split
    · exact inode_create_at_open_files c s t k
    · exact ih (k + 1)

theorem add_dir_entry_loop_open_files (c : Config) (s : State) (dir_entry : Nat) (v : Int)
    (name : List Nat) :
    ∀ (n k : Nat), open_files_same s (add_dir_entry_loop c s dir_entry v name n k).2 := by
  intro n
  induction n with
  | zero => intro k; exact ⟨rfl, rfl⟩
  | succ n ih =>
    intro k
    unfold add_dir_entry_loop
    simp only
    split
    · simp [open_files_same]
    · exact ih (k + 1)

theorem add_dir_entry_open_files (c : Config) (s : State) (dir child : Int)
    (name : List Nat) : open_files_same s (add_dir_entry c s dir child name).2 := by
  unfold add_dir_entry
  split
  · exact ⟨rfl, rfl⟩
  · split
    · exact ⟨rfl, rfl⟩
    · split
      · exact ⟨rfl, rfl⟩
      · have h1 : open_files_same s (read_direct s dir.toNat 0).2 :=
          ⟨read_direct_open_file_table s _ _, read_direct_free_open_file_entries s _ _⟩
        simp only
        split
        · exact h1
        · exact open_files_same_trans h1 (add_dir_entry_loop_open_files c _ _ _ _ _ _)

theorem inode_delete_open_files (c : Config) (s : State) (inumber : Int) :
    open_files_same s (inode_delete c s inumber).2 := by
  unfold inode_delete
  split
  · exact ⟨rfl, rfl⟩
  · simp only
    generalize hs1 : ({ s with freeinode_ts := upd s.freeinode_ts inumber.toNat FREE } : State)
      = s1
    have h0 : open_files_same s s1 := by
      rw [← hs1]
      exact ⟨rfl, rfl⟩
    split
    · have h1 := open_files_same_trans h0 (inode_free_direct_blocks_open_files c s1 inumber.toNat)
      generalize inode_free_direct_blocks c s1 inumber.toNat = r1 at h1
      split
      · exact h1
      · have h2 : open_files_same s (data_block_free c (read_direct r1.2 inumber.toNat 0).2
            (read_direct r1.2 inumber.toNat 0).1).2 :=
          open_files_same_trans h1 ⟨by simp, by simp⟩
        generalize data_block_free c (read_direct r1.2 inumber.toNat 0).2
          (read_direct r1.2 inumber.toNat 0).1 = r2 at h2
        split
        · exact h2
        · split
          · have h3 := open_files_same_trans h2 (open_files_same_trans ⟨rfl, rfl⟩
              (inode_free_indirect_blocks_open_files c
                (r2.2.set_i_data_block inumber.toNat []) inumber.toNat))
            split <;> exact h3
          · exact ⟨h2.1, h2.2⟩
    · exact h0

/-- The entry that `tfs_open` opens (the slot it turns from FREE to TAKEN) has an offset that
is at most the size of the inode recorded in it. -/
theorem tfs_open_new_entry (c : Config) (s : State) (name : Option (List Nat)) (flags : Nat)
    (h : Nat) (h0 : s.free_open_file_entries h = FREE)
    (h1 : (tfs_open c s name flags).2.free_open_file_entries h = TAKEN) :
    ((tfs_open c s name flags).2.open_file_table h).of_offset
      ≤ ((tfs_open c s name flags).2.inode_table
          ((tfs_open c s name flags).2.open_file_table h).of_inumber.toNat).i_size := by
  have key_same : ∀ st : State, open_files_same s st →
      st.free_open_file_entries h = TAKEN →
      (st.open_file_table h).of_offset
        ≤ (st.inode_table (st.open_file_table h).of_inumber.toNat).i_size := by
    intro st hst ht
    rw [hst.2, h0] at ht
    exact absurd ht (by decide)
  have key_add : ∀ (st : State) (inum : Int) (off : Nat), open_files_same s st →
      off ≤ (st.inode_table inum.toNat).i_size →
      (add_to_open_file_table c st inum off).2.free_open_file_entries h = TAKEN →
      ((add_to_open_file_table c st inum off).2.open_file_table h).of_offset
        ≤ ((add_to_open_file_table c st inum off).2.inode_table
            ((add_to_open_file_table c st inum off).2.open_file_table h).of_inumber.toNat
          ).i_size := by
    intro st inum off hst hoff ht
    rcases add_to_open_file_table_spec c st inum off with ⟨_, e2, _⟩ | ⟨k, _, _, _, e4⟩
    · rw [e2] at ht ⊢
      exact key_same st hst ht
    · rw [e4] at ht ⊢
      simp only at ht ⊢
      by_cases hk : h = k
      · subst hk
        simp only [upd_same]
        exact hoff
      · rw [upd_other _ _ hk, hst.2, h0] at ht
        exact absurd ht (by decide)
  revert h1
  unfold tfs_open
  split
  · exact key_same s ⟨rfl, rfl⟩
  · have hl : open_files_same s (tfs_lookup c s name).2 :=
      ⟨(tfs_lookup_same c s name).2.2.2.2.1, (tfs_lookup_same c s name).2.2.2.2.2⟩
    generalize tfs_lookup c s name = l at hl
    simp only
    split
    · unfold tfs_open_existing
      rcases hg : inode_get c l.1 with _ | i
      · exact key_same _ hl
      · have hi : i = l.1.toNat := by
          unfold inode_get at hg
          split at hg
          · exact absurd hg (by simp)
          · simp only [Option.some.injEq] at hg
            exact hg.symm
        simp only
        have ht : open_files_same s
            (if flags &&& TFS_O_TRUNC ≠ 0 then tfs_open_trunc c l.2 l.1 i else (none, l.2)).2 := by
          split
          · exact open_files_same_trans hl (tfs_open_trunc_open_files c l.2 l.1 i)
          · exact hl
        generalize (if flags &&& TFS_O_TRUNC ≠ 0 then tfs_open_trunc c l.2 l.1 i
          else (none, l.2)) = t at ht
        rcases hte : t.1 with _ | e
        · simp only
          apply key_add _ _ _ ht
          rw [← hi]
          split
          · exact Nat.le_refl _
          · exact Nat.zero_le _
        · exact key_same _ ht
    · split
      · have hr := open_files_same_trans hl (inode_create_open_files c l.2 T_FILE)
        generalize inode_create c l.2 T_FILE = r at hr
        split
        · exact key_same _ hr
        · have ha := open_files_same_trans hr
            (add_dir_entry_open_files c r.2 ROOT_DIR_INUM r.1 (name.getD []).tail)
          generalize add_dir_entry c r.2 ROOT_DIR_INUM r.1 (name.getD []).tail = a at ha
          split
          · exact key_same _ (open_files_same_trans ha (inode_delete_open_files c a.2 r.1))
          · exact key_add _ _ _ ha (Nat.zero_le _)
      · exact key_same _ hl

/-- What a read or write through handle `k` on inode `i` that leaves the offset of entry `k`
within the size, changes no other entry and shrinks no size, does to the invariant. -/
theorem offsets_within_sizes_step (c : Config) (s s1 : State) (k i : Nat)
    (hin : (s.open_file_table k).of_inumber = (i : Int))
    (hbm : s1.free_open_file_entries = s.free_open_file_entries)
    (hoth : ∀ h, h ≠ k → s1.open_file_table h = s.open_file_table h)
    (hsame : (s1.open_file_table k).of_inumber = (s.open_file_table k).of_inumber)
    (hsz : ∀ j, j ≠ i → (s1.inode_table j).i_size = (s.inode_table j).i_size)
    (hgrow : (s.inode_table i).i_size ≤ (s1.inode_table i).i_size)
    (hk : (s1.open_file_table k).of_offset ≤ (s1.inode_table i).i_size)
    (hinv : offsets_within_sizes c s) : offsets_within_sizes c s1 := by
  intro h hh ht
  by_cases hhk : h = k
  · subst hhk
    rw [hsame, hin, Int.toNat_ofNat]
    exact hk
  · rw [hoth h hhk]
    have := hinv h hh (by rw [← hbm]; exact ht)
    by_cases hj : (s.open_file_table h).of_inumber.toNat = i
    · rw [hj] at this ⊢
      omega
    · rw [hsz _ hj]
      exact this

/-- C21. First-fit block allocation.  For every configuration and state, `get_free_memory` is
`BLOCK_SIZE` times the number of FREE slots of the block bitmap (at most the length of
`fs_data`).  The function `data_block_alloc` returns -1 exactly when no slot is FREE, and then
the state is unchanged; otherwise it returns the smallest index `k` whose slot is FREE, the
new state is the old one with slot `k` TAKEN (every other slot and every byte of `fs_data`
unchanged), and `get_free_memory` has dropped by exactly `BLOCK_SIZE`. -/
theorem data_block_alloc_first_fit (c : Config) (s : State) :
    get_free_memory c s
        = c.BLOCK_SIZE * ((List.range c.DATA_BLOCKS).filter
          (fun j => decide (s.free_blocks j = FREE))).length
      ∧ get_free_memory c s ≤ c.FS_DATA_SIZE
      ∧ ((data_block_alloc c s).1 = -1 ↔ ∀ j, j < c.DATA_BLOCKS → s.free_blocks j ≠ FREE)
      ∧ ((data_block_alloc c s).1 = -1 → (data_block_alloc c s).2 = s)
      ∧ ((data_block_alloc c s).1 ≠ -1 →
        ∃ k : Nat, k < c.DATA_BLOCKS ∧ (data_block_alloc c s).1 = (k : Int)
          ∧ s.free_blocks k = FREE
          ∧ (∀ j, j < k → s.free_blocks j ≠ FREE)
          ∧ (data_block_alloc c s).2 = { s with free_blocks := upd s.free_blocks k TAKEN }
          ∧ (data_block_alloc c s).2.free_blocks k = TAKEN
          ∧ (∀ j, j ≠ k → (data_block_alloc c s).2.free_blocks j = s.free_blocks j)
          ∧ (data_block_alloc c s).2.fs_data = s.fs_data
          ∧ get_free_memory c (data_block_alloc c s).2 + c.BLOCK_SIZE
            = get_free_memory c s) := by
  refine ⟨?_, get_free_memory_le c s, ?_⟩
  · unfold get_free_memory
    rw [get_free_memory_loop_count, List.range_eq_range']
  rcases hff : first_free s.free_blocks c.DATA_BLOCKS 0 with _ | k
  · have he : data_block_alloc c s = (-1, s) := by
      unfold data_block_alloc
      rw [hff]
    rw [he]
    refine ⟨⟨fun _ j hj => first_free_none _ _ _ hff j (Nat.zero_le _) (by omega), fun _ => rfl⟩,
      fun _ => rfl, fun h => absurd rfl h⟩
  · obtain ⟨_, hk2, hk3, hk4⟩ := first_free_some _ _ _ _ hff
    have he : data_block_alloc c s
        = ((k : Int), { s with free_blocks := upd s.free_blocks k TAKEN }) := by
      unfold data_block_alloc
      rw [hff]
    rw [he]
    refine ⟨⟨fun h => ?_, fun h => absurd hk3 (h k (by omega))⟩, fun h => ?_, fun _ => ?_⟩
    · simp only at h
      omega
    · simp only at h
      omega
    · refine ⟨k, by omega, rfl, hk3, fun j hj => hk4 j (Nat.zero_le _) hj, rfl, by simp [upd],
        fun j hj => by simp [upd, hj], rfl, ?_⟩
      exact get_free_memory_loop_alloc c s _ k hk3 rfl _ _ (Nat.zero_le _) (by omega)

/-- C23. Failure of `inode_create`.  For every configuration, state and kind: if no slot of the
block bitmap is FREE, `inode_create` returns -1 and the inode bitmap, the block bitmap, the
bytes of `fs_data`, the open-file table and the marker are as before the call (the inode slot
taken by the call is FREE again); if no slot of the inode bitmap is FREE, it returns -1 and
the whole state is unchanged. -/
theorem inode_create_failure (c : Config) (s : State) (kind : inode_type) :
    ((∀ j, j < c.DATA_BLOCKS → s.free_blocks j ≠ FREE) →
        (inode_create c s kind).1 = -1
          ∧ (inode_create c s kind).2.freeinode_ts = s.freeinode_ts
          ∧ (inode_create c s kind).2.free_blocks = s.free_blocks
          ∧ (inode_create c s kind).2.fs_data = s.fs_data
          ∧ (inode_create c s kind).2.open_file_table = s.open_file_table
          ∧ (inode_create c s kind).2.free_open_file_entries = s.free_open_file_entries
          ∧ (inode_create c s kind).2.undefined_behaviour = s.undefined_behaviour)
      ∧ ((∀ j, j < c.INODE_TABLE_SIZE → s.freeinode_ts j ≠ FREE) →
        inode_create c s kind = (-1, s)) := by
  constructor
  · intro hfull
    have hnone := first_free_full s.free_blocks c.DATA_BLOCKS hfull
    rcases hff : first_free s.freeinode_ts c.INODE_TABLE_SIZE 0 with _ | i
    · unfold inode_create
      rw [inode_create_loop_none c s kind _ _ hff]
      exact ⟨rfl, rfl, rfl, rfl, rfl, rfl, rfl⟩
    · obtain ⟨_, hi2, hi3, _⟩ := first_free_some _ _ _ _ hff
      have hvi : decide (0 ≤ (i : Int) ∧ (i : Int) < (c.INODE_TABLE_SIZE : Int)) = true := by
        simp
        omega
      unfold inode_create
      rw [inode_create_loop_eq c s kind i _ _ hff]
      unfold inode_create_at
      cases kind
      · simp only
        unfold inode_alloc_first_block valid_inumber data_block_alloc
        simp only [hvi, Bool.not_true, Bool.false_eq_true, if_false, set_i_size_free_blocks,
          set_indirection_block_free_blocks, set_number_indirect_blocks_free_blocks,
          set_number_of_blocks_free_blocks, set_i_data_block_free_blocks,
          set_i_node_type_free_blocks, hnone, if_true, Int.toNat_ofNat]
        refine ⟨?_, ?_, ?_, ?_, ?_, ?_, ?_⟩ <;>
          first | trivial | rfl | exact upd_upd_self s.freeinode_ts i TAKEN FREE hi3
      · simp only
        unfold data_block_alloc
        simp only [set_indirection_block_free_blocks, set_number_indirect_blocks_free_blocks,
          set_number_of_blocks_free_blocks, set_i_data_block_free_blocks,
          set_i_node_type_free_blocks, hnone, if_true]
        refine ⟨?_, ?_, ?_, ?_, ?_, ?_, ?_⟩ <;>
          first | trivial | rfl | exact upd_upd_self s.freeinode_ts i TAKEN FREE hi3
  · intro hfull
    unfold inode_create
    exact inode_create_loop_none c s kind _ _ (first_free_full _ _ hfull)

/-- C22. Postcondition of `inode_create`.  For every configuration, state and kind, when some
inode slot and some data block are FREE, `inode_create(kind)` returns the smallest FREE
inumber `i`, marks slot `i` TAKEN and the smallest FREE block `b` TAKEN (no other slot of
either bitmap changes), and leaves inode `i` with the given kind, `number_of_blocks = 1`,
`number_indirect_blocks = 0`, `indirection_block = -1` and the one-entry vector `[b]`; the
size is 0 for a file, and `BLOCK_SIZE` for a directory, every entry of whose block `b` has
inumber -1.  No other inode changes, no byte of `fs_data` changes outside block `b` (none at
all for a file), the open-file table is unchanged and no access is undefined. -/
theorem inode_create_postcondition (c : Config) (s : State) (kind : inode_type)
    (hinode : ∃ j, j < c.INODE_TABLE_SIZE ∧ s.freeinode_ts j = FREE)
    (hblock : ∃ b, b < c.DATA_BLOCKS ∧ s.free_blocks b = FREE) :
    ∃ i b : Nat, i < c.INODE_TABLE_SIZE ∧ b < c.DATA_BLOCKS
      ∧ (inode_create c s kind).1 = (i : Int)
      ∧ s.freeinode_ts i = FREE ∧ (∀ j, j < i → s.freeinode_ts j ≠ FREE)
      ∧ s.free_blocks b = FREE ∧ (∀ j, j < b → s.free_blocks j ≠ FREE)
      ∧ (inode_create c s kind).2.freeinode_ts = upd s.freeinode_ts i TAKEN
      ∧ (inode_create c s kind).2.free_blocks = upd s.free_blocks b TAKEN
      ∧ (inode_create c s kind).2.inode_table i
        = { i_node_type := kind,
            i_size := (match kind with
              | T_FILE => 0
              | T_DIRECTORY => c.BLOCK_SIZE),
            i_data_block := [some (b : Int)], number_of_blocks := 1,
            indirection_block := -1, number_indirect_blocks := 0 }
      ∧ (∀ j, j ≠ i → (inode_create c s kind).2.inode_table j = s.inode_table j)
      ∧ (kind = T_FILE → (inode_create c s kind).2.fs_data = s.fs_data)
      ∧ (kind = T_DIRECTORY →
          ∀ k, k < c.MAX_DIR_ENTRIES →
            read_int (inode_create c s kind).2.fs_data
              (b * c.BLOCK_SIZE + k * c.SIZEOF_DIR_ENTRY + c.D_INUMBER_OFFSET) = -1)
      ∧ (∀ a, a < b * c.BLOCK_SIZE ∨ (b + 1) * c.BLOCK_SIZE ≤ a →
          (inode_create c s kind).2.fs_data a = s.fs_data a)
      ∧ (inode_create c s kind).2.open_file_table = s.open_file_table
      ∧ (inode_create c s kind).2.free_open_file_entries = s.free_open_file_entries
      ∧ (inode_create c s kind).2.undefined_behaviour = s.undefined_behaviour := by
  obtain ⟨j, hj1, hj2⟩ := hinode
  obtain ⟨i, hi, hilt, hifree, himin⟩ := first_free_exists s.freeinode_ts _ j hj1 hj2
  obtain ⟨b0, hb01, hb02⟩ := hblock
  obtain ⟨b, hb, hblt, hbfree, hbmin⟩ := first_free_exists s.free_blocks _ b0 hb01 hb02
  refine ⟨i, b, hilt, hblt, ?_⟩
  cases kind
  · rw [inode_create_file c s i b hi hb]
    refine ⟨rfl, hifree, himin, hbfree, hbmin, rfl, rfl, ?_, ?_, ?_, ?_, ?_, rfl, rfl, rfl⟩
    · simp [upd]
    · intro j hj
      simp [upd, hj]
    · intro _
      rfl
    · intro h
      cases h
    · intro a _
      rfl
  · rw [inode_create_directory c s i b hi hb]
    have hbound : b * c.BLOCK_SIZE + (0 + c.MAX_DIR_ENTRIES) * c.SIZEOF_DIR_ENTRY
        ≤ c.FS_DATA_SIZE := by
      have h1 : c.MAX_DIR_ENTRIES * c.SIZEOF_DIR_ENTRY ≤ c.BLOCK_SIZE := Nat.div_mul_le_self _ _
      have h2 : (b + 1) * c.BLOCK_SIZE ≤ c.DATA_BLOCKS * c.BLOCK_SIZE :=
        Nat.mul_le_mul_right _ hblt
      have h3 : c.FS_DATA_SIZE = c.DATA_BLOCKS * c.BLOCK_SIZE := Nat.mul_comm _ _
      rw [Nat.succ_mul] at h2
      rw [Nat.zero_add]
      omega
    obtain ⟨e1, e2, e3, e4, e5, e6, e7, e8⟩ :=
      inode_create_dir_loop_spec c (b * c.BLOCK_SIZE) c.MAX_DIR_ENTRIES 0 _ hbound
    simp only
    rw [e1, e2, e3, e4, e5, e6]
    refine ⟨trivial, hifree, himin, hbfree, hbmin, rfl, rfl, ?_, ?_, ?_, ?_, ?_, rfl, rfl, rfl⟩
    · simp [upd]
    · intro j hj
      simp [upd, hj]
    · intro h
      cases h
    · intro _ k hk
      exact e7 k (Nat.zero_le _) (by omega)
    · intro a ha
      apply e8
      have h1 : c.MAX_DIR_ENTRIES * c.SIZEOF_DIR_ENTRY ≤ c.BLOCK_SIZE := Nat.div_mul_le_self _ _
      rw [Nat.succ_mul] at ha
      rw [Nat.zero_add, Nat.zero_mul]
      omega

set_option maxRecDepth 1000000 in
/-- Witness of C22: with 1024-byte blocks, `inode_create(T_DIRECTORY)` in the state after
`tfs_init` and `tfs_open("/f1", TFS_O_CREAT)`, where inode 2 and block 2 are FREE. -/
theorem inode_create_postcondition_witness :
    (∃ j, j < example_config.INODE_TABLE_SIZE
        ∧ (state_created example_config).freeinode_ts j = FREE)
      ∧ (∃ b, b < example_config.DATA_BLOCKS
        ∧ (state_created example_config).free_blocks b = FREE)
      ∧ (∃ i b : Nat, i < example_config.INODE_TABLE_SIZE ∧ b < example_config.DATA_BLOCKS
      ∧ (inode_create example_config (state_created example_config) T_DIRECTORY).1 = (i : Int)
      ∧ (state_created example_config).freeinode_ts i = FREE ∧ (∀ j, j < i → (state_created example_config).freeinode_ts j ≠ FREE)
      ∧ (state_created example_config).free_blocks b = FREE ∧ (∀ j, j < b → (state_created example_config).free_blocks j ≠ FREE)
      ∧ (inode_create example_config (state_created example_config) T_DIRECTORY).2.freeinode_ts = upd (state_created example_config).freeinode_ts i TAKEN
      ∧ (inode_create example_config (state_created example_config) T_DIRECTORY).2.free_blocks = upd (state_created example_config).free_blocks b TAKEN
      ∧ (inode_create example_config (state_created example_config) T_DIRECTORY).2.inode_table i
        = { i_node_type := T_DIRECTORY,
            i_size := (match T_DIRECTORY with
              | T_FILE => 0
              | T_DIRECTORY => example_config.BLOCK_SIZE),
            i_data_block := [some (b : Int)], number_of_blocks := 1,
            indirection_block := -1, number_indirect_blocks := 0 }
      ∧ (∀ j, j ≠ i → (inode_create example_config (state_created example_config) T_DIRECTORY).2.inode_table j = (state_created example_config).inode_table j)
      ∧ (T_DIRECTORY = T_FILE → (inode_create example_config (state_created example_config) T_DIRECTORY).2.fs_data = (state_created example_config).fs_data)
      ∧ (T_DIRECTORY = T_DIRECTORY →
          ∀ k, k < example_config.MAX_DIR_ENTRIES →
            read_int (inode_create example_config (state_created example_config) T_DIRECTORY).2.fs_data
              (b * example_config.BLOCK_SIZE + k * example_config.SIZEOF_DIR_ENTRY + example_config.D_INUMBER_OFFSET) = -1)
      ∧ (∀ a, a < b * example_config.BLOCK_SIZE ∨ (b + 1) * example_config.BLOCK_SIZE ≤ a →
          (inode_create example_config (state_created example_config) T_DIRECTORY).2.fs_data a = (state_created example_config).fs_data a)
      ∧ (inode_create example_config (state_created example_config) T_DIRECTORY).2.open_file_table = (state_created example_config).open_file_table
      ∧ (inode_create example_config (state_created example_config) T_DIRECTORY).2.free_open_file_entries = (state_created example_config).free_open_file_entries
      ∧ (inode_create example_config (state_created example_config) T_DIRECTORY).2.undefined_behaviour = (state_created example_config).undefined_behaviour) :=
  ⟨⟨2, by decide, by decide!⟩, ⟨2, by decide, by decide!⟩,
    inode_create_postcondition example_config (state_created example_config) T_DIRECTORY
      ⟨2, by decide, by decide!⟩ ⟨2, by decide, by decide!⟩⟩

/-- C25. The function `add_dir_entry`.  Let the first slot of inode `dir` hold a block `rb` of
the pool, `MAX_FILE_NAME >= 1` and inumbers fit an `int`.  Then `add_dir_entry(dir, child,
name)` returns 0 or -1, and it returns 0 exactly when both inumbers are in
`[0, INODE_TABLE_SIZE)`, inode `dir` is of directory kind, the name is not empty and some
entry of block `rb` has inumber -1.  When it returns -1 the state is unchanged.  When it
returns 0, the lowest-indexed entry `k0` whose inumber was -1 holds `child`, the first
`MAX_FILE_NAME - 1` bytes of the name (padded with zeros) and a terminator in its last name
byte; no byte outside entry `k0` and nothing else in the state changes, and no access is
undefined. -/
theorem add_dir_entry_spec (c : Config) (s : State) (dir child : Int) (name : List Nat)
    (rb : Nat) (hM : 1 ≤ c.MAX_FILE_NAME) (hN : c.INODE_TABLE_SIZE ≤ 2147483648)
    (hrb : (s.inode_table dir.toNat).i_data_block.getD 0 none = some (rb : Int))
    (hrbv : rb < c.DATA_BLOCKS) :
    ((add_dir_entry c s dir child name).1 = 0 ∨ (add_dir_entry c s dir child name).1 = -1)
      ∧ ((add_dir_entry c s dir child name).1 = 0 ↔
          (0 ≤ dir ∧ dir < (c.INODE_TABLE_SIZE : Int))
            ∧ (0 ≤ child ∧ child < (c.INODE_TABLE_SIZE : Int))
            ∧ (s.inode_table dir.toNat).i_node_type = T_DIRECTORY ∧ strlen name ≠ 0
            ∧ ∃ k, k < c.MAX_DIR_ENTRIES
              ∧ read_int s.fs_data
                  (rb * c.BLOCK_SIZE + k * c.SIZEOF_DIR_ENTRY + c.D_INUMBER_OFFSET) = -1)
      ∧ ((add_dir_entry c s dir child name).1 = -1 → (add_dir_entry c s dir child name).2 = s)
      ∧ ((add_dir_entry c s dir child name).1 = 0 →
          ∃ k0, k0 < c.MAX_DIR_ENTRIES
            ∧ read_int s.fs_data
                (rb * c.BLOCK_SIZE + k0 * c.SIZEOF_DIR_ENTRY + c.D_INUMBER_OFFSET) = -1
            ∧ (∀ k, k < k0 →
                read_int s.fs_data
                  (rb * c.BLOCK_SIZE + k * c.SIZEOF_DIR_ENTRY + c.D_INUMBER_OFFSET) ≠ -1)
            ∧ read_int (add_dir_entry c s dir child name).2.fs_data
                (rb * c.BLOCK_SIZE + k0 * c.SIZEOF_DIR_ENTRY + c.D_INUMBER_OFFSET) = child
            ∧ (∀ j, j < c.MAX_FILE_NAME - 1 →
                (add_dir_entry c s dir child name).2.fs_data
                  (rb * c.BLOCK_SIZE + k0 * c.SIZEOF_DIR_ENTRY + j) = char_at name j)
            ∧ (add_dir_entry c s dir child name).2.fs_data
                (rb * c.BLOCK_SIZE + k0 * c.SIZEOF_DIR_ENTRY + (c.MAX_FILE_NAME - 1)) = 0
            ∧ (∀ a, a < rb * c.BLOCK_SIZE + k0 * c.SIZEOF_DIR_ENTRY
                ∨ rb * c.BLOCK_SIZE + k0 * c.SIZEOF_DIR_ENTRY + c.SIZEOF_DIR_ENTRY ≤ a →
                (add_dir_entry c s dir child name).2.fs_data a = s.fs_data a)
            ∧ (add_dir_entry c s dir child name).2.inode_table = s.inode_table
            ∧ (add_dir_entry c s dir child name).2.freeinode_ts = s.freeinode_ts
            ∧ (add_dir_entry c s dir child name).2.free_blocks = s.free_blocks
            ∧ (add_dir_entry c s dir child name).2.open_file_table = s.open_file_table
            ∧ (add_dir_entry c s dir child name).2.free_open_file_entries
              = s.free_open_file_entries
            ∧ (add_dir_entry c s dir child name).2.undefined_behaviour
              = s.undefined_behaviour) := by
  rw [add_dir_entry_eq c s dir child name rb hrb hrbv]
  by_cases hc : (0 ≤ dir ∧ dir < (c.INODE_TABLE_SIZE : Int))
      ∧ (0 ≤ child ∧ child < (c.INODE_TABLE_SIZE : Int))
      ∧ (s.inode_table dir.toNat).i_node_type = T_DIRECTORY ∧ strlen name ≠ 0
  · rw [if_pos hc]
    by_cases hex : ∃ k, k < c.MAX_DIR_ENTRIES
        ∧ read_int s.fs_data
            (rb * c.BLOCK_SIZE + k * c.SIZEOF_DIR_ENTRY + c.D_INUMBER_OFFSET) = -1
    · have hk0 := Nat.find_spec hex
      have hkmin : ∀ k, k < Nat.find hex →
          read_int s.fs_data
            (rb * c.BLOCK_SIZE + k * c.SIZEOF_DIR_ENTRY + c.D_INUMBER_OFFSET) ≠ -1 := by
        intro k hk hcon
        exact Nat.find_min hex hk ⟨by omega, hcon⟩
      generalize Nat.find hex = k0 at hk0 hkmin
      obtain ⟨hk0lt, hk0free⟩ := hk0
      rw [add_dir_entry_loop_first c s _ child name k0 hk0free _ _ (Nat.zero_le _) (by omega)
        (fun k _ hk => hkmin k hk)]
      obtain ⟨a1, a2, a3, a4, a5, a6, a7, a8, _, a10⟩ :=
        add_dir_entry_at c s (rb * c.BLOCK_SIZE) child name k0 hM hk0free
      obtain ⟨n1, n2⟩ := add_dir_entry_at_name c s (rb * c.BLOCK_SIZE) child name k0 hk0free
      have hbound : rb * c.BLOCK_SIZE + k0 * c.SIZEOF_DIR_ENTRY + c.SIZEOF_DIR_ENTRY
          ≤ c.FS_DATA_SIZE := by
        have e1 : (k0 + 1) * c.SIZEOF_DIR_ENTRY ≤ c.MAX_DIR_ENTRIES * c.SIZEOF_DIR_ENTRY :=
          Nat.mul_le_mul_right _ hk0lt
        have e2 : c.MAX_DIR_ENTRIES * c.SIZEOF_DIR_ENTRY ≤ c.BLOCK_SIZE :=
          Nat.div_mul_le_self _ _
        have e3 : (rb + 1) * c.BLOCK_SIZE ≤ c.DATA_BLOCKS * c.BLOCK_SIZE :=
          Nat.mul_le_mul_right _ hrbv
        have e4 : c.FS_DATA_SIZE = c.DATA_BLOCKS * c.BLOCK_SIZE := Nat.mul_comm _ _
        rw [Nat.succ_mul] at e1 e3
        omega
      refine ⟨Or.inl a1, ⟨fun _ => ⟨hc.1, hc.2.1, hc.2.2.1, hc.2.2.2, hex⟩, fun _ => a1⟩,
        fun h => ?_, fun _ => ?_⟩
      · rw [a1] at h
        exact absurd h (by decide)
      · exact ⟨k0, hk0lt, hk0free, hkmin, a8 (by omega) (by omega), n1, n2, a7, a2, a3, a4,
          a5, a6, a10 hbound⟩
    · have hfull : ∀ k, 0 ≤ k → k < 0 + c.MAX_DIR_ENTRIES →
          read_int s.fs_data
            (rb * c.BLOCK_SIZE + k * c.SIZEOF_DIR_ENTRY + c.D_INUMBER_OFFSET) ≠ -1 := by
        intro k _ hk hcon
        exact hex ⟨k, by omega, hcon⟩
      rw [add_dir_entry_loop_full c s _ child name _ _ hfull]
      refine ⟨Or.inr rfl, ⟨fun h => ?_, fun h => absurd h.2.2.2.2 hex⟩, fun _ => rfl,
        fun h => ?_⟩
      · simp at h
      · simp at h
  · rw [if_neg hc]
    refine ⟨Or.inr rfl, ⟨fun h => ?_, fun h => absurd ⟨h.1, h.2.1, h.2.2.1, h.2.2.2.1⟩ hc⟩,
      fun _ => rfl, fun h => ?_⟩
    · simp at h
    · simp at h

set_option maxRecDepth 1000000 in
/-- Witness of C25: with 1024-byte blocks, in the state after `tfs_init` and
`tfs_open("/f1", TFS_O_CREAT)`, the call `add_dir_entry(0, 2, "f2")` on the root directory,
whose block is block 0. -/
theorem add_dir_entry_spec_witness :
    1 ≤ example_config.MAX_FILE_NAME
      ∧ example_config.INODE_TABLE_SIZE ≤ 2147483648
      ∧ ((state_created example_config).inode_table (0 : Int).toNat).i_data_block.getD 0 none
        = some ((0 : Nat) : Int)
      ∧ 0 < example_config.DATA_BLOCKS
      ∧ ((add_dir_entry example_config (state_created example_config) 0 2 [102, 50]).1 = 0
        ∨ (add_dir_entry example_config (state_created example_config) 0 2 [102, 50]).1 = -1)
      ∧ ((add_dir_entry example_config (state_created example_config) 0 2 [102, 50]).1 = 0 ↔
          (0 ≤ (0 : Int) ∧ (0 : Int) < (example_config.INODE_TABLE_SIZE : Int))
            ∧ (0 ≤ (2 : Int) ∧ (2 : Int) < (example_config.INODE_TABLE_SIZE : Int))
            ∧ ((state_created example_config).inode_table (0 : Int).toNat).i_node_type
              = T_DIRECTORY
            ∧ strlen [102, 50] ≠ 0
            ∧ ∃ k, k < example_config.MAX_DIR_ENTRIES
              ∧ read_int (state_created example_config).fs_data
                  (0 * example_config.BLOCK_SIZE + k * example_config.SIZEOF_DIR_ENTRY
                    + example_config.D_INUMBER_OFFSET) = -1) :=
  ⟨by decide, by decide, by decide!, by decide,
    (add_dir_entry_spec example_config (state_created example_config) 0 2 [102, 50] 0
      (by decide) (by decide) (by decide!) (by decide)).1,
    (add_dir_entry_spec example_config (state_created example_config) 0 2 [102, 50] 0
      (by decide) (by decide) (by decide!) (by decide)).2.1⟩

/-- C26. Directory lookup.  Let the first slot of inode `dir` hold a block `rb` of the pool.
The function `find_in_dir(dir, name)` never changes the state.  It returns -1 when `dir` is
not a valid inumber of a directory.  Otherwise it returns the inumber of the lowest-indexed
entry of block `rb` that is in use (inumber other than -1) and whose name matches (`strncmp`
over `MAX_FILE_NAME` bytes), and it returns -1 when no entry in use matches.  Round trip: for
a name of at most `MAX_FILE_NAME - 1` bytes that no entry in use carries, after
`add_dir_entry(dir, child, name)` has returned 0, `find_in_dir(dir, name)` returns
`child`. -/
theorem find_in_dir_round_trip (c : Config) (s : State) (dir : Int) (name : List Nat)
    (rb : Nat) (hrb : (s.inode_table dir.toNat).i_data_block.getD 0 none = some (rb : Int))
    (hrbv : rb < c.DATA_BLOCKS) :
    (find_in_dir c s dir name).2 = s
      ∧ (¬ ((0 ≤ dir ∧ dir < (c.INODE_TABLE_SIZE : Int))
            ∧ (s.inode_table dir.toNat).i_node_type = T_DIRECTORY) →
          (find_in_dir c s dir name).1 = -1)
      ∧ ((0 ≤ dir ∧ dir < (c.INODE_TABLE_SIZE : Int))
            ∧ (s.inode_table dir.toNat).i_node_type = T_DIRECTORY →
          (∀ k0, k0 < c.MAX_DIR_ENTRIES →
            read_int s.fs_data
                (rb * c.BLOCK_SIZE + k0 * c.SIZEOF_DIR_ENTRY + c.D_INUMBER_OFFSET) ≠ -1 →
            strncmp_eq s.fs_data (rb * c.BLOCK_SIZE + k0 * c.SIZEOF_DIR_ENTRY) name
                c.MAX_FILE_NAME 0 = true →
            (∀ k, k < k0 →
              ¬ (read_int s.fs_data
                    (rb * c.BLOCK_SIZE + k * c.SIZEOF_DIR_ENTRY + c.D_INUMBER_OFFSET) ≠ -1
                ∧ strncmp_eq s.fs_data (rb * c.BLOCK_SIZE + k * c.SIZEOF_DIR_ENTRY) name
                    c.MAX_FILE_NAME 0 = true)) →
            (find_in_dir c s dir name).1
              = read_int s.fs_data
                  (rb * c.BLOCK_SIZE + k0 * c.SIZEOF_DIR_ENTRY + c.D_INUMBER_OFFSET))
          ∧ ((∀ k, k < c.MAX_DIR_ENTRIES →
              ¬ (read_int s.fs_data
                    (rb * c.BLOCK_SIZE + k * c.SIZEOF_DIR_ENTRY + c.D_INUMBER_OFFSET) ≠ -1
                ∧ strncmp_eq s.fs_data (rb * c.BLOCK_SIZE + k * c.SIZEOF_DIR_ENTRY) name
                    c.MAX_FILE_NAME 0 = true)) ↔
            (find_in_dir c s dir name).1 = -1))
      ∧ (∀ child : Int, strlen name + 1 ≤ c.MAX_FILE_NAME →
          c.INODE_TABLE_SIZE ≤ 2147483648 →
          (∀ k, k < c.MAX_DIR_ENTRIES →
            ¬ (read_int s.fs_data
                  (rb * c.BLOCK_SIZE + k * c.SIZEOF_DIR_ENTRY + c.D_INUMBER_OFFSET) ≠ -1
              ∧ strncmp_eq s.fs_data (rb * c.BLOCK_SIZE + k * c.SIZEOF_DIR_ENTRY) name
                  c.MAX_FILE_NAME 0 = true)) →
          (add_dir_entry c s dir child name).1 = 0 →
          find_in_dir c (add_dir_entry c s dir child name).2 dir name
            = (child, (add_dir_entry c s dir child name).2)) := by
  rw [find_in_dir_eq c s dir name rb hrb hrbv]
  refine ⟨?_, ?_, ?_, ?_⟩
  · split <;> rfl
  · intro h
    rw [if_neg h]
  · intro h
    rw [if_pos h]
    refine ⟨?_, ?_, ?_⟩
    · intro k0 hk0 hlive hmatch hno
      exact find_in_dir_loop_first c s _ name k0 _ _ (Nat.zero_le _) (by omega)
        (fun k _ hk => hno k hk) hlive hmatch
    · intro hno
      by_contra hne
      simp only at hne
      -- a result other than -1 would come from a matching entry
      have hfind : ∀ (n i : Nat),
          (∀ k, i ≤ k → k < i + n →
            ¬ (read_int s.fs_data
                  (rb * c.BLOCK_SIZE + k * c.SIZEOF_DIR_ENTRY + c.D_INUMBER_OFFSET) ≠ -1
              ∧ strncmp_eq s.fs_data (rb * c.BLOCK_SIZE + k * c.SIZEOF_DIR_ENTRY) name
                  c.MAX_FILE_NAME 0 = true)) →
          find_in_dir_loop c s (rb * c.BLOCK_SIZE) name n i = -1 := by
        intro n
        induction n with
        | zero => intro i _; rfl
        | succ n ih =>
          intro i hh
          unfold find_in_dir_loop
          simp only
          rw [if_neg (hh i (Nat.le_refl _) (by omega))]
          exact ih (i + 1) (fun k h1 h2 => hh k (by omega) (by omega))
      exact hne (hfind _ _ (fun k _ hk => hno k (by omega)))
    · intro hres k hk
      exact find_in_dir_loop_none c s _ name _ _ hres k (Nat.zero_le _) (by omega)
  · intro child hlen hN hno hadd
    rw [add_dir_entry_eq c s dir child name rb hrb hrbv] at hadd ⊢
    by_cases hc : (0 ≤ dir ∧ dir < (c.INODE_TABLE_SIZE : Int))
        ∧ (0 ≤ child ∧ child < (c.INODE_TABLE_SIZE : Int))
        ∧ (s.inode_table dir.toNat).i_node_type = T_DIRECTORY ∧ strlen name ≠ 0
    · rw [if_pos hc] at hadd ⊢
      by_cases hex : ∃ k, k < c.MAX_DIR_ENTRIES
          ∧ read_int s.fs_data
              (rb * c.BLOCK_SIZE + k * c.SIZEOF_DIR_ENTRY + c.D_INUMBER_OFFSET) = -1
      · have hk0 := Nat.find_spec hex
        have hkmin : ∀ k, k < Nat.find hex →
            read_int s.fs_data
              (rb * c.BLOCK_SIZE + k * c.SIZEOF_DIR_ENTRY + c.D_INUMBER_OFFSET) ≠ -1 := by
          intro k hk hcon
          exact Nat.find_min hex hk ⟨by omega, hcon⟩
        generalize Nat.find hex = k0 at hk0 hkmin
        obtain ⟨hk0lt, hk0free⟩ := hk0
        have hfirst := add_dir_entry_loop_first c s (rb * c.BLOCK_SIZE) child name k0 hk0free
          _ _ (Nat.zero_le _) (by omega : k0 < 0 + c.MAX_DIR_ENTRIES) (fun k _ hk => hkmin k hk)
        rw [hfirst]
        have hloop := find_in_dir_loop_after_add c s (rb * c.BLOCK_SIZE) child name k0 hk0lt
          hlen hc.2.1.1 (by omega) hk0free (fun k hk => hno k (by omega))
        obtain ⟨_, a2, _, _, _, _, _, _, _, _⟩ :=
          add_dir_entry_at c s (rb * c.BLOCK_SIZE) child name k0 (by omega) hk0free
        rw [find_in_dir_eq c _ dir name rb (by rw [a2]; exact hrb) hrbv, a2,
          if_pos ⟨hc.1, hc.2.2.1⟩, hloop]
      · exfalso
        have hfull : ∀ k, 0 ≤ k → k < 0 + c.MAX_DIR_ENTRIES →
            read_int s.fs_data
              (rb * c.BLOCK_SIZE + k * c.SIZEOF_DIR_ENTRY + c.D_INUMBER_OFFSET) ≠ -1 := by
          intro k _ hk hcon
          exact hex ⟨k, by omega, hcon⟩
        rw [add_dir_entry_loop_full c s _ child name _ _ hfull] at hadd
        simp at hadd
    · rw [if_neg hc] at hadd
      simp at hadd

set_option maxRecDepth 1000000 in
/-- Witness of C26: with 1024-byte blocks, in the state after `tfs_init` and
`tfs_open("/f1", TFS_O_CREAT)`, the name "f2" is added to the root directory with inumber 2
and then found. -/
theorem find_in_dir_round_trip_witness :
    ((state_created example_config).inode_table (0 : Int).toNat).i_data_block.getD 0 none
        = some ((0 : Nat) : Int)
      ∧ 0 < example_config.DATA_BLOCKS
      ∧ (find_in_dir example_config (state_created example_config) 0 [102, 50]).2
        = state_created example_config
      ∧ (add_dir_entry example_config (state_created example_config) 0 2 [102, 50]).1 = 0
      ∧ find_in_dir example_config
          (add_dir_entry example_config (state_created example_config) 0 2 [102, 50]).2 0
          [102, 50]
        = (2, (add_dir_entry example_config (state_created example_config) 0 2 [102, 50]).2) :=
  ⟨by decide!, by decide,
    (find_in_dir_round_trip example_config (state_created example_config) 0 [102, 50] 0
      (by decide!) (by decide)).1,
    by decide!,
    (find_in_dir_round_trip example_config (state_created example_config) 0 [102, 50] 0
      (by decide!) (by decide)).2.2.2 2 (by decide) (by decide) (by decide!) (by decide!)⟩

/-- The calls that keep the offset invariant in every state.  In every configuration with `BLOCK_SIZE > 0` and every state:
`tfs_close` keeps the invariant "every TAKEN entry has offset at most the size of its inode";
`tfs_read` and `tfs_write` return, keep the invariant, and, whether or not it held before,
leave the entry of a valid handle with a valid inumber with offset at most the size;
every entry that `tfs_open` opens (with any flags) has offset at most the size; and
`tfs_open` of an existing file with the TRUNC bit clear keeps the invariant. -/
theorem offsets_within_sizes_kept (c : Config) (hB : 0 < c.BLOCK_SIZE) (s : State) :
    (∀ fh : Int, offsets_within_sizes c s → offsets_within_sizes c (tfs_close c s fh).2)
      ∧ (∀ (fh : Int) (buf : Nat → Nat) (n : Nat), ∃ r s1 out,
          tfs_read c s fh buf n = some (r, s1, out)
            ∧ (offsets_within_sizes c s → offsets_within_sizes c s1)
            ∧ (0 ≤ fh → fh < (c.MAX_OPEN_FILES : Int) →
                inode_get c (s.open_file_table fh.toNat).of_inumber ≠ none →
                (s1.open_file_table fh.toNat).of_offset
                  ≤ (s1.inode_table (s1.open_file_table fh.toNat).of_inumber.toNat).i_size))
      ∧ (∀ (fh : Int) (buf : Nat → Nat) (n : Nat), ∃ r s1,
          tfs_write c s fh buf n = some (r, s1)
            ∧ (offsets_within_sizes c s → offsets_within_sizes c s1)
            ∧ (0 ≤ fh → fh < (c.MAX_OPEN_FILES : Int) →
                inode_get c (s.open_file_table fh.toNat).of_inumber ≠ none →
                (s1.open_file_table fh.toNat).of_offset
                  ≤ (s1.inode_table (s1.open_file_table fh.toNat).of_inumber.toNat).i_size))
      ∧ (∀ (name : Option (List Nat)) (flags h : Nat),
          s.free_open_file_entries h = FREE →
          (tfs_open c s name flags).2.free_open_file_entries h = TAKEN →
          ((tfs_open c s name flags).2.open_file_table h).of_offset
            ≤ ((tfs_open c s name flags).2.inode_table
                ((tfs_open c s name flags).2.open_file_table h).of_inumber.toNat).i_size)
      ∧ (∀ (name : Option (List Nat)) (flags : Nat),
          0 ≤ (tfs_lookup c s name).1 → flags &&& TFS_O_TRUNC = 0 →
          offsets_within_sizes c s → offsets_within_sizes c (tfs_open c s name flags).2) := by
  refine ⟨?_, ?_, ?_, ?_, ?_⟩
  · intro fh hinv h hh ht
    unfold tfs_close remove_from_open_file_table at ht ⊢
    split at ht
    · rename_i hc
      rw [if_pos hc]
      exact hinv h hh ht
    · rename_i hc
      rw [if_neg hc]
      simp only at ht ⊢
      apply hinv h hh
      unfold upd at ht
      split at ht
      · exact absurd ht (by decide)
      · exact ht
  · intro fh buf n
    by_cases hv : 0 ≤ fh ∧ fh < (c.MAX_OPEN_FILES : Int)
    · obtain ⟨k, hk⟩ : ∃ k : Nat, fh = (k : Int) := ⟨fh.toNat, (Int.toNat_of_nonneg hv.1).symm⟩
      subst hk
      have hklt : k < c.MAX_OPEN_FILES := by omega
      rcases hg : inode_get c (s.open_file_table k).of_inumber with _ | i
      · refine ⟨-1, s, buf, ?_, fun hh => hh, ?_⟩
        · unfold tfs_read get_open_file_entry valid_file_handle
          simp [hklt, hg]
        · intro _ _ hne
          simp only [Int.toNat_ofNat] at hne
          exact absurd hg hne
      · have hi : (s.open_file_table k).of_inumber = (i : Int) ∧ i < c.INODE_TABLE_SIZE := by
          unfold inode_get valid_inumber at hg
          split at hg
          · exact absurd hg (by simp)
          · rename_i hc
            simp only [Option.some.injEq] at hg
            simp at hc
            omega
        obtain ⟨r, s1, out, e1, e2, e3⟩ := inode_read_offset_le c hB s k i buf n
        refine ⟨r, s1, out, ?_, ?_, ?_⟩
        · rw [tfs_read_eq c s k i buf n hklt hi.1 hi.2]
          exact e1
        · exact offsets_within_sizes_step c s s1 k i hi.1 e2.2.2.2.2.1 e2.2.2.2.2.2.1
            e2.2.2.2.2.2.2 (fun j _ => by rw [e2.1]) (by rw [e2.1]) e3
        · intro _ _ _
          simp only [Int.toNat_ofNat]
          rw [e2.2.2.2.2.2.2, hi.1, Int.toNat_ofNat]
          exact e3
    · refine ⟨-1, s, buf, ?_, fun hh => hh, fun h1 h2 => absurd ⟨h1, h2⟩ hv⟩
      unfold tfs_read get_open_file_entry valid_file_handle
      simp [hv]
  · intro fh buf n
    by_cases hv : 0 ≤ fh ∧ fh < (c.MAX_OPEN_FILES : Int)
    · obtain ⟨k, hk⟩ : ∃ k : Nat, fh = (k : Int) := ⟨fh.toNat, (Int.toNat_of_nonneg hv.1).symm⟩
      subst hk
      have hklt : k < c.MAX_OPEN_FILES := by omega
      rcases hg : inode_get c (s.open_file_table k).of_inumber with _ | i
      · refine ⟨-1, s, ?_, fun hh => hh, ?_⟩
        · unfold tfs_write get_open_file_entry valid_file_handle
          simp [hklt, hg]
        · intro _ _ hne
          simp only [Int.toNat_ofNat] at hne
          exact absurd hg hne
      · have hi : (s.open_file_table k).of_inumber = (i : Int) ∧ i < c.INODE_TABLE_SIZE := by
          unfold inode_get valid_inumber at hg
          split at hg
          · exact absurd hg (by simp)
          · rename_i hc
            simp only [Option.some.injEq] at hg
            simp at hc
            omega
        obtain ⟨r, s1, e1, e2, _⟩ := inode_write_spec c hB s k i buf n
        obtain ⟨e3, e4⟩ := inode_write_offset_le c s k i buf n r s1 e1
        refine ⟨r, s1, ?_, ?_, ?_⟩
        · rw [tfs_write_eq c s k i buf n hklt hi.1 hi.2]
          exact e1
        · exact offsets_within_sizes_step c s s1 k i hi.1 e2.1 e2.2.2.1 e2.2.2.2.1
            e2.2.2.2.2.2 e4 e3
        · intro _ _ _
          simp only [Int.toNat_ofNat]
          rw [e2.2.2.2.1, hi.1, Int.toNat_ofNat]
          exact e3
    · refine ⟨-1, s, ?_, fun hh => hh, fun h1 h2 => absurd ⟨h1, h2⟩ hv⟩
      unfold tfs_write get_open_file_entry valid_file_handle
      simp [hv]
  · intro name flags h h0 h1
    exact tfs_open_new_entry c s name flags h h0 h1
  · intro name flags hex ht hinv h hh hT
    by_cases h0 : s.free_open_file_entries h = FREE
    · exact tfs_open_new_entry c s name flags h h0 hT
    · have hTs : s.free_open_file_entries h = TAKEN := by
        cases hb : s.free_open_file_entries h
        · exact absurd hb h0
        · rfl
      rw [tfs_open_existing_eq c s name flags hex ht]
      rcases inode_get c (tfs_lookup c s name).1 with _ | i
      · exact hinv h hh hTs
      · simp only
        rcases add_to_open_file_table_spec c s (tfs_lookup c s name).1
            (if flags &&& TFS_O_APPEND ≠ 0 then (s.inode_table i).i_size else 0)
          with ⟨_, e2, _⟩ | ⟨k, _, e2, _, e4⟩
        · rw [e2]
          exact hinv h hh hTs
        · rw [e4]
          simp only
          have hk : h ≠ k := by
            intro hc
            rw [hc, e2] at hTs
            exact absurd hTs (by decide)
          rw [upd_other _ _ hk]
          exact hinv h hh hTs

set_option maxRecDepth 1000000 in
/-- An instance of `offsets_within_sizes_kept`: with 1024-byte blocks, in the state in which entry 0 has offset
10240 and its inode has size 0 (after the truncation through a second handle), a `tfs_read`
of one byte through handle 0 returns and leaves the offset of entry 0 within the size. -/
theorem offsets_within_sizes_kept_witness :
    0 < example_config.BLOCK_SIZE
      ∧ ∃ r s1 out,
          tfs_read example_config
              (tfs_open example_config
                (after_write example_config (state_created example_config) 0 pattern 10240)
                path_f1 TFS_O_TRUNC).2 0 (fun _ => 0) 1 = some (r, s1, out)
            ∧ (offsets_within_sizes example_config
                (tfs_open example_config
                  (after_write example_config (state_created example_config) 0 pattern 10240)
                  path_f1 TFS_O_TRUNC).2 → offsets_within_sizes example_config s1)
            ∧ (0 ≤ (0 : Int) → (0 : Int) < (example_config.MAX_OPEN_FILES : Int) →
                inode_get example_config
                  ((tfs_open example_config
                    (after_write example_config (state_created example_config) 0 pattern 10240)
                    path_f1 TFS_O_TRUNC).2.open_file_table (0 : Int).toNat).of_inumber ≠ none →
                (s1.open_file_table (0 : Int).toNat).of_offset
                  ≤ (s1.inode_table (s1.open_file_table (0 : Int).toNat).of_inumber.toNat
                    ).i_size) :=
  ⟨by decide,
    (offsets_within_sizes_kept example_config (by decide)
      (tfs_open example_config
        (after_write example_config (state_created example_config) 0 pattern 10240)
        path_f1 TFS_O_TRUNC).2).2.1 0 (fun _ => 0) 1⟩

set_option maxRecDepth 1000000 in
/-- C29 fails in the code.  With 1024-byte blocks, after `tfs_init`,
`tfs_open("/f1", TFS_O_CREAT) = 0` and a `tfs_write` of 10240 bytes through handle 0, every
TAKEN entry has offset at most the size of its inode and no access has been undefined.  The
call `tfs_open("/f1", TFS_O_TRUNC)` returns handle 1 with no undefined access and sets the
size of inode 1 to 0, while slot 0 is still TAKEN and entry 0 still has inumber 1 and offset
10240: at the return of the call the offset of a TAKEN entry exceeds the size of its inode. -/
theorem truncate_leaves_offset_past_size :
    (tfs_write example_config (state_created example_config) 0 pattern 10240).map
        (fun r => r.1) = some 10240
      ∧ offsets_within_sizes example_config
          (after_write example_config (state_created example_config) 0 pattern 10240)
      ∧ (after_write example_config (state_created example_config) 0 pattern 10240
          ).undefined_behaviour = false
      ∧ (tfs_open example_config
          (after_write example_config (state_created example_config) 0 pattern 10240)
          path_f1 TFS_O_TRUNC).1 = 1
      ∧ (tfs_open example_config
          (after_write example_config (state_created example_config) 0 pattern 10240)
          path_f1 TFS_O_TRUNC).2.undefined_behaviour = false
      ∧ taken_handles example_config (tfs_open example_config
          (after_write example_config (state_created example_config) 0 pattern 10240)
          path_f1 TFS_O_TRUNC).2 = [0, 1]
      ∧ (tfs_open example_config
          (after_write example_config (state_created example_config) 0 pattern 10240)
          path_f1 TFS_O_TRUNC).2.open_file_table 0 = { of_inumber := 1, of_offset := 10240 }
      ∧ ((tfs_open example_config
          (after_write example_config (state_created example_config) 0 pattern 10240)
          path_f1 TFS_O_TRUNC).2.inode_table 1).i_size = 0
      ∧ ¬ offsets_within_sizes example_config (tfs_open example_config
          (after_write example_config (state_created example_config) 0 pattern 10240)
          path_f1 TFS_O_TRUNC).2 := by
  decide!

set_option maxRecDepth 1000000 in
/-- C24 fails in the code, with 1024-byte blocks.  (1) The closed file "/f1" of inode 1 holds
the 4 bytes "AAA!" in its one block, block 1; `inode_delete(1)` reads slots of `i_data_block`
that the vector does not have: the run is marked undefined and the call returns -1.  (2)
After a write of 10240 bytes the closed file holds the direct blocks 1 to 10, the indirection
block 11 and the blocks 12 and 13 of its entries 0 and 1; `inode_delete(1)` returns 0 with no
undefined access and marks inode 1 FREE, but block 12 stays TAKEN: the blocks 0 and 12 are
TAKEN afterwards. -/
theorem inode_delete_misses_blocks :
    ((state_closed example_config text_AAA 4).undefined_behaviour = false
      ∧ taken_inodes example_config (state_closed example_config text_AAA 4) = [0, 1]
      ∧ (state_closed example_config text_AAA 4).inode_table 1
        = { i_node_type := T_FILE, i_size := 4, i_data_block := [some 1],
            number_of_blocks := 1, indirection_block := -1, number_indirect_blocks := 0 }
      ∧ (inode_delete example_config (state_closed example_config text_AAA 4) 1).1 = -1
      ∧ (inode_delete example_config (state_closed example_config text_AAA 4) 1
          ).2.undefined_behaviour = true)
    ∧ ((state_closed example_config pattern 10240).undefined_behaviour = false
      ∧ taken_inodes example_config (state_closed example_config pattern 10240) = [0, 1]
      ∧ (state_closed example_config pattern 10240).inode_table 1
        = { i_node_type := T_FILE, i_size := 10240,
            i_data_block := slots [1, 2, 3, 4, 5, 6, 7, 8, 9, 10],
            number_of_blocks := 10, indirection_block := 11, number_indirect_blocks := 2 }
      ∧ (List.range 3).map (index_entry example_config
          (state_closed example_config pattern 10240) 11) = [12, 13, -1]
      ∧ taken_blocks example_config (state_closed example_config pattern 10240)
        = [0, 1, 2, 3, 4, 5, 6, 7, 8, 9, 10, 11, 12, 13]
      ∧ (inode_delete example_config (state_closed example_config pattern 10240) 1).1 = 0
      ∧ (inode_delete example_config (state_closed example_config pattern 10240) 1
          ).2.undefined_behaviour = false
      ∧ taken_inodes example_config
          (inode_delete example_config (state_closed example_config pattern 10240) 1).2 = [0]
      ∧ taken_blocks example_config
          (inode_delete example_config (state_closed example_config pattern 10240) 1).2
        = [0, 12]) := by
  refine ⟨?_, ?_⟩
  · decide!
  · decide!

set_option maxRecDepth 1000000 in
/-- C30 fails in the code.  With 1024-byte blocks, after `tfs_init`,
`tfs_open("/f1", TFS_O_CREAT)`, a `tfs_write` of 10240 bytes and `tfs_close`, inode 1 has a
vector of 10 slots and `number_of_blocks = 10`.  The call `tfs_open("/f1", TFS_O_TRUNC)`
returns handle 0 with no undefined access; afterwards inode 1 is TAKEN, its vector has length
1 and `number_of_blocks` is 0.  A following `tfs_write` of one byte returns 1 and, finding
`number_of_blocks = 0`, takes a new block for slot 0: `get_free_memory` drops from 1045504 to
1044480 and block 1, which the slot held, stays TAKEN. -/
theorem truncate_zeroes_number_of_blocks :
    ((state_closed example_config pattern 10240).inode_table 1).i_data_block.length = 10
      ∧ ((state_closed example_config pattern 10240).inode_table 1).number_of_blocks = 10
      ∧ (tfs_open example_config (state_closed example_config pattern 10240) path_f1
          TFS_O_TRUNC).1 = 0
      ∧ (tfs_open example_config (state_closed example_config pattern 10240) path_f1
          TFS_O_TRUNC).2.undefined_behaviour = false
      ∧ (tfs_open example_config (state_closed example_config pattern 10240) path_f1
          TFS_O_TRUNC).2.freeinode_ts 1 = TAKEN
      ∧ ((tfs_open example_config (state_closed example_config pattern 10240) path_f1
          TFS_O_TRUNC).2.inode_table 1).i_data_block = [some 1]
      ∧ ((tfs_open example_config (state_closed example_config pattern 10240) path_f1
          TFS_O_TRUNC).2.inode_table 1).number_of_blocks = 0
      ∧ get_free_memory example_config (tfs_open example_config
          (state_closed example_config pattern 10240) path_f1 TFS_O_TRUNC).2 = 1045504
      ∧ (tfs_write example_config (tfs_open example_config
          (state_closed example_config pattern 10240) path_f1 TFS_O_TRUNC).2 0 pattern 1).map
          (fun r => (r.1, r.2.inode_table 1, get_free_memory example_config r.2,
            taken_blocks example_config r.2, r.2.undefined_behaviour))
        = some (1,
            { i_node_type := T_FILE, i_size := 1, i_data_block := [some 2],
              number_of_blocks := 1, indirection_block := -1, number_indirect_blocks := 0 },
            1044480, [0, 1, 2, 12], false) := by
  decide!

set_option maxRecDepth 1000000 in
/-- C27 fails in the code.  With 16-byte blocks and a pool of 40 blocks, after `tfs_init`, the
creation of "/f1" (handle 0, inode 1) and "/f2" (handle 1, inode 2) and 29 calls
`tfs_open("/f3", TFS_O_CREAT)`, each returning -1, 8 blocks are FREE.  The writes of 16 and of
128 bytes through handle 0 return 16 and 128; the pool is then full and the vector of inode 1
holds the blocks 1, 32, ..., 39 and -1 in its tenth slot.  `tfs_open("/f1", TFS_O_TRUNC)`
returns -1: inode 1 is still TAKEN with the same vector and size 144, but its nine blocks are
now FREE.  A write of 17 bytes through handle 1 returns 17 and gives inode 2 the blocks 1 and
32, which inode 1 still refers to.  No access of the run is undefined. -/
theorem freed_blocks_stay_referenced :
    ((List.range 29).map (fun n =>
        (tfs_open small_config (after_failed_creates small_config n) path_f3 TFS_O_CREAT).1)
        = List.replicate 29 (-1)
      ∧ get_free_memory small_config (after_failed_creates small_config 29) = 128
      ∧ (write_pattern_all small_config [(0, 16), (0, 128)]
          (after_failed_creates small_config 29)).map (fun r => r.1) = some [16, 128]
      ∧ get_free_memory small_config (after_pattern_writes small_config [(0, 16), (0, 128)]
          (after_failed_creates small_config 29)) = 0
      ∧ (after_pattern_writes small_config [(0, 16), (0, 128)]
          (after_failed_creates small_config 29)).inode_table 1
        = { i_node_type := T_FILE, i_size := 144,
            i_data_block := [some 1, some 32, some 33, some 34, some 35, some 36, some 37,
              some 38, some 39, some (-1)],
            number_of_blocks := 10, indirection_block := -1, number_indirect_blocks := 0 })
    ∧ ((tfs_open small_config (after_pattern_writes small_config [(0, 16), (0, 128)]
          (after_failed_creates small_config 29)) path_f1 TFS_O_TRUNC).1 = -1
      ∧ (tfs_open small_config (after_pattern_writes small_config [(0, 16), (0, 128)]
          (after_failed_creates small_config 29)) path_f1 TFS_O_TRUNC).2.undefined_behaviour
        = false
      ∧ taken_inodes small_config (tfs_open small_config (after_pattern_writes small_config
          [(0, 16), (0, 128)] (after_failed_creates small_config 29)) path_f1 TFS_O_TRUNC).2
        = [0, 1, 2]
      ∧ (tfs_open small_config (after_pattern_writes small_config [(0, 16), (0, 128)]
          (after_failed_creates small_config 29)) path_f1 TFS_O_TRUNC).2.inode_table 1
        = { i_node_type := T_FILE, i_size := 144,
            i_data_block := [some 1, some 32, some 33, some 34, some 35, some 36, some 37,
              some 38, some 39, some (-1)],
            number_of_blocks := 10, indirection_block := -1, number_indirect_blocks := 0 }
      ∧ taken_blocks small_config (tfs_open small_config (after_pattern_writes small_config
          [(0, 16), (0, 128)] (after_failed_creates small_config 29)) path_f1 TFS_O_TRUNC).2
        = [0, 2, 3, 4, 5, 6, 7, 8, 9, 10, 11, 12, 13, 14, 15, 16, 17, 18, 19, 20, 21, 22, 23,
            24, 25, 26, 27, 28, 29, 30, 31])
    ∧ (tfs_write small_config (tfs_open small_config (after_pattern_writes small_config
          [(0, 16), (0, 128)] (after_failed_creates small_config 29)) path_f1 TFS_O_TRUNC).2 1
          pattern 17).map
          (fun r => (r.1, (r.2.inode_table 1).i_data_block, (r.2.inode_table 2).i_data_block,
            taken_inodes small_config r.2, r.2.undefined_behaviour))
        = some (17,
            [some 1, some 32, some 33, some 34, some 35, some 36, some 37, some 38, some 39,
              some (-1)],
            [some 2, some 1, some 32], [0, 1, 2], false) := by
  refine ⟨?_, ?_, ?_⟩
  · decide!
  · decide!
  · decide!

set_option maxRecDepth 1000000 in
/-- C28 fails in the code.  With 16-byte blocks and a pool of 40 blocks, after `tfs_init`, the
creation of "/f1" and "/f2" (inode 2, empty) and 37 calls `tfs_open("/f3", TFS_O_CREAT)`, no
block is FREE, the inodes 0, 1 and 2 are TAKEN and the root directory records "/f2" with
inumber 2.  The call `tfs_open("/f2", TFS_O_TRUNC)` returns -1 with no undefined access and
marks inode 2 FREE, while `tfs_lookup("/f2")` still returns 2: the directory records an
inumber whose slot is FREE. -/
theorem truncate_frees_listed_inode :
    get_free_memory small_config (after_failed_creates small_config 37) = 0
      ∧ (after_failed_creates small_config 37).undefined_behaviour = false
      ∧ taken_inodes small_config (after_failed_creates small_config 37) = [0, 1, 2]
      ∧ (tfs_lookup small_config (after_failed_creates small_config 37) path_f2).1 = 2
      ∧ (after_failed_creates small_config 37).inode_table 2
        = { i_node_type := T_FILE, i_size := 0, i_data_block := [some 2],
            number_of_blocks := 1, indirection_block := -1, number_indirect_blocks := 0 }
      ∧ (tfs_open small_config (after_failed_creates small_config 37) path_f2 TFS_O_TRUNC).1
        = -1
      ∧ (tfs_open small_config (after_failed_creates small_config 37) path_f2 TFS_O_TRUNC
          ).2.undefined_behaviour = false
      ∧ taken_inodes small_config
          (tfs_open small_config (after_failed_creates small_config 37) path_f2 TFS_O_TRUNC).2
        = [0, 1]
      ∧ (tfs_lookup small_config
          (tfs_open small_config (after_failed_creates small_config 37) path_f2 TFS_O_TRUNC).2
          path_f2).1 = 2 := by
  decide!

/-! ## The write loop never passes the bytes it was asked for -/

theorem inode_write_loop_bound (c : Config) (fh i : Nat) (buf : Nat → Nat) :
    ∀ (fuel : Nat) (s : State) (to_write btw done : Nat) (r : Int) (s1 : State),
      inode_write_loop c fh i buf fuel s to_write btw done = some (r, s1) →
      (s1.open_file_table fh).of_offset ≤ (s.open_file_table fh).of_offset + to_write
        ∧ (s1.inode_table i).i_size
          ≤ max (s.inode_table i).i_size ((s.open_file_table fh).of_offset + to_write)
        ∧ r ≤ ((done + to_write : Nat) : Int) := by
  intro fuel
  induction fuel with
  | zero =>
    intro s tw btw done r s1 h
    unfold inode_write_loop at h
    by_cases hc : tw = 0
    · simp only [hc, if_true, Option.some.injEq, Prod.mk.injEq] at h
      rw [← h.2, ← h.1, hc]
      exact ⟨Nat.le_refl _, le_max_left _ _, le_refl _⟩
    · simp [hc] at h
  | succ n ih =>
    intro s tw btw done r s1 h
    by_cases hc : tw = 0
    · subst hc
      rw [inode_write_loop_zero] at h
      simp only [Option.some.injEq, Prod.mk.injEq] at h
      rw [← h.2, ← h.1]
      exact ⟨Nat.le_refl _, le_max_left _ _, le_refl _⟩
    · unfold inode_write_loop at h
      simp only [hc, if_false] at h
      have hmeta := meta_frame_inode_write_locate c s i (skip_index_block btw)
      have hoff : ((inode_write_locate c s i (skip_index_block btw)).2.open_file_table
          fh).of_offset = (s.open_file_table fh).of_offset := by rw [hmeta.1]
      have hsame : ((inode_write_locate c s i (skip_index_block btw)).2.inode_table i).i_size
          = (s.inode_table i).i_size := (hmeta.2.2.2 i).1
      have hneg : (-1 : Int) ≤ ((done + tw : Nat) : Int) := by omega
      rcases hl : (inode_write_locate c s i (skip_index_block btw)).1 with _ | (_ | block)
      · simp only [hl, Option.some.injEq, Prod.mk.injEq] at h
        rw [← h.2, ← h.1, hoff, hsame]
        exact ⟨Nat.le_add_right _ _, le_max_left _ _, hneg⟩
      · simp only [hl, Option.some.injEq, Prod.mk.injEq] at h
        rw [← h.2, ← h.1, hoff, hsame]
        exact ⟨Nat.le_add_right _ _, le_max_left _ _, hneg⟩
      · simp only [hl] at h
        have hstep := ih _ _ _ _ _ _ h
        have hle := transfer_size_le c
          ((inode_write_locate c s i (skip_index_block btw)).2.open_file_table fh).of_offset
          (skip_index_block btw) tw
        rw [inode_write_copy_offset, inode_write_copy_size, hsame, hoff] at hstep
        rw [hoff] at hle
        generalize transfer_size c (s.open_file_table fh).of_offset (skip_index_block btw) tw
          = size at hstep hle
        refine ⟨by omega, ?_, by omega⟩
        have h2 := hstep.2.1
        simp only [le_max_iff, max_le_iff] at h2 ⊢
        omega

/-! # Claims C31 to C38 -/

set_option maxRecDepth 1000000 in
/-- C31 fails in the code.  With 16-byte blocks and a pool of 40 blocks, two runs on the file
"/f1" (inode 1, handle 0) with no undefined access.  First run, 8 blocks FREE: the writes of
16 and of 128 bytes return 16 and 128, and afterwards `number_of_blocks` is 10 while slot 9 of
the vector of direct blocks holds -1.  Second run, 11 blocks FREE: the write of 16 bytes
returns 16, the write of 176 bytes returns -1, and afterwards `number_indirect_blocks` is 3
while entries 1 and 2 of the indirection block (block 38) hold -1. -/
theorem counted_blocks_invalid :
    ((write_pattern_all small_config [(0, 16), (0, 128)]
          (after_failed_creates small_config 29)).map (fun r => r.1) = some [16, 128]
      ∧ ((after_pattern_writes small_config [(0, 16), (0, 128)]
          (after_failed_creates small_config 29)).inode_table 1).number_of_blocks = 10
      ∧ ((after_pattern_writes small_config [(0, 16), (0, 128)]
          (after_failed_creates small_config 29)).inode_table 1).i_data_block
        = [some 1, some 32, some 33, some 34, some 35, some 36, some 37, some 38, some 39,
            some (-1)]
      ∧ (after_pattern_writes small_config [(0, 16), (0, 128)]
          (after_failed_creates small_config 29)).undefined_behaviour = false)
    ∧ (get_free_memory small_config (after_failed_creates small_config 26)
        = 11 * small_config.BLOCK_SIZE
      ∧ (write_pattern_all small_config [(0, 16), (0, 176)]
          (after_failed_creates small_config 26)).map (fun r => r.1) = some [16, -1]
      ∧ ((after_pattern_writes small_config [(0, 16), (0, 176)]
          (after_failed_creates small_config 26)).inode_table 1).indirection_block = 38
      ∧ ((after_pattern_writes small_config [(0, 16), (0, 176)]
          (after_failed_creates small_config 26)).inode_table 1).number_indirect_blocks = 3
      ∧ (List.range 4).map (index_entry small_config
          (after_pattern_writes small_config [(0, 16), (0, 176)]
            (after_failed_creates small_config 26)) 38) = [39, -1, -1, -1]
      ∧ (after_pattern_writes small_config [(0, 16), (0, 176)]
          (after_failed_creates small_config 26)).undefined_behaviour = false) := by
  refine ⟨?_, ?_⟩
  · decide!
  · decide!

/-- C32 holds.  With `BLOCK_SIZE > 0`, if the size of the inode is at most the capacity
`(DIRECT_BLOCKS_COUNT + BLOCK_SIZE / sizeof(int)) * BLOCK_SIZE` and the offset of the entry,
clamped to the size, plus the requested length is below `2^64`, then `inode_write` returns,
and on return the size of the inode and the offset of the entry are at most the capacity and
the value returned is at most the capacity minus the clamped offset at entry. -/
theorem size_bound_kept (c : Config) (hB : 0 < c.BLOCK_SIZE) (s : State) (fh i : Nat)
    (buffer : Nat → Nat) (n : Nat)
    (hsize : (s.inode_table i).i_size ≤ c.CAPACITY)
    (hwrap : min (s.open_file_table fh).of_offset (s.inode_table i).i_size + n < SIZE_MAX1) :
    ∃ r s1, inode_write c s fh i buffer n = some (r, s1)
      ∧ (s1.inode_table i).i_size ≤ c.CAPACITY
      ∧ (s1.open_file_table fh).of_offset ≤ c.CAPACITY
      ∧ r ≤ ((c.CAPACITY - min (s.open_file_table fh).of_offset (s.inode_table i).i_size : Nat)
          : Int) := by
  obtain ⟨r, s1, h, -, -⟩ := inode_write_spec c hB s fh i buffer n
  refine ⟨r, s1, h, ?_⟩
  unfold inode_write at h
  simp only [clamp_offset_idem] at h
  have hcf := clamp_offset_read_frame s fh i
  have hco := clamp_offset_offset s fh i
  generalize clamp_offset s fh i = s0 at h hcf hco
  rw [← hco] at hwrap ⊢
  rw [← hcf.1] at hsize
  have h0 : (s0.open_file_table fh).of_offset ≤ (s0.inode_table i).i_size := by
    rw [hco, hcf.1]
    omega
  have htwle : (s0.open_file_table fh).of_offset
      + (if ((s0.open_file_table fh).of_offset + n) % SIZE_MAX1 > c.CAPACITY then
          (c.CAPACITY + SIZE_MAX1 - (s0.open_file_table fh).of_offset % SIZE_MAX1) % SIZE_MAX1
        else n) ≤ c.CAPACITY := by
    rw [Nat.mod_eq_of_lt hwrap]
    split
    · rename_i hgt
      have e1 : (s0.open_file_table fh).of_offset % SIZE_MAX1
          = (s0.open_file_table fh).of_offset := Nat.mod_eq_of_lt (by omega)
      rw [e1]
      have e2 : c.CAPACITY + SIZE_MAX1 - (s0.open_file_table fh).of_offset
          = (c.CAPACITY - (s0.open_file_table fh).of_offset) + SIZE_MAX1 := by omega
      rw [e2, Nat.add_mod_right, Nat.mod_eq_of_lt (by omega)]
      omega
    · omega
  generalize htw : (if ((s0.open_file_table fh).of_offset + n) % SIZE_MAX1 > c.CAPACITY then
      (c.CAPACITY + SIZE_MAX1 - (s0.open_file_table fh).of_offset % SIZE_MAX1) % SIZE_MAX1
    else n) = tw at h htwle
  have hmeta : meta_frame s0
      (if tw > (s0.inode_table i).i_size then
        (inode_add_blocks c s0 (s0.open_file_table fh).of_inumber tw
          (s0.open_file_table fh).of_offset).2
      else if ((s0.open_file_table fh).of_offset + tw) % SIZE_MAX1
          ≥ ((s0.inode_table i).number_of_blocks + (s0.inode_table i).number_indirect_blocks)
            * c.BLOCK_SIZE then
        (inode_add_blocks c s0 (s0.open_file_table fh).of_inumber
          (if tw < c.BLOCK_SIZE then c.BLOCK_SIZE else tw) (s0.open_file_table fh).of_offset).2
      else s0) := by
    split
    · exact meta_frame_inode_add_blocks c s0 _ _ _
    · split
      · exact meta_frame_inode_add_blocks c s0 _ _ _
      · exact meta_frame_refl s0
  generalize hs3 : (if tw > (s0.inode_table i).i_size then
        (inode_add_blocks c s0 (s0.open_file_table fh).of_inumber tw
          (s0.open_file_table fh).of_offset).2
      else if ((s0.open_file_table fh).of_offset + tw) % SIZE_MAX1
          ≥ ((s0.inode_table i).number_of_blocks + (s0.inode_table i).number_indirect_blocks)
            * c.BLOCK_SIZE then
        (inode_add_blocks c s0 (s0.open_file_table fh).of_inumber
          (if tw < c.BLOCK_SIZE then c.BLOCK_SIZE else tw) (s0.open_file_table fh).of_offset).2
      else s0) = s3 at h hmeta
  have hloop := inode_write_loop_bound c fh i buffer _ _ _ _ _ r s1 h
  rw [hmeta.1, (hmeta.2.2.2 i).1] at hloop
  simp only [Nat.zero_add] at hloop
  refine ⟨?_, by omega, by omega⟩
  have h2 := hloop.2.1
  simp only [le_max_iff] at h2
  omega

theorem size_bound_kept_witness :
    0 < small_config.BLOCK_SIZE
      ∧ ((state_created small_config).inode_table 1).i_size ≤ small_config.CAPACITY
      ∧ min ((state_created small_config).open_file_table 0).of_offset
          ((state_created small_config).inode_table 1).i_size + 300 < SIZE_MAX1
      ∧ ∃ r s1, inode_write small_config (state_created small_config) 0 1 pattern 300
          = some (r, s1)
        ∧ (s1.inode_table 1).i_size ≤ small_config.CAPACITY
        ∧ (s1.open_file_table 0).of_offset ≤ small_config.CAPACITY
        ∧ r ≤ ((small_config.CAPACITY
            - min ((state_created small_config).open_file_table 0).of_offset
              ((state_created small_config).inode_table 1).i_size : Nat) : Int) :=
  ⟨by decide, by decide!, by decide!,
    size_bound_kept small_config (by decide) (state_created small_config) 0 1 pattern 300
      (by decide!) (by decide!)⟩

set_option maxRecDepth 1000000 in
/-- C33 fails in the code.  With 16-byte blocks, on the new file "/f1" (inode 1, indirection
block 11).  After a write of 160 bytes the entries 0 and 1 of the indirection block are 12 and
13; for the byte at offset 160 (`linear - DIRECT_BLOCKS_COUNT = 0`) the first iteration of
`inode_write` and an iteration of `inode_read` both use block 13, which is entry 1.  After one
write of 193 bytes, byte 192 of the buffer (`linear - DIRECT_BLOCKS_COUNT = 2`) is the first
byte of block 14, entry 2, where the loop arrived in the middle of the call, while
`inode_read` at offset 192 uses block 15, entry 3, whose first byte is 0. -/
theorem indirect_addressing_off_by_one :
    (((state_created small_config).open_file_table 0).of_inumber = 1
      ∧ ((after_write small_config (state_created small_config) 0 pattern 160).inode_table
          1).indirection_block = 11
      ∧ index_entry small_config
          (after_write small_config (state_created small_config) 0 pattern 160) 11 0 = 12
      ∧ index_entry small_config
          (after_write small_config (state_created small_config) 0 pattern 160) 11 1 = 13
      ∧ 160 / small_config.BLOCK_SIZE - DIRECT_BLOCKS_COUNT = 0
      ∧ (inode_write_locate small_config
          (after_write small_config (state_created small_config) 0 pattern 160) 1
          (skip_index_block (start_block small_config 160))).1
        = some (some (13 * small_config.BLOCK_SIZE))
      ∧ read_block_of small_config
          (after_write small_config (state_created small_config) 0 pattern 176) 1 160
        = some (some (13 * small_config.BLOCK_SIZE)))
    ∧ ((tfs_write small_config (state_created small_config) 0 pattern 193).map (fun r => r.1)
        = some 193
      ∧ index_entry small_config
          (after_write small_config (state_created small_config) 0 pattern 193) 11 2 = 14
      ∧ index_entry small_config
          (after_write small_config (state_created small_config) 0 pattern 193) 11 3 = 15
      ∧ 192 / small_config.BLOCK_SIZE - DIRECT_BLOCKS_COUNT = 2
      ∧ (after_write small_config (state_created small_config) 0 pattern 193).fs_data
          (14 * small_config.BLOCK_SIZE) = pattern 192
      ∧ read_block_of small_config
          (after_write small_config (state_created small_config) 0 pattern 193) 1 192
        = some (some (15 * small_config.BLOCK_SIZE))
      ∧ (after_write small_config (state_created small_config) 0 pattern 193).fs_data
          (15 * small_config.BLOCK_SIZE) = 0
      ∧ pattern 192 = 93) := by
  refine ⟨?_, ?_⟩
  · decide!
  · decide!

set_option maxRecDepth 1000000 in
/-- C34 fails in the code.  With 16-byte blocks, on the new file "/f1" after a write of 160
bytes, a write of 32 bytes at offset 160 returns 32: its first iteration finds block 13 and
takes `size = 32`, twice the `BLOCK_SIZE - offset mod BLOCK_SIZE = 16` bytes left in that
block (the loop of `inode_read` takes the same size at that offset), so the 32 bytes of the
buffer lie from the start of block 13 to the end of block 14, which held zeros before, is in
no entry of the file and is FREE. -/
theorem indirect_copy_passes_block_end :
    (tfs_write small_config
        (after_write small_config (state_created small_config) 0 pattern 160) 0 pattern 32).map
        (fun r => r.1) = some 32
    ∧ (inode_write_locate small_config
          (after_write small_config (state_created small_config) 0 pattern 160) 1
          (skip_index_block (start_block small_config 160))).1
        = some (some (13 * small_config.BLOCK_SIZE))
    ∧ transfer_size small_config 160 (skip_index_block (start_block small_config 160)) 32 = 32
    ∧ transfer_size small_config 160 (start_block small_config 160) 32 = 32
    ∧ small_config.BLOCK_SIZE - 160 % small_config.BLOCK_SIZE = 16
    ∧ (∀ j, j < 32 →
        (after_pattern_writes small_config [(0, 160), (0, 32)]
          (state_created small_config)).fs_data (13 * small_config.BLOCK_SIZE + j) = pattern j)
    ∧ (∀ j, j < 16 →
        (after_pattern_writes small_config [(0, 160)]
          (state_created small_config)).fs_data (14 * small_config.BLOCK_SIZE + j) = 0)
    ∧ (List.range 4).map (index_entry small_config
        (after_pattern_writes small_config [(0, 160), (0, 32)]
          (state_created small_config)) 11) = [12, 13, -1, -1]
    ∧ (after_pattern_writes small_config [(0, 160), (0, 32)]
          (state_created small_config)).free_blocks 14 = FREE
    ∧ (after_pattern_writes small_config [(0, 160), (0, 32)]
          (state_created small_config)).undefined_behaviour = false := by
  decide!

set_option maxRecDepth 1000000 in
/-- C35 fails in the code.  With 16-byte blocks, on the new file "/f1" (indirection block 11)
the writes of 160, 16 and 16 bytes return 160, 16 and 16.  Before the third write
`number_indirect_blocks` is 2, the entries are 12, 13, -1, -1 and the blocks 0 to 13 are
TAKEN; the third write reaches entry 2, and after it `number_indirect_blocks` is 3, block 14
is the one block taken, and the entries are 12, 13, 14, 14: the new index is in entry 2 and
in entry 3, and `inode_read` finds the same block 14 for offset 176 and for offset 192. -/
theorem indirect_miss_records_twice :
    (write_pattern_all small_config [(0, 160), (0, 16), (0, 16)]
        (state_created small_config)).map (fun r => r.1) = some [160, 16, 16]
    ∧ (((after_pattern_writes small_config [(0, 160), (0, 16)]
          (state_created small_config)).inode_table 1).number_indirect_blocks = 2
      ∧ (List.range 4).map (index_entry small_config
          (after_pattern_writes small_config [(0, 160), (0, 16)]
            (state_created small_config)) 11) = [12, 13, -1, -1]
      ∧ taken_blocks small_config (after_pattern_writes small_config [(0, 160), (0, 16)]
          (state_created small_config)) = List.range 14)
    ∧ (((after_pattern_writes small_config [(0, 160), (0, 16), (0, 16)]
          (state_created small_config)).inode_table 1).number_indirect_blocks = 3
      ∧ (List.range 4).map (index_entry small_config
          (after_pattern_writes small_config [(0, 160), (0, 16), (0, 16)]
            (state_created small_config)) 11) = [12, 13, 14, 14]
      ∧ taken_blocks small_config (after_pattern_writes small_config [(0, 160), (0, 16), (0, 16)]
          (state_created small_config)) = List.range 15
      ∧ read_block_of small_config (after_pattern_writes small_config
          [(0, 160), (0, 16), (0, 16)] (state_created small_config)) 1 176
        = some (some (14 * small_config.BLOCK_SIZE))
      ∧ read_block_of small_config (after_pattern_writes small_config
          [(0, 160), (0, 16), (0, 16)] (state_created small_config)) 1 192
        = some (some (14 * small_config.BLOCK_SIZE))
      ∧ (after_pattern_writes small_config [(0, 160), (0, 16), (0, 16)]
          (state_created small_config)).undefined_behaviour = false) := by
  refine ⟨?_, ?_, ?_⟩
  · decide!
  · decide!
  · decide!

set_option maxRecDepth 1000000 in
/-- C36 fails in the code.  With 16-byte blocks, on the new file "/f1" after a write of 160
bytes the inode has 10 direct and 2 indirect blocks and 416 bytes of the pool are FREE; the
call `inode_add_blocks(1, 64, 160)` returns 0 and leaves both counts as they were, although
`(10 + 2) * 16 = 192` is less than `160 + 64`. -/
theorem inode_add_blocks_leaves_shortfall :
    ((after_write small_config (state_created small_config) 0 pattern 160).inode_table
        1).number_of_blocks = 10
    ∧ ((after_write small_config (state_created small_config) 0 pattern 160).inode_table
        1).number_indirect_blocks = 2
    ∧ get_free_memory small_config
        (after_write small_config (state_created small_config) 0 pattern 160) = 416
    ∧ (inode_add_blocks small_config
        (after_write small_config (state_created small_config) 0 pattern 160) 1 64 160).1 = 0
    ∧ ((inode_add_blocks small_config
        (after_write small_config (state_created small_config) 0 pattern 160) 1 64
          160).2.inode_table 1).number_of_blocks = 10
    ∧ ((inode_add_blocks small_config
        (after_write small_config (state_created small_config) 0 pattern 160) 1 64
          160).2.inode_table 1).number_indirect_blocks = 2
    ∧ taken_blocks small_config (inode_add_blocks small_config
        (after_write small_config (state_created small_config) 0 pattern 160) 1 64 160).2
      = List.range 14
    ∧ (10 + 2) * small_config.BLOCK_SIZE < 160 + 64 := by
  decide!

set_option maxRecDepth 1000000 in
/-- C37 fails in the code.  With 16-byte blocks (4 entries per indirection block), inode 1
has the indirection block 11 and `number_indirect_blocks = 0`, and the first four bytes of
block 12 are 0.  The call `inode_inicialize_indirect_blocks(inode, 0, 2)` returns 0 with
`number_indirect_blocks = 2` and the entries 12, 13, -1, -1, and it also writes -1 over the
first four bytes of block 12, which is outside the indirection block and is the block just
recorded in entry 0. -/
theorem index_initialisation_writes_past_block :
    (((state_with_index_block small_config).inode_table 1).indirection_block = 11
      ∧ ((state_with_index_block small_config).inode_table 1).number_indirect_blocks = 0
      ∧ 2 ≤ small_config.BLOCK_SIZE / SIZEOF_INT
      ∧ (∀ j, j < 4 → (state_with_index_block small_config).fs_data
          (12 * small_config.BLOCK_SIZE + j) = 0))
    ∧ ((inode_inicialize_indirect_blocks small_config (state_with_index_block small_config)
          1 0 2).1 = 0
      ∧ ((inode_inicialize_indirect_blocks small_config (state_with_index_block small_config)
          1 0 2).2.inode_table 1).number_indirect_blocks = 2
      ∧ (List.range 4).map (index_entry small_config
          (inode_inicialize_indirect_blocks small_config (state_with_index_block small_config)
            1 0 2).2 11) = [12, 13, -1, -1]
      ∧ (∀ j, j < 4 → (inode_inicialize_indirect_blocks small_config
          (state_with_index_block small_config) 1 0 2).2.fs_data
            (12 * small_config.BLOCK_SIZE + j) = 255)
      ∧ read_int (inode_inicialize_indirect_blocks small_config
          (state_with_index_block small_config) 1 0 2).2.fs_data
            (12 * small_config.BLOCK_SIZE) = -1
      ∧ (inode_inicialize_indirect_blocks small_config (state_with_index_block small_config)
          1 0 2).2.undefined_behaviour = false) := by
  refine ⟨?_, ?_⟩
  · decide!
  · decide!

set_option maxRecDepth 1000000 in
/-- C38 fails in the code.  With 16-byte blocks, "/f1" is inode 1 behind handle 0 and "/f2" is
inode 2 behind handle 1.  The writes of 160 bytes to "/f1", of 16 and 16 bytes to "/f2" and of
32 bytes to "/f1" return 160, 16, 16 and 32.  Before the last one "/f2" has the direct blocks
2, 15, 16 and reading it from offset 0 gives the first 16 bytes of the buffer twice.  After
it "/f2" has the same blocks, "/f1" has the direct blocks 1, 3, .., 11 and the entries 13, 14
in its indirection block 12, and reading "/f2" from offset 0 gives the first 32 bytes of the
buffer: the write through the handle on "/f1" changed bytes 16 to 31 of "/f2", in block 15. -/
theorem write_changes_other_file :
    ((write_pattern_all small_config [(0, 160), (1, 16), (1, 16), (0, 32)]
        (state_two_files small_config)).map (fun r => r.1) = some [160, 16, 16, 32]
      ∧ ((state_two_files small_config).open_file_table 0).of_inumber = 1
      ∧ ((state_two_files small_config).open_file_table 1).of_inumber = 2
      ∧ (List.range 16).map pattern ++ (List.range 16).map pattern
        ≠ (List.range 32).map pattern)
    ∧ (((after_pattern_writes small_config [(0, 160), (1, 16), (1, 16)]
          (state_two_files small_config)).inode_table 2).i_data_block
        = [some 2, some 15, some 16]
      ∧ ((after_pattern_writes small_config [(0, 160), (1, 16), (1, 16)]
          (state_two_files small_config)).inode_table 2).i_size = 32
      ∧ content_of small_config (after_pattern_writes small_config [(0, 160), (1, 16), (1, 16)]
          (state_two_files small_config)) path_f2 32
        = some ((List.range 16).map pattern ++ (List.range 16).map pattern))
    ∧ (((after_pattern_writes small_config [(0, 160), (1, 16), (1, 16), (0, 32)]
          (state_two_files small_config)).inode_table 2).i_data_block
        = [some 2, some 15, some 16]
      ∧ ((after_pattern_writes small_config [(0, 160), (1, 16), (1, 16), (0, 32)]
          (state_two_files small_config)).inode_table 2).i_size = 32
      ∧ ((after_pattern_writes small_config [(0, 160), (1, 16), (1, 16), (0, 32)]
          (state_two_files small_config)).inode_table 1).i_data_block
        = [some 1, some 3, some 4, some 5, some 6, some 7, some 8, some 9, some 10, some 11]
      ∧ ((after_pattern_writes small_config [(0, 160), (1, 16), (1, 16), (0, 32)]
          (state_two_files small_config)).inode_table 1).indirection_block = 12
      ∧ (List.range 4).map (index_entry small_config
          (after_pattern_writes small_config [(0, 160), (1, 16), (1, 16), (0, 32)]
            (state_two_files small_config)) 12) = [13, 14, -1, -1]
      ∧ content_of small_config
          (after_pattern_writes small_config [(0, 160), (1, 16), (1, 16), (0, 32)]
            (state_two_files small_config)) path_f2 32
        = some ((List.range 32).map pattern)
      ∧ (after_pattern_writes small_config [(0, 160), (1, 16), (1, 16), (0, 32)]
          (state_two_files small_config)).undefined_behaviour = false) := by
  refine ⟨?_, ?_, ?_⟩
  · decide!
  · decide!
  · decide!

/-! ## What truncation and creation leave alone in the inode table -/

theorem others_same_refl (i : Nat) (s : State) : others_same i s s := fun _ _ => rfl

theorem others_same_trans {i : Nat} {s s1 s2 : State} (h1 : others_same i s s1)
    (h2 : others_same i s1 s2) : others_same i s s2 :=
  fun j hj => (h2 j hj).trans (h1 j hj)

theorem others_same_of_eq (i : Nat) {s s1 : State} (h : s1.inode_table = s.inode_table) :
    others_same i s s1 := fun j _ => by rw [h]

@[simp]
theorem data_block_free_inode_table (c : Config) (s : State) (b : Int) :
    (data_block_free c s b).2.inode_table = s.inode_table := by
  unfold data_block_free; split <;> rfl

theorem inode_free_direct_blocks_loop_inode_table (c : Config) (i : Nat) :
    ∀ (n k : Nat) (s : State),
      (inode_free_direct_blocks_loop c i n k s).2.inode_table = s.inode_table := by
  intro n
  induction n with
  | zero => intro k s; rfl
  | succ n ih =>
    intro k s
    unfold inode_free_direct_blocks_loop
    simp only
    split
    · simp
    · rw [ih]
      simp

theorem inode_free_direct_blocks_others (c : Config) (s : State) (i : Nat) :
    others_same i s (inode_free_direct_blocks c s i).2 := by
  have h := inode_free_direct_blocks_loop_inode_table c i DIRECT_BLOCKS_COUNT 0 s
  unfold inode_free_direct_blocks
  simp only
  split
  · exact others_same_of_eq i h
  · intro j hj
    rw [set_number_of_blocks_inode_other _ _ hj, set_i_size_inode_other _ _ hj, h]

theorem inode_free_indirect_blocks_loop_inode_table (c : Config) (p : Nat) :
    ∀ (n k : Nat) (s : State),
      (inode_free_indirect_blocks_loop c p n k s).2.inode_table = s.inode_table := by
  intro n
  induction n with
  | zero => intro k s; rfl
  | succ n ih =>
    intro k s
    unfold inode_free_indirect_blocks_loop
    simp only
    split
    · split
      · simp
      · rw [ih]
        simp
    · simp

theorem inode_free_indirect_blocks_others (c : Config) (s : State) (i : Nat) :
    others_same i s (inode_free_indirect_blocks c s i).2 := by
  unfold inode_free_indirect_blocks
  split
  · exact others_same_refl i s
  · rename_i p _
    have h := inode_free_indirect_blocks_loop_inode_table c p (c.INDEX_COUNT - 1) 1 s
    simp only
    split
    · exact others_same_of_eq i h
    · split
      · exact others_same_of_eq i (by simp [h])
      · intro j hj
        rw [set_indirection_block_inode_other _ _ hj, set_i_size_inode_other _ _ hj,
          set_number_indirect_blocks_inode_other _ _ hj]
        simp [h]

theorem inode_alloc_first_block_others (c : Config) (s : State) (inum : Int) :
    others_same inum.toNat s (inode_alloc_first_block c s inum).2 := by
  unfold inode_alloc_first_block
  split
  · exact others_same_refl _ s
  · simp only
    split
    · exact others_same_of_eq _ (by simp)
    · intro j hj
      rw [write_direct_inode_other _ _ _ hj]
      simp

theorem tfs_open_trunc_direct_others (c : Config) (s : State) (i : Nat) :
    others_same i s (tfs_open_trunc_direct c s i).2 := by
  unfold tfs_open_trunc_direct
  simp only
  split <;> exact inode_free_direct_blocks_others c s i

theorem tfs_open_trunc_free_others (c : Config) (s : State) (i : Nat) :
    others_same i s (tfs_open_trunc_free c s i).2 := by
  unfold tfs_open_trunc_free
  split
  · split
    · simp only
      split
      · exact inode_free_indirect_blocks_others c s i
      · exact others_same_trans (inode_free_indirect_blocks_others c s i)
          (tfs_open_trunc_direct_others c _ i)
    · exact tfs_open_trunc_direct_others c s i
  · exact others_same_refl i s

theorem tfs_open_trunc_others (c : Config) (s : State) (inum : Int) :
    others_same inum.toNat s (tfs_open_trunc c s inum inum.toNat).2 := by
  unfold tfs_open_trunc
  simp only
  have h1 := tfs_open_trunc_free_others c s inum.toNat
  split
  · exact h1
  · have h2 : others_same inum.toNat s
        ((tfs_open_trunc_free c s inum.toNat).2.set_i_data_block inum.toNat
          (realloc ((tfs_open_trunc_free c s inum.toNat).2.inode_table inum.toNat).i_data_block
            1)) :=
      others_same_trans h1 (fun j hj => set_i_data_block_inode_other _ _ hj)
    have h3 := others_same_trans h2 (inode_alloc_first_block_others c _ inum)
    split <;> exact h3

theorem inode_create_dir_loop_inode_table (c : Config) (base : Nat) :
    ∀ (n k : Nat) (s : State), (inode_create_dir_loop c base n k s).inode_table = s.inode_table := by
  intro n
  induction n with
  | zero => intro k s; rfl
  | succ n ih =>
    intro k s
    unfold inode_create_dir_loop
    rw [ih]
    simp

theorem inode_create_at_others (c : Config) (s : State) (t : inode_type) (i : Nat) :
    others_same i s (inode_create_at c s t i).2 := by
  unfold inode_create_at
  simp only
  generalize hs2 : (((((({ s with freeinode_ts := upd s.freeinode_ts i TAKEN } : State
    ).set_i_node_type i t).set_i_data_block i [none]).set_number_of_blocks i 1
    ).set_number_indirect_blocks i 0).set_indirection_block i (-1)) = s2
  have h2 : others_same i s s2 := by
    rw [← hs2]
    intro j hj
    rw [set_indirection_block_inode_other _ _ hj, set_number_indirect_blocks_inode_other _ _ hj,
      set_number_of_blocks_inode_other _ _ hj, set_i_data_block_inode_other _ _ hj,
      set_i_node_type_inode_other _ _ hj]
  cases t
  · simp only
    have h3 : others_same i s (inode_alloc_first_block c (s2.set_i_size i 0) (i : Int)).2 :=
      others_same_trans h2 (others_same_trans (fun j hj => set_i_size_inode_other _ _ hj)
        (by simpa using inode_alloc_first_block_others c (s2.set_i_size i 0) (i : Int)))
    split <;> exact h3
  · simp only
    have h3 : others_same i s (data_block_alloc c s2).2 :=
      others_same_trans h2 (others_same_of_eq i (by simp))
    generalize data_block_alloc c s2 = r at h3
    split
    · exact h3
    · have h4 : others_same i s (write_direct (r.2.set_i_size i c.BLOCK_SIZE) i 0 r.1) :=
        others_same_trans h3 (fun j hj => by
          rw [write_direct_inode_other _ _ _ hj, set_i_size_inode_other _ _ hj])
      generalize write_direct (r.2.set_i_size i c.BLOCK_SIZE) i 0 r.1 = s5 at h4
      split
      · exact h4
      · exact others_same_trans h4
          (others_same_of_eq i (inode_create_dir_loop_inode_table c _ _ _ _))

theorem add_dir_entry_loop_inode_table (c : Config) (s : State) (dir_entry : Nat) (v : Int)
    (name : List Nat) :
    ∀ (n k : Nat), (add_dir_entry_loop c s dir_entry v name n k).2.inode_table
      = s.inode_table := by
  intro n
  induction n with
  | zero => intro k; rfl
  | succ n ih =>
    intro k
    unfold add_dir_entry_loop
    simp only
    split
    · simp
    · exact ih (k + 1)

theorem add_dir_entry_inode_table (c : Config) (s : State) (dir child : Int)
    (name : List Nat) : (add_dir_entry c s dir child name).2.inode_table = s.inode_table := by
  unfold add_dir_entry
  split
  · rfl
  · split
    · rfl
    · split
      · rfl
      · simp only
        split
        · simp
        · rw [add_dir_entry_loop_inode_table]
          simp

theorem inode_delete_others (c : Config) (s : State) (inumber : Int) :
    others_same inumber.toNat s (inode_delete c s inumber).2 := by
  unfold inode_delete
  split
  · exact others_same_refl _ s
  · simp only
    generalize hs1 : ({ s with freeinode_ts := upd s.freeinode_ts inumber.toNat FREE } : State)
      = s1
    have h0 : others_same inumber.toNat s s1 := by
      rw [← hs1]
      exact others_same_refl _ _
    split
    · have h1 := others_same_trans h0 (inode_free_direct_blocks_others c s1 inumber.toNat)
      generalize inode_free_direct_blocks c s1 inumber.toNat = r1 at h1
      split
      · exact h1
      · have h2 : others_same inumber.toNat s (data_block_free c
            (read_direct r1.2 inumber.toNat 0).2 (read_direct r1.2 inumber.toNat 0).1).2 :=
          others_same_trans h1 (others_same_of_eq _ (by simp))
        generalize data_block_free c (read_direct r1.2 inumber.toNat 0).2
          (read_direct r1.2 inumber.toNat 0).1 = r2 at h2
        split
        · exact h2
        · have h3 : others_same inumber.toNat s (r2.2.set_i_data_block inumber.toNat []) :=
            others_same_trans h2 (fun j hj => set_i_data_block_inode_other _ _ hj)
          split
          · have h4 := others_same_trans h3
              (inode_free_indirect_blocks_others c
                (r2.2.set_i_data_block inumber.toNat []) inumber.toNat)
            split <;> exact h4
          · exact h3
    · exact h0

/-! ## The invariant over the calls of the facade -/

theorem offsets_within_sizes_reset (c : Config) (s s1 : State) (i : Nat)
    (hof : open_files_same s s1) (hsz : others_same i s s1) (hun : no_offset_on c s i)
    (hinv : offsets_within_sizes c s) : offsets_within_sizes c s1 := by
  intro h hh ht
  rw [hof.2] at ht
  rw [hof.1]
  by_cases hj : (s.open_file_table h).of_inumber.toNat = i
  · rw [hun h hh ht hj]
    exact Nat.zero_le _
  · rw [hsz _ hj]
    exact hinv h hh ht

theorem offsets_within_sizes_add (c : Config) (st : State) (inum : Int) (off : Nat)
    (hinv : offsets_within_sizes c st) (hoff : off ≤ (st.inode_table inum.toNat).i_size) :
    offsets_within_sizes c (add_to_open_file_table c st inum off).2 := by
  rcases add_to_open_file_table_spec c st inum off with ⟨_, e2, _⟩ | ⟨k, _, _, _, e4⟩
  · rw [e2]
    exact hinv
  · rw [e4]
    intro h hh ht
    simp only at ht ⊢
    by_cases hk : h = k
    · subst hk
      simp only [upd_same]
      exact hoff
    · rw [upd_other _ _ hk] at ht ⊢
      exact hinv h hh ht

theorem offsets_within_sizes_same (c : Config) (s s1 : State) (h : same_but_marker s s1)
    (hinv : offsets_within_sizes c s) : offsets_within_sizes c s1 := by
  intro k hk ht
  rw [h.2.2.2.2.2] at ht
  rw [h.2.2.2.2.1, h.1]
  exact hinv k hk ht

theorem no_offset_on_same (c : Config) (s s1 : State) (i : Nat) (h : open_files_same s s1)
    (hun : no_offset_on c s i) : no_offset_on c s1 i := by
  intro k hk ht hi
  rw [h.2] at ht
  rw [h.1] at hi ⊢
  exact hun k hk ht hi

theorem admissible_open (c : Config) (s : State) (name : Option (List Nat)) (flags : Nat)
    (h : admissible c s (Call.api_open name flags)) (i : Nat)
    (hr : reset_inode c s name flags = some i) : no_offset_on c s i := by
  unfold admissible at h
  simp only [hr] at h
  exact h

theorem offsets_within_sizes_congr (c : Config) (s s1 : State) (hof : open_files_same s s1)
    (hit : s1.inode_table = s.inode_table) (hinv : offsets_within_sizes c s) :
    offsets_within_sizes c s1 := by
  intro k hk ht
  rw [hof.2] at ht
  rw [hof.1, hit]
  exact hinv k hk ht

theorem inode_create_at_result (c : Config) (s : State) (t : inode_type) (i : Nat) :
    (inode_create_at c s t i).1 = -1 ∨ (inode_create_at c s t i).1 = (i : Int) := by
  unfold inode_create_at
  simp only
  cases t
  · simp only
    split
    · exact Or.inl rfl
    · exact Or.inr rfl
  · simp only
    split
    · exact Or.inl rfl
    · split
      · exact Or.inl rfl
      · exact Or.inr rfl

/-- A call of `tfs_open` that is admissible keeps the invariant. -/
theorem tfs_open_keeps (c : Config) (s : State) (name : Option (List Nat)) (flags : Nat)
    (hadm : admissible c s (Call.api_open name flags)) (hinv : offsets_within_sizes c s) :
    offsets_within_sizes c (tfs_open c s name flags).2 := by
  have hres := admissible_open c s name flags hadm
  unfold reset_inode at hres
  unfold tfs_open
  by_cases hv : (!valid_pathname name) = true
  · rw [if_pos hv]
    exact hinv
  · rw [if_neg hv] at hres ⊢
    have hl := tfs_lookup_same c s name
    have hlo : open_files_same s (tfs_lookup c s name).2 := ⟨hl.2.2.2.2.1, hl.2.2.2.2.2⟩
    have hinvl := offsets_within_sizes_same c s _ hl hinv
    generalize tfs_lookup c s name = l at hres hl hlo hinvl
    simp only
    by_cases hge : l.1 ≥ 0
    · rw [if_pos hge] at hres ⊢
      unfold tfs_open_existing
      rcases hg : inode_get c l.1 with _ | i
      · exact hinvl
      · have hi : i = l.1.toNat := by
          unfold inode_get at hg
          split at hg
          · exact absurd hg (by simp)
          · simp only [Option.some.injEq] at hg
            exact hg.symm
        simp only
        have ht : offsets_within_sizes c
            (if flags &&& TFS_O_TRUNC ≠ 0 then tfs_open_trunc c l.2 l.1 i else (none, l.2)).2 := by
          by_cases hb : flags &&& TFS_O_TRUNC ≠ 0
          · rw [if_pos hb] at hres ⊢
            have hun := no_offset_on_same c s l.2 i hlo (hres i hg)
            rw [hi] at hun ⊢
            exact offsets_within_sizes_reset c l.2 _ _ (tfs_open_trunc_open_files c l.2 l.1 _)
              (tfs_open_trunc_others c l.2 l.1) hun hinvl
          · rw [if_neg hb]
            exact hinvl
        generalize (if flags &&& TFS_O_TRUNC ≠ 0 then tfs_open_trunc c l.2 l.1 i
          else (none, l.2)) = t at ht
        rcases hte : t.1 with _ | e
        · simp only
          apply offsets_within_sizes_add c _ _ _ ht
          rw [← hi]
          split
          · exact Nat.le_refl _
          · exact Nat.zero_le _
        · exact ht
    · rw [if_neg hge] at hres ⊢
      by_cases hc : flags &&& TFS_O_CREAT ≠ 0
      · rw [if_pos hc] at hres ⊢
        rcases hff : first_free l.2.freeinode_ts c.INODE_TABLE_SIZE 0 with _ | k
        · have e : inode_create c l.2 T_FILE = (-1, l.2) := by
            unfold inode_create
            exact inode_create_loop_none c l.2 T_FILE _ _ hff
          rw [e]
          simp only [if_true]
          exact hinvl
        · have e : inode_create c l.2 T_FILE = inode_create_at c l.2 T_FILE k := by
            unfold inode_create
            exact inode_create_loop_eq c l.2 T_FILE k _ _ hff
          rw [e]
          have hun := no_offset_on_same c s l.2 k hlo (hres k hff)
          have hro := inode_create_at_open_files c l.2 T_FILE k
          have hrs := inode_create_at_others c l.2 T_FILE k
          have hrr := inode_create_at_result c l.2 T_FILE k
          have hinvr := offsets_within_sizes_reset c l.2 _ k hro hrs hun hinvl
          have hunr := no_offset_on_same c l.2 _ k hro hun
          generalize inode_create_at c l.2 T_FILE k = r at hrr hinvr hunr
          split
          · exact hinvr
          · rename_i hne
            have hrk : r.1 = (k : Int) := by
              rcases hrr with h1 | h1
              · exact absurd h1 hne
              · exact h1
            have hao := add_dir_entry_open_files c r.2 ROOT_DIR_INUM r.1 (name.getD []).tail
            have hai := add_dir_entry_inode_table c r.2 ROOT_DIR_INUM r.1 (name.getD []).tail
            have hinva := offsets_within_sizes_congr c r.2 _ hao hai hinvr
            have huna := no_offset_on_same c r.2 _ k hao hunr
            generalize add_dir_entry c r.2 ROOT_DIR_INUM r.1 (name.getD []).tail = a
              at hinva huna
            split
            · have hd := inode_delete_others c a.2 r.1
              rw [hrk, Int.toNat_ofNat] at hd
              exact offsets_within_sizes_reset c a.2 _ k (inode_delete_open_files c a.2 _)
                (by rw [hrk]; exact hd) huna hinva
            · exact offsets_within_sizes_add c a.2 r.1 0 hinva (Nat.zero_le _)
      · rw [if_neg hc]
        exact hinvl

theorem after_call_keeps (c : Config) (hB : 0 < c.BLOCK_SIZE) (s : State) (call : Call)
    (hadm : admissible c s call) (hinv : offsets_within_sizes c s) :
    offsets_within_sizes c (after_call c s call) := by
  cases call with
  | api_open name flags => exact tfs_open_keeps c s name flags hadm hinv
  | api_close fh => exact (offsets_within_sizes_kept c hB s).1 fh hinv
  | api_read fh buf n =>
    obtain ⟨r, s1, out, e, h, _⟩ := (offsets_within_sizes_kept c hB s).2.1 fh buf n
    have e2 : after_call c s (Call.api_read fh buf n) = s1 := by
      simp only [after_call, e]
    rw [e2]
    exact h hinv
  | api_write fh buf n =>
    obtain ⟨r, s1, e, h, _⟩ := (offsets_within_sizes_kept c hB s).2.2.1 fh buf n
    have e2 : after_call c s (Call.api_write fh buf n) = s1 := by
      simp only [after_call, e]
    rw [e2]
    exact h hinv

theorem after_calls_keep (c : Config) (hB : 0 < c.BLOCK_SIZE) :
    ∀ (calls : List Call) (s : State), offsets_within_sizes c s →
      calls_admissible c calls s →
      ∀ k, offsets_within_sizes c (after_calls c (calls.take k) s) := by
  intro calls
  induction calls with
  | nil =>
    intro s hinv _ k
    simp only [List.take_nil]
    exact hinv
  | cons call rest ih =>
    intro s hinv hadm k
    cases k with
    | zero => exact hinv
    | succ k =>
      simp only [List.take_succ_cons]
      unfold after_calls
      exact ih _ (after_call_keeps c hB s call hadm.1 hinv) hadm.2 k

theorem tfs_init_no_open_files (c : Config) (s : State) (h : Nat) :
    (tfs_init c s).2.free_open_file_entries h = FREE := by
  have e := (inode_create_open_files c (state_init s) T_DIRECTORY).2
  unfold tfs_init
  simp only
  split <;> (rw [e]; rfl)

/-! # Claims C3, C6, C8, C14 and C29 on runs that reach the last blocks -/

set_option maxRecDepth 1000000 in
/-- C3 fails in the code.  With 16-byte blocks (capacity 224 bytes), one `tfs_write` of 224
bytes to the new file "/f1" returns 224; after `tfs_close` and `tfs_open("/f1", 0)` inode 1
has size 224, the ten direct blocks 1 to 10 and the indirection block 11 with the entries 12,
13, 14, 15, all of them TAKEN blocks of the pool, so every block that covers a position below
the size is valid.  A `tfs_read` of 208 bytes returns 208 and leaves the offset at 208; the
next `tfs_read` of one byte returns -1, with no undefined access, where
`min(1, 224 - 208) = 1`. -/
theorem read_fails_in_last_block :
    ((tfs_write small_config (state_created small_config) 0 pattern 224).map (fun r => r.1)
        = some 224
      ∧ (state_reopened small_config pattern 224 0).inode_table 1
        = { i_node_type := T_FILE, i_size := 224,
            i_data_block := [some 1, some 2, some 3, some 4, some 5, some 6, some 7, some 8,
              some 9, some 10],
            number_of_blocks := 10, indirection_block := 11, number_indirect_blocks := 5 }
      ∧ (List.range 4).map (index_entry small_config (state_reopened small_config pattern 224 0)
          11) = [12, 13, 14, 15]
      ∧ (∀ b, b < 16 → (state_reopened small_config pattern 224 0).free_blocks b = TAKEN)
      ∧ (state_reopened small_config pattern 224 0).open_file_table 0
        = { of_inumber := 1, of_offset := 0 })
    ∧ ((tfs_read small_config (state_reopened small_config pattern 224 0) 0 (fun _ => 0)
          208).map (fun r => r.1) = some 208
      ∧ ((after_read small_config (state_reopened small_config pattern 224 0) 0
          208).open_file_table 0).of_offset = 208
      ∧ (tfs_read small_config
          (after_read small_config (state_reopened small_config pattern 224 0) 0 208) 0
          (fun _ => 0) 1).map (fun r => (r.1, r.2.1.undefined_behaviour)) = some (-1, false)
      ∧ min 1 (224 - 208) = 1) := by
  refine ⟨?_, ?_⟩
  · decide!
  · decide!

set_option maxRecDepth 1000000 in
/-- C6 fails in the code.  With 16-byte blocks the capacity is 224 bytes.  On the new file
"/f1" a `tfs_write` of 208 bytes returns 208 and leaves size and offset at 208, with 23 blocks
FREE.  A following `tfs_write` asking for 300 bytes, which ends past the capacity, returns -1
and leaves size and offset at 208, with no undefined access: the request is rejected where
its truncation to `CAPACITY - offset = 16` bytes was due. -/
theorem clamped_write_rejected :
    (write_pattern_all small_config [(0, 208), (0, 300)] (state_created small_config)).map
        (fun r => r.1) = some [208, -1]
    ∧ (((after_pattern_writes small_config [(0, 208)] (state_created small_config)).inode_table
          1).i_size = 208
      ∧ ((after_pattern_writes small_config [(0, 208)] (state_created small_config)
          ).open_file_table 0).of_offset = 208
      ∧ small_config.CAPACITY - 208 = 16
      ∧ 208 + 300 > small_config.CAPACITY
      ∧ get_free_memory small_config
          (after_pattern_writes small_config [(0, 208)] (state_created small_config))
        = 23 * small_config.BLOCK_SIZE)
    ∧ (((after_pattern_writes small_config [(0, 208), (0, 300)]
          (state_created small_config)).inode_table 1).i_size = 208
      ∧ ((after_pattern_writes small_config [(0, 208), (0, 300)] (state_created small_config)
          ).open_file_table 0).of_offset = 208
      ∧ (after_pattern_writes small_config [(0, 208), (0, 300)]
          (state_created small_config)).undefined_behaviour = false) := by
  refine ⟨?_, ?_, ?_⟩
  · decide!
  · decide!
  · decide!

set_option maxRecDepth 1000000 in
/-- C8 fails in the code.  With 16-byte blocks (capacity 224 bytes): handle 0 writes 224 bytes
to the new file "/f1"; `tfs_open("/f1", TFS_O_TRUNC)` returns handle 1, through which 208
bytes are written.  Entry 0 is then TAKEN with offset 224 on inode 1 of size 208, the byte
after the size is inside the capacity and the pool has FREE blocks.  A `tfs_write` of one byte
through handle 0 returns -1 and leaves the offset of entry 0 and the size at 208, with no
undefined access: nothing is stored at position 208 and the offset is not `size + 1`. -/
theorem stale_offset_write_rejected :
    ((tfs_write small_config (state_created small_config) 0 pattern 224).map (fun r => r.1)
        = some 224
      ∧ (tfs_open small_config (after_write small_config (state_created small_config) 0
          pattern 224) path_f1 TFS_O_TRUNC).1 = 1
      ∧ (tfs_write small_config (tfs_open small_config (after_write small_config
          (state_created small_config) 0 pattern 224) path_f1 TFS_O_TRUNC).2 1 pattern
            208).map (fun r => r.1) = some 208)
    ∧ (taken_handles small_config (after_write small_config (tfs_open small_config
          (after_write small_config (state_created small_config) 0 pattern 224) path_f1
            TFS_O_TRUNC).2 1 pattern 208) = [0, 1]
      ∧ (after_write small_config (tfs_open small_config
          (after_write small_config (state_created small_config) 0 pattern 224) path_f1
            TFS_O_TRUNC).2 1 pattern 208).open_file_table 0
        = { of_inumber := 1, of_offset := 224 }
      ∧ ((after_write small_config (tfs_open small_config
          (after_write small_config (state_created small_config) 0 pattern 224) path_f1
            TFS_O_TRUNC).2 1 pattern 208).inode_table 1).i_size = 208
      ∧ 208 + 1 ≤ small_config.CAPACITY
      ∧ 1 ≤ get_free_memory small_config (after_write small_config (tfs_open small_config
          (after_write small_config (state_created small_config) 0 pattern 224) path_f1
            TFS_O_TRUNC).2 1 pattern 208))
    ∧ ((tfs_write small_config (after_write small_config (tfs_open small_config
          (after_write small_config (state_created small_config) 0 pattern 224) path_f1
            TFS_O_TRUNC).2 1 pattern 208) 0 text_AAA 1).map
        (fun r => (r.1, (r.2.open_file_table 0).of_offset, (r.2.inode_table 1).i_size,
          r.2.undefined_behaviour)) = some (-1, 208, 208, false)) := by
  refine ⟨?_, ?_, ?_⟩
  · decide!
  · decide!
  · decide!

set_option maxRecDepth 1000000 in
/-- C14 fails in the code.  With 16-byte blocks, one `tfs_write` of the first 193 bytes of
`pattern` to the new file "/f1" returns 193 and `tfs_close` returns 0.  The call
`tfs_open("/f1", TFS_O_CREAT)` on the file, which has content, returns handle 0 with offset 0
on inode 1 of size 193, and a `tfs_read` of 193 bytes through it returns 193 with no
undefined access; the first 176 bytes of the buffer are the bytes written, but byte 176 is
the byte written at position 192 and byte 192 is 0. -/
theorem reopened_content_differs :
    (tfs_write small_config (state_created small_config) 0 pattern 193).map (fun r => r.1)
        = some 193
    ∧ (tfs_close small_config
        (after_write small_config (state_created small_config) 0 pattern 193) 0).1 = 0
    ∧ (tfs_open small_config (tfs_close small_config
        (after_write small_config (state_created small_config) 0 pattern 193) 0).2
          path_f1 TFS_O_CREAT).1 = 0
    ∧ (state_reopened small_config pattern 193 TFS_O_CREAT).open_file_table 0
      = { of_inumber := 1, of_offset := 0 }
    ∧ ((state_reopened small_config pattern 193 TFS_O_CREAT).inode_table 1).i_size = 193
    ∧ (tfs_read small_config (state_reopened small_config pattern 193 TFS_O_CREAT) 0
          (fun _ => 0) 193).map
        (fun r => (r.1, (List.range 176).map r.2.2, r.2.2 176, r.2.2 192,
          r.2.1.undefined_behaviour))
      = some (193, (List.range 176).map pattern, pattern 192, 0, false)
    ∧ pattern 176 = 232 ∧ pattern 192 = 93 := by
  decide!

/-- C29, amended.  In every configuration with `BLOCK_SIZE > 0`, from the state that
`tfs_init` leaves (whatever the state before it), let a list of calls of `tfs_open`,
`tfs_close`, `tfs_read` and `tfs_write` be made one after the other, such that no `tfs_open`
starts an inode over while a TAKEN entry with a nonzero offset records that inode (neither by
truncating an existing file nor by creating a file in the first FREE inode slot).  Then at
the return of every call of the list, every TAKEN open-file entry has an offset that is at
most the size of the inode it records. -/
theorem offset_invariant_of_runs (c : Config) (hB : 0 < c.BLOCK_SIZE) (s0 : State)
    (calls : List Call) (hadm : calls_admissible c calls (tfs_init c s0).2) :
    ∀ k, offsets_within_sizes c (after_calls c (calls.take k) (tfs_init c s0).2) :=
  after_calls_keep c hB calls _
    (fun h _ ht => absurd ht (by rw [tfs_init_no_open_files]; decide)) hadm

set_option maxRecDepth 1000000 in
/-- Witness of the amended C29: with 16-byte blocks, the ten calls of `sample_calls` after
`tfs_init`, among them the creation of two files and the truncation of "/f1" while no entry
is open on it, are admissible. -/
theorem offset_invariant_of_runs_witness :
    0 < small_config.BLOCK_SIZE
      ∧ calls_admissible small_config sample_calls (tfs_init small_config State.zero).2
      ∧ ∀ k, offsets_within_sizes small_config
          (after_calls small_config (sample_calls.take k) (tfs_init small_config State.zero).2) :=
  ⟨by decide, by decide!,
    offset_invariant_of_runs small_config (by decide) State.zero sample_calls (by decide!)⟩

set_option maxRecDepth 1000000 in
/-- The invariant is also lost when a creation takes an inode slot that an open entry
records.  With 16-byte blocks and the pool exhausted (after the creation of "/f1" and "/f2"
and 37 failed creations), handle 1 is closed, `tfs_open("/f2", TFS_O_TRUNC)` returns -1 and
marks inode 2 FREE while no entry records it, `tfs_open("/f2", 0)` returns handle 1 and a
`tfs_write` of 5 bytes through it returns 5: every TAKEN entry has its offset within the
size, and entry 1 records the FREE inode 2 with offset 5.  Then `tfs_open("/f3",
TFS_O_CREAT)`, which starts inode 2 over, returns -1 with no undefined access and leaves
inode 2 with size 0 and entry 1 TAKEN with offset 5. -/
theorem create_leaves_offset_past_size :
    (get_free_memory small_config (after_failed_creates small_config 37) = 0
      ∧ offsets_within_sizes small_config (after_failed_creates small_config 37)
      ∧ taken_handles small_config (after_failed_creates small_config 37) = [0, 1])
    ∧ ((tfs_open small_config (after_calls small_config [Call.api_close 1]
          (after_failed_creates small_config 37)) path_f2 TFS_O_TRUNC).1 = -1
      ∧ no_offset_on small_config (after_calls small_config [Call.api_close 1]
          (after_failed_creates small_config 37)) 2
      ∧ (tfs_open small_config (after_calls small_config
          [Call.api_close 1, Call.api_open path_f2 TFS_O_TRUNC]
          (after_failed_creates small_config 37)) path_f2 0).1 = 1
      ∧ (tfs_write small_config (after_calls small_config
          [Call.api_close 1, Call.api_open path_f2 TFS_O_TRUNC, Call.api_open path_f2 0]
          (after_failed_creates small_config 37)) 1 pattern 5).map (fun r => r.1) = some 5)
    ∧ (offsets_within_sizes small_config
          (after_calls small_config create_over_open_file (after_failed_creates small_config 37))
      ∧ (after_calls small_config create_over_open_file
          (after_failed_creates small_config 37)).open_file_table 1
        = { of_inumber := 2, of_offset := 5 }
      ∧ (after_calls small_config create_over_open_file
          (after_failed_creates small_config 37)).freeinode_ts 2 = FREE
      ∧ reset_inode small_config (after_calls small_config create_over_open_file
          (after_failed_creates small_config 37)) path_f3 TFS_O_CREAT = some 2)
    ∧ ((tfs_open small_config (after_calls small_config create_over_open_file
          (after_failed_creates small_config 37)) path_f3 TFS_O_CREAT).1 = -1
      ∧ taken_handles small_config (tfs_open small_config (after_calls small_config
          create_over_open_file (after_failed_creates small_config 37)) path_f3
            TFS_O_CREAT).2 = [0, 1]
      ∧ (tfs_open small_config (after_calls small_config create_over_open_file
          (after_failed_creates small_config 37)) path_f3 TFS_O_CREAT).2.open_file_table 1
        = { of_inumber := 2, of_offset := 5 }
      ∧ ((tfs_open small_config (after_calls small_config create_over_open_file
          (after_failed_creates small_config 37)) path_f3 TFS_O_CREAT).2.inode_table 2).i_size
        = 0
      ∧ ¬ offsets_within_sizes small_config (tfs_open small_config (after_calls small_config
          create_over_open_file (after_failed_creates small_config 37)) path_f3
            TFS_O_CREAT).2
      ∧ (tfs_open small_config (after_calls small_config create_over_open_file
          (after_failed_creates small_config 37)) path_f3
            TFS_O_CREAT).2.undefined_behaviour = false) := by
  refine ⟨?_, ?_, ?_, ?_⟩
  · decide!
  · decide!
  · decide!
  · decide!

end TFS
